import Mathlib

/-!
# VirtualC64: scheduler, expansion port, cartridges, snapshots and drive

A shallow embedding of parts of `C64.cpp`, `Computer/ExpansionPort.cpp`,
`Cartridge.cpp`, `Cartridges/CustomCartridges.cpp`, `PRGFile.cpp`,
`VC1541.cpp` and `VIA6522.h`, followed by theorems about them.

Conventions of the embedding.

* Every C++ member function becomes a Lean function that takes the state of
  the object and returns the new state (and the returned value, if any).
* Components whose code lives in other files (VIC, CIA, CPU, SID, IEC, the
  drives, the memory subsystem, the host timer) are not modelled. Their state
  is an abstract type and every call into them is a field of an interface
  record (`Chips`, `PortEnv`); the theorems hold for every interface.
* Calls whose only effect is on such a component are also appended to a
  trace of `Event`s, in the order in which the code makes them.
* `cpu.cycle` is a 64 bit counter and is kept modulo `2 ^ 64`.
* A method of a cartridge class that reaches the expansion port through
  `c64->expansionport` is a function of the port state, in which the
  cartridge is the attached one; methods of the cartridge base class whose
  code is not available (`bankIn`) are parameters.
* The `float` values of `VC1541.cpp` are rational numbers, and each `float`
  operation rounds its exact result to 24 significant bits, ties to even.
-/

namespace VirtualC64

/-! ## Messages and events -/

/-- Messages sent through `C64::putMessage` by the code modelled here. -/
inductive Message where
  | MSG_RUN
  | MSG_HALT
  | MSG_WARP_ON
  | MSG_WARP_OFF
  | MSG_ALWAYS_WARP_ON
  | MSG_ALWAYS_WARP_OFF
  | MSG_ROM_MISSING
  | MSG_CARTRIDGE
  | MSG_NO_CARTRIDGE
  | MSG_VC1541_DISK
  | MSG_VC1541_NO_DISK
  | MSG_VC1541_DISK_SOUND
  | MSG_VC1541_NO_DISK_SOUND
  | MSG_VC1541_HEAD_UP
  | MSG_VC1541_HEAD_UP_SOUND
  | MSG_VC1541_HEAD_DOWN
  | MSG_VC1541_HEAD_DOWN_SOUND
  deriving DecidableEq, Repr

/-- One call from the modelled code into a component that is not modelled.
The trace of a run lists these calls in program order. -/
inductive Event where
  /-- The call `(vic.*vicfunc[rasterCycle])()` with the given index. -/
  | vicfunc (rasterCycle : Nat)
  /-- The call `cia1.executeOneCycle()`. -/
  | cia1ExecuteOneCycle
  /-- The statement `cia1.idleCounter++`. -/
  | cia1Idle
  /-- The call `cia2.executeOneCycle()`. -/
  | cia2ExecuteOneCycle
  /-- The statement `cia2.idleCounter++`. -/
  | cia2Idle
  /-- The call `iec.updateIecLinesC64Side()`. -/
  | iecUpdateIecLinesC64Side
  /-- The call `cpu.executeOneCycle()`. -/
  | cpuExecuteOneCycle
  /-- The call `drive1.execute(durationOfOneCycle)`. -/
  | drive1Execute
  /-- The call `drive2.execute(durationOfOneCycle)`. -/
  | drive2Execute
  /-- The call `datasette.execute()`. -/
  | datasetteExecute
  /-- The call `vic.beginFrame()`. -/
  | vicBeginFrame
  /-- The call `vic.beginRasterline(rasterLine)`. -/
  | vicBeginRasterline (rasterLine : Nat)
  /-- The call `vic.endRasterline()`. -/
  | vicEndRasterline
  /-- The call `vic.endFrame()`. -/
  | vicEndFrame
  /-- The call `cia1.incrementTOD()`. -/
  | cia1IncrementTOD
  /-- The call `cia2.incrementTOD()`. -/
  | cia2IncrementTOD
  /-- The call `sid.executeUntil(cpu.cycle)`. -/
  | sidExecuteUntil (cycle : Nat)
  /-- The call `iec.execute()`. -/
  | iecExecute
  /-- The call `expansionport.execute()`. -/
  | expansionportExecute
  /-- The call `port1.execute()`. -/
  | port1Execute
  /-- The call `port2.execute()`. -/
  | port2Execute
  /-- The call `mouse->execute()`. -/
  | mouseExecute
  /-- The call `takeAutoSnapshot()`. -/
  | takeAutoSnapshot
  /-- The call `synchronizeTiming()`. -/
  | synchronizeTiming
  /-- The call `sid.rampDown()`. -/
  | sidRampDown
  /-- The call `sid.rampUp()`. -/
  | sidRampUp
  /-- The call `restartTimer()`. -/
  | restartTimer
  /-- The call `sid.run()`. -/
  | sidRun
  /-- The call `sid.halt()` of the thread cleanup handler. -/
  | sidHalt
  /-- The call `pthread_create`. -/
  | threadCreate
  /-- The call `pthread_cancel`. -/
  | threadCancel
  /-- The call `pthread_join`. -/
  | threadJoin
  /-- The call `step()` that ends `C64::halt`. -/
  | step
  /-- The call `mem.updatePeekPokeLookupTables()`. -/
  | updatePeekPokeLookupTables
  /-- The call `vic.setUltimax(value)`. -/
  | vicSetUltimax (value : Bool)
  /-- The call `VirtualComponent::reset()` made by `C64::reset`. -/
  | resetComponents
  /-- The call `mem.poke(addr, value)`. -/
  | memPoke (addr value : Nat)
  /-- The assignment to `cpu.regPC` in `C64::reset`. -/
  | initProgramCounter
  /-- The assignment `nanoTargetTime = 0UL`. -/
  | clearNanoTargetTime
  /-- The call `VirtualComponent::ping()` made by `C64::ping`. -/
  | pingComponents
  /-- The call `putMessage(msg)`. -/
  | putMessage (msg : Message)
  deriving DecidableEq, Repr

/-! ## The emulator thread: `run`, `halt`, `suspend`, `resume` (C64.cpp) -/

/-- The part of class `C64` that controls the emulator thread. The thread
itself is not modelled: `p` says whether the thread handle is non-null, and
what `halt` and `run` ask of the thread and of the SID is put on the trace.
`suspendCounter` is the nesting counter of `suspend` and `resume`; its C++
type is declared in `C64.h`, whose source is not available, and it is kept
as a natural number. The five ROM flags are the values of the five
predicates that `C64::isRunnable` reads. -/
structure Executor where
  /-- Holds when `p != NULL`. -/
  p : Bool
  suspendCounter : Nat
  basicRomIsLoaded : Bool
  charRomIsLoaded : Bool
  kernalRomIsLoaded : Bool
  drive1RomIsLoaded : Bool
  drive2RomIsLoaded : Bool
  trace : List Event
  deriving DecidableEq, Repr

/-- The method `C64::putMessage`, as seen by the trace. -/
def C64.putMessage (e : Executor) (msg : Message) : Executor :=
  { e with trace := e.trace ++ [Event.putMessage msg] }

/-- The method `C64::isRunnable`. -/
def C64.isRunnable (e : Executor) : Bool :=
  e.basicRomIsLoaded && e.charRomIsLoaded && e.kernalRomIsLoaded &&
    e.drive1RomIsLoaded && e.drive2RomIsLoaded

/-- The method `C64::isRunning`. -/
def C64.isRunning (e : Executor) : Bool := e.p

/-- The method `C64::isHalted`. -/
def C64.isHalted (e : Executor) : Bool := !e.p

/-- The method `C64::run`. -/
def C64.run (e : Executor) : Executor :=
  if C64.isHalted e then
    if !C64.isRunnable e then
      C64.putMessage e Message.MSG_ROM_MISSING
    else
      { e with p := true, trace := e.trace ++ [Event.sidRun, Event.threadCreate] }
  else e

/-- The method `C64::halt`. Cancelling the thread runs its cleanup handler
(`threadCleanup`: `p = NULL`, `sid.halt()`, `MSG_HALT`); `halt` then joins
the thread and calls `step()`, which executes cycles of the scheduler and
touches neither `p` nor `suspendCounter`. -/
def C64.halt (e : Executor) : Executor :=
  if C64.isRunning e then
    { e with
      p := false
      trace := e.trace ++ [Event.threadCancel, Event.sidHalt,
        Event.putMessage Message.MSG_HALT, Event.threadJoin, Event.step] }
  else e

/-- The method `C64::suspend`. -/
def C64.suspend (e : Executor) : Executor :=
  if e.suspendCounter == 0 && C64.isHalted e then e
  else
    let e1 := C64.halt e
    { e1 with suspendCounter := e1.suspendCounter + 1 }

/-- The method `C64::resume`. -/
def C64.resume (e : Executor) : Executor :=
  if e.suspendCounter == 0 then e
  else
    let e1 := { e with suspendCounter := e.suspendCounter - 1 }
    if e1.suspendCounter == 0 then C64.run e1 else e1

/-! ## The expansion port (Computer/ExpansionPort.cpp) -/

/-- A request of a cartridge to the expansion port. In the code the
cartridges reach the port only through `setGameLine` and `setExromLine`. -/
inductive LineCmd where
  | setGameLine (value : Bool)
  | setExromLine (value : Bool)
  deriving DecidableEq, Repr

/-- The expansion port together with what its code reaches of the C64.
`Cart` is the state of a cartridge and `Mem` the state of the memory
subsystem (lookup tables and the Ultimax flag read by `getUltimax`), whose
code is not available. `ram` is `c64->mem.ram`, `vicUltimax` the
flag stored by `vic.setUltimax`, `c64` the owner of the message queue and of
the emulator thread. -/
structure ExpansionPort (Mem Cart : Type) where
  gameLinePhi1 : Bool
  gameLinePhi2 : Bool
  exromLinePhi1 : Bool
  exromLinePhi2 : Bool
  /-- The attached cartridge, `none` for `NULL`. -/
  cartridge : Option Cart
  vicUltimax : Bool
  mem : Mem
  ram : Nat → Nat
  c64 : Executor

/-- The code outside `ExpansionPort.cpp` that the port calls: the memory
subsystem and the virtual methods of the attached cartridge. -/
structure PortEnv (Mem Cart : Type) where
  /-- The method `C64Memory::updatePeekPokeLookupTables`: it may read the
  whole port and rewrites the memory subsystem. -/
  updatePeekPokeLookupTables : ExpansionPort Mem Cart → Mem
  /-- The method `C64::getUltimax`. -/
  getUltimax : Mem → Bool
  /-- The virtual method `Cartridge::getCartridgeType`. -/
  getCartridgeType : Cart → Nat
  /-- The virtual method `Cartridge::reset`: the new cartridge state and the
  requests it makes to the port, in order. -/
  reset : Cart → Cart × List LineCmd
  /-- The virtual method `Cartridge::poke`; like `Cartridge::poke` of
  Cartridge.cpp it works on the members of the cartridge. -/
  poke : Cart → Nat → Nat → Cart

/-- The constant `CRT_NONE`. -/
def CRT_NONE : Nat := 255

section Port

variable {Mem Cart : Type}

/-- The method `ExpansionPort::getCartridgeType`. -/
def ExpansionPort.getCartridgeType (env : PortEnv Mem Cart) (s : ExpansionPort Mem Cart) : Nat :=
  match s.cartridge with
  | some c => env.getCartridgeType c
  | none => CRT_NONE

/-- The method `ExpansionPort::poke`. -/
def ExpansionPort.poke (env : PortEnv Mem Cart) (s : ExpansionPort Mem Cart)
    (addr value : Nat) : ExpansionPort Mem Cart :=
  let s1 : ExpansionPort Mem Cart :=
    match s.cartridge with
    | some c => { s with cartridge := some (env.poke c addr value) }
    | none => s
  if !env.getUltimax s1.mem then
    { s1 with ram := Function.update s1.ram addr value }
  else s1

/-- The method `ExpansionPort::setGameLinePhi1`. -/
def ExpansionPort.setGameLinePhi1 (s : ExpansionPort Mem Cart) (value : Bool) :
    ExpansionPort Mem Cart :=
  let s1 := { s with gameLinePhi1 := value }
  { s1 with
    vicUltimax := !s1.gameLinePhi1 && s1.exromLinePhi1
    c64 := { s1.c64 with
      trace := s1.c64.trace ++ [Event.vicSetUltimax (!s1.gameLinePhi1 && s1.exromLinePhi1)] } }

/-- The method `ExpansionPort::setGameLinePhi2`. -/
def ExpansionPort.setGameLinePhi2 (env : PortEnv Mem Cart) (s : ExpansionPort Mem Cart)
    (value : Bool) : ExpansionPort Mem Cart :=
  let s1 := { s with gameLinePhi2 := value }
  { s1 with
    mem := env.updatePeekPokeLookupTables s1
    c64 := { s1.c64 with trace := s1.c64.trace ++ [Event.updatePeekPokeLookupTables] } }

/-- The method `ExpansionPort::setExromLinePhi1`. -/
def ExpansionPort.setExromLinePhi1 (s : ExpansionPort Mem Cart) (value : Bool) :
    ExpansionPort Mem Cart :=
  let s1 := { s with exromLinePhi1 := value }
  { s1 with
    vicUltimax := !s1.gameLinePhi1 && s1.exromLinePhi1
    c64 := { s1.c64 with
      trace := s1.c64.trace ++ [Event.vicSetUltimax (!s1.gameLinePhi1 && s1.exromLinePhi1)] } }

/-- The method `ExpansionPort::setExromLinePhi2`. -/
def ExpansionPort.setExromLinePhi2 (env : PortEnv Mem Cart) (s : ExpansionPort Mem Cart)
    (value : Bool) : ExpansionPort Mem Cart :=
  let s1 := { s with exromLinePhi2 := value }
  { s1 with
    mem := env.updatePeekPokeLookupTables s1
    c64 := { s1.c64 with trace := s1.c64.trace ++ [Event.updatePeekPokeLookupTables] } }

/-- Modelled from the spec: `ExpansionPort::setGameLine`, which is defined in
`ExpansionPort.h` (source not available). A change of the GAME line
recomputes Ultimax from the Phi1 lines and rebuilds the memory lookup
tables, so the value is written in both clock phases. -/
def ExpansionPort.setGameLine (env : PortEnv Mem Cart) (s : ExpansionPort Mem Cart)
    (value : Bool) : ExpansionPort Mem Cart :=
  ExpansionPort.setGameLinePhi2 env (ExpansionPort.setGameLinePhi1 s value) value

/-- Modelled from the spec: `ExpansionPort::setExromLine`, which is defined in
`ExpansionPort.h` (source not available). A change of the EXROM line
recomputes Ultimax from the Phi1 lines and rebuilds the memory lookup
tables, so the value is written in both clock phases. -/
def ExpansionPort.setExromLine (env : PortEnv Mem Cart) (s : ExpansionPort Mem Cart)
    (value : Bool) : ExpansionPort Mem Cart :=
  ExpansionPort.setExromLinePhi2 env (ExpansionPort.setExromLinePhi1 s value) value

/-- One request of a cartridge, carried out by the port. -/
def ExpansionPort.perform (env : PortEnv Mem Cart) (s : ExpansionPort Mem Cart) :
    LineCmd → ExpansionPort Mem Cart
  | LineCmd.setGameLine v => ExpansionPort.setGameLine env s v
  | LineCmd.setExromLine v => ExpansionPort.setExromLine env s v

/-- The method `ExpansionPort::detachCartridge`. The calls `suspend()` and
`resume()` of a component are those of the C64; the cycles that `suspend()`
lets the emulator finish come before the cartridge is removed and are
recorded as the event `step`. -/
def ExpansionPort.detachCartridge (env : PortEnv Mem Cart) (s : ExpansionPort Mem Cart) :
    ExpansionPort Mem Cart :=
  match s.cartridge with
  | some _ =>
    let s1 := { s with c64 := C64.suspend s.c64 }
    let s2 := { s1 with cartridge := none }
    let s3 := ExpansionPort.setGameLine env s2 true
    let s4 := ExpansionPort.setExromLine env s3 true
    let s5 := { s4 with c64 := C64.putMessage s4.c64 Message.MSG_NO_CARTRIDGE }
    { s5 with c64 := C64.resume s5.c64 }
  | none => s

/-- The method `ExpansionPort::attachCartridge`; it returns `true`. -/
def ExpansionPort.attachCartridge (env : PortEnv Mem Cart) (s : ExpansionPort Mem Cart)
    (c : Cart) : Bool × ExpansionPort Mem Cart :=
  let s1 := ExpansionPort.detachCartridge env s
  let s2 := { s1 with cartridge := some c }
  let r := env.reset c
  let s3 := { s2 with cartridge := some r.1 }
  let s4 := r.2.foldl (ExpansionPort.perform env) s3
  (true, { s4 with c64 := C64.putMessage s4.c64 Message.MSG_CARTRIDGE })

end Port

/-! ## The scheduler (C64.cpp) -/

/-- The part of class `C64` that the scheduler works on. `cycle` is
`cpu.cycle`; `chips` is the state of every component whose code is in
another file (VIC, CIAs, CPU registers, SID, IEC, drives, datasette, ports,
memory, the host timer with `nanoTargetTime`, the snapshot storage); `trace`
lists the calls made into those components. The C++ types of `frame`,
`rasterLine` and `rasterCycle` are declared in `C64.h`, whose source is not
available; they are kept as natural numbers. -/
structure C64 (W : Type) where
  cycle : Nat
  frame : Nat
  rasterLine : Nat
  rasterCycle : Nat
  frequency : Nat
  durationOfOneCycle : Nat
  warp : Bool
  alwaysWarp : Bool
  warpLoad : Bool
  ultimax : Bool
  mousePort : Nat
  snapshotInterval : Nat
  chips : W
  trace : List Event

/-- The components called by the scheduler. A function of type
`C64 W → W` may read the whole machine and returns the new state of the
components; a function of type `W → _` reads a member of a component. The
members of `C64` itself and `cpu.cycle` are written by the code of `C64.cpp`
only. The VIC model is fixed, so the geometry of a frame is constant. -/
structure Chips (W : Type) where
  /-- The value of `vic.getCyclesPerRasterline()`. -/
  getCyclesPerRasterline : Nat
  /-- The value of `vic.getRasterlinesPerFrame()`. -/
  getRasterlinesPerFrame : Nat
  /-- The method `vic.isLastCycleInRasterline`. -/
  isLastCycleInRasterline : Nat → Bool
  /-- The entry `vicfunc[i]` applied to the VIC. -/
  vicfunc : Nat → C64 W → W
  /-- The member `cia1.wakeUpCycle`. -/
  cia1WakeUpCycle : W → Nat
  cia1ExecuteOneCycle : C64 W → W
  /-- The statement `cia1.idleCounter++`. -/
  cia1IncIdleCounter : C64 W → W
  /-- The member `cia2.wakeUpCycle`. -/
  cia2WakeUpCycle : W → Nat
  cia2ExecuteOneCycle : C64 W → W
  /-- The statement `cia2.idleCounter++`. -/
  cia2IncIdleCounter : C64 W → W
  /-- The member `iec.isDirtyC64Side`. -/
  iecIsDirtyC64Side : W → Bool
  iecUpdateIecLinesC64Side : C64 W → W
  /-- The method `cpu.executeOneCycle`, with its result. -/
  cpuExecuteOneCycle : C64 W → Bool × W
  drive1IsPoweredOn : W → Bool
  /-- The method `drive1.execute`, with its result. -/
  drive1Execute : C64 W → Bool × W
  drive2IsPoweredOn : W → Bool
  /-- The method `drive2.execute`, with its result. -/
  drive2Execute : C64 W → Bool × W
  datasetteExecute : C64 W → W
  vicBeginFrame : C64 W → W
  vicBeginRasterline : C64 W → W
  vicEndRasterline : C64 W → W
  vicEndFrame : C64 W → W
  cia1IncrementTOD : C64 W → W
  cia2IncrementTOD : C64 W → W
  sidExecuteUntil : C64 W → W
  iecExecute : C64 W → W
  expansionportExecute : C64 W → W
  port1Execute : C64 W → W
  port2Execute : C64 W → W
  mouseExecute : C64 W → W
  /-- The test `frame % ((unsigned)(vic.getFramesPerSecond() * snapshotInterval)) == 0`. -/
  autoSnapshotDue : C64 W → Bool
  takeAutoSnapshot : C64 W → W
  /-- The method `iec.isBusy`. -/
  iecIsBusy : W → Bool
  sidRampDown : C64 W → W
  sidRampUp : C64 W → W
  /-- The method `C64::restartTimer`; it reads the host clock. -/
  restartTimer : C64 W → W
  /-- The method `C64::synchronizeTiming`; it sleeps on the host clock. -/
  synchronizeTiming : C64 W → W
  /-- The method `VirtualComponent::reset` on the sub components. -/
  resetComponents : C64 W → W
  /-- The value of `cpu.cycle` after `VirtualComponent::reset`. -/
  cycleAfterReset : C64 W → Nat
  /-- The method `mem.poke`. -/
  memPoke : Nat → Nat → C64 W → W
  /-- The assignment to `cpu.regPC` in `C64::reset`. -/
  initProgramCounter : C64 W → W
  /-- The assignment `nanoTargetTime = 0UL`. -/
  clearNanoTargetTime : C64 W → W
  /-- The method `VirtualComponent::ping` on the sub components. -/
  pingComponents : C64 W → W

section Scheduler

variable {W : Type}

/-- A call into a component: the components change and the call is put on
the trace. -/
def C64.call (s : C64 W) (f : C64 W → W) (e : Event) : C64 W :=
  { s with chips := f s, trace := s.trace ++ [e] }

/-- A call into a component that returns a success flag. -/
def C64.callResult (s : C64 W) (f : C64 W → Bool × W) (e : Event) : Bool × C64 W :=
  ((f s).1, { s with chips := (f s).2, trace := s.trace ++ [e] })

/-- The statement `(vic.*vicfunc[rasterCycle])();` of `_executeOneCycle`. -/
def C64.vicStep (ch : Chips W) (s : C64 W) : C64 W :=
  s.call (ch.vicfunc s.rasterCycle) (Event.vicfunc s.rasterCycle)

/-- The statement
`if (cycle >= cia1.wakeUpCycle) cia1.executeOneCycle(); else cia1.idleCounter++;`. -/
def C64.cia1Step (ch : Chips W) (cycle : Nat) (s : C64 W) : C64 W :=
  if cycle ≥ ch.cia1WakeUpCycle s.chips then
    s.call ch.cia1ExecuteOneCycle Event.cia1ExecuteOneCycle
  else s.call ch.cia1IncIdleCounter Event.cia1Idle

/-- The statement
`if (cycle >= cia2.wakeUpCycle) cia2.executeOneCycle(); else cia2.idleCounter++;`. -/
def C64.cia2Step (ch : Chips W) (cycle : Nat) (s : C64 W) : C64 W :=
  if cycle ≥ ch.cia2WakeUpCycle s.chips then
    s.call ch.cia2ExecuteOneCycle Event.cia2ExecuteOneCycle
  else s.call ch.cia2IncIdleCounter Event.cia2Idle

/-- The statement `if (iec.isDirtyC64Side) iec.updateIecLinesC64Side();`. -/
def C64.iecStep (ch : Chips W) (s : C64 W) : C64 W :=
  if ch.iecIsDirtyC64Side s.chips then
    s.call ch.iecUpdateIecLinesC64Side Event.iecUpdateIecLinesC64Side
  else s

/-- The call `cpu.executeOneCycle()` with its result. -/
def C64.cpuStep (ch : Chips W) (s : C64 W) : Bool × C64 W :=
  s.callResult ch.cpuExecuteOneCycle Event.cpuExecuteOneCycle

/-- The statement
`if (drive1.isPoweredOn()) result &= drive1.execute(durationOfOneCycle);`;
the flag is `true` when the drive is not executed. -/
def C64.drive1Step (ch : Chips W) (s : C64 W) : Bool × C64 W :=
  if ch.drive1IsPoweredOn s.chips then s.callResult ch.drive1Execute Event.drive1Execute
  else (true, s)

/-- The statement
`if (drive2.isPoweredOn()) result &= drive2.execute(durationOfOneCycle);`;
the flag is `true` when the drive is not executed. -/
def C64.drive2Step (ch : Chips W) (s : C64 W) : Bool × C64 W :=
  if ch.drive2IsPoweredOn s.chips then s.callResult ch.drive2Execute Event.drive2Execute
  else (true, s)

/-- The statement `datasette.execute();`. -/
def C64.datasetteStep (ch : Chips W) (s : C64 W) : C64 W :=
  s.call ch.datasetteExecute Event.datasetteExecute

/-- The method `C64::_executeOneCycle`. The statements of its body are the
step functions above, in the order of the source. -/
def C64._executeOneCycle (ch : Chips W) (s : C64 W) : Bool × C64 W :=
  let s0 := { s with cycle := (s.cycle + 1) % 2 ^ 64 }
  let cycle := s0.cycle
  let s1 := C64.vicStep ch s0
  let s2 := C64.cia1Step ch cycle s1
  let s3 := C64.cia2Step ch cycle s2
  let s4 := C64.iecStep ch s3
  let r5 := C64.cpuStep ch s4
  let r6 := C64.drive1Step ch r5.2
  let r7 := C64.drive2Step ch r6.2
  let s8 := C64.datasetteStep ch r7.2
  (true && r5.1 && r6.1 && r7.1, { s8 with rasterCycle := s8.rasterCycle + 1 })

/-- The method `C64::getWarp`. -/
def C64.getWarp (ch : Chips W) (s : C64 W) : Bool × C64 W :=
  let newValue := (s.warpLoad && ch.iecIsBusy s.chips) || s.alwaysWarp
  if newValue != s.warp then
    let s1 := { s with warp := newValue }
    let s2 :=
      if s1.warp then s1.call ch.sidRampDown Event.sidRampDown
      else (s1.call ch.sidRampUp Event.sidRampUp).call ch.restartTimer Event.restartTimer
    let s3 := { s2 with
      trace := s2.trace ++
        [Event.putMessage (if s2.warp then Message.MSG_WARP_ON else Message.MSG_WARP_OFF)] }
    (s3.warp, s3)
  else (s.warp, s)

/-- The method `C64::endFrame`. -/
def C64.endFrame (ch : Chips W) (s : C64 W) : C64 W :=
  let s1 := { s with frame := s.frame + 1 }
  let s2 := s1.call ch.vicEndFrame Event.vicEndFrame
  let s3 := s2.call ch.cia1IncrementTOD Event.cia1IncrementTOD
  let s4 := s3.call ch.cia2IncrementTOD Event.cia2IncrementTOD
  let s5 := s4.call ch.sidExecuteUntil (Event.sidExecuteUntil s4.cycle)
  let s6 := s5.call ch.iecExecute Event.iecExecute
  let s7 := s6.call ch.expansionportExecute Event.expansionportExecute
  let s8 := s7.call ch.port1Execute Event.port1Execute
  let s9 := s8.call ch.port2Execute Event.port2Execute
  let s10 := if s9.mousePort != 0 then s9.call ch.mouseExecute Event.mouseExecute else s9
  let s11 :=
    if decide (s10.snapshotInterval > 0) && ch.autoSnapshotDue s10 then
      s10.call ch.takeAutoSnapshot Event.takeAutoSnapshot
    else s10
  let r := C64.getWarp ch s11
  if !r.1 then r.2.call ch.synchronizeTiming Event.synchronizeTiming else r.2

/-- The method `C64::beginRasterLine`. -/
def C64.beginRasterLine (ch : Chips W) (s : C64 W) : C64 W :=
  let s1 := if s.rasterLine == 0 then s.call ch.vicBeginFrame Event.vicBeginFrame else s
  s1.call ch.vicBeginRasterline (Event.vicBeginRasterline s1.rasterLine)

/-- The method `C64::endRasterLine`. -/
def C64.endRasterLine (ch : Chips W) (s : C64 W) : C64 W :=
  let s1 := s.call ch.vicEndRasterline Event.vicEndRasterline
  let s2 := { s1 with rasterCycle := 1 }
  let s3 := { s2 with rasterLine := s2.rasterLine + 1 }
  if s3.rasterLine ≥ ch.getRasterlinesPerFrame then
    C64.endFrame ch { s3 with rasterLine := 0 }
  else s3

/-- The method `C64::executeOneCycle`. -/
def C64.executeOneCycle (ch : Chips W) (s : C64 W) : Bool × C64 W :=
  let isFirstCycle := s.rasterCycle == 1
  let isLastCycle := ch.isLastCycleInRasterline s.rasterCycle
  let s1 := if isFirstCycle then C64.beginRasterLine ch s else s
  let r := C64._executeOneCycle ch s1
  let s2 := if isLastCycle then C64.endRasterLine ch r.2 else r.2
  (r.1, s2)

/-- The loop `for (unsigned i = rasterCycle; i <= lastCycle; i++)` of
`C64::executeOneLine` together with the two statements that follow it. The
first argument is the number of iterations left, `lastCycle + 1 - i`. -/
def C64.executeOneLineLoop (ch : Chips W) (lastCycle : Nat) :
    Nat → Nat → C64 W → Bool × C64 W
  | 0, _, s => (true, C64.endRasterLine ch s)
  | n + 1, i, s =>
    let r := C64._executeOneCycle ch s
    if !r.1 then
      (false, if i == lastCycle then C64.endRasterLine ch r.2 else r.2)
    else C64.executeOneLineLoop ch lastCycle n (i + 1) r.2

/-- The method `C64::executeOneLine`. -/
def C64.executeOneLine (ch : Chips W) (s : C64 W) : Bool × C64 W :=
  let s1 := if s.rasterCycle == 1 then C64.beginRasterLine ch s else s
  let lastCycle := ch.getCyclesPerRasterline
  C64.executeOneLineLoop ch lastCycle (lastCycle + 1 - s1.rasterCycle) s1.rasterCycle s1

/-- The method `C64::executeOneFrame`, a `do ... while (rasterLine != 0)`
loop, with a bound on the number of iterations: `none` when the bound is
used up before the loop ends. -/
def C64.executeOneFrame (ch : Chips W) : Nat → C64 W → Option (Bool × C64 W)
  | 0, _ => none
  | fuel + 1, s =>
    let r := C64.executeOneLine ch s
    if !r.1 then some (false, r.2)
    else if r.2.rasterLine != 0 then C64.executeOneFrame ch fuel r.2
    else some (true, r.2)

/-- The method `C64::ping`. -/
def C64.ping (ch : Chips W) (s : C64 W) : C64 W :=
  let s1 := s.call ch.pingComponents Event.pingComponents
  let s2 := { s1 with
    trace := s1.trace ++
      [Event.putMessage (if s1.warp then Message.MSG_WARP_ON else Message.MSG_WARP_OFF)] }
  { s2 with
    trace := s2.trace ++
      [Event.putMessage
        (if s2.alwaysWarp then Message.MSG_ALWAYS_WARP_ON else Message.MSG_ALWAYS_WARP_OFF)] }

/-- Modelled from the spec: `VirtualComponent::reset` as inherited by `C64`
(source not available). `reset()` zeroes the state marked `CLEAR_ON_RESET`
and keeps the state marked `KEEP_ON_RESET`: the sub components are reset,
and the snapshot items that the constructor of `C64` registers as
`CLEAR_ON_RESET` (`frame`, `rasterLine`, `rasterCycle`, `warp`, `ultimax`)
become zero. -/
def VirtualComponent.reset (ch : Chips W) (s : C64 W) : C64 W :=
  { s.call ch.resetComponents Event.resetComponents with
    cycle := ch.cycleAfterReset s
    frame := 0
    rasterLine := 0
    rasterCycle := 0
    warp := false
    ultimax := false }

/-- The method `C64::reset`. -/
def C64.reset (ch : Chips W) (s : C64 W) : C64 W :=
  let s1 := VirtualComponent.reset ch s
  let s2 := s1.call (ch.memPoke 0x0000 0x2F) (Event.memPoke 0x0000 0x2F)
  let s3 := s2.call (ch.memPoke 0x0001 0x1F) (Event.memPoke 0x0001 0x1F)
  let s4 := s3.call ch.initProgramCounter Event.initProgramCounter
  let s5 := { s4 with rasterCycle := 1 }
  let s6 := s5.call ch.clearNanoTargetTime Event.clearNanoTargetTime
  C64.ping ch s6

/-- The number of calls of `_executeOneCycle` applied in `n` rounds, the
results being dropped. -/
def C64.runCycles (ch : Chips W) : Nat → C64 W → C64 W
  | 0, s => s
  | n + 1, s => C64.runCycles ch n (C64._executeOneCycle ch s).2

/-- The states the scheduler reaches from `reset()` by calls of
`executeOneCycle`, `executeOneLine` and `executeOneFrame`. -/
inductive C64.Reachable (ch : Chips W) : C64 W → Prop where
  | reset (s : C64 W) : C64.Reachable ch (C64.reset ch s)
  | executeOneCycle (s : C64 W) :
      C64.Reachable ch s → C64.Reachable ch (C64.executeOneCycle ch s).2
  | executeOneLine (s : C64 W) :
      C64.Reachable ch s → C64.Reachable ch (C64.executeOneLine ch s).2
  | executeOneFrame (s : C64 W) (fuel : Nat) (r : Bool × C64 W) :
      C64.Reachable ch s → C64.executeOneFrame ch fuel s = some r → C64.Reachable ch r.2

/-- The number of CPU cycles on a trace. -/
def cyclesOn (t : List Event) : Nat := t.count Event.cpuExecuteOneCycle

/-- The number of calls of `endFrame` on a trace; each call of `endFrame`
calls `vic.endFrame()` once. -/
def endFramesOn (t : List Event) : Nat := t.count Event.vicEndFrame

/-- The number of calls of `endRasterLine` on a trace; each call of
`endRasterLine` calls `vic.endRasterline()` once. -/
def linesOn (t : List Event) : Nat := t.count Event.vicEndRasterline

/-- The events that the trace counts below are made of: CPU cycles, ends of
frames and ends of raster lines. -/
def Event.counted : Event → Bool
  | Event.cpuExecuteOneCycle => true
  | Event.vicEndFrame => true
  | Event.vicEndRasterline => true
  | _ => false

/-- The four counters of the scheduler (`cpu.cycle`, `frame`, `rasterLine`,
`rasterCycle`) together with the number of CPU cycles, of `endFrame` calls
and of `endRasterLine` calls on the trace. -/
def C64.gauge (s : C64 W) : Nat × Nat × Nat × Nat × Nat × Nat × Nat :=
  (s.cycle, s.frame, s.rasterLine, s.rasterCycle, cyclesOn s.trace, endFramesOn s.trace,
    linesOn s.trace)

/-- Components without state in which every call succeeds, for the frame
geometry given. -/
def Chips.idle (cyclesPerRasterline rasterlinesPerFrame : Nat) : Chips Unit where
  getCyclesPerRasterline := cyclesPerRasterline
  getRasterlinesPerFrame := rasterlinesPerFrame
  isLastCycleInRasterline := fun c => c == cyclesPerRasterline
  vicfunc := fun _ _ => ()
  cia1WakeUpCycle := fun _ => 0
  cia1ExecuteOneCycle := fun _ => ()
  cia1IncIdleCounter := fun _ => ()
  cia2WakeUpCycle := fun _ => 0
  cia2ExecuteOneCycle := fun _ => ()
  cia2IncIdleCounter := fun _ => ()
  iecIsDirtyC64Side := fun _ => false
  iecUpdateIecLinesC64Side := fun _ => ()
  cpuExecuteOneCycle := fun _ => (true, ())
  drive1IsPoweredOn := fun _ => true
  drive1Execute := fun _ => (true, ())
  drive2IsPoweredOn := fun _ => false
  drive2Execute := fun _ => (true, ())
  datasetteExecute := fun _ => ()
  vicBeginFrame := fun _ => ()
  vicBeginRasterline := fun _ => ()
  vicEndRasterline := fun _ => ()
  vicEndFrame := fun _ => ()
  cia1IncrementTOD := fun _ => ()
  cia2IncrementTOD := fun _ => ()
  sidExecuteUntil := fun _ => ()
  iecExecute := fun _ => ()
  expansionportExecute := fun _ => ()
  port1Execute := fun _ => ()
  port2Execute := fun _ => ()
  mouseExecute := fun _ => ()
  autoSnapshotDue := fun _ => false
  takeAutoSnapshot := fun _ => ()
  iecIsBusy := fun _ => false
  sidRampDown := fun _ => ()
  sidRampUp := fun _ => ()
  restartTimer := fun _ => ()
  synchronizeTiming := fun _ => ()
  resetComponents := fun _ => ()
  cycleAfterReset := fun _ => 0
  memPoke := fun _ _ _ => ()
  initProgramCounter := fun _ => ()
  clearNanoTargetTime := fun _ => ()
  pingComponents := fun _ => ()

/-- The components of `Chips.idle` with a CPU that reports failure in every
cycle. -/
def Chips.jammed (cyclesPerRasterline rasterlinesPerFrame : Nat) : Chips Unit :=
  { Chips.idle cyclesPerRasterline rasterlinesPerFrame with
    cpuExecuteOneCycle := fun _ => (false, ()) }

/-- A machine state for `Chips.idle` with the given raster position. -/
def C64.idleAt (rasterLine rasterCycle : Nat) : C64 Unit where
  cycle := 0
  frame := 0
  rasterLine := rasterLine
  rasterCycle := rasterCycle
  frequency := 985249
  durationOfOneCycle := 10149
  warp := false
  alwaysWarp := false
  warpLoad := false
  ultimax := false
  mousePort := 0
  snapshotInterval := 3
  chips := ()
  trace := []

end Scheduler

/-! ## The cartridge and its snapshot (Cartridge.h, Cartridge.cpp) -/

/-- The data members of class `Cartridge` (Cartridge.h). Arrays are
functions of the index; `chip i` is `none` for a null pointer and otherwise
the bytes of the allocated block. -/
structure Cartridge where
  /-- The member `uint8_t type`. -/
  type : Nat
  gameLine : Bool
  exromLine : Bool
  /-- The member `uint8_t *chip[64]`. -/
  chip : Nat → Option (List Nat)
  /-- The member `uint16_t chipStartAddress[64]`. -/
  chipStartAddress : Nat → Nat
  /-- The member `uint16_t chipSize[64]`. -/
  chipSize : Nat → Nat
  /-- The member `uint8_t rom[0x8000]`. -/
  rom : Nat → Nat
  /-- The member `uint8_t blendedIn[16]`. -/
  blendedIn : Nat → Nat

/-- The values stored in a cartridge fit their C++ types: 16 bit start
addresses and sizes, 8 bit ROM bytes and flags, and an allocated chip block
holds as many bytes as allocated for it. -/
def Cartridge.WellTyped (c : Cartridge) : Prop :=
  (∀ i, i < 64 → c.chipStartAddress i < 2 ^ 16 ∧ c.chipSize i < 2 ^ 16 ∧
    ∀ d, c.chip i = some d → d.length = c.chipSize i ∧ ∀ x ∈ d, x < 2 ^ 8) ∧
  (∀ a, a < 0x8000 → c.rom a < 2 ^ 8) ∧
  (∀ j, j < 16 → c.blendedIn j < 2 ^ 8)

/-- The condition of the snapshot round trip: `chip[i]` is allocated exactly
when `chipSize[i] > 0`. -/
def Cartridge.ChipsMatchSizes (c : Cartridge) : Prop :=
  ∀ i, i < 64 → ((c.chip i).isSome = true ↔ c.chipSize i > 0)

/-- Modelled from the spec: `write8` of `basic.h` (source not available). A
snapshot is a raw dump of bytes in a fixed order; the buffer behind
`uint8_t **buffer` is the list of the bytes written so far, and `write8`
appends one byte. -/
def write8 (buffer : List Nat) (value : Nat) : List Nat :=
  buffer ++ [value]

/-- Modelled from the spec: `write16` of `basic.h` (source not available):
the two bytes of a 16 bit value, high byte first. -/
def write16 (buffer : List Nat) (value : Nat) : List Nat :=
  write8 (write8 buffer (value / 256 % 256)) (value % 256)

/-- Modelled from the spec: `writeBlock` of `basic.h` (source not
available): the first `length` bytes of an array. -/
def writeBlock (buffer : List Nat) (block : Nat → Nat) (length : Nat) : List Nat :=
  buffer ++ (List.range length).map block

/-- Modelled from the spec: `read8` of `basic.h` (source not available). On
the reading side the buffer is the list of the bytes not yet read; a byte
beyond its end reads as 0. -/
def read8 (buffer : List Nat) : Nat × List Nat :=
  (buffer.headD 0, buffer.tail)

/-- Modelled from the spec: `read16` of `basic.h` (source not available),
the inverse of `write16`. -/
def read16 (buffer : List Nat) : Nat × List Nat :=
  let hi := read8 buffer
  let lo := read8 hi.2
  (hi.1 * 256 + lo.1, lo.2)

/-- Modelled from the spec: `readBlock` of `basic.h` (source not
available): the next `length` bytes, a byte beyond the end of the buffer
reading as 0. -/
def readBlock (buffer : List Nat) (length : Nat) : List Nat × List Nat :=
  ((buffer ++ List.replicate length 0).take length, buffer.drop length)

/-- The bytes of a chip block seen as an array; a null pointer has none. -/
def Cartridge.chipBlock (c : Cartridge) (i : Nat) : Nat → Nat :=
  fun k => ((c.chip i).getD []).getD k 0

/-- The method `Cartridge::stateSize`. -/
def Cartridge.stateSize (c : Cartridge) : Nat :=
  let size := (List.range 64).foldl (fun size i => size + (4 + c.chipSize i)) 2
  size + 0x8000 + 16

/-- The body of the loop of `Cartridge::saveToBuffer` for chip `i`. -/
def Cartridge.saveChip (c : Cartridge) (buffer : List Nat) (i : Nat) : List Nat :=
  let b1 := write16 buffer (c.chipStartAddress i)
  let b2 := write16 b1 (c.chipSize i)
  if c.chipSize i > 0 then writeBlock b2 (c.chipBlock i) (c.chipSize i) else b2

/-- The method `Cartridge::saveToBuffer`; the result is the buffer with the
bytes of the cartridge appended. -/
def Cartridge.saveToBuffer (c : Cartridge) (buffer : List Nat) : List Nat :=
  let b1 := write8 buffer (if c.gameLine then 1 else 0)
  let b2 := write8 b1 (if c.exromLine then 1 else 0)
  let b3 := (List.range 64).foldl c.saveChip b2
  let b4 := writeBlock b3 c.rom 0x8000
  writeBlock b4 c.blendedIn 16

/-- The body of the loop of `Cartridge::loadFromBuffer` for chip `i`, on the
cartridge and the bytes not yet read. -/
def Cartridge.loadChip (st : Cartridge × List Nat) (i : Nat) : Cartridge × List Nat :=
  let r1 := read16 st.2
  let c1 : Cartridge :=
    { st.1 with chipStartAddress := Function.update st.1.chipStartAddress i r1.1 }
  let r2 := read16 r1.2
  let c2 : Cartridge := { c1 with chipSize := Function.update c1.chipSize i r2.1 }
  if c2.chipSize i > 0 then
    let r3 := readBlock r2.2 (c2.chipSize i)
    ({ c2 with chip := Function.update c2.chip i (some r3.1) }, r3.2)
  else ({ c2 with chip := Function.update c2.chip i none }, r2.2)

/-- The method `Cartridge::loadFromBuffer`; the result is the cartridge and
the bytes not yet read. -/
def Cartridge.loadFromBuffer (c : Cartridge) (buffer : List Nat) : Cartridge × List Nat :=
  let r1 := read8 buffer
  let c1 : Cartridge := { c with gameLine := r1.1 != 0 }
  let r2 := read8 r1.2
  let c2 : Cartridge := { c1 with exromLine := r2.1 != 0 }
  let st := (List.range 64).foldl Cartridge.loadChip (c2, r2.2)
  let r4 := readBlock st.2 0x8000
  let c4 : Cartridge := { st.1 with rom := fun a => if a < 0x8000 then r4.1.getD a 0 else st.1.rom a }
  let r5 := readBlock r4.2 16
  ({ c4 with blendedIn := fun j => if j < 16 then r5.1.getD j 0 else c4.blendedIn j }, r5.2)

/-- The bytes that `saveToBuffer` writes for chip `i`: start address, size
and, for a positive size, the block. -/
def Cartridge.chipBytes (c : Cartridge) (i : Nat) : List Nat :=
  [c.chipStartAddress i / 256 % 256, c.chipStartAddress i % 256,
    c.chipSize i / 256 % 256, c.chipSize i % 256] ++
  (if c.chipSize i > 0 then (List.range (c.chipSize i)).map (c.chipBlock i) else [])

/-- The bytes that `saveToBuffer` writes for the chips below `k`. -/
def Cartridge.chipsBytes (c : Cartridge) : Nat → List Nat
  | 0 => []
  | k + 1 => Cartridge.chipsBytes c k ++ c.chipBytes k

/-- The method `Cartridge::reset`. -/
def Cartridge.reset (c : Cartridge) : Cartridge :=
  { c with
    type := CRT_NONE
    gameLine := true
    exromLine := true
    rom := fun a => if a < 0x8000 then 0 else c.rom a
    blendedIn := fun j => if j < 16 then 0 else c.blendedIn j
    chip := fun i => if i < 64 then none else c.chip i
    chipStartAddress := fun i => if i < 64 then 0 else c.chipStartAddress i
    chipSize := fun i => if i < 64 then 0 else c.chipSize i }

/-- A cartridge of type `CRT_NORMAL` with EXROM low and one chip of four
bytes at `$8000`, as `attachChip` leaves it after a reset. -/
def Cartridge.sample : Cartridge where
  type := 0
  gameLine := true
  exromLine := false
  chip := fun i => if i = 0 then some [0x09, 0x80, 0x4C, 0x00] else none
  chipStartAddress := fun i => if i = 0 then 0x8000 else 0
  chipSize := fun i => if i = 0 then 4 else 0
  rom := fun _ => 0
  blendedIn := fun _ => 0

/-! ## Helper macros (basic.h) -/

/-- Modelled from the spec: the macro `LO_HI` of `basic.h` (source not
available), which builds a 16 bit value from its low byte `x` and its high
byte `y`; two-byte values are little-endian, low byte first. -/
def LO_HI (x y : Nat) : Nat :=
  ((y <<< 8) ||| x) % 2 ^ 16

/-! ## Program files (PRGFile.cpp) -/

/-- The data members of class `PRGArchive` that its methods use: the file
contents `data` (an array, as a function of the index), their number `size`
and the file pointer `fp`, which is `-1` at the end of the file. -/
structure PRGArchive where
  data : Nat → Nat
  size : Nat
  fp : Int

/-- The static method `PRGArchive::isPRG`. -/
def PRGArchive.isPRG (_buffer : Nat → Nat) (length : Nat) : Bool :=
  decide (length ≥ 2)

/-- The method `PRGArchive::getDestinationAddrOfItem`. -/
def PRGArchive.getDestinationAddrOfItem (a : PRGArchive) (_n : Nat) : Nat :=
  let result := LO_HI (a.data 0) (a.data 1)
  result

/-! ## The program counter after a reset (C64.cpp) -/

/-- Modelled from the spec: the values of a page of the peek source table
(the type `MemoryType`, source not available): RAM, ROM, I/O, cartridge low,
cartridge high, open. -/
inductive MemoryType where
  | M_RAM
  | M_ROM
  | M_IO
  | M_CRTLO
  | M_CRTHI
  | M_NONE
  deriving DecidableEq, Repr

/-- The value that `C64::reset` assigns to `cpu.regPC`, the step recorded as
`Event.initProgramCounter` in `C64.reset`. `getPeekSource` and `spypeek` are
the methods of the memory subsystem `mem` (source not available) in the state
after the two calls of `mem.poke` that come first in `reset`; no later
statement of `reset` assigns `cpu.regPC`. -/
def C64.regPCAfterReset (getPeekSource : Nat → MemoryType) (spypeek : Nat → Nat) : Nat :=
  let takeFromRom := getPeekSource 0xFFFC == MemoryType.M_ROM
  if takeFromRom then 0xFCE2 else LO_HI (spypeek 0xFFFC) (spypeek 0xFFFD)

/-- A memory map whose pages from `$E000` on are served by ROM, with a ROM
whose bytes at `$FFFC` and `$FFFD` are `00 80`. -/
def MemoryType.sampleSource (addr : Nat) : MemoryType :=
  if addr ≥ 0xE000 then MemoryType.M_ROM else MemoryType.M_RAM

/-- The bytes seen through the sample memory map: `00 80` at `$FFFC`. -/
def MemoryType.sampleBytes (addr : Nat) : Nat :=
  if addr = 0xFFFD then 0x80 else 0

/-! ## Cartridges with custom behaviour (Cartridges/CustomCartridges.cpp) -/

/-- The data members of the base class that the cartridge classes of
CustomCartridges.cpp use: the control register `regValue`, the on-board RAM
`externalRam`, and `banking`, the rest of the object (the chip packets and
which of them is banked in), on which `bankIn` works; the declaration of the
class is not available. -/
structure CustomCartridge (B : Type) where
  regValue : Nat
  externalRam : Nat → Nat
  banking : B

section Custom

variable {Mem B : Type}

/-- A statement of a cartridge method that changes the cartridge object. The
method runs on the cartridge attached to the port `c64->expansionport`. -/
def ExpansionPort.onCartridge {Cart : Type} (s : ExpansionPort Mem Cart) (f : Cart → Cart) :
    ExpansionPort Mem Cart :=
  { s with cartridge := s.cartridge.map f }

/-- A call of `bankIn(nr)`. The method `Cartridge::bankIn` (source not
available) is the parameter `bankIn`; it selects the chip packet that is
visible and works on the banking state. -/
def CustomCartridge.bankIn (bankIn : Nat → B → B) (nr : Nat) (c : CustomCartridge B) :
    CustomCartridge B :=
  { c with banking := bankIn nr c.banking }

/-- The method `Funplay::pokeIO1`; `s` is the expansion port with the
cartridge attached, `value` a byte. -/
def Funplay.pokeIO1 (env : PortEnv Mem (CustomCartridge B)) (bankIn : Nat → B → B)
    (s : ExpansionPort Mem (CustomCartridge B)) (addr value : Nat) :
    ExpansionPort Mem (CustomCartridge B) :=
  if addr = 0xDE00 then
    if value = 0x86 then
      let s1 := ExpansionPort.setGameLine env s true
      ExpansionPort.setExromLine env s1 true
    else
      let bank := (((value >>> 3) &&& 0x07) ||| ((value <<< 3) &&& 0x08)) % 2 ^ 8
      s.onCartridge (CustomCartridge.bankIn bankIn bank)
  else s

/-- The method `MagicDesk::peekIO1`. -/
def MagicDesk.peekIO1 (c : CustomCartridge B) (_addr : Nat) : Nat :=
  c.regValue

/-- The method `MagicDesk::pokeIO1`; `s` is the expansion port with the
cartridge attached, `value` a byte. -/
def MagicDesk.pokeIO1 (env : PortEnv Mem (CustomCartridge B)) (bankIn : Nat → B → B)
    (s : ExpansionPort Mem (CustomCartridge B)) (addr value : Nat) :
    ExpansionPort Mem (CustomCartridge B) :=
  let s1 := s.onCartridge (fun c => { c with regValue := value &&& 0x8F })
  if addr = 0xDE00 then
    let s2 := ExpansionPort.setExromLine env s1 (value &&& 0x80 != 0)
    s2.onCartridge (CustomCartridge.bankIn bankIn (value &&& 0x0F))
  else s1

/-- The method `Comal80::peekIO1`. -/
def Comal80.peekIO1 (c : CustomCartridge B) (_addr : Nat) : Nat :=
  c.regValue

/-- The method `Comal80::pokeIO1`; `s` is the expansion port with the
cartridge attached, `value` a byte. -/
def Comal80.pokeIO1 (env : PortEnv Mem (CustomCartridge B)) (bankIn : Nat → B → B)
    (s : ExpansionPort Mem (CustomCartridge B)) (addr value : Nat) :
    ExpansionPort Mem (CustomCartridge B) :=
  if addr ≥ 0xDE00 ∧ addr ≤ 0xDEFF then
    let s1 := s.onCartridge (fun c => { c with regValue := value &&& 0xC7 })
    let s2 := s1.onCartridge (CustomCartridge.bankIn bankIn (value &&& 0x03))
    if value &&& 0xE0 = 0xE0 then
      let s3 := ExpansionPort.setExromLine env s2 true
      ExpansionPort.setGameLine env s3 true
    else if value &&& 0xE0 = 0x40 then
      let s3 := ExpansionPort.setExromLine env s2 false
      ExpansionPort.setGameLine env s3 true
    else
      let s3 := ExpansionPort.setExromLine env s2 false
      ExpansionPort.setGameLine env s3 false
  else s

/-- The method `KcsPower::peekIO2`. -/
def KcsPower.peekIO2 (c : CustomCartridge B) (addr : Nat) : Nat :=
  if addr &&& 0x80 ≠ 0 then c.externalRam (addr &&& 0x7F)
  else c.externalRam (addr &&& 0x7F)

/-- The method `KcsPower::pokeIO2`. -/
def KcsPower.pokeIO2 (c : CustomCartridge B) (addr value : Nat) : CustomCartridge B :=
  if ¬ (addr &&& 0x80 ≠ 0) then
    { c with externalRam := Function.update c.externalRam (addr &&& 0x7F) value }
  else c

end Custom

/-- A KCS Power cartridge with its on-board RAM as `KcsPower::reset` leaves
it: 128 bytes of `$FF`. -/
def KcsPower.sample : CustomCartridge Unit where
  regValue := 0
  externalRam := fun i => if i < 0x80 then 0xFF else 0
  banking := ()

/-- A banking state that is just the number of the chip banked in last. -/
def CustomCartridge.sampleBankIn : Nat → Nat → Nat :=
  fun nr _ => nr

/-- An environment for the sample port: a memory subsystem without state. -/
def CustomCartridge.sampleEnv : PortEnv Unit (CustomCartridge Nat) where
  updatePeekPokeLookupTables := fun _ => ()
  getUltimax := fun _ => false
  getCartridgeType := fun _ => 0
  reset := fun c => (c, [])
  poke := fun c _ _ => c

/-- An expansion port with a cartridge in the 8 KiB configuration (GAME 1,
EXROM 0) attached, chip 0 banked in. -/
def CustomCartridge.samplePort : ExpansionPort Unit (CustomCartridge Nat) where
  gameLinePhi1 := true
  gameLinePhi2 := true
  exromLinePhi1 := false
  exromLinePhi2 := false
  cartridge := some { regValue := 0, externalRam := fun _ => 0, banking := 0 }
  vicUltimax := false
  mem := ()
  ram := fun _ => 0
  c64 := { p := false, suspendCounter := 0, basicRomIsLoaded := true,
           charRomIsLoaded := true, kernalRomIsLoaded := true,
           drive1RomIsLoaded := true, drive2RomIsLoaded := true, trace := [] }

/-! ## Snapshots of the GeoRAM cartridge and of the expansion port
(Cartridges/CustomCartridges.cpp, Computer/ExpansionPort.cpp) -/

/-- The data members that the methods of class `GeoRAM` use: the latches
`bank` and `page` (bytes, written with `write8`), the on-board RAM with its
capacity, and `base`, the part of the object on which the inherited methods
`Cartridge::stateSize`, `Cartridge::saveToBuffer` and
`Cartridge::loadFromBuffer` work. -/
structure GeoRAM where
  base : Cartridge
  externalRam : Nat → Nat
  ramCapacity : Nat
  persistentRam : Bool
  bank : Nat
  page : Nat

/-- The method `GeoRAM::stateSize`; `sizeof(bank)` and `sizeof(page)` are 1. -/
def GeoRAM.stateSize (g : GeoRAM) : Nat :=
  g.base.stateSize + 1 + 1

/-- The method `GeoRAM::saveToBuffer`. -/
def GeoRAM.saveToBuffer (g : GeoRAM) (buffer : List Nat) : List Nat :=
  let b1 := g.base.saveToBuffer buffer
  let b2 := write8 b1 g.bank
  write8 b2 g.page

/-- The method `GeoRAM::loadFromBuffer`; the result is the cartridge and the
bytes not yet read. -/
def GeoRAM.loadFromBuffer (g : GeoRAM) (buffer : List Nat) : GeoRAM × List Nat :=
  let r1 := Cartridge.loadFromBuffer g.base buffer
  let g1 : GeoRAM := { g with base := r1.1 }
  let r2 := read8 r1.2
  let g2 : GeoRAM := { g1 with bank := r2.1 }
  let r3 := read8 r2.2
  ({ g2 with page := r3.1 }, r3.2)

/-- The object behind the pointer `cartridge` of the expansion port, with the
class that decides which virtual method runs: `plain` is an object of class
`Cartridge` or of a class that inherits its snapshot methods, `geoRAM` an
object of class `GeoRAM`. -/
inductive CartridgeObject where
  | plain (c : Cartridge)
  | geoRAM (g : GeoRAM)

/-- The virtual method `getCartridgeType`. The type tag of class `GeoRAM`,
the constant `CRT_GEO_RAM` (declaration not available), is the parameter
`geo`. -/
def CartridgeObject.getCartridgeType (geo : Nat) : CartridgeObject → Nat
  | CartridgeObject.plain c => c.type
  | CartridgeObject.geoRAM _ => geo

/-- The virtual method `stateSize`. -/
def CartridgeObject.stateSize : CartridgeObject → Nat
  | CartridgeObject.plain c => c.stateSize
  | CartridgeObject.geoRAM g => g.stateSize

/-- The virtual method `saveToBuffer`. -/
def CartridgeObject.saveToBuffer (buffer : List Nat) : CartridgeObject → List Nat
  | CartridgeObject.plain c => c.saveToBuffer buffer
  | CartridgeObject.geoRAM g => g.saveToBuffer buffer

/-- The virtual method `loadFromBuffer`. -/
def CartridgeObject.loadFromBuffer (buffer : List Nat) :
    CartridgeObject → CartridgeObject × List Nat
  | CartridgeObject.plain c =>
    ((Cartridge.loadFromBuffer c buffer).map CartridgeObject.plain id)
  | CartridgeObject.geoRAM g =>
    ((GeoRAM.loadFromBuffer g buffer).map CartridgeObject.geoRAM id)

/-- The object that the constructor `Cartridge::Cartridge` leaves: it calls
`reset`. -/
def Cartridge.new : Cartridge :=
  Cartridge.reset
    { type := 0, gameLine := false, exromLine := false, chip := fun _ => none,
      chipStartAddress := fun _ => 0, chipSize := fun _ => 0, rom := fun _ => 0,
      blendedIn := fun _ => 0 }

/-- Modelled from the spec: `Cartridge::makeWithType` (source not
available). Each cartridge type is a distinct implementation of the
cartridge contract: the result is a new object of the class that belongs to
the type tag, a `GeoRAM` for the tag `geo` and otherwise a cartridge that
carries the tag, as `makeCartridgeWithBuffer` of Cartridge.cpp builds it. -/
def Cartridge.makeWithType (geo : Nat) (type : Nat) : CartridgeObject :=
  if type = geo then
    CartridgeObject.geoRAM
      { base := Cartridge.new, externalRam := fun _ => 0, ramCapacity := 0,
        persistentRam := false, bank := 0, page := 0 }
  else CartridgeObject.plain { Cartridge.new with type := type }

section PortSnapshot

variable {Mem : Type}

/-- The expression `cartridge ? cartridge->getCartridgeType() : CRT_NONE` of
`ExpansionPort::saveToBuffer` and `ExpansionPort::getCartridgeType`. -/
def CartridgeObject.typeOf (geo : Nat) : Option CartridgeObject → Nat
  | some c => c.getCartridgeType geo
  | none => CRT_NONE

/-- The method `ExpansionPort::stateSize`. -/
def ExpansionPort.stateSize (s : ExpansionPort Mem CartridgeObject) : Nat :=
  6 + (match s.cartridge with
    | some c => c.stateSize
    | none => 0)

/-- The method `ExpansionPort::saveToBuffer`; the result is the buffer with
the bytes of the port appended. -/
def ExpansionPort.saveToBuffer (geo : Nat) (s : ExpansionPort Mem CartridgeObject)
    (buffer : List Nat) : List Nat :=
  let b1 := write16 buffer (CartridgeObject.typeOf geo s.cartridge)
  let b2 := write8 b1 (if s.gameLinePhi1 then 1 else 0)
  let b3 := write8 b2 (if s.gameLinePhi2 then 1 else 0)
  let b4 := write8 b3 (if s.exromLinePhi1 then 1 else 0)
  let b5 := write8 b4 (if s.exromLinePhi2 then 1 else 0)
  match s.cartridge with
  | some c => c.saveToBuffer b5
  | none => b5

/-- The method `ExpansionPort::loadFromBuffer`; the result is the port and
the bytes not yet read. -/
def ExpansionPort.loadFromBuffer (geo : Nat) (s : ExpansionPort Mem CartridgeObject)
    (buffer : List Nat) : ExpansionPort Mem CartridgeObject × List Nat :=
  let s0 : ExpansionPort Mem CartridgeObject := { s with cartridge := none }
  let r1 := read16 buffer
  let cartridgeType := r1.1
  let r2 := read8 r1.2
  let s1 : ExpansionPort Mem CartridgeObject := { s0 with gameLinePhi1 := r2.1 != 0 }
  let r3 := read8 r2.2
  let s2 : ExpansionPort Mem CartridgeObject := { s1 with gameLinePhi2 := r3.1 != 0 }
  let r4 := read8 r3.2
  let s3 : ExpansionPort Mem CartridgeObject := { s2 with exromLinePhi1 := r4.1 != 0 }
  let r5 := read8 r4.2
  let s4 : ExpansionPort Mem CartridgeObject := { s3 with exromLinePhi2 := r5.1 != 0 }
  if cartridgeType ≠ CRT_NONE then
    let r6 := (Cartridge.makeWithType geo cartridgeType).loadFromBuffer r5.2
    ({ s4 with cartridge := some r6.1 }, r6.2)
  else (s4, r5.2)

end PortSnapshot

/-- A GeoRAM cartridge without chips, with bank 3 and page 5 selected. -/
def GeoRAM.sample : GeoRAM where
  base := Cartridge.new
  externalRam := fun _ => 0
  ramCapacity := 0x80000
  persistentRam := false
  bank := 3
  page := 5

/-- An expansion port in the Ultimax configuration (GAME 0, EXROM 1) with the
given cartridge pointer. -/
def CartridgeObject.samplePort (cartridge : Option CartridgeObject) :
    ExpansionPort Unit CartridgeObject where
  gameLinePhi1 := false
  gameLinePhi2 := false
  exromLinePhi1 := true
  exromLinePhi2 := true
  cartridge := cartridge
  vicUltimax := true
  mem := ()
  ram := fun _ => 0
  c64 := { p := false, suspendCounter := 0, basicRomIsLoaded := true,
           charRomIsLoaded := true, kernalRomIsLoaded := true,
           drive1RomIsLoaded := true, drive2RomIsLoaded := true, trace := [] }

/-! ## Bank switching and cartridges built from a CRT container (Cartridge.cpp) -/

/-- The method `Cartridge::peek`. -/
def Cartridge.peek (c : Cartridge) (addr : Nat) : Nat :=
  c.rom (addr &&& 0x7FFF)

/-- The method `Cartridge::romIsBlendedIn`. -/
def Cartridge.romIsBlendedIn (c : Cartridge) (addr : Nat) : Bool :=
  c.blendedIn (addr >>> 12) != 0

/-- The loop at the end of `Cartridge::switchBank`: `blendedIn[i] = 1` for
`i` from `first` up to but excluding `last`. -/
def Cartridge.markBlendedIn (blendedIn : Nat → Nat) (first last : Nat) : Nat → Nat :=
  (List.range' first (last - first)).foldl (fun b i => Function.update b i 1) blendedIn

/-- The method `Cartridge::switchBank`. The call of `memcpy` stores byte `k`
of the chip in `rom[loadAddr - 0x8000 + k]` for `k < size`, that is in
`rom[a]` with `a + 0x8000 = loadAddr + k`; a byte whose destination lies
below `rom[0]` (a load address below `$8000`) is not part of the state. The
array elements are 16 bit values, so `0xFFFF - loadAddr` does not go below
0. -/
def Cartridge.switchBank (c : Cartridge) (nr : Nat) : Cartridge :=
  match c.chip nr with
  | none => c
  | some block =>
    let loadAddr := c.chipStartAddress nr
    let size := c.chipSize nr
    if 0xFFFF - loadAddr < size then c
    else
      let c1 : Cartridge :=
        { c with
          rom := fun a =>
            if loadAddr ≤ a + 0x8000 ∧ a + 0x8000 < loadAddr + size then
              block.getD (a + 0x8000 - loadAddr) 0
            else c.rom a }
      { c1 with
        blendedIn :=
          Cartridge.markBlendedIn c1.blendedIn (loadAddr >>> 12) ((loadAddr + size) >>> 12) }

/-- What `Cartridge.cpp` reads of a CRT container through the methods of
class `CRTContainer` (source not available): `getCartridgeType`,
`getGameLine`, `getExromLine`, `getNumberOfChips`, `getChipSize`,
`getChipAddr` and the bytes behind `getChipData`. -/
structure CRTContainer where
  cartridgeType : Nat
  gameLine : Bool
  exromLine : Bool
  numberOfChips : Nat
  chipSize : Nat → Nat
  chipAddr : Nat → Nat
  chipData : Nat → Nat → Nat

/-- The constant `CRT_NORMAL`. -/
def CRT_NORMAL : Nat := 0

/-- The static method `Cartridge::isSupportedType`. -/
def Cartridge.isSupportedType (container : CRTContainer) : Bool :=
  container.cartridgeType == CRT_NORMAL

/-- The method `Cartridge::attachChip`, for a call of `malloc` that
succeeds: the block holds the `getChipSize(nr)` bytes of the chip, and the
start address and the size are stored as 16 bit values. -/
def Cartridge.attachChip (c : Cartridge) (nr : Nat) (container : CRTContainer) : Cartridge :=
  { c with
    chip := Function.update c.chip nr
      (some ((List.range (container.chipSize nr)).map (container.chipData nr)))
    chipStartAddress := Function.update c.chipStartAddress nr (container.chipAddr nr % 2 ^ 16)
    chipSize := Function.update c.chipSize nr (container.chipSize nr % 2 ^ 16) }

/-- The static method `Cartridge::makeCartridgeWithCRTContainer`; `none` is
the null pointer. The member `type` is a byte. -/
def Cartridge.makeCartridgeWithCRTContainer (container : CRTContainer) : Option Cartridge :=
  if container.cartridgeType = CRT_NORMAL then
    let cart : Cartridge :=
      { Cartridge.new with
        type := container.cartridgeType % 2 ^ 8
        gameLine := container.gameLine
        exromLine := container.exromLine }
    let cart1 := (List.range container.numberOfChips).foldl
      (fun cart i => cart.attachChip i container) cart
    match cart1.chip 0 with
    | none => none
    | some _ => some (cart1.switchBank 0)
  else none

/-- A CRT container with one chip of 8 KiB at `$8000` that starts with the
bytes `09 80 4C 00 80`, for a cartridge with EXROM 0 and GAME 1. -/
def CRTContainer.sample : CRTContainer where
  cartridgeType := 0
  gameLine := true
  exromLine := false
  numberOfChips := 1
  chipSize := fun _ => 0x2000
  chipAddr := fun _ => 0x8000
  chipData := fun _ k => [0x09, 0x80, 0x4C, 0x00, 0x80].getD k 0

/-- A cartridge for the Ultimax configuration (GAME 0, EXROM 1) as
`attachChip` leaves it: one chip of 8 KiB with load address `$E000`, all of
whose bytes are `$4C`, and nothing blended in yet. -/
def Cartridge.ultimaxSample : Cartridge where
  type := 0
  gameLine := false
  exromLine := true
  chip := fun i => if i = 0 then some (List.replicate 0x2000 0x4C) else none
  chipStartAddress := fun i => if i = 0 then 0xE000 else 0
  chipSize := fun i => if i = 0 then 0x2000 else 0
  rom := fun _ => 0
  blendedIn := fun _ => 0

/-! ## Zaxxon and GeoRAM (Cartridges/CustomCartridges.cpp) -/

section Zaxxon

variable {B : Type}

/-- The method `Zaxxon::peekRomL`, with the cartridge after the call. The
parameter `peekRomL` is `Cartridge::peekRomL` of the base class (source not
available), which reads a byte of the ROML window through the banking
state. -/
def Zaxxon.peekRomL (bankIn : Nat → B → B) (peekRomL : B → Nat → Nat)
    (c : CustomCartridge B) (addr : Nat) : Nat × CustomCartridge B :=
  if addr < 0x1000 then
    let c1 := CustomCartridge.bankIn bankIn 1 c
    (peekRomL c1.banking addr, c1)
  else
    let c1 := CustomCartridge.bankIn bankIn 2 c
    (peekRomL c1.banking (addr - 0x1000), c1)

/-- The method `Zaxxon::spypeekRomL`. -/
def Zaxxon.spypeekRomL (peekRomL : B → Nat → Nat) (c : CustomCartridge B) (addr : Nat) : Nat :=
  if addr < 0x1000 then peekRomL c.banking addr
  else peekRomL c.banking (addr - 0x1000)

end Zaxxon

/-- The method `GeoRAM::offset`; `addr` is a byte. -/
def GeoRAM.offset (g : GeoRAM) (addr : Nat) : Nat :=
  let bankOffset := (g.bank * 16384) % g.ramCapacity
  let pageOffset := (g.page &&& 0x3F) * 256
  bankOffset + pageOffset + addr

/-- The argument `addr - 0xDE00` of `offset` in `GeoRAM::peekIO1` and
`GeoRAM::pokeIO1`, converted to the parameter type `uint8_t`. -/
def GeoRAM.windowIndex (addr : Nat) : Nat :=
  (((addr : Int) - 0xDE00) % 2 ^ 8).toNat

/-- The method `GeoRAM::peekIO1`. Its three `assert`s (the address is in
`$DE00..$DEFF`, the RAM is allocated, the index is below `ramCapacity`) are
checks of a debug build and are left out. -/
def GeoRAM.peekIO1 (g : GeoRAM) (addr : Nat) : Nat :=
  let i := g.offset (GeoRAM.windowIndex addr)
  g.externalRam i

/-- The method `GeoRAM::peekIO2`. -/
def GeoRAM.peekIO2 (_g : GeoRAM) (_addr : Nat) : Nat :=
  0

/-- The method `GeoRAM::pokeIO1`, without its three `assert`s (the same as
in `peekIO1`). -/
def GeoRAM.pokeIO1 (g : GeoRAM) (addr value : Nat) : GeoRAM :=
  let i := g.offset (GeoRAM.windowIndex addr)
  { g with externalRam := Function.update g.externalRam i value }

/-- The method `GeoRAM::pokeIO2`. -/
def GeoRAM.pokeIO2 (g : GeoRAM) (addr value : Nat) : GeoRAM :=
  if addr &&& 1 ≠ 0 then { g with bank := value }
  else { g with page := value }

/-! ## The table of VIC functions (C64.cpp) -/

/-- The VIC models of the `switch` in `C64::updateVicFunctionTable`. -/
inductive VICModel where
  | PAL_6569_R1
  | PAL_6569_R3
  | PAL_8565
  | NTSC_6567_R56A
  | NTSC_6567
  | NTSC_8562
  deriving DecidableEq, Repr

/-- The member functions of class `VIC` that are stored in the table:
`common n` is `VIC::cycle<n>`, `pal n` is `VIC::cycle<n>pal` and `ntsc n` is
`VIC::cycle<n>ntsc`. -/
inductive VICFunc where
  | common (cycle : Nat)
  | cycle19to54
  | pal (cycle : Nat)
  | ntsc (cycle : Nat)
  deriving DecidableEq, Repr

/-- The number `N` of cycles of a raster line that the specification gives
for a VIC model (63 for the PAL models, 64 for the NTSC 6567 R56A, 65 for the
other NTSC models); the table built by the code is compared with it. -/
def VICModel.cyclesPerRasterline : VICModel → Nat
  | VICModel.PAL_6569_R1 => 63
  | VICModel.PAL_6569_R3 => 63
  | VICModel.PAL_8565 => 63
  | VICModel.NTSC_6567_R56A => 64
  | VICModel.NTSC_6567 => 65
  | VICModel.NTSC_8562 => 65

/-- The assignments `vicfunc[i] = f` of the first part of
`C64::updateVicFunctionTable`, in the order of the source; `none` is `NULL`. -/
def C64.vicFunctionsOfAllModels : List (Nat × Option VICFunc) :=
  [(0, none), (12, some (VICFunc.common 12)), (13, some (VICFunc.common 13)),
    (14, some (VICFunc.common 14)), (15, some (VICFunc.common 15)),
    (16, some (VICFunc.common 16)), (17, some (VICFunc.common 17)),
    (18, some (VICFunc.common 18))] ++
  (List.range' 19 36).map (fun cycle => (cycle, some VICFunc.cycle19to54)) ++
  [(56, some (VICFunc.common 56))]

/-- The assignments of the `switch` of `C64::updateVicFunctionTable` for a
model, in the order of the source. -/
def C64.vicFunctionsOfModel : VICModel → List (Nat × Option VICFunc)
  | VICModel.PAL_6569_R1 | VICModel.PAL_6569_R3 | VICModel.PAL_8565 =>
    [(1, some (VICFunc.pal 1)), (2, some (VICFunc.pal 2)), (3, some (VICFunc.pal 3)),
      (4, some (VICFunc.pal 4)), (5, some (VICFunc.pal 5)), (6, some (VICFunc.pal 6)),
      (7, some (VICFunc.pal 7)), (8, some (VICFunc.pal 8)), (9, some (VICFunc.pal 9)),
      (10, some (VICFunc.pal 10)), (11, some (VICFunc.pal 11)), (55, some (VICFunc.pal 55)),
      (57, some (VICFunc.pal 57)), (58, some (VICFunc.pal 58)), (59, some (VICFunc.pal 59)),
      (60, some (VICFunc.pal 60)), (61, some (VICFunc.pal 61)), (62, some (VICFunc.pal 62)),
      (63, some (VICFunc.pal 63)), (64, none), (65, none)]
  | VICModel.NTSC_6567_R56A =>
    [(1, some (VICFunc.pal 1)), (2, some (VICFunc.pal 2)), (3, some (VICFunc.pal 3)),
      (4, some (VICFunc.pal 4)), (5, some (VICFunc.pal 5)), (6, some (VICFunc.pal 6)),
      (7, some (VICFunc.pal 7)), (8, some (VICFunc.pal 8)), (9, some (VICFunc.pal 9)),
      (10, some (VICFunc.pal 10)), (11, some (VICFunc.pal 11)), (55, some (VICFunc.ntsc 55)),
      (57, some (VICFunc.ntsc 57)), (58, some (VICFunc.ntsc 58)),
      (59, some (VICFunc.ntsc 59)), (60, some (VICFunc.ntsc 60)),
      (61, some (VICFunc.ntsc 61)), (62, some (VICFunc.ntsc 62)),
      (63, some (VICFunc.ntsc 63)), (64, some (VICFunc.ntsc 64)), (65, none)]
  | VICModel.NTSC_6567 | VICModel.NTSC_8562 =>
    [(1, some (VICFunc.ntsc 1)), (2, some (VICFunc.ntsc 2)), (3, some (VICFunc.ntsc 3)),
      (4, some (VICFunc.ntsc 4)), (5, some (VICFunc.ntsc 5)), (6, some (VICFunc.ntsc 6)),
      (7, some (VICFunc.ntsc 7)), (8, some (VICFunc.ntsc 8)), (9, some (VICFunc.ntsc 9)),
      (10, some (VICFunc.ntsc 10)), (11, some (VICFunc.ntsc 11)),
      (55, some (VICFunc.ntsc 55)), (57, some (VICFunc.ntsc 57)),
      (58, some (VICFunc.ntsc 58)), (59, some (VICFunc.ntsc 59)),
      (60, some (VICFunc.ntsc 60)), (61, some (VICFunc.ntsc 61)),
      (62, some (VICFunc.ntsc 62)), (63, some (VICFunc.ntsc 63)),
      (64, some (VICFunc.ntsc 64)), (65, some (VICFunc.ntsc 65))]

/-- The method `C64::updateVicFunctionTable` for the model returned by
`vic.getModel()`: the assignments are carried out one after the other on the
table `vicfunc`. -/
def C64.updateVicFunctionTable (model : VICModel) (vicfunc : Nat → Option VICFunc) :
    Nat → Option VICFunc :=
  (C64.vicFunctionsOfAllModels ++ C64.vicFunctionsOfModel model).foldl
    (fun table assignment => Function.update table assignment.1 assignment.2) vicfunc

/-! ## Single stepping (C64.cpp) -/

/-- The methods of the CPUs and of the memory that `C64::step` and
`C64::stepOver` call; their code is in other files. As in `Chips`, a function
may read the whole machine. -/
structure Debugger (W : Type) where
  /-- The method `cpu.clearErrorState`. -/
  cpuClearErrorState : C64 W → W
  /-- The method `drive1.cpu.clearErrorState`. -/
  drive1ClearErrorState : C64 W → W
  /-- The method `drive2.cpu.clearErrorState`. -/
  drive2ClearErrorState : C64 W → W
  /-- The method `cpu.inFetchPhase`. -/
  inFetchPhase : C64 W → Bool
  /-- The method `cpu.getPC`. -/
  getPC : C64 W → Nat
  /-- The method `mem.spypeek`. -/
  spypeek : C64 W → Nat → Nat
  /-- The method `cpu.setSoftBreakpoint`. -/
  setSoftBreakpoint : Nat → C64 W → W

section Stepping

variable {W : Type}

/-- The statements
`cpu.clearErrorState(); drive1.cpu.clearErrorState(); drive2.cpu.clearErrorState();`
that open `C64::step` and `C64::stepOver`. -/
def C64.clearErrorStates (dbg : Debugger W) (s : C64 W) : C64 W :=
  let s1 := { s with chips := dbg.cpuClearErrorState s }
  let s2 := { s1 with chips := dbg.drive1ClearErrorState s1 }
  { s2 with chips := dbg.drive2ClearErrorState s2 }

/-- A loop `while (c) executeOneCycle();` of `C64::step` with a bound on the
number of iterations: `none` when the bound is used up before the loop
ends. -/
def C64.stepWhile (ch : Chips W) (c : C64 W → Bool) : Nat → C64 W → Option (C64 W)
  | 0, s => if c s then none else some s
  | n + 1, s => if c s then C64.stepWhile ch c n (C64.executeOneCycle ch s).2 else some s

/-- The method `C64::step`; each of its two loops runs with the bound
`fuel`. -/
def C64.step (ch : Chips W) (dbg : Debugger W) (fuel : Nat) (s : C64 W) : Option (C64 W) :=
  let s1 := C64.clearErrorStates dbg s
  match C64.stepWhile ch dbg.inFetchPhase fuel s1 with
  | none => none
  | some s2 =>
    match C64.stepWhile ch (fun t => !dbg.inFetchPhase t) fuel s2 with
    | none => none
    | some s3 => some (C64.executeOneCycle ch s3).2

/-- Modelled from the spec: `CPU::getAddressOfNextInstruction` (CPU.h,
source not available), which `stepOver` calls when the opcode at PC is `JSR`,
an instruction of three bytes: the 16 bit address PC + 3. -/
def CPU.getAddressOfNextInstruction (dbg : Debugger W) (s : C64 W) : Nat :=
  (dbg.getPC s + 3) % 2 ^ 16

/-- The method `C64::stepOver` on the machine and the emulator thread. -/
def C64.stepOver (ch : Chips W) (dbg : Debugger W) (fuel : Nat) (m : C64 W × Executor) :
    Option (C64 W × Executor) :=
  let s1 := C64.clearErrorStates dbg m.1
  if dbg.spypeek s1 (dbg.getPC s1) == 0x20 then
    let s2 :=
      { s1 with chips := dbg.setSoftBreakpoint (CPU.getAddressOfNextInstruction dbg s1) s1 }
    some (s2, C64.run m.2)
  else (C64.step ch dbg fuel s1).map (fun t => (t, m.2))

end Stepping

/-- A CPU for `Chips.idle` whose instructions take three cycles, with the
program counter at `$1000` and the byte `opcode` in every memory cell. -/
def Debugger.sample (opcode : Nat) : Debugger Unit where
  cpuClearErrorState := fun _ => ()
  drive1ClearErrorState := fun _ => ()
  drive2ClearErrorState := fun _ => ()
  inFetchPhase := fun s => s.cycle % 3 == 0
  getPC := fun _ => 0x1000
  spypeek := fun _ _ => opcode
  setSoftBreakpoint := fun _ _ => ()

/-- A halted emulator thread with all ROMs loaded. -/
def Executor.sample : Executor where
  p := false
  suspendCounter := 0
  basicRomIsLoaded := true
  charRomIsLoaded := true
  kernalRomIsLoaded := true
  drive1RomIsLoaded := true
  drive2RomIsLoaded := true
  trace := []

/-! ## Single precision arithmetic

The type `float` of the code is the IEEE 754 binary32 format, and every
operation is rounded to the nearest value of the format, ties to even. The
values that occur below are rational numbers between `2 ^ (-40)` and
`2 ^ 24`, far from the overflow and underflow thresholds of the format, so a
`float` is kept as the rational number it stands for. -/

/-- The integer nearest to `t`, the even one of the two in case of a tie. -/
def Float32.roundHalfEven (t : ℚ) : ℤ :=
  let f := ⌊t⌋
  if t - f < 1 / 2 then f
  else if 1 / 2 < t - f then f + 1
  else if f % 2 = 0 then f else f + 1

/-- The `float` nearest to a rational number `x ≥ 0`: with
`2 ^ e ≤ x < 2 ^ (e + 1)` the values of the format around `x` are the
multiples of `2 ^ (e - 23)` (a significand of 24 bits). -/
def Float32.round (x : ℚ) : ℚ :=
  if x ≤ 0 then 0
  else
    let e := Int.log 2 x
    let ulp := (2 : ℚ) ^ (e - 23)
    Float32.roundHalfEven (x / ulp) * ulp

/-- The conversion `(float)n` of an unsigned integer. -/
def Float32.ofNat (n : Nat) : ℚ :=
  Float32.round (n : ℚ)

/-- The quotient `a / b` of two `float` values. -/
def Float32.div (a b : ℚ) : ℚ :=
  Float32.round (a / b)

/-- The product `a * b` of two `float` values. -/
def Float32.mul (a b : ℚ) : ℚ :=
  Float32.round (a * b)

/-- The conversion of a `float` value `x ≥ 0` to an unsigned integer type
that can hold it: the fraction is dropped. -/
def Float32.toNat (x : ℚ) : Nat :=
  ⌊x⌋.toNat

/-! ## The floppy drive (VC1541.cpp) -/

/-- The container types that `VC1541::insertDisk` tells apart; `OTHER`
stands for every other value of `a->type()`. -/
inductive ContainerType where
  | D64_CONTAINER
  | G64_CONTAINER
  | NIB_CONTAINER
  | OTHER
  deriving DecidableEq, Repr

/-- The members of VIA 2 that `VC1541.cpp` reads and writes (`pcr`,
`ca2_out`, `ira`, `pa`; `ira` is a byte by VIA6522.h) and the rest of the
chip. -/
structure VIA2 (V : Type) where
  pcr : Nat
  ca2_out : Bool
  ira : Nat
  pa : Nat
  rest : V

/-- The data members of class `VC1541` that `VC1541.cpp` works on, the
members of its sub components that it reaches (`disk`, `via2`, the program
counter and the overflow flag of the drive CPU) and `messages`, the messages
sent with `c64->putMessage` in the order of sending. The class declaration is
not available. `readShiftreg` is kept as a 16 bit value (its low 10 bits are
tested), `writeShiftreg`, `byteReadyCounter` and `counterUF4` as bytes (of
`counterUF4` only bits 0..3 are read), and `carryCounter` as a natural
number (only `carryCounter % 4` is read). -/
structure VC1541 (D V : Type) where
  sendSoundMessages : Bool
  durationOfOneCpuCycle : Nat
  nextCarry : Int
  counterUF4 : Nat
  carryCounter : Nat
  bitReadyTimer : Nat
  byteReadyCounter : Nat
  spinning : Bool
  redLED : Bool
  diskPartiallyInserted : Bool
  halftrack : Nat
  offset : Nat
  zone : Nat
  readShiftreg : Nat
  writeShiftreg : Nat
  sync : Bool
  byteReady : Bool
  diskInserted : Bool
  disk : D
  via2 : VIA2 V
  cpuPC : Nat
  cpuV : Bool
  messages : List Message

/-- The code outside `VC1541.cpp` that the drive calls: the disk (class
`Disk525`), the archives (`A` is an archive object), VIA 2 and the reset of
the sub components. -/
structure DriveEnv (D V A : Type) where
  /-- The method `disk.lengthOfHalftrack`, in bits. -/
  lengthOfHalftrack : D → Nat → Nat
  /-- The bit of the disk at a halftrack and bit offset. -/
  readBitFromHalftrack : D → Nat → Nat → Bool
  /-- The disk after a bit is written at a halftrack and bit offset. -/
  writeBitToHalftrack : D → Nat → Nat → Bool → D
  /-- The method `disk.setModified`. -/
  setModified : Bool → D → D
  /-- The method `disk.clearDisk`. -/
  clearDisk : D → D
  /-- The method `disk.encodeArchive`. -/
  encodeArchive : A → D → D
  /-- The method `Archive::type`. -/
  type : A → ContainerType
  /-- The static method `D64Archive::makeD64ArchiveWithAnyArchive`; `none` is
  the null pointer. -/
  makeD64ArchiveWithAnyArchive : A → Option A
  /-- The method `via2.setCA1`. -/
  setCA1 : Bool → VIA2 V → VIA2 V
  /-- The method `VC1541::getLightBarrier`. -/
  getLightBarrier : VC1541 D V → Bool
  /-- The reset of the sub components `mem`, `cpu`, `via1`, `via2` and
  `disk`; of its result only the members of these components are used. -/
  resetSubComponents : VC1541 D V → VC1541 D V

section Drive

variable {D V A : Type}

/-- The call `c64->putMessage(msg)`. -/
def VC1541.putMessage (s : VC1541 D V) (msg : Message) : VC1541 D V :=
  { s with messages := s.messages ++ [msg] }

/-- Modelled from the spec: `VirtualComponent::reset` as inherited by
`VC1541` (source not available). `reset()` zeroes the state marked
`CLEAR_ON_RESET` and keeps the state marked `KEEP_ON_RESET`: the sub
components are reset, and the snapshot items that the constructor of `VC1541`
registers as `CLEAR_ON_RESET` become zero. -/
def VirtualComponent.resetDrive (env : DriveEnv D V A) (s : VC1541 D V) : VC1541 D V :=
  let r := env.resetSubComponents s
  { s with
    disk := r.disk
    via2 := r.via2
    cpuPC := r.cpuPC
    cpuV := r.cpuV
    nextCarry := 0
    counterUF4 := 0
    bitReadyTimer := 0
    byteReadyCounter := 0
    spinning := false
    redLED := false
    diskPartiallyInserted := false
    halftrack := 0
    offset := 0
    zone := 0
    readShiftreg := 0
    writeShiftreg := 0
    sync := false
    byteReady := false }

/-- The method `VC1541::reset`. -/
def VC1541.reset (env : DriveEnv D V A) (s : VC1541 D V) : VC1541 D V :=
  let s1 := VirtualComponent.resetDrive env s
  let s2 := { s1 with cpuPC := 0xEAA0 }
  let s3 := { s2 with halftrack := 41 }
  { s3 with via2 := { s3.via2 with pcr := 0x20 } }

/-- The method `VC1541::resetDisk`. -/
def VC1541.resetDisk (env : DriveEnv D V A) (s : VC1541 D V) : VC1541 D V :=
  { s with disk := env.clearDisk s.disk, diskInserted := false, diskPartiallyInserted := false }

/-- Modelled from the spec: `VC1541::readMode` (VC1541.h, source not
available). `reset` puts the drive in read mode with `via2.pcr = 0x20`, and
`VIA6522::getPcr` returns `pcr & 0x20`: the drive reads when bit 5 of the
peripheral control register of VIA 2 is set. -/
def VC1541.readMode (s : VC1541 D V) : Bool :=
  s.via2.pcr &&& 0x20 != 0

/-- Modelled from the spec: `VC1541::writeMode` (VC1541.h, source not
available): the drive writes when it does not read. -/
def VC1541.writeMode (s : VC1541 D V) : Bool :=
  !s.readMode

/-- Modelled from the spec: `VC1541::readBitFromHead` (VC1541.h, source not
available): the bit of the cyclic bit stream of the current halftrack at the
bit offset of the head. -/
def VC1541.readBitFromHead (env : DriveEnv D V A) (s : VC1541 D V) : Bool :=
  env.readBitFromHalftrack s.disk s.halftrack s.offset

/-- Modelled from the spec: `VC1541::writeBitToHead` (VC1541.h, source not
available): the bit is written into the current halftrack at the bit offset
of the head. -/
def VC1541.writeBitToHead (env : DriveEnv D V A) (s : VC1541 D V) (bit : Bool) : VC1541 D V :=
  { s with disk := env.writeBitToHalftrack s.disk s.halftrack s.offset bit }

/-- Modelled from the spec: `VC1541::rotateDisk` (VC1541.h, source not
available): the head moves on by one bit on the cyclic bit stream of the
current halftrack. -/
def VC1541.rotateDisk (env : DriveEnv D V A) (s : VC1541 D V) : VC1541 D V :=
  { s with
    offset := if s.offset + 1 ≥ env.lengthOfHalftrack s.disk s.halftrack then 0
      else s.offset + 1 }

/-- Modelled from the spec: `VC1541::hasDisk` (VC1541.h, source not
available): the disk-inserted flag. -/
def VC1541.hasDisk (s : VC1541 D V) : Bool :=
  s.diskInserted

/-- Modelled from the spec: `VC1541::setDiskPartiallyInserted` (VC1541.h,
source not available): a partially inserted disk blocks the light barrier. -/
def VC1541.setDiskPartiallyInserted (s : VC1541 D V) (b : Bool) : VC1541 D V :=
  { s with diskPartiallyInserted := b }

/-- The method `VC1541::clearByteReadyLine`. -/
def VC1541.clearByteReadyLine (env : DriveEnv D V A) (s : VC1541 D V) : VC1541 D V :=
  if s.byteReady then
    let s1 := { s with byteReady := false }
    let s2 := { s1 with via2 := env.setCA1 false s1.via2 }
    let s3 := { s2 with via2 := { s2.via2 with ira := s2.readShiftreg % 2 ^ 8 } }
    { s3 with cpuV := true }
  else s

/-- The method `VC1541::raiseByteReadyLine`. -/
def VC1541.raiseByteReadyLine (env : DriveEnv D V A) (s : VC1541 D V) : VC1541 D V :=
  if !s.byteReady then
    let s1 := { s with byteReady := true }
    { s1 with via2 := env.setCA1 true s1.via2 }
  else s

/-- The first statements of `VC1541::executeUF4`: the counter is
incremented, and every fourth call takes a bit from the head (a 1 in read
mode clears the counter) and rotates the disk. -/
def VC1541.executeUF4Counter (env : DriveEnv D V A) (s : VC1541 D V) : VC1541 D V :=
  let s1 := { s with counterUF4 := (s.counterUF4 + 1) % 2 ^ 8 }
  let bitComesIn := s1.carryCounter % 4 == 0
  let s2 := { s1 with carryCounter := s1.carryCounter + 1 }
  if bitComesIn then
    let s21 :=
      if s2.readMode && VC1541.readBitFromHead env s2 then { s2 with counterUF4 := 0 }
      else s2
    VC1541.rotateDisk env s21
  else s2

/-- The statements
`sync = (readShiftreg & 0x3FF) != 0x3FF || writeMode(); if (!sync) byteReadyCounter = 0;`
of `VC1541::executeUF4`. -/
def VC1541.executeUF4Sync (s : VC1541 D V) : VC1541 D V :=
  let s1 := { s with sync := (s.readShiftreg &&& 0x3FF != 0x3FF) || s.writeMode }
  if !s1.sync then { s1 with byteReadyCounter := 0 } else s1

/-- The cases `0x00` and `0x01` of the `switch` in `VC1541::executeUF4`. -/
def VC1541.executeUF4Phase01 (env : DriveEnv D V A) (s : VC1541 D V) : VC1541 D V :=
  if s.byteReadyCounter == 7 && s.via2.ca2_out then VC1541.clearByteReadyLine env s
  else s

/-- The statement
`if (writeMode() && !getLightBarrier()) { writeBitToHead(writeShiftreg & 0x80); disk.setModified(true); }`
of `VC1541::executeUF4`. -/
def VC1541.executeUF4Write (env : DriveEnv D V A) (s : VC1541 D V) : VC1541 D V :=
  if s.writeMode && !env.getLightBarrier s then
    let s1 := VC1541.writeBitToHead env s (s.writeShiftreg &&& 0x80 != 0)
    { s1 with disk := env.setModified true s1.disk }
  else s

/-- The case `0x02` of the `switch` in `VC1541::executeUF4`. -/
def VC1541.executeUF4Phase2 (env : DriveEnv D V A) (s : VC1541 D V) : VC1541 D V :=
  let s1 := VC1541.raiseByteReadyLine env s
  let s2 := { s1 with byteReadyCounter := if s1.sync then (s1.byteReadyCounter + 1) % 8 else 0 }
  let s3 := VC1541.executeUF4Write env s2
  let s4 := { s3 with writeShiftreg := (s3.writeShiftreg <<< 1) % 2 ^ 8 }
  let s5 := { s4 with readShiftreg := (s4.readShiftreg <<< 1) % 2 ^ 16 }
  { s5 with
    readShiftreg := s5.readShiftreg ||| (if s5.counterUF4 &&& 0x0C = 0 then 1 else 0) }

/-- The case `0x03` of the `switch` in `VC1541::executeUF4`. -/
def VC1541.executeUF4Phase3 (s : VC1541 D V) : VC1541 D V :=
  if s.byteReadyCounter == 7 then { s with writeShiftreg := s.via2.pa }
  else s

/-- The `switch (counterUF4 & 0x03)` that ends `VC1541::executeUF4`. -/
def VC1541.executeUF4Logic (env : DriveEnv D V A) (s : VC1541 D V) : VC1541 D V :=
  match s.counterUF4 &&& 0x03 with
  | 0 | 1 => VC1541.executeUF4Phase01 env s
  | 2 => VC1541.executeUF4Phase2 env s
  | _ => VC1541.executeUF4Phase3 s

/-- The method `VC1541::executeUF4`. -/
def VC1541.executeUF4 (env : DriveEnv D V A) (s : VC1541 D V) : VC1541 D V :=
  VC1541.executeUF4Logic env (VC1541.executeUF4Sync (VC1541.executeUF4Counter env s))

/-- The statement
`float position = (float)offset / (float)disk.lengthOfHalftrack(halftrack);`
of `moveHeadUp` and `moveHeadDown`. The quotient is the one of the format
for a positive length; a division by zero is not modelled. -/
def VC1541.headPosition (offset length : Nat) : ℚ :=
  Float32.div (Float32.ofNat offset) (Float32.ofNat length)

/-- The value that the statement
`offset = position * disk.lengthOfHalftrack(halftrack);` of `moveHeadUp` and
`moveHeadDown` stores: the length is converted to `float`, the product is a
`float`, and its conversion to the integer type of `offset` drops the
fraction. -/
def VC1541.headOffset (position : ℚ) (length : Nat) : Nat :=
  Float32.toNat (Float32.mul position (Float32.ofNat length))

/-- The method `VC1541::moveHeadUp`. The `debug` output and the
`assert(disk.isValidHeadPositon(halftrack, offset))` are left out. -/
def VC1541.moveHeadUp (env : DriveEnv D V A) (s : VC1541 D V) : VC1541 D V :=
  let s1 :=
    if s.halftrack < 84 then
      let position := VC1541.headPosition s.offset (env.lengthOfHalftrack s.disk s.halftrack)
      let s01 := { s with halftrack := s.halftrack + 1 }
      { s01 with
        offset := VC1541.headOffset position (env.lengthOfHalftrack s01.disk s01.halftrack) }
    else s
  let s2 := s1.putMessage Message.MSG_VC1541_HEAD_UP
  if s2.halftrack % 2 != 0 && s2.sendSoundMessages then
    s2.putMessage Message.MSG_VC1541_HEAD_UP_SOUND
  else s2

/-- The method `VC1541::moveHeadDown`. The `debug` output and the
`assert(disk.isValidHeadPositon(halftrack, offset))` are left out. -/
def VC1541.moveHeadDown (env : DriveEnv D V A) (s : VC1541 D V) : VC1541 D V :=
  let s1 :=
    if s.halftrack > 1 then
      let position := VC1541.headPosition s.offset (env.lengthOfHalftrack s.disk s.halftrack)
      let s01 := { s with halftrack := s.halftrack - 1 }
      { s01 with
        offset := VC1541.headOffset position (env.lengthOfHalftrack s01.disk s01.halftrack) }
    else s
  let s2 := s1.putMessage Message.MSG_VC1541_HEAD_DOWN
  if s2.halftrack % 2 != 0 && s2.sendSoundMessages then
    s2.putMessage Message.MSG_VC1541_HEAD_DOWN_SOUND
  else s2

/-- The method `VC1541::ejectDisk`. The call of `sleepMicrosec` changes
nothing in the drive. -/
def VC1541.ejectDisk (env : DriveEnv D V A) (s : VC1541 D V) : VC1541 D V :=
  if !s.hasDisk then s
  else
    let s1 := s.setDiskPartiallyInserted true
    let s2 := VC1541.resetDisk env s1
    let s3 := s2.setDiskPartiallyInserted false
    let s4 := s3.putMessage Message.MSG_VC1541_NO_DISK
    if s4.sendSoundMessages then s4.putMessage Message.MSG_VC1541_NO_DISK_SOUND else s4

/-- The statements of `VC1541::insertDisk` that follow the `switch`. -/
def VC1541.insertDiskDone (s : VC1541 D V) : Bool × VC1541 D V :=
  let s1 := { s with diskInserted := true }
  let s2 := s1.putMessage Message.MSG_VC1541_DISK
  let s3 := if s2.sendSoundMessages then s2.putMessage Message.MSG_VC1541_DISK_SOUND else s2
  (true, s3)

/-- The method `VC1541::insertDisk`, with its result; the archive is not a
null pointer (`assert(a != NULL)`). -/
def VC1541.insertDisk (env : DriveEnv D V A) (s : VC1541 D V) (a : A) : Bool × VC1541 D V :=
  match env.type a with
  | ContainerType.D64_CONTAINER =>
    let s1 := VC1541.ejectDisk env s
    VC1541.insertDiskDone { s1 with disk := env.encodeArchive a s1.disk }
  | ContainerType.G64_CONTAINER =>
    let s1 := VC1541.ejectDisk env s
    VC1541.insertDiskDone { s1 with disk := env.encodeArchive a s1.disk }
  | ContainerType.NIB_CONTAINER =>
    let s1 := VC1541.ejectDisk env s
    VC1541.insertDiskDone { s1 with disk := env.encodeArchive a s1.disk }
  | ContainerType.OTHER =>
    match env.makeD64ArchiveWithAnyArchive a with
    | none => (false, s)
    | some converted =>
      let s1 := VC1541.ejectDisk env s
      VC1541.insertDiskDone { s1 with disk := env.encodeArchive converted s1.disk }

/-- The states that the drive reaches from `reset()` by the methods above
and by steps of the other code of the drive (the CPU, the VIAs and the
methods of `VC1541.cpp` that are not modelled), none of which writes
`byteReadyCounter`. -/
inductive VC1541.Reachable (env : DriveEnv D V A) : VC1541 D V → Prop where
  | reset (s : VC1541 D V) : VC1541.Reachable env (VC1541.reset env s)
  | executeUF4 (s : VC1541 D V) :
      VC1541.Reachable env s → VC1541.Reachable env (VC1541.executeUF4 env s)
  | moveHeadUp (s : VC1541 D V) :
      VC1541.Reachable env s → VC1541.Reachable env (VC1541.moveHeadUp env s)
  | moveHeadDown (s : VC1541 D V) :
      VC1541.Reachable env s → VC1541.Reachable env (VC1541.moveHeadDown env s)
  | insertDisk (s : VC1541 D V) (a : A) :
      VC1541.Reachable env s → VC1541.Reachable env (VC1541.insertDisk env s a).2
  | ejectDisk (s : VC1541 D V) :
      VC1541.Reachable env s → VC1541.Reachable env (VC1541.ejectDisk env s)
  | other (s t : VC1541 D V) :
      VC1541.Reachable env s → t.byteReadyCounter = s.byteReadyCounter →
      VC1541.Reachable env t

end Drive

/-- A drive environment without disk data: halftrack `ht` has `length ht`
bits and every bit read from the disk is `bit`. -/
def DriveEnv.sample (length : Nat → Nat) (bit : Bool) : DriveEnv Unit Unit Unit where
  lengthOfHalftrack := fun _ ht => length ht
  readBitFromHalftrack := fun _ _ _ => bit
  writeBitToHalftrack := fun _ _ _ _ => ()
  setModified := fun _ _ => ()
  clearDisk := fun _ => ()
  encodeArchive := fun _ _ => ()
  type := fun _ => ContainerType.OTHER
  makeD64ArchiveWithAnyArchive := fun _ => none
  setCA1 := fun _ via => via
  getLightBarrier := fun _ => false
  resetSubComponents := fun s => s

/-- A drive in read mode with a disk, the head on halftrack 41, as after a
reset, with the given values of `counterUF4`, `carryCounter`,
`byteReadyCounter`, `readShiftreg`, `byteReady` and bit offset. -/
def VC1541.sample (counterUF4 carryCounter byteReadyCounter readShiftreg : Nat)
    (byteReady : Bool) (offset : Nat) : VC1541 Unit Unit where
  sendSoundMessages := true
  durationOfOneCpuCycle := 1000000
  nextCarry := 0
  counterUF4 := counterUF4
  carryCounter := carryCounter
  bitReadyTimer := 0
  byteReadyCounter := byteReadyCounter
  spinning := true
  redLED := false
  diskPartiallyInserted := false
  halftrack := 41
  offset := offset
  zone := 0
  readShiftreg := readShiftreg
  writeShiftreg := 0
  sync := true
  byteReady := byteReady
  diskInserted := true
  disk := ()
  via2 := { pcr := 0x20, ca2_out := true, ira := 0, pa := 0, rest := () }
  cpuPC := 0xEAA0
  cpuV := false
  messages := []

/-! ## The peripheral control register of the VIA (VIA6522.h) -/

/-- The method `VIA6522::shouldClearCB2onRead`; `pcr` is the member
`uint8_t pcr`. -/
def VIA6522.shouldClearCB2onRead (pcr : Nat) : Bool :=
  let b765 := (pcr >>> 5) &&& 0x7
  b765 == 0x0 || b765 == 0x2

/-- The method `VIA6522::shouldClearCB2onWrite`. -/
def VIA6522.shouldClearCB2onWrite (pcr : Nat) : Bool :=
  let b765 := (pcr >>> 5) &&& 0x7
  b765 == 0x0 || b765 == 0x2 || b765 == 0x4 || b765 == 0x5

/-- The method `VIA6522::shouldClearCA2onRead`. -/
def VIA6522.shouldClearCA2onRead (pcr : Nat) : Bool :=
  let b321 := (pcr >>> 1) &&& 0x7
  b321 == 0x0 || b321 == 0x2 || b321 == 0x4 || b321 == 0x5

/-- The method `VIA6522::shouldClearCA2onWrite`. -/
def VIA6522.shouldClearCA2onWrite (pcr : Nat) : Bool :=
  let b321 := (pcr >>> 1) &&& 0x7
  b321 == 0x0 || b321 == 0x2 || b321 == 0x4 || b321 == 0x5

/-- The test of the commented-out method `CB2selectedAsIndependent`: bits
7..5 of `pcr` are 001 or 011. -/
def VIA6522.CB2selectedAsIndependent (pcr : Nat) : Bool :=
  let b765 := (pcr >>> 5) &&& 0x07
  b765 == 0x01 || b765 == 0x03

/-- The test of the commented-out method `CA2selectedAsIndependent`: bits
3..1 of `pcr` are 001 or 011. -/
def VIA6522.CA2selectedAsIndependent (pcr : Nat) : Bool :=
  let b321 := (pcr >>> 1) &&& 0x07
  b321 == 0x01 || b321 == 0x03

/-! ## Reading a program file byte by byte (PRGFile.cpp) -/

/-- The method `PRGArchive::selectItem`. -/
def PRGArchive.selectItem (a : PRGArchive) (_n : Nat) : PRGArchive :=
  let a1 := { a with fp := 2 }
  if a1.fp ≥ (a1.size : Int) then { a1 with fp := -1 } else a1

/-- The method `PRGArchive::getByte`, with the archive after the call. The
result is `none` when the statement `result = data[fp++]` would read outside
`data[0 .. size - 1]`. -/
def PRGArchive.getByte (a : PRGArchive) : Option (Int × PRGArchive) :=
  if a.fp < 0 then some (-1, a)
  else if a.fp < (a.size : Int) then
    let result : Int := (a.data a.fp.toNat : Int)
    let a1 := { a with fp := a.fp + 1 }
    let a2 := if a1.fp = (a1.size : Int) then { a1 with fp := -1 } else a1
    some (result, a2)
  else none

/-- The results of `k` calls of `getByte` in a row, in the order of the
calls, with the archive after the last call; `none` when one of the calls
reads outside the data. -/
def PRGArchive.getBytes : Nat → PRGArchive → Option (List Int × PRGArchive)
  | 0, a => some ([], a)
  | k + 1, a =>
    match a.getByte with
    | none => none
    | some (b, a1) =>
      match PRGArchive.getBytes k a1 with
      | none => none
      | some (bs, a2) => some (b :: bs, a2)

/-- A program file of five bytes: the load address `$0801` and the bytes
`$A9 $00 $60`. -/
def PRGArchive.sample : PRGArchive where
  data := fun i => [0x01, 0x08, 0xA9, 0x00, 0x60].getD i 0
  size := 5
  fp := -1

/-- The results of `k` calls of `getByte`, as the specification gives them
for a file pointer at index `i`: the bytes `data[i], data[i+1], ...` up to
the end of the data and `-1` from then on. -/
def PRGArchive.expected (a : PRGArchive) (i k : Nat) : List Int :=
  (List.range k).map (fun (j : Nat) => if i + j < a.size then (a.data (i + j) : Int) else -1)

/-! ## Attaching a GeoRAM cartridge (Computer/ExpansionPort.cpp) -/

/-- Modelled from the spec: `Cartridge::setRamCapacity` (Cartridge.h of the
version that CustomCartridges.cpp belongs to, source not available). The
on-board RAM of a cartridge has the capacity given, in bytes; a cartridge of
the old class `Cartridge` has no such RAM. -/
def CartridgeObject.setRamCapacity (capacity : Nat) : CartridgeObject → CartridgeObject
  | CartridgeObject.plain c => CartridgeObject.plain c
  | CartridgeObject.geoRAM g =>
    CartridgeObject.geoRAM { g with ramCapacity := capacity, externalRam := fun _ => 0 }

/-- The statements of `ExpansionPort::attachGeoRamCartridge` that build the
cartridge for an accepted capacity; `geo` is the constant `CRT_GEO_RAM`, and
`capacityInBytes` is a `uint32_t`. -/
def ExpansionPort.makeGeoRamCartridge (geo capacity : Nat) : CartridgeObject :=
  let geoRAM := Cartridge.makeWithType geo geo
  let capacityInBytes := (capacity * 1024) % 2 ^ 32
  geoRAM.setRamCapacity capacityInBytes

/-- The method `ExpansionPort::attachGeoRamCartridge`, with its result. -/
def ExpansionPort.attachGeoRamCartridge {Mem : Type} (env : PortEnv Mem CartridgeObject)
    (geo : Nat) (s : ExpansionPort Mem CartridgeObject) (capacity : Nat) :
    Bool × ExpansionPort Mem CartridgeObject :=
  if capacity = 64 ∨ capacity = 128 ∨ capacity = 256 ∨ capacity = 512 ∨ capacity = 1024 ∨
      capacity = 2048 ∨ capacity = 4096 then
    ExpansionPort.attachCartridge env s (ExpansionPort.makeGeoRamCartridge geo capacity)
  else (false, s)

/-- An environment for a port with cartridge objects: a memory subsystem
without state and cartridges that ask for no line change on reset. -/
def CartridgeObject.sampleEnv : PortEnv Unit CartridgeObject where
  updatePeekPokeLookupTables := fun _ => ()
  getUltimax := fun _ => false
  getCartridgeType := fun c => c.getCartridgeType 60
  reset := fun c => (c, [])
  poke := fun c _ _ => c

/-! ## What `switchBank` and `poke` write (Cartridge.cpp) -/

/-- The offsets, relative to `rom[0]`, of the bytes that the call
`memcpy(rom + loadAddr - 0x8000, chip[nr], size)` of `Cartridge::switchBank`
writes: `loadAddr - 0x8000 + k` for `k < size`. There is none when the method
returns before the copy. -/
def Cartridge.switchBankCopy (c : Cartridge) (nr : Nat) : List Int :=
  match c.chip nr with
  | none => []
  | some _ =>
    let loadAddr := c.chipStartAddress nr
    let size := c.chipSize nr
    if 0xFFFF - loadAddr < size then []
    else (List.range size).map (fun (k : Nat) => (loadAddr : Int) - 0x8000 + (k : Int))

/-- The indices `i` of the assignments `blendedIn[i] = 1` that
`Cartridge::switchBank` makes, in order. -/
def Cartridge.switchBankMarks (c : Cartridge) (nr : Nat) : List Nat :=
  match c.chip nr with
  | none => []
  | some _ =>
    let loadAddr := c.chipStartAddress nr
    let size := c.chipSize nr
    if 0xFFFF - loadAddr < size then []
    else List.range' (loadAddr >>> 12) (((loadAddr + size) >>> 12) - (loadAddr >>> 12))

/-- The constant `CRT_SIMONS_BASIC` of the enumeration `CartridgeType`
(Cartridge.h). -/
def CRT_SIMONS_BASIC : Nat := 4

/-- The constant `CRT_OCEAN_TYPE_1`. -/
def CRT_OCEAN_TYPE_1 : Nat := 5

/-- The constant `CRT_C64_GAME_SYSTEM_SYSTEM_3`. -/
def CRT_C64_GAME_SYSTEM_SYSTEM_3 : Nat := 15

/-- A call `switchBank(nr)` made by `Cartridge::poke`: the cartridge changes
and the argument is put on the list of the bank numbers used. For `nr ≥ 64`
the C++ code indexes the arrays `chip`, `chipStartAddress` and `chipSize`
past their 64 entries; the model then takes the values of the functions at
`nr`. -/
def Cartridge.callSwitchBank (r : Cartridge × List Nat) (nr : Nat) : Cartridge × List Nat :=
  (r.1.switchBank nr, r.2 ++ [nr])

/-- The value of the variable `uint8_t bankNumber` after
`bankNumber = addr - 0xDE00`. -/
def Cartridge.bankNumberOfAddr (addr : Nat) : Nat :=
  (((addr : Int) - 0xDE00) % 2 ^ 8).toNat

/-- The method `Cartridge::poke`, with the arguments of its calls of
`switchBank` in order. The case `CRT_SIMONS_BASIC` has no `break` and runs on
into the case `CRT_C64_GAME_SYSTEM_SYSTEM_3`. The `assert` on the address and
the `debug` and `warn` output are left out. -/
def Cartridge.poke (c : Cartridge) (addr value : Nat) : Cartridge × List Nat :=
  let c1 := { c with rom := Function.update c.rom (addr &&& 0x7FFF) value }
  let r : Cartridge × List Nat := (c1, [])
  if c1.type = CRT_NORMAL then r
  else if c1.type = CRT_SIMONS_BASIC then
    let r1 :=
      if addr = 0xDE00 then
        if value = 0x01 then Cartridge.callSwitchBank r 1 else r
      else r
    Cartridge.callSwitchBank r1 (Cartridge.bankNumberOfAddr addr)
  else if c1.type = CRT_C64_GAME_SYSTEM_SYSTEM_3 then
    Cartridge.callSwitchBank r (Cartridge.bankNumberOfAddr addr)
  else if c1.type = CRT_OCEAN_TYPE_1 then
    Cartridge.callSwitchBank r ((value &&& 0x3F) % 2 ^ 8)
  else r

/-- A cartridge with one chip of 8 KiB whose load address `$4000` lies below
the cartridge area, as `attachChip` leaves it for a CRT file with such a chip
packet. -/
def Cartridge.lowChipSample : Cartridge where
  type := 0
  gameLine := true
  exromLine := false
  chip := fun i => if i = 0 then some (List.replicate 0x2000 0x4C) else none
  chipStartAddress := fun i => if i = 0 then 0x4000 else 0
  chipSize := fun i => if i = 0 then 0x2000 else 0
  rom := fun _ => 0
  blendedIn := fun _ => 0

/-- A cartridge of type `CRT_C64_GAME_SYSTEM_SYSTEM_3` with one chip of four
bytes at `$8000`. -/
def Cartridge.gameSystemSample : Cartridge :=
  { Cartridge.sample with type := CRT_C64_GAME_SYSTEM_SYSTEM_3 }

/-! ## Sequences of writes to a MagicDesk cartridge
(Cartridges/CustomCartridges.cpp) -/

/-- A sequence of calls `pokeIO1(addr, value)` of a MagicDesk cartridge, one
for each pair of the list, in order. -/
def MagicDesk.pokes {Mem B : Type} (env : PortEnv Mem (CustomCartridge B))
    (bankIn : Nat → B → B) (s : ExpansionPort Mem (CustomCartridge B))
    (writes : List (Nat × Nat)) : ExpansionPort Mem (CustomCartridge B) :=
  writes.foldl (fun t w => MagicDesk.pokeIO1 env bankIn t w.1 w.2) s

/-! ## Cycle-wise execution of a raster line (C64.cpp) -/

/-- The number of consecutive calls of `C64::executeOneCycle` given, with the
conjunction of their results. -/
def C64.executeCycles {W : Type} (ch : Chips W) : Nat → C64 W → Bool × C64 W
  | 0, s => (true, s)
  | n + 1, s =>
    let r := C64.executeOneCycle ch s
    let r1 := C64.executeCycles ch n r.2
    (r.1 && r1.1, r1.2)

/-! ## One cycle of the drive (VC1541.cpp) -/

section DriveCycle

variable {D V A : Type}

/-- The members read by the carry loop of `VC1541::executeOneCycle` and the
motor flag. -/
def VC1541.clock (s : VC1541 D V) : Int × Nat × Nat × Bool :=
  (s.nextCarry, s.zone, s.durationOfOneCpuCycle, s.spinning)

/-- The loop `while (nextCarry < 0) { nextCarry += delayBetweenTwoCarryPulses[zone]; executeUF4(); }`
of `VC1541::executeOneCycle` with a bound on the number of iterations: `none`
when the bound is used up before the loop ends. The result holds the number
of iterations made. The table `delayBetweenTwoCarryPulses` (VC1541.h, source
not available) is a parameter. `nextCarry` is a signed 64 bit value and is
kept as an integer; the loop keeps it between minus the duration of a cycle
and the delay. -/
def VC1541.carryLoop (env : DriveEnv D V A) (delayBetweenTwoCarryPulses : Nat → Nat) :
    Nat → VC1541 D V → Option (Nat × VC1541 D V)
  | 0, s => if s.nextCarry < 0 then none else some (0, s)
  | fuel + 1, s =>
    if s.nextCarry < 0 then
      let s1 := { s with nextCarry := s.nextCarry + (delayBetweenTwoCarryPulses s.zone : Int) }
      let s2 := VC1541.executeUF4 env s1
      match VC1541.carryLoop env delayBetweenTwoCarryPulses fuel s2 with
      | none => none
      | some r => some (r.1 + 1, r.2)
    else some (0, s)

/-- The method `VC1541::executeOneCycle`: its result, the number of calls of
`executeUF4` and the drive afterwards. `executeSubComponents` stands for the
statements `via1.execute(); via2.execute(); uint8_t result = cpu.executeOneCycle();`,
whose code is in other files; it returns `result` and may change the drive
through the methods that the VIAs call. -/
def VC1541.executeOneCycle (env : DriveEnv D V A)
    (executeSubComponents : VC1541 D V → Bool × VC1541 D V)
    (delayBetweenTwoCarryPulses : Nat → Nat) (fuel : Nat) (s : VC1541 D V) :
    Option (Bool × Nat × VC1541 D V) :=
  let r := executeSubComponents s
  if !r.2.spinning then some (r.1, 0, r.2)
  else
    let s1 := { r.2 with nextCarry := r.2.nextCarry - (r.2.durationOfOneCpuCycle : Int) }
    match VC1541.carryLoop env delayBetweenTwoCarryPulses fuel s1 with
    | none => none
    | some q => some (r.1, q.1, q.2)

end DriveCycle

/-- Sub components of the drive that succeed and change nothing. -/
def VC1541.sampleSubComponents (s : VC1541 Unit Unit) : Bool × VC1541 Unit Unit :=
  (true, s)

/-- A drive environment whose disk is the list of the bits written so far,
the newest first; the light barrier is blocked by a partially inserted disk
and VIA 2 ignores `setCA1`. -/
def DriveEnv.recording : DriveEnv (List Bool) Unit Unit where
  lengthOfHalftrack := fun _ _ => 61536
  readBitFromHalftrack := fun _ _ _ => false
  writeBitToHalftrack := fun disk _ _ bit => bit :: disk
  setModified := fun _ disk => disk
  clearDisk := fun _ => []
  encodeArchive := fun _ disk => disk
  type := fun _ => ContainerType.OTHER
  makeD64ArchiveWithAnyArchive := fun _ => none
  setCA1 := fun _ via => via
  getLightBarrier := fun s => s.diskPartiallyInserted
  resetSubComponents := fun s => s

/-- A spinning drive for `DriveEnv.recording` with an empty record of
written bits, `counterUF4 = 1`, `carryCounter = 1`, `$80` in the write shift
register and the given value of `via2.pcr` (`$20` is read mode). -/
def VC1541.recordingSample (pcr : Nat) : VC1541 (List Bool) Unit where
  sendSoundMessages := true
  durationOfOneCpuCycle := 1000000
  nextCarry := 0
  counterUF4 := 1
  carryCounter := 1
  bitReadyTimer := 0
  byteReadyCounter := 0
  spinning := true
  redLED := false
  diskPartiallyInserted := false
  halftrack := 41
  offset := 0
  zone := 0
  readShiftreg := 0
  writeShiftreg := 0x80
  sync := true
  byteReady := false
  diskInserted := true
  disk := []
  via2 := { pcr := pcr, ca2_out := true, ira := 0, pa := 0, rest := () }
  cpuPC := 0xEAA0
  cpuV := false
  messages := []

/-! ## The size assertions of the snapshot methods
(Cartridge.cpp, Cartridges/CustomCartridges.cpp, Computer/ExpansionPort.cpp) -/

/-- The method `Cartridge::saveToBuffer` with its last statement
`assert(*buffer - old == stateSize())`: `none` when the assertion fails. The
call `stateSize()` is not qualified, and `stateSize` is its value for the
object that the method runs on. -/
def Cartridge.saveToBufferChecked (c : Cartridge) (stateSize : Nat) (buffer : List Nat) :
    Option (List Nat) :=
  let saved := c.saveToBuffer buffer
  if saved.length - buffer.length = stateSize then some saved else none

/-- The method `GeoRAM::saveToBuffer` with its check
`if (*buffer - old != stateSize()) { assert(false); }` and the assertion of
the call `Cartridge::saveToBuffer(buffer)`: `none` when an assertion fails.
`virtualStateSize` says whether `stateSize` is a virtual method (it is
declared in VirtualComponent.h, source not available): the unqualified call
in `Cartridge::saveToBuffer`, run on a `GeoRAM` object, is
`GeoRAM::stateSize()` when it is and `Cartridge::stateSize()` when it is
not. -/
def GeoRAM.saveToBufferChecked (virtualStateSize : Bool) (g : GeoRAM) (buffer : List Nat) :
    Option (List Nat) :=
  match g.base.saveToBufferChecked
      (if virtualStateSize then g.stateSize else g.base.stateSize) buffer with
  | none => none
  | some b1 =>
    let b2 := write8 b1 g.bank
    let b3 := write8 b2 g.page
    if b3.length - buffer.length ≠ g.stateSize then none else some b3

/-- The virtual method `saveToBuffer` with the assertions. -/
def CartridgeObject.saveToBufferChecked (virtualStateSize : Bool) (buffer : List Nat) :
    CartridgeObject → Option (List Nat)
  | CartridgeObject.plain c => c.saveToBufferChecked c.stateSize buffer
  | CartridgeObject.geoRAM g => g.saveToBufferChecked virtualStateSize buffer

/-- The value of the call `cartridge->stateSize()` of
`ExpansionPort::stateSize`, made through a pointer to `Cartridge`. -/
def CartridgeObject.stateSizeOfPointer (virtualStateSize : Bool) : CartridgeObject → Nat
  | CartridgeObject.plain c => c.stateSize
  | CartridgeObject.geoRAM g => if virtualStateSize then g.stateSize else g.base.stateSize

/-- The method `ExpansionPort::saveToBuffer` with its last statement
`assert(*buffer - old == stateSize())` and the assertions of the cartridge:
`none` when an assertion fails. -/
def ExpansionPort.saveToBufferChecked {Mem : Type} (geo : Nat) (virtualStateSize : Bool)
    (s : ExpansionPort Mem CartridgeObject) (buffer : List Nat) : Option (List Nat) :=
  let b1 := write16 buffer (CartridgeObject.typeOf geo s.cartridge)
  let b2 := write8 b1 (if s.gameLinePhi1 then 1 else 0)
  let b3 := write8 b2 (if s.gameLinePhi2 then 1 else 0)
  let b4 := write8 b3 (if s.exromLinePhi1 then 1 else 0)
  let b5 := write8 b4 (if s.exromLinePhi2 then 1 else 0)
  let saved :=
    match s.cartridge with
    | some c => c.saveToBufferChecked virtualStateSize b5
    | none => some b5
  match saved with
  | none => none
  | some b6 =>
    let stateSize := 6 + (match s.cartridge with
      | some c => c.stateSizeOfPointer virtualStateSize
      | none => 0)
    if b6.length - buffer.length = stateSize then some b6 else none

/-! ## The write statement of the drive (VC1541.cpp) -/

section DriveWriteStatement

variable {D V A : Type}

/-- The drive at the statement `if (writeMode() && !getLightBarrier())` of
the case `0x02` of `VC1541::executeUF4`, for a call that starts in `s`: the
statements before the `switch`, `raiseByteReadyLine()` and the update of
`byteReadyCounter` have run. -/
def VC1541.executeUF4BeforeWrite (env : DriveEnv D V A) (s : VC1541 D V) : VC1541 D V :=
  let s0 := VC1541.executeUF4Sync (VC1541.executeUF4Counter env s)
  let s1 := VC1541.raiseByteReadyLine env s0
  { s1 with byteReadyCounter := if s1.sync then (s1.byteReadyCounter + 1) % 8 else 0 }

end DriveWriteStatement

/-! # Theorems -/

/-! ## Expansion port -/

section PortTheorems

variable {Mem Cart : Type}

theorem ExpansionPort.perform_cartridge (env : PortEnv Mem Cart) (s : ExpansionPort Mem Cart)
    (cmd : LineCmd) : (ExpansionPort.perform env s cmd).cartridge = s.cartridge := by
  cases cmd <;> rfl

theorem ExpansionPort.foldl_perform_cartridge (env : PortEnv Mem Cart) (cmds : List LineCmd) :
    ∀ s : ExpansionPort Mem Cart,
      (cmds.foldl (ExpansionPort.perform env) s).cartridge = s.cartridge := by
  induction cmds with
  | nil => intro s; rfl
  | cons cmd rest ih =>
    intro s
    rw [List.foldl_cons, ih, ExpansionPort.perform_cartridge]

theorem ExpansionPort.attachCartridge_cartridge (env : PortEnv Mem Cart)
    (s : ExpansionPort Mem Cart) (c : Cart) :
    (ExpansionPort.attachCartridge env s c).2.cartridge = some (env.reset c).1 := by
  simp only [ExpansionPort.attachCartridge]
  rw [ExpansionPort.foldl_perform_cartridge]

theorem ExpansionPort.detachCartridge_of_some (env : PortEnv Mem Cart)
    (s : ExpansionPort Mem Cart) (c : Cart) (h : s.cartridge = some c) :
    (ExpansionPort.detachCartridge env s).cartridge = none ∧
    (ExpansionPort.detachCartridge env s).gameLinePhi1 = true ∧
    (ExpansionPort.detachCartridge env s).gameLinePhi2 = true ∧
    (ExpansionPort.detachCartridge env s).exromLinePhi1 = true ∧
    (ExpansionPort.detachCartridge env s).exromLinePhi2 = true := by
  unfold ExpansionPort.detachCartridge
  rw [h]
  exact ⟨rfl, rfl, rfl, rfl, rfl⟩

/-- C1: `setGameLinePhi1(v)` and `setExromLinePhi1(v)` latch `v` in their
line and leave the other Phi1 line alone. After `setGameLinePhi1(v)` the
Ultimax flag handed to the VIC is `!v && exromLinePhi1`, after
`setExromLinePhi1(v)` it is `!gameLinePhi1 && v`; in both cases it is the
value passed to `vic.setUltimax`, and it is true exactly when the latched
Phi1 lines are GAME = 0 and EXROM = 1. -/
theorem C1_ultimax_recomputed_from_phi1_lines (s : ExpansionPort Mem Cart) (v : Bool) :
    (ExpansionPort.setGameLinePhi1 s v).gameLinePhi1 = v ∧
    (ExpansionPort.setGameLinePhi1 s v).exromLinePhi1 = s.exromLinePhi1 ∧
    (ExpansionPort.setExromLinePhi1 s v).gameLinePhi1 = s.gameLinePhi1 ∧
    (ExpansionPort.setExromLinePhi1 s v).exromLinePhi1 = v ∧
    (ExpansionPort.setGameLinePhi1 s v).vicUltimax = (!v && s.exromLinePhi1) ∧
    (ExpansionPort.setExromLinePhi1 s v).vicUltimax = (!s.gameLinePhi1 && v) ∧
    (ExpansionPort.setGameLinePhi1 s v).c64.trace =
      s.c64.trace ++ [Event.vicSetUltimax (!v && s.exromLinePhi1)] ∧
    (ExpansionPort.setExromLinePhi1 s v).c64.trace =
      s.c64.trace ++ [Event.vicSetUltimax (!s.gameLinePhi1 && v)] ∧
    ((ExpansionPort.setGameLinePhi1 s v).vicUltimax = true ↔
      (ExpansionPort.setGameLinePhi1 s v).gameLinePhi1 = false ∧
      (ExpansionPort.setGameLinePhi1 s v).exromLinePhi1 = true) ∧
    ((ExpansionPort.setExromLinePhi1 s v).vicUltimax = true ↔
      (ExpansionPort.setExromLinePhi1 s v).gameLinePhi1 = false ∧
      (ExpansionPort.setExromLinePhi1 s v).exromLinePhi1 = true) := by
  refine ⟨rfl, rfl, rfl, rfl, rfl, rfl, rfl, rfl, ?_, ?_⟩
  · simp [ExpansionPort.setGameLinePhi1]
  · simp [ExpansionPort.setExromLinePhi1]

/-- C2: attaching a cartridge and detaching it again leaves no cartridge
attached, GAME and EXROM at 1 in both clock phases and the cartridge type
`CRT_NONE`; detaching from a port without a cartridge changes nothing (in
particular the message queue). -/
theorem C2_attach_detach_restores_lines (env : PortEnv Mem Cart)
    (s : ExpansionPort Mem Cart) (c : Cart) :
    (ExpansionPort.detachCartridge env (ExpansionPort.attachCartridge env s c).2).cartridge
      = none ∧
    (ExpansionPort.detachCartridge env
      (ExpansionPort.attachCartridge env s c).2).gameLinePhi1 = true ∧
    (ExpansionPort.detachCartridge env
      (ExpansionPort.attachCartridge env s c).2).gameLinePhi2 = true ∧
    (ExpansionPort.detachCartridge env
      (ExpansionPort.attachCartridge env s c).2).exromLinePhi1 = true ∧
    (ExpansionPort.detachCartridge env
      (ExpansionPort.attachCartridge env s c).2).exromLinePhi2 = true ∧
    ExpansionPort.getCartridgeType env
      (ExpansionPort.detachCartridge env (ExpansionPort.attachCartridge env s c).2)
      = CRT_NONE ∧
    ExpansionPort.detachCartridge env { s with cartridge := none }
      = { s with cartridge := none } := by
  obtain ⟨h1, h2, h3, h4, h5⟩ := ExpansionPort.detachCartridge_of_some env
    (ExpansionPort.attachCartridge env s c).2 (env.reset c).1
    (ExpansionPort.attachCartridge_cartridge env s c)
  refine ⟨h1, h2, h3, h4, h5, ?_, rfl⟩
  unfold ExpansionPort.getCartridgeType
  rw [h1]

/-- C3: `ExpansionPort::poke(a, v)` leaves the whole RAM unchanged when
Ultimax mode is active; otherwise it stores `v` at `ram[a]` and leaves every
other RAM byte unchanged. In both cases the attached cartridge, if any,
receives the write. -/
theorem C3_poke_ram_only_outside_ultimax (env : PortEnv Mem Cart)
    (s : ExpansionPort Mem Cart) (a v : Nat) :
    (env.getUltimax s.mem = true → (ExpansionPort.poke env s a v).ram = s.ram) ∧
    (env.getUltimax s.mem = false →
      (ExpansionPort.poke env s a v).ram a = v ∧
      ∀ b, b ≠ a → (ExpansionPort.poke env s a v).ram b = s.ram b) ∧
    (ExpansionPort.poke env s a v).cartridge
      = s.cartridge.map (fun c => env.poke c a v) := by
  unfold ExpansionPort.poke
  cases hc : s.cartridge <;> cases hu : env.getUltimax s.mem <;>
    simp [hu, hc] <;> intro b hb <;> exact Function.update_noteq hb _ _

end PortTheorems

/-! ## Scheduler: one cycle -/

section SchedulerTheorems

variable {W : Type}

theorem C64._executeOneCycle_trace (ch : Chips W) (s : C64 W) :
    let s0 : C64 W := { s with cycle := (s.cycle + 1) % 2 ^ 64 }
    let s1 := C64.vicStep ch s0
    let s2 := C64.cia1Step ch s0.cycle s1
    let s3 := C64.cia2Step ch s0.cycle s2
    let s4 := C64.iecStep ch s3
    let r5 := C64.cpuStep ch s4
    let r6 := C64.drive1Step ch r5.2
    (C64._executeOneCycle ch s).2.trace =
      s.trace ++ [Event.vicfunc s.rasterCycle]
        ++ [if s0.cycle ≥ ch.cia1WakeUpCycle s1.chips
            then Event.cia1ExecuteOneCycle else Event.cia1Idle]
        ++ [if s0.cycle ≥ ch.cia2WakeUpCycle s2.chips
            then Event.cia2ExecuteOneCycle else Event.cia2Idle]
        ++ (if ch.iecIsDirtyC64Side s3.chips then [Event.iecUpdateIecLinesC64Side] else [])
        ++ [Event.cpuExecuteOneCycle]
        ++ (if ch.drive1IsPoweredOn r5.2.chips then [Event.drive1Execute] else [])
        ++ (if ch.drive2IsPoweredOn r6.2.chips then [Event.drive2Execute] else [])
        ++ [Event.datasetteExecute] := by
  intro s0 s1 s2 s3 s4 r5 r6
  have h1 : s1.trace = s.trace ++ [Event.vicfunc s.rasterCycle] := rfl
  have h2 : s2.trace = s1.trace ++ [if s0.cycle ≥ ch.cia1WakeUpCycle s1.chips
      then Event.cia1ExecuteOneCycle else Event.cia1Idle] := by
    show (C64.cia1Step ch s0.cycle s1).trace = _
    unfold C64.cia1Step
    split <;> rfl
  have h3 : s3.trace = s2.trace ++ [if s0.cycle ≥ ch.cia2WakeUpCycle s2.chips
      then Event.cia2ExecuteOneCycle else Event.cia2Idle] := by
    show (C64.cia2Step ch s0.cycle s2).trace = _
    unfold C64.cia2Step
    split <;> rfl
  have h4 : s4.trace = s3.trace ++
      (if ch.iecIsDirtyC64Side s3.chips then [Event.iecUpdateIecLinesC64Side] else []) := by
    show (C64.iecStep ch s3).trace = _
    unfold C64.iecStep
    split
    · rfl
    · simp
  have h5 : r5.2.trace = s4.trace ++ [Event.cpuExecuteOneCycle] := rfl
  have h6 : r6.2.trace = r5.2.trace ++
      (if ch.drive1IsPoweredOn r5.2.chips then [Event.drive1Execute] else []) := by
    show (C64.drive1Step ch r5.2).2.trace = _
    unfold C64.drive1Step
    split
    · rfl
    · simp
  have h7 : (C64.drive2Step ch r6.2).2.trace = r6.2.trace ++
      (if ch.drive2IsPoweredOn r6.2.chips then [Event.drive2Execute] else []) := by
    unfold C64.drive2Step
    split
    · rfl
    · simp
  show (C64.datasetteStep ch (C64.drive2Step ch r6.2).2).trace = _
  show (C64.drive2Step ch r6.2).2.trace ++ [Event.datasetteExecute] = _
  rw [h7, h6, h5, h4, h3, h2, h1]

/-- C6: within `_executeOneCycle` the components are called in the order
VIC function of the current raster cycle, CIA1, CIA2, IEC update (exactly if
the dirty flag is set after CIA2), CPU, drive 1 and drive 2 (each exactly if
powered on at that point), datasette. The VIC, CIA, CPU and datasette entries
are on the trace for every state; for a CIA the entry is its execution when
`cycle >= wakeUpCycle` and the increment of its idle counter otherwise. -/
theorem C6_cycle_component_order (ch : Chips W) (s : C64 W) :
    let s0 : C64 W := { s with cycle := (s.cycle + 1) % 2 ^ 64 }
    let s1 := C64.vicStep ch s0
    let s2 := C64.cia1Step ch s0.cycle s1
    let s3 := C64.cia2Step ch s0.cycle s2
    let s4 := C64.iecStep ch s3
    let r5 := C64.cpuStep ch s4
    let r6 := C64.drive1Step ch r5.2
    (C64._executeOneCycle ch s).2.trace =
      s.trace ++ [Event.vicfunc s.rasterCycle]
        ++ [if s0.cycle ≥ ch.cia1WakeUpCycle s1.chips
            then Event.cia1ExecuteOneCycle else Event.cia1Idle]
        ++ [if s0.cycle ≥ ch.cia2WakeUpCycle s2.chips
            then Event.cia2ExecuteOneCycle else Event.cia2Idle]
        ++ (if ch.iecIsDirtyC64Side s3.chips then [Event.iecUpdateIecLinesC64Side] else [])
        ++ [Event.cpuExecuteOneCycle]
        ++ (if ch.drive1IsPoweredOn r5.2.chips then [Event.drive1Execute] else [])
        ++ (if ch.drive2IsPoweredOn r6.2.chips then [Event.drive2Execute] else [])
        ++ [Event.datasetteExecute] :=
  C64._executeOneCycle_trace ch s

theorem cyclesOn_append_single (t : List Event) (e : Event) :
    cyclesOn (t ++ [e]) = cyclesOn t + if e = Event.cpuExecuteOneCycle then 1 else 0 := by
  unfold cyclesOn
  rw [List.count_append]
  by_cases h : e = Event.cpuExecuteOneCycle
  · subst h; simp
  · rw [if_neg h, List.count_singleton]
    simp [h]

theorem endFramesOn_append_single (t : List Event) (e : Event) :
    endFramesOn (t ++ [e]) = endFramesOn t + if e = Event.vicEndFrame then 1 else 0 := by
  unfold endFramesOn
  rw [List.count_append]
  by_cases h : e = Event.vicEndFrame
  · subst h; simp
  · rw [if_neg h, List.count_singleton]
    simp [h]

theorem linesOn_append_single (t : List Event) (e : Event) :
    linesOn (t ++ [e]) = linesOn t + if e = Event.vicEndRasterline then 1 else 0 := by
  unfold linesOn
  rw [List.count_append]
  by_cases h : e = Event.vicEndRasterline
  · subst h; simp
  · rw [if_neg h, List.count_singleton]
    simp [h]

theorem Event.ne_of_not_counted (e : Event) (h : e.counted = false) :
    e ≠ Event.cpuExecuteOneCycle ∧ e ≠ Event.vicEndFrame ∧ e ≠ Event.vicEndRasterline := by
  refine ⟨?_, ?_, ?_⟩ <;> intro he <;> subst he <;> cases h

theorem C64.call_gauge (s : C64 W) (f : C64 W → W) (e : Event)
    (h : e.counted = false) :
    (s.call f e).gauge = s.gauge := by
  simp only [C64.gauge, C64.call, cyclesOn_append_single, endFramesOn_append_single,
    linesOn_append_single, if_neg (Event.ne_of_not_counted e h).1,
    if_neg (Event.ne_of_not_counted e h).2.1, if_neg (Event.ne_of_not_counted e h).2.2,
    Nat.add_zero]

theorem C64.vicStep_gauge (ch : Chips W) (s : C64 W) :
    (C64.vicStep ch s).gauge = s.gauge :=
  C64.call_gauge _ _ _ (by rfl)

theorem C64.cia1Step_gauge (ch : Chips W) (c : Nat) (s : C64 W) :
    (C64.cia1Step ch c s).gauge = s.gauge := by
  unfold C64.cia1Step
  split <;> exact C64.call_gauge _ _ _ (by rfl)

theorem C64.cia2Step_gauge (ch : Chips W) (c : Nat) (s : C64 W) :
    (C64.cia2Step ch c s).gauge = s.gauge := by
  unfold C64.cia2Step
  split <;> exact C64.call_gauge _ _ _ (by rfl)

theorem C64.iecStep_gauge (ch : Chips W) (s : C64 W) :
    (C64.iecStep ch s).gauge = s.gauge := by
  unfold C64.iecStep
  split
  · exact C64.call_gauge _ _ _ (by rfl)
  · rfl

theorem C64.cpuStep_gauge (ch : Chips W) (s : C64 W) :
    (C64.cpuStep ch s).2.gauge =
      (s.gauge.1, s.gauge.2.1, s.gauge.2.2.1, s.gauge.2.2.2.1, s.gauge.2.2.2.2.1 + 1,
        s.gauge.2.2.2.2.2.1, s.gauge.2.2.2.2.2.2) := by
  simp only [C64.gauge, C64.cpuStep, C64.callResult, cyclesOn_append_single,
    endFramesOn_append_single, linesOn_append_single, if_true,
    if_neg (show Event.cpuExecuteOneCycle ≠ Event.vicEndFrame by intro h; cases h),
    if_neg (show Event.cpuExecuteOneCycle ≠ Event.vicEndRasterline by intro h; cases h),
    Nat.add_zero]

theorem C64.callResult_gauge (s : C64 W) (f : C64 W → Bool × W) (e : Event)
    (h : e.counted = false) :
    (s.callResult f e).2.gauge = s.gauge := by
  simp only [C64.gauge, C64.callResult, cyclesOn_append_single, endFramesOn_append_single,
    linesOn_append_single, if_neg (Event.ne_of_not_counted e h).1,
    if_neg (Event.ne_of_not_counted e h).2.1, if_neg (Event.ne_of_not_counted e h).2.2,
    Nat.add_zero]

theorem C64.drive1Step_gauge (ch : Chips W) (s : C64 W) :
    (C64.drive1Step ch s).2.gauge = s.gauge := by
  unfold C64.drive1Step
  split
  · exact C64.callResult_gauge _ _ _ (by rfl)
  · rfl

theorem C64.drive2Step_gauge (ch : Chips W) (s : C64 W) :
    (C64.drive2Step ch s).2.gauge = s.gauge := by
  unfold C64.drive2Step
  split
  · exact C64.callResult_gauge _ _ _ (by rfl)
  · rfl

theorem C64.datasetteStep_gauge (ch : Chips W) (s : C64 W) :
    (C64.datasetteStep ch s).gauge = s.gauge :=
  C64.call_gauge _ _ _ (by rfl)

theorem C64._executeOneCycle_gauge (ch : Chips W) (s : C64 W) :
    (C64._executeOneCycle ch s).2.gauge =
      ((s.cycle + 1) % 2 ^ 64, s.frame, s.rasterLine, s.rasterCycle + 1,
        cyclesOn s.trace + 1, endFramesOn s.trace, linesOn s.trace) := by
  let s0 : C64 W := { s with cycle := (s.cycle + 1) % 2 ^ 64 }
  let s4 := C64.iecStep ch (C64.cia2Step ch s0.cycle (C64.cia1Step ch s0.cycle
    (C64.vicStep ch s0)))
  let s8 := C64.datasetteStep ch (C64.drive2Step ch (C64.drive1Step ch
    (C64.cpuStep ch s4).2).2).2
  have h4 : s4.gauge = s0.gauge := by
    show (C64.iecStep ch _).gauge = _
    rw [C64.iecStep_gauge, C64.cia2Step_gauge, C64.cia1Step_gauge, C64.vicStep_gauge]
  have h8 : s8.gauge = (s0.gauge.1, s0.gauge.2.1, s0.gauge.2.2.1, s0.gauge.2.2.2.1,
      s0.gauge.2.2.2.2.1 + 1, s0.gauge.2.2.2.2.2.1, s0.gauge.2.2.2.2.2.2) := by
    show (C64.datasetteStep ch _).gauge = _
    rw [C64.datasetteStep_gauge, C64.drive2Step_gauge, C64.drive1Step_gauge,
      C64.cpuStep_gauge, h4]
  show ({ s8 with rasterCycle := s8.rasterCycle + 1 } : C64 W).gauge = _
  simp only [C64.gauge, Prod.mk.injEq] at h8
  obtain ⟨b1, b2, b3, b4, b5, b6, b7⟩ := h8
  simp only [C64.gauge, Prod.mk.injEq]
  exact ⟨b1, b2, b3, by rw [b4], b5, b6, b7⟩

theorem C64.trace_append_gauge (s : C64 W) (e : Event)
    (h : e.counted = false) :
    ({ s with trace := s.trace ++ [e] } : C64 W).gauge = s.gauge := by
  simp only [C64.gauge, cyclesOn_append_single, endFramesOn_append_single,
    linesOn_append_single, if_neg (Event.ne_of_not_counted e h).1,
    if_neg (Event.ne_of_not_counted e h).2.1, if_neg (Event.ne_of_not_counted e h).2.2,
    Nat.add_zero]

theorem C64.getWarp_gauge (ch : Chips W) (s : C64 W) :
    (C64.getWarp ch s).2.gauge = s.gauge := by
  unfold C64.getWarp
  simp only []
  split
  · rw [C64.trace_append_gauge _ _ (by rfl)]
    split
    · exact C64.call_gauge _ _ _ (by rfl)
    · rw [C64.call_gauge _ _ _ (by rfl),
        C64.call_gauge _ _ _ (by rfl)]
      rfl
  · rfl

theorem C64.endFrame_gauge (ch : Chips W) (s : C64 W) :
    (C64.endFrame ch s).gauge =
      (s.cycle, s.frame + 1, s.rasterLine, s.rasterCycle, cyclesOn s.trace,
        endFramesOn s.trace + 1, linesOn s.trace) := by
  let s1 : C64 W := { s with frame := s.frame + 1 }
  let s2 := s1.call ch.vicEndFrame Event.vicEndFrame
  let s3 := s2.call ch.cia1IncrementTOD Event.cia1IncrementTOD
  let s4 := s3.call ch.cia2IncrementTOD Event.cia2IncrementTOD
  let s5 := s4.call ch.sidExecuteUntil (Event.sidExecuteUntil s4.cycle)
  let s6 := s5.call ch.iecExecute Event.iecExecute
  let s7 := s6.call ch.expansionportExecute Event.expansionportExecute
  let s8 := s7.call ch.port1Execute Event.port1Execute
  let s9 := s8.call ch.port2Execute Event.port2Execute
  let s10 := if s9.mousePort != 0 then s9.call ch.mouseExecute Event.mouseExecute else s9
  let s11 :=
    if decide (s10.snapshotInterval > 0) && ch.autoSnapshotDue s10 then
      s10.call ch.takeAutoSnapshot Event.takeAutoSnapshot
    else s10
  have h2 : s2.gauge = (s.cycle, s.frame + 1, s.rasterLine, s.rasterCycle, cyclesOn s.trace,
      endFramesOn s.trace + 1, linesOn s.trace) := by
    simp only [s2, s1, C64.gauge, C64.call, cyclesOn_append_single, endFramesOn_append_single,
      linesOn_append_single, if_true,
      if_neg (show Event.vicEndFrame ≠ Event.cpuExecuteOneCycle by intro h; cases h),
      if_neg (show Event.vicEndFrame ≠ Event.vicEndRasterline by intro h; cases h),
      Nat.add_zero]
  have h9 : s9.gauge = s2.gauge := by
    show (C64.call _ _ _).gauge = _
    rw [C64.call_gauge _ _ _ (by rfl),
      C64.call_gauge _ _ _ (by rfl),
      C64.call_gauge _ _ _ (by rfl),
      C64.call_gauge _ _ _ (by rfl),
      C64.call_gauge _ _ _ (by rfl),
      C64.call_gauge _ _ _ (by rfl),
      C64.call_gauge _ _ _ (by rfl)]
  have h10 : s10.gauge = s9.gauge := by
    show (if s9.mousePort != 0 then s9.call ch.mouseExecute Event.mouseExecute
      else s9).gauge = _
    split
    · exact C64.call_gauge _ _ _ (by rfl)
    · rfl
  have h11 : s11.gauge = s10.gauge := by
    show (if decide (s10.snapshotInterval > 0) && ch.autoSnapshotDue s10 then
      s10.call ch.takeAutoSnapshot Event.takeAutoSnapshot else s10).gauge = _
    split
    · exact C64.call_gauge _ _ _ (by rfl)
    · rfl
  show (if !(C64.getWarp ch s11).1 then
      (C64.getWarp ch s11).2.call ch.synchronizeTiming Event.synchronizeTiming
    else (C64.getWarp ch s11).2).gauge = _
  split
  · rw [C64.call_gauge _ _ _ (by rfl),
      C64.getWarp_gauge, h11, h10, h9, h2]
  · rw [C64.getWarp_gauge, h11, h10, h9, h2]

theorem C64.beginRasterLine_gauge (ch : Chips W) (s : C64 W) :
    (C64.beginRasterLine ch s).gauge = s.gauge := by
  unfold C64.beginRasterLine
  simp only []
  rw [C64.call_gauge _ _ _ (by rfl)]
  split
  · exact C64.call_gauge _ _ _ (by rfl)
  · rfl

theorem C64.endRasterLine_gauge (ch : Chips W) (s : C64 W) :
    (C64.endRasterLine ch s).gauge =
      if s.rasterLine + 1 ≥ ch.getRasterlinesPerFrame then
        (s.cycle, s.frame + 1, 0, 1, cyclesOn s.trace, endFramesOn s.trace + 1,
          linesOn s.trace + 1)
      else
        (s.cycle, s.frame, s.rasterLine + 1, 1, cyclesOn s.trace, endFramesOn s.trace,
          linesOn s.trace + 1) := by
  have hc : (s.call ch.vicEndRasterline Event.vicEndRasterline).gauge =
      (s.cycle, s.frame, s.rasterLine, s.rasterCycle, cyclesOn s.trace, endFramesOn s.trace,
        linesOn s.trace + 1) := by
    simp only [C64.gauge, C64.call, cyclesOn_append_single, endFramesOn_append_single,
      linesOn_append_single, if_true,
      if_neg (show Event.vicEndRasterline ≠ Event.cpuExecuteOneCycle by intro h; cases h),
      if_neg (show Event.vicEndRasterline ≠ Event.vicEndFrame by intro h; cases h),
      Nat.add_zero]
  simp only [C64.gauge, Prod.mk.injEq] at hc
  obtain ⟨c1, c2, c3, c4, c5, c6, c7⟩ := hc
  unfold C64.endRasterLine
  simp only []
  rw [c3]
  split
  · rw [C64.endFrame_gauge]
    simp only [c1, c2, c5, c6, c7]
  · simp only [C64.gauge, c1, c2, c3, c5, c6, c7]

/-! ## Scheduler: lines and frames -/

theorem C64.fields_of_gauge (s : C64 W) (g : Nat × Nat × Nat × Nat × Nat × Nat × Nat)
    (h : s.gauge = g) :
    s.cycle = g.1 ∧ s.frame = g.2.1 ∧ s.rasterLine = g.2.2.1 ∧ s.rasterCycle = g.2.2.2.1 ∧
    cyclesOn s.trace = g.2.2.2.2.1 ∧ endFramesOn s.trace = g.2.2.2.2.2.1 ∧
    linesOn s.trace = g.2.2.2.2.2.2 := by
  subst h
  exact ⟨rfl, rfl, rfl, rfl, rfl, rfl, rfl⟩

theorem C64.endRasterLine_position (ch : Chips W) (hL : 1 ≤ ch.getRasterlinesPerFrame)
    (s : C64 W) :
    (C64.endRasterLine ch s).rasterCycle = 1 ∧
    (C64.endRasterLine ch s).rasterLine < ch.getRasterlinesPerFrame := by
  obtain ⟨_, _, h3, h4, _, _, _⟩ := C64.fields_of_gauge _ _ (C64.endRasterLine_gauge ch s)
  split at h3 <;> split at h4 <;> simp only [] at h3 h4 <;> omega

theorem C64.executeOneLineLoop_gauge (ch : Chips W) (lastCycle : Nat) :
    ∀ (n i : Nat) (s : C64 W), (C64.executeOneLineLoop ch lastCycle n i s).1 = true →
      (C64.executeOneLineLoop ch lastCycle n i s).2.gauge =
        if s.rasterLine + 1 ≥ ch.getRasterlinesPerFrame then
          (if n = 0 then s.cycle else (s.cycle + n) % 2 ^ 64, s.frame + 1, 0, 1,
            cyclesOn s.trace + n, endFramesOn s.trace + 1, linesOn s.trace + 1)
        else
          (if n = 0 then s.cycle else (s.cycle + n) % 2 ^ 64, s.frame, s.rasterLine + 1, 1,
            cyclesOn s.trace + n, endFramesOn s.trace, linesOn s.trace + 1) := by
  intro n
  induction n with
  | zero =>
    intro i s _
    show (C64.endRasterLine ch s).gauge = _
    rw [C64.endRasterLine_gauge]
    simp
  | succ n ih =>
    intro i s h
    unfold C64.executeOneLineLoop at h ⊢
    simp only [] at h ⊢
    cases hr : (C64._executeOneCycle ch s).1 with
    | false => simp [hr] at h
    | true =>
      simp only [hr, Bool.not_true, Bool.false_eq_true, if_false] at h ⊢
      rw [ih _ _ h]
      obtain ⟨e1, e2, e3, _, e5, e6, e7⟩ :=
        C64.fields_of_gauge _ _ (C64._executeOneCycle_gauge ch s)
      simp only [] at e1 e2 e3 e5 e6 e7
      rw [e1, e2, e3, e5, e6, e7]
      have hc : (if n = 0 then (s.cycle + 1) % 2 ^ 64
          else ((s.cycle + 1) % 2 ^ 64 + n) % 2 ^ 64) = (s.cycle + (n + 1)) % 2 ^ 64 := by
        split <;> omega
      rw [hc, if_neg (Nat.succ_ne_zero n)]
      have hn : cyclesOn s.trace + 1 + n = cyclesOn s.trace + (n + 1) := by omega
      rw [hn]

theorem C64.executeOneLineLoop_success (ch : Chips W) (lastCycle : Nat)
    (hok : ∀ t, (C64._executeOneCycle ch t).1 = true) :
    ∀ (n i : Nat) (s : C64 W), (C64.executeOneLineLoop ch lastCycle n i s).1 = true := by
  intro n
  induction n with
  | zero => intro i s; rfl
  | succ n ih =>
    intro i s
    unfold C64.executeOneLineLoop
    simp only [hok s, Bool.not_true, Bool.false_eq_true, if_false]
    exact ih _ _

theorem C64.executeOneLineLoop_position (ch : Chips W)
    (hN : 1 ≤ ch.getCyclesPerRasterline) (hL : 1 ≤ ch.getRasterlinesPerFrame) :
    ∀ (n i : Nat) (s : C64 W), i + n = ch.getCyclesPerRasterline + 1 → 1 ≤ i →
      s.rasterCycle = i → s.rasterLine < ch.getRasterlinesPerFrame →
      1 ≤ (C64.executeOneLineLoop ch ch.getCyclesPerRasterline n i s).2.rasterCycle ∧
      (C64.executeOneLineLoop ch ch.getCyclesPerRasterline n i s).2.rasterCycle
        ≤ ch.getCyclesPerRasterline ∧
      (C64.executeOneLineLoop ch ch.getCyclesPerRasterline n i s).2.rasterLine
        < ch.getRasterlinesPerFrame := by
  intro n
  induction n with
  | zero =>
    intro i s _ _ _ _
    obtain ⟨h1, h2⟩ := C64.endRasterLine_position ch hL s
    have hz : C64.executeOneLineLoop ch ch.getCyclesPerRasterline 0 i s
        = (true, C64.endRasterLine ch s) := rfl
    rw [hz]
    dsimp only
    exact ⟨by omega, by omega, h2⟩
  | succ n ih =>
    intro i s hin hi hrc hrl
    obtain ⟨_, _, e3, e4, _, _, _⟩ :=
      C64.fields_of_gauge _ _ (C64._executeOneCycle_gauge ch s)
    simp only [] at e3 e4
    unfold C64.executeOneLineLoop
    simp only []
    cases hr : (C64._executeOneCycle ch s).1 with
    | true =>
      simp only [Bool.not_true, Bool.false_eq_true, if_false]
      exact ih (i + 1) _ (by omega) (by omega) (by omega) (by omega)
    | false =>
      simp only [Bool.not_false, if_true]
      by_cases hlast : i = ch.getCyclesPerRasterline
      · simp only [hlast, beq_self_eq_true, if_true]
        obtain ⟨h1, h2⟩ := C64.endRasterLine_position ch hL (C64._executeOneCycle ch s).2
        exact ⟨by omega, by omega, h2⟩
      · have hb : (i == ch.getCyclesPerRasterline) = false := by simpa using hlast
        simp only [hb, Bool.false_eq_true, if_false]
        exact ⟨by omega, by omega, by omega⟩

theorem C64.executeOneLine_position (ch : Chips W)
    (hN : 1 ≤ ch.getCyclesPerRasterline) (hL : 1 ≤ ch.getRasterlinesPerFrame) (s : C64 W)
    (h1 : 1 ≤ s.rasterCycle) (h2 : s.rasterCycle ≤ ch.getCyclesPerRasterline)
    (h3 : s.rasterLine < ch.getRasterlinesPerFrame) :
    1 ≤ (C64.executeOneLine ch s).2.rasterCycle ∧
    (C64.executeOneLine ch s).2.rasterCycle ≤ ch.getCyclesPerRasterline ∧
    (C64.executeOneLine ch s).2.rasterLine < ch.getRasterlinesPerFrame := by
  unfold C64.executeOneLine
  simp only []
  have hg : (if s.rasterCycle == 1 then C64.beginRasterLine ch s else s).gauge = s.gauge := by
    split
    · exact C64.beginRasterLine_gauge ch s
    · rfl
  obtain ⟨_, _, g3, g4, _, _, _⟩ := C64.fields_of_gauge _ _ hg
  simp only [C64.gauge] at g3 g4
  exact C64.executeOneLineLoop_position ch hN hL _ _ _ (by omega) (by omega) rfl (by omega)

theorem C64.executeOneLine_gauge (ch : Chips W) (s : C64 W)
    (h2 : s.rasterCycle ≤ ch.getCyclesPerRasterline)
    (hok : (C64.executeOneLine ch s).1 = true) :
    (C64.executeOneLine ch s).2.gauge =
      if s.rasterLine + 1 ≥ ch.getRasterlinesPerFrame then
        ((s.cycle + (ch.getCyclesPerRasterline + 1 - s.rasterCycle)) % 2 ^ 64, s.frame + 1, 0, 1,
          cyclesOn s.trace + (ch.getCyclesPerRasterline + 1 - s.rasterCycle),
          endFramesOn s.trace + 1, linesOn s.trace + 1)
      else
        ((s.cycle + (ch.getCyclesPerRasterline + 1 - s.rasterCycle)) % 2 ^ 64, s.frame,
          s.rasterLine + 1, 1,
          cyclesOn s.trace + (ch.getCyclesPerRasterline + 1 - s.rasterCycle),
          endFramesOn s.trace, linesOn s.trace + 1) := by
  have hg : (if s.rasterCycle == 1 then C64.beginRasterLine ch s else s).gauge = s.gauge := by
    split
    · exact C64.beginRasterLine_gauge ch s
    · rfl
  obtain ⟨g1, g2, g3, g4, g5, g6, g7⟩ := C64.fields_of_gauge _ _ hg
  simp only [C64.gauge] at g1 g2 g3 g4 g5 g6 g7
  unfold C64.executeOneLine at hok ⊢
  simp only [] at hok ⊢
  rw [C64.executeOneLineLoop_gauge ch _ _ _ _ hok, g1, g2, g3, g4, g5, g6, g7,
    if_neg (show ch.getCyclesPerRasterline + 1 - s.rasterCycle ≠ 0 by omega)]

theorem C64.executeOneLine_success (ch : Chips W)
    (hok : ∀ t, (C64._executeOneCycle ch t).1 = true) (s : C64 W) :
    (C64.executeOneLine ch s).1 = true :=
  C64.executeOneLineLoop_success ch _ hok _ _ _

theorem C64.executeOneCycle_position (ch : Chips W)
    (hL : 1 ≤ ch.getRasterlinesPerFrame)
    (hlast : ∀ c, ch.isLastCycleInRasterline c = true ↔ c = ch.getCyclesPerRasterline)
    (s : C64 W) (h1 : 1 ≤ s.rasterCycle) (h2 : s.rasterCycle ≤ ch.getCyclesPerRasterline)
    (h3 : s.rasterLine < ch.getRasterlinesPerFrame) :
    1 ≤ (C64.executeOneCycle ch s).2.rasterCycle ∧
    (C64.executeOneCycle ch s).2.rasterCycle ≤ ch.getCyclesPerRasterline ∧
    (C64.executeOneCycle ch s).2.rasterLine < ch.getRasterlinesPerFrame := by
  have hg : (if s.rasterCycle == 1 then C64.beginRasterLine ch s else s).gauge = s.gauge := by
    split
    · exact C64.beginRasterLine_gauge ch s
    · rfl
  obtain ⟨_, _, g3, g4, _, _, _⟩ := C64.fields_of_gauge _ _ hg
  obtain ⟨_, _, e3, e4, _, _, _⟩ := C64.fields_of_gauge _ _ (C64._executeOneCycle_gauge ch
    (if s.rasterCycle == 1 then C64.beginRasterLine ch s else s))
  simp only [C64.gauge] at g3 g4 e3 e4
  unfold C64.executeOneCycle
  dsimp only
  cases hl : ch.isLastCycleInRasterline s.rasterCycle with
  | true =>
    simp only [if_true]
    obtain ⟨p1, p2⟩ := C64.endRasterLine_position ch hL (C64._executeOneCycle ch
      (if s.rasterCycle == 1 then C64.beginRasterLine ch s else s)).2
    exact ⟨by omega, by omega, p2⟩
  | false =>
    simp only [Bool.false_eq_true, if_false]
    have hne : s.rasterCycle ≠ ch.getCyclesPerRasterline := by
      intro h
      rw [(hlast s.rasterCycle).mpr h] at hl
      cases hl
    exact ⟨by omega, by omega, by omega⟩

theorem C64.reset_position (ch : Chips W) (s : C64 W) :
    (C64.reset ch s).rasterCycle = 1 ∧ (C64.reset ch s).rasterLine = 0 :=
  ⟨rfl, rfl⟩

theorem C64.executeOneFrame_position (ch : Chips W)
    (hN : 1 ≤ ch.getCyclesPerRasterline) (hL : 1 ≤ ch.getRasterlinesPerFrame) :
    ∀ (fuel : Nat) (s : C64 W) (r : Bool × C64 W),
      1 ≤ s.rasterCycle → s.rasterCycle ≤ ch.getCyclesPerRasterline →
      s.rasterLine < ch.getRasterlinesPerFrame → C64.executeOneFrame ch fuel s = some r →
      1 ≤ r.2.rasterCycle ∧ r.2.rasterCycle ≤ ch.getCyclesPerRasterline ∧
      r.2.rasterLine < ch.getRasterlinesPerFrame := by
  intro fuel
  induction fuel with
  | zero =>
    intro s r _ _ _ h
    simp [C64.executeOneFrame] at h
  | succ fuel ih =>
    intro s r h1 h2 h3 h
    obtain ⟨p1, p2, p3⟩ := C64.executeOneLine_position ch hN hL s h1 h2 h3
    unfold C64.executeOneFrame at h
    dsimp only at h
    split at h
    · cases h
      exact ⟨p1, p2, p3⟩
    · split at h
      · exact ih _ _ p1 p2 p3 h
      · cases h
        exact ⟨p1, p2, p3⟩

theorem C64.executeOneFrame_gauge (ch : Chips W) :
    ∀ (fuel m : Nat) (s : C64 W),
      1 ≤ s.rasterCycle → s.rasterCycle ≤ ch.getCyclesPerRasterline →
      s.rasterLine + m + 1 = ch.getRasterlinesPerFrame → m + 1 ≤ fuel →
      ∃ r, C64.executeOneFrame ch fuel s = some r ∧
        ((∀ t, (C64._executeOneCycle ch t).1 = true) → r.1 = true) ∧
        (r.1 = true → r.2.gauge =
          ((s.cycle + ((ch.getCyclesPerRasterline - s.rasterCycle + 1)
              + m * ch.getCyclesPerRasterline)) % 2 ^ 64,
            s.frame + 1, 0, 1,
            cyclesOn s.trace + ((ch.getCyclesPerRasterline - s.rasterCycle + 1)
              + m * ch.getCyclesPerRasterline),
            endFramesOn s.trace + 1, linesOn s.trace + (m + 1))) := by
  intro fuel
  induction fuel with
  | zero => intro m s _ _ _ h; omega
  | succ fuel ih =>
    intro m s h1 h2 hm hf
    unfold C64.executeOneFrame
    dsimp only
    cases hr : (C64.executeOneLine ch s).1 with
    | false =>
      refine ⟨_, rfl, ?_, ?_⟩
      · intro hok
        rw [C64.executeOneLine_success ch hok s] at hr
        cases hr
      · intro h
        cases h
    | true =>
      have hg := C64.executeOneLine_gauge ch s h2 hr
      simp only [Bool.not_true, Bool.false_eq_true, if_false]
      cases m with
      | zero =>
        rw [if_pos (by omega)] at hg
        obtain ⟨_, _, g3, _, _, _, _⟩ := C64.fields_of_gauge _ _ hg
        dsimp only at g3
        simp only [g3, bne_self_eq_false, Bool.false_eq_true, if_false]
        refine ⟨_, rfl, fun _ => rfl, fun _ => ?_⟩
        rw [hg]
        have e : ch.getCyclesPerRasterline + 1 - s.rasterCycle
            = ch.getCyclesPerRasterline - s.rasterCycle + 1 + 0 * ch.getCyclesPerRasterline := by
          omega
        rw [e]
      | succ m =>
        rw [if_neg (by omega)] at hg
        obtain ⟨g1, g2, g3, g4, g5, g6, g7⟩ := C64.fields_of_gauge _ _ hg
        dsimp only at g1 g2 g3 g4 g5 g6 g7
        have hne : ((C64.executeOneLine ch s).2.rasterLine != 0) = true := by
          rw [g3]; simp
        simp only [hne, if_true]
        obtain ⟨r, hr1, hr2, hr3⟩ := ih m (C64.executeOneLine ch s).2 (by omega) (by omega)
          (by omega) (by omega)
        refine ⟨r, hr1, hr2, fun hok => ?_⟩
        rw [hr3 hok, g1, g2, g4, g5, g6, g7]
        have hmul : (m + 1) * ch.getCyclesPerRasterline
            = m * ch.getCyclesPerRasterline + ch.getCyclesPerRasterline := Nat.succ_mul _ _
        have e1 : ((s.cycle + (ch.getCyclesPerRasterline + 1 - s.rasterCycle)) % 2 ^ 64
            + (ch.getCyclesPerRasterline - 1 + 1 + m * ch.getCyclesPerRasterline)) % 2 ^ 64
            = (s.cycle + (ch.getCyclesPerRasterline - s.rasterCycle + 1
              + (m + 1) * ch.getCyclesPerRasterline)) % 2 ^ 64 := by
          rw [hmul]; omega
        have e2 : cyclesOn s.trace + (ch.getCyclesPerRasterline + 1 - s.rasterCycle)
            + (ch.getCyclesPerRasterline - 1 + 1 + m * ch.getCyclesPerRasterline)
            = cyclesOn s.trace + (ch.getCyclesPerRasterline - s.rasterCycle + 1
              + (m + 1) * ch.getCyclesPerRasterline) := by
          rw [hmul]; omega
        have e3 : linesOn s.trace + 1 + (m + 1) = linesOn s.trace + (m + 1 + 1) := by omega
        rw [e1, e2, e3]

theorem C64.runCycles_gauge (ch : Chips W) :
    ∀ (n : Nat) (s : C64 W),
      (C64.runCycles ch n s).cycle = (if n = 0 then s.cycle else (s.cycle + n) % 2 ^ 64) ∧
      cyclesOn (C64.runCycles ch n s).trace = cyclesOn s.trace + n := by
  intro n
  induction n with
  | zero => intro s; exact ⟨rfl, rfl⟩
  | succ n ih =>
    intro s
    obtain ⟨e1, _, _, _, e5, _, _⟩ := C64.fields_of_gauge _ _ (C64._executeOneCycle_gauge ch s)
    dsimp only at e1 e5
    obtain ⟨i1, i2⟩ := ih (C64._executeOneCycle ch s).2
    show (C64.runCycles ch n (C64._executeOneCycle ch s).2).cycle = _ ∧
      cyclesOn (C64.runCycles ch n (C64._executeOneCycle ch s).2).trace = _
    rw [i1, i2, e1, e5, if_neg (Nat.succ_ne_zero n)]
    constructor
    · split <;> omega
    · omega

/-- C4: every call of `_executeOneCycle` sets `cpu.cycle` to its successor
modulo `2 ^ 64`, whatever the components report; `n` calls put `n` CPU cycles
on the trace and advance a 64 bit counter by `n` modulo `2 ^ 64`, so that the
counter grows by exactly `n` as long as it does not pass `2 ^ 64`. -/
theorem C4_cycle_counter_advances (ch : Chips W) (s : C64 W) (n : Nat) :
    (C64._executeOneCycle ch s).2.cycle = (s.cycle + 1) % 2 ^ 64 ∧
    cyclesOn (C64.runCycles ch n s).trace = cyclesOn s.trace + n ∧
    (s.cycle < 2 ^ 64 → (C64.runCycles ch n s).cycle = (s.cycle + n) % 2 ^ 64) ∧
    (s.cycle + n < 2 ^ 64 → (C64.runCycles ch n s).cycle = s.cycle + n ∧
      s.cycle ≤ (C64.runCycles ch n s).cycle) := by
  obtain ⟨e1, _, _, _, _, _, _⟩ := C64.fields_of_gauge _ _ (C64._executeOneCycle_gauge ch s)
  obtain ⟨r1, r2⟩ := C64.runCycles_gauge ch n s
  refine ⟨e1, r2, fun h => ?_, fun h => ?_⟩
  · rw [r1]; split <;> omega
  · rw [r1]; split <;> omega

/-- C4 at a concrete input: two cycles from the last value of the 64 bit
counter wrap around to 1. -/
theorem C4_cycle_counter_advances_witness :
    (C64._executeOneCycle (Chips.idle 63 312)
      { C64.idleAt 0 1 with cycle := 2 ^ 64 - 1 }).2.cycle = 0 ∧
    (C64.runCycles (Chips.idle 63 312) 2
      { C64.idleAt 0 1 with cycle := 2 ^ 64 - 1 }).cycle = 1 :=
  ⟨(C4_cycle_counter_advances (Chips.idle 63 312)
      { C64.idleAt 0 1 with cycle := 2 ^ 64 - 1 } 2).1,
    (C4_cycle_counter_advances (Chips.idle 63 312)
      { C64.idleAt 0 1 with cycle := 2 ^ 64 - 1 } 2).2.2.1 (by decide)⟩

theorem C64.Reachable.position (ch : Chips W)
    (hN : 1 ≤ ch.getCyclesPerRasterline) (hL : 1 ≤ ch.getRasterlinesPerFrame)
    (hlast : ∀ c, ch.isLastCycleInRasterline c = true ↔ c = ch.getCyclesPerRasterline)
    (s : C64 W) (h : C64.Reachable ch s) :
    1 ≤ s.rasterCycle ∧ s.rasterCycle ≤ ch.getCyclesPerRasterline ∧
    s.rasterLine < ch.getRasterlinesPerFrame := by
  induction h with
  | reset s0 =>
    obtain ⟨h1, h2⟩ := C64.reset_position ch s0
    exact ⟨by omega, by omega, by omega⟩
  | executeOneCycle s0 _ ih =>
    exact C64.executeOneCycle_position ch hL hlast s0 ih.1 ih.2.1 ih.2.2
  | executeOneLine s0 _ ih =>
    exact C64.executeOneLine_position ch hN hL s0 ih.1 ih.2.1 ih.2.2
  | executeOneFrame s0 fuel r _ hr ih =>
    exact C64.executeOneFrame_position ch hN hL fuel s0 r ih.1 ih.2.1 ih.2.2 hr

/-- C5: in every state reachable from `reset()` by calls of
`executeOneCycle`, `executeOneLine` and `executeOneFrame`, whatever the
components report, `0 <= rasterCycle <= cyclesPerRasterline` and
`0 <= rasterLine < rasterlinesPerFrame`; from such a state
`executeOneFrame` returns within `rasterlinesPerFrame` iterations. The
frame geometry is fixed with at least one cycle and one line, and
`isLastCycleInRasterline(c)` holds exactly for `c = cyclesPerRasterline`. -/
theorem C5_raster_position_in_range (ch : Chips W)
    (hN : 1 ≤ ch.getCyclesPerRasterline) (hL : 1 ≤ ch.getRasterlinesPerFrame)
    (hlast : ∀ c, ch.isLastCycleInRasterline c = true ↔ c = ch.getCyclesPerRasterline)
    (s : C64 W) (h : C64.Reachable ch s) :
    (0 ≤ s.rasterCycle ∧ s.rasterCycle ≤ ch.getCyclesPerRasterline) ∧
    (0 ≤ s.rasterLine ∧ s.rasterLine < ch.getRasterlinesPerFrame) ∧
    ∃ r, C64.executeOneFrame ch ch.getRasterlinesPerFrame s = some r := by
  obtain ⟨p1, p2, p3⟩ := C64.Reachable.position ch hN hL hlast s h
  refine ⟨⟨Nat.zero_le _, p2⟩, ⟨Nat.zero_le _, p3⟩, ?_⟩
  obtain ⟨r, hr, _⟩ := C64.executeOneFrame_gauge ch ch.getRasterlinesPerFrame
    (ch.getRasterlinesPerFrame - s.rasterLine - 1) s p1 p2 (by omega) (by omega)
  exact ⟨r, hr⟩

/-- C5 at a concrete input: the PAL geometry (63 cycles, 312 lines) with a
CPU that fails in every cycle, and the state after `reset()` followed by
one `executeOneLine`, which gives up after the first cycle of the line. -/
theorem C5_raster_position_in_range_witness :
    (1 ≤ (Chips.jammed 63 312).getCyclesPerRasterline ∧
      1 ≤ (Chips.jammed 63 312).getRasterlinesPerFrame ∧
      (∀ c, (Chips.jammed 63 312).isLastCycleInRasterline c = true ↔
        c = (Chips.jammed 63 312).getCyclesPerRasterline) ∧
      C64.Reachable (Chips.jammed 63 312)
        (C64.executeOneLine (Chips.jammed 63 312)
          (C64.reset (Chips.jammed 63 312) (C64.idleAt 5 7))).2) ∧
    (C64.executeOneLine (Chips.jammed 63 312)
      (C64.reset (Chips.jammed 63 312) (C64.idleAt 5 7))).1 = false ∧
    (C64.executeOneLine (Chips.jammed 63 312)
      (C64.reset (Chips.jammed 63 312) (C64.idleAt 5 7))).2.rasterCycle = 2 ∧
    (C64.executeOneLine (Chips.jammed 63 312)
      (C64.reset (Chips.jammed 63 312) (C64.idleAt 5 7))).2.rasterCycle ≤ 63 ∧
    (C64.executeOneLine (Chips.jammed 63 312)
      (C64.reset (Chips.jammed 63 312) (C64.idleAt 5 7))).2.rasterLine < 312 :=
  have hlast : ∀ c, (Chips.jammed 63 312).isLastCycleInRasterline c = true ↔
      c = (Chips.jammed 63 312).getCyclesPerRasterline := fun c => by
    simp [Chips.jammed, Chips.idle]
  have hreach : C64.Reachable (Chips.jammed 63 312)
      (C64.executeOneLine (Chips.jammed 63 312)
        (C64.reset (Chips.jammed 63 312) (C64.idleAt 5 7))).2 :=
    C64.Reachable.executeOneLine _ (C64.Reachable.reset _)
  ⟨⟨by decide, by decide, hlast, hreach⟩, rfl, rfl,
    (C5_raster_position_in_range (Chips.jammed 63 312) (by decide) (by decide) hlast _
      hreach).1.2,
    (C5_raster_position_in_range (Chips.jammed 63 312) (by decide) (by decide) hlast _
      hreach).2.1.2⟩

/-- C7: from `rasterLine = k < L` and `rasterCycle = c` with `1 <= c <= N`,
`executeOneFrame` returns once at least `L - k` iterations are allowed. It
returns `true` if every cycle succeeds, and whenever it returns `true` it has
executed exactly `(N - c + 1) + (L - k - 1) * N` cycles (on the trace and on
`cpu.cycle` modulo `2 ^ 64`), has ended `L - k` raster lines, has called
`endFrame` once, has raised `frame` by one and ends at `rasterLine = 0`,
`rasterCycle = 1`. From `(0, 1)` these are `L` raster lines and `L * N`
cycles. -/
theorem C7_frame_cycle_count (ch : Chips W) (s : C64 W) (fuel : Nat)
    (hc1 : 1 ≤ s.rasterCycle) (hcN : s.rasterCycle ≤ ch.getCyclesPerRasterline)
    (hk : s.rasterLine < ch.getRasterlinesPerFrame)
    (hfuel : ch.getRasterlinesPerFrame - s.rasterLine ≤ fuel) :
    ∃ r, C64.executeOneFrame ch fuel s = some r ∧
      ((∀ t, (C64._executeOneCycle ch t).1 = true) → r.1 = true) ∧
      (r.1 = true →
        cyclesOn r.2.trace = cyclesOn s.trace +
          ((ch.getCyclesPerRasterline - s.rasterCycle + 1) +
            (ch.getRasterlinesPerFrame - s.rasterLine - 1) * ch.getCyclesPerRasterline) ∧
        r.2.cycle = (s.cycle +
          ((ch.getCyclesPerRasterline - s.rasterCycle + 1) +
            (ch.getRasterlinesPerFrame - s.rasterLine - 1) * ch.getCyclesPerRasterline))
          % 2 ^ 64 ∧
        linesOn r.2.trace = linesOn s.trace + (ch.getRasterlinesPerFrame - s.rasterLine) ∧
        endFramesOn r.2.trace = endFramesOn s.trace + 1 ∧
        r.2.frame = s.frame + 1 ∧ r.2.rasterLine = 0 ∧ r.2.rasterCycle = 1 ∧
        (s.rasterLine = 0 → s.rasterCycle = 1 →
          linesOn r.2.trace = linesOn s.trace + ch.getRasterlinesPerFrame ∧
          cyclesOn r.2.trace = cyclesOn s.trace +
            ch.getRasterlinesPerFrame * ch.getCyclesPerRasterline)) := by
  obtain ⟨r, hr, hok, hg⟩ := C64.executeOneFrame_gauge ch fuel
    (ch.getRasterlinesPerFrame - s.rasterLine - 1) s hc1 hcN (by omega) (by omega)
  refine ⟨r, hr, hok, fun h => ?_⟩
  obtain ⟨g1, g2, g3, g4, g5, g6, g7⟩ := C64.fields_of_gauge _ _ (hg h)
  dsimp only at g1 g2 g3 g4 g5 g6 g7
  have g7' : linesOn r.2.trace
      = linesOn s.trace + (ch.getRasterlinesPerFrame - s.rasterLine) := by
    rw [g7]; omega
  refine ⟨g5, g1, g7', g6, g2, g3, g4, fun h0 h1 => ⟨by rw [g7', h0]; rfl, ?_⟩⟩
  rw [g5, h0, h1]
  obtain ⟨m, hm⟩ : ∃ m, ch.getRasterlinesPerFrame = m + 1 :=
    ⟨ch.getRasterlinesPerFrame - 1, by omega⟩
  rw [hm, Nat.succ_mul]
  have : m + 1 - 0 - 1 = m := by omega
  rw [this]
  omega

/-- C7 at a concrete input: a PAL frame (63 cycles, 312 lines) started at
line 100, cycle 17, with components that always succeed. -/
theorem C7_frame_cycle_count_witness :
    (1 ≤ (C64.idleAt 100 17).rasterCycle ∧
      (C64.idleAt 100 17).rasterCycle ≤ (Chips.idle 63 312).getCyclesPerRasterline ∧
      (C64.idleAt 100 17).rasterLine < (Chips.idle 63 312).getRasterlinesPerFrame ∧
      (Chips.idle 63 312).getRasterlinesPerFrame - (C64.idleAt 100 17).rasterLine ≤ 212) ∧
    ∃ r, C64.executeOneFrame (Chips.idle 63 312) 212 (C64.idleAt 100 17) = some r ∧
      r.1 = true ∧ cyclesOn r.2.trace = 13340 ∧ r.2.rasterLine = 0 ∧ r.2.rasterCycle = 1 :=
  ⟨⟨by decide, by decide, by decide, by decide⟩,
    (C7_frame_cycle_count (Chips.idle 63 312) (C64.idleAt 100 17) 212
      (by decide) (by decide) (by decide) (by decide)).elim
      (fun r h => ⟨r, h.1, h.2.1 (fun _ => rfl), (h.2.2 (h.2.1 (fun _ => rfl))).1,
        (h.2.2 (h.2.1 (fun _ => rfl))).2.2.2.2.2.1,
        (h.2.2 (h.2.1 (fun _ => rfl))).2.2.2.2.2.2.1⟩)⟩

/-! ## Warp -/

/-- C9: `getWarp()` returns `(warpLoad && iec.isBusy()) || alwaysWarp` and
leaves that value in `warp`. If the value equals the previous `warp` the
state does not change at all; if warp is entered the only changes are
`sid.rampDown()` and `MSG_WARP_ON`; if warp is left the only changes are
`sid.rampUp()`, `restartTimer()` and `MSG_WARP_OFF`. -/
theorem C9_getWarp_transitions (ch : Chips W) (s : C64 W) :
    (C64.getWarp ch s).1 = ((s.warpLoad && ch.iecIsBusy s.chips) || s.alwaysWarp) ∧
    (C64.getWarp ch s).2.warp = (C64.getWarp ch s).1 ∧
    (((s.warpLoad && ch.iecIsBusy s.chips) || s.alwaysWarp) = s.warp →
      (C64.getWarp ch s).2 = s) ∧
    (((s.warpLoad && ch.iecIsBusy s.chips) || s.alwaysWarp) = true → s.warp = false →
      (C64.getWarp ch s).2 =
        { s with
          warp := true
          chips := ch.sidRampDown { s with warp := true }
          trace := s.trace ++ [Event.sidRampDown, Event.putMessage Message.MSG_WARP_ON] }) ∧
    (((s.warpLoad && ch.iecIsBusy s.chips) || s.alwaysWarp) = false → s.warp = true →
      (C64.getWarp ch s).2 =
        { s with
          warp := false
          chips := ch.restartTimer
            (({ s with warp := false } : C64 W).call ch.sidRampUp Event.sidRampUp)
          trace := s.trace ++ [Event.sidRampUp, Event.restartTimer,
            Event.putMessage Message.MSG_WARP_OFF] }) := by
  unfold C64.getWarp
  dsimp only
  cases hn : ((s.warpLoad && ch.iecIsBusy s.chips) || s.alwaysWarp) <;>
    cases hw : s.warp <;> simp [C64.call, hw]

end SchedulerTheorems

/-! ## Suspend and resume -/

theorem C64.suspend_of_running (e : Executor) (h : e.p = true) :
    (C64.suspend e).p = false ∧ (C64.suspend e).suspendCounter = e.suspendCounter + 1 ∧
    C64.isRunnable (C64.suspend e) = C64.isRunnable e := by
  simp [C64.suspend, C64.halt, C64.isHalted, C64.isRunning, C64.isRunnable, h]

theorem C64.suspend_of_nested (e : Executor) (h : e.p = false) (hc : e.suspendCounter ≠ 0) :
    (C64.suspend e).p = false ∧ (C64.suspend e).suspendCounter = e.suspendCounter + 1 ∧
    C64.isRunnable (C64.suspend e) = C64.isRunnable e := by
  simp [C64.suspend, C64.halt, C64.isHalted, C64.isRunning, C64.isRunnable, h, hc]

theorem C64.suspend_of_idle (e : Executor) (h : e.p = false) (hc : e.suspendCounter = 0) :
    C64.suspend e = e := by
  simp [C64.suspend, C64.isHalted, h, hc]

theorem C64.resume_of_zero (e : Executor) (hc : e.suspendCounter = 0) :
    C64.resume e = e := by
  simp [C64.resume, hc]

theorem C64.run_suspendCounter (e : Executor) :
    (C64.run e).suspendCounter = e.suspendCounter := by
  unfold C64.run C64.putMessage
  split
  · split <;> rfl
  · rfl

theorem C64.run_isRunnable (e : Executor) :
    C64.isRunnable (C64.run e) = C64.isRunnable e := by
  unfold C64.run C64.putMessage
  split
  · split <;> rfl
  · rfl

theorem C64.run_p_of_runnable (e : Executor) (h : e.p = false)
    (hr : C64.isRunnable e = true) : (C64.run e).p = true := by
  simp [C64.run, C64.isHalted, h, hr]

theorem C64.resume_of_pos (e : Executor) (hc : e.suspendCounter ≠ 0) :
    C64.resume e =
      if e.suspendCounter - 1 = 0 then C64.run { e with suspendCounter := e.suspendCounter - 1 }
      else { e with suspendCounter := e.suspendCounter - 1 } := by
  simp [C64.resume, hc]

theorem C64.resume_of_nested (e : Executor) (h : e.p = false) (m : Nat)
    (hc : e.suspendCounter = m + 2) :
    (C64.resume e).p = false ∧ (C64.resume e).suspendCounter = m + 1 ∧
    C64.isRunnable (C64.resume e) = C64.isRunnable e := by
  rw [C64.resume_of_pos e (by omega), if_neg (by omega)]
  exact ⟨h, by simp [hc], rfl⟩

theorem C64.resume_of_last (e : Executor) (h : e.p = false) (hc : e.suspendCounter = 1)
    (hr : C64.isRunnable e = true) :
    (C64.resume e).p = true ∧ (C64.resume e).suspendCounter = 0 := by
  rw [C64.resume_of_pos e (by omega), if_pos (by omega)]
  refine ⟨C64.run_p_of_runnable _ h hr, ?_⟩
  rw [C64.run_suspendCounter]
  simp [hc]

theorem C64.resume_lowers_by_one (e : Executor) (hc : e.suspendCounter ≠ 0) :
    (C64.resume e).suspendCounter + 1 = e.suspendCounter := by
  rw [C64.resume_of_pos e hc]
  split
  · rw [C64.run_suspendCounter]
    simp only
    omega
  · simp only
    omega

theorem C64.iterate_suspend_of_running (e : Executor) (h : e.p = true)
    (hc : e.suspendCounter = 0) (k : Nat) :
    (C64.suspend^[k + 1] e).p = false ∧ (C64.suspend^[k + 1] e).suspendCounter = k + 1 ∧
    C64.isRunnable (C64.suspend^[k + 1] e) = C64.isRunnable e := by
  induction k with
  | zero =>
    obtain ⟨h1, h2, h3⟩ := C64.suspend_of_running e h
    exact ⟨h1, by simpa [hc] using h2, h3⟩
  | succ k ih =>
    obtain ⟨h1, h2, h3⟩ := ih
    rw [Function.iterate_succ_apply']
    obtain ⟨g1, g2, g3⟩ := C64.suspend_of_nested _ h1 (by omega)
    exact ⟨g1, by omega, g3.trans h3⟩

theorem C64.iterate_resume_of_nested (j : Nat) :
    ∀ (e : Executor) (m : Nat), e.p = false → e.suspendCounter = m + 1 + j →
      (C64.resume^[j] e).p = false ∧ (C64.resume^[j] e).suspendCounter = m + 1 ∧
      C64.isRunnable (C64.resume^[j] e) = C64.isRunnable e := by
  induction j with
  | zero => intro e m h hc; exact ⟨h, hc, rfl⟩
  | succ j ih =>
    intro e m h hc
    rw [Function.iterate_succ_apply]
    obtain ⟨g1, g2, g3⟩ := C64.resume_of_nested e h (m + j) (by omega)
    obtain ⟨f1, f2, f3⟩ := ih (C64.resume e) m g1 (by omega)
    exact ⟨f1, f2, f3.trans g3⟩

theorem C64.iterate_of_fixed (f : Executor → Executor) (e : Executor) (h : f e = e)
    (k : Nat) : f^[k] e = e := by
  induction k with
  | zero => rfl
  | succ k ih => rw [Function.iterate_succ_apply, h, ih]

/-- C8: with `suspendCounter = 0` and all ROMs loaded, `n >= 1` calls of
`suspend()` followed by `n` calls of `resume()` leave the counter at 0 and
the thread running exactly if it was running before. After any positive
number of `suspend()` calls the thread is halted, after fewer than `n`
calls of `resume()` it is still halted, and `resume()` either finds the
counter at 0 and does nothing or lowers it by exactly one. -/
theorem C8_suspend_resume_nesting (n : Nat) (hn : 1 ≤ n) (e : Executor)
    (hc : e.suspendCounter = 0) (hr : C64.isRunnable e = true) :
    (C64.resume^[n] (C64.suspend^[n] e)).suspendCounter = 0 ∧
    (C64.resume^[n] (C64.suspend^[n] e)).p = e.p ∧
    (∀ k, 1 ≤ k → (C64.suspend^[k] e).p = false) ∧
    (∀ k, k < n → (C64.resume^[k] (C64.suspend^[n] e)).p = false) ∧
    (∀ x : Executor, (x.suspendCounter = 0 → C64.resume x = x) ∧
      (x.suspendCounter ≠ 0 → (C64.resume x).suspendCounter + 1 = x.suspendCounter)) := by
  have hres : ∀ x : Executor, (x.suspendCounter = 0 → C64.resume x = x) ∧
      (x.suspendCounter ≠ 0 → (C64.resume x).suspendCounter + 1 = x.suspendCounter) := by
    intro x
    exact ⟨C64.resume_of_zero x, C64.resume_lowers_by_one x⟩
  cases hp : e.p with
  | false =>
    have hs : C64.suspend e = e := C64.suspend_of_idle e hp hc
    have hsn : ∀ k, C64.suspend^[k] e = e := C64.iterate_of_fixed _ e hs
    have hrn : ∀ k, C64.resume^[k] e = e :=
      C64.iterate_of_fixed _ e (C64.resume_of_zero e hc)
    refine ⟨?_, ?_, ?_, ?_, hres⟩
    · rw [hsn, hrn]; exact hc
    · rw [hsn, hrn]; exact hp
    · intro k _; rw [hsn]; exact hp
    · intro k _; rw [hsn, hrn]; exact hp
  | true =>
    obtain ⟨m, rfl⟩ : ∃ m, n = m + 1 := ⟨n - 1, by omega⟩
    obtain ⟨s1, s2, s3⟩ := C64.iterate_suspend_of_running e hp hc m
    have hlast : ∀ k, k < m + 1 →
        (C64.resume^[k] (C64.suspend^[m + 1] e)).p = false ∧
        (C64.resume^[k] (C64.suspend^[m + 1] e)).suspendCounter = m - k + 1 ∧
        C64.isRunnable (C64.resume^[k] (C64.suspend^[m + 1] e)) = true := by
      intro k hk
      obtain ⟨f1, f2, f3⟩ := C64.iterate_resume_of_nested k (C64.suspend^[m + 1] e)
        (m - k) s1 (by omega)
      exact ⟨f1, f2, by rw [f3, s3, hr]⟩
    obtain ⟨l1, l2, l3⟩ := hlast m (by omega)
    have hfin := C64.resume_of_last _ l1 (by omega) l3
    rw [← Function.iterate_succ_apply' C64.resume m] at hfin
    refine ⟨hfin.2, hfin.1, ?_, fun k hk => (hlast k hk).1, hres⟩
    intro k hk
    obtain ⟨j, rfl⟩ : ∃ j, k = j + 1 := ⟨k - 1, by omega⟩
    exact (C64.iterate_suspend_of_running e hp hc j).1

/-- C8 at a concrete input: a running machine with all ROMs loaded and three
nested suspensions. -/
theorem C8_suspend_resume_nesting_witness :
    (1 ≤ 3 ∧ (Executor.mk true 0 true true true true true []).suspendCounter = 0 ∧
      C64.isRunnable (Executor.mk true 0 true true true true true []) = true) ∧
    (C64.resume^[3] (C64.suspend^[3]
      (Executor.mk true 0 true true true true true []))).suspendCounter = 0 ∧
    (C64.resume^[3] (C64.suspend^[3]
      (Executor.mk true 0 true true true true true []))).p = true :=
  ⟨⟨by decide, rfl, rfl⟩,
    (C8_suspend_resume_nesting 3 (by decide)
      (Executor.mk true 0 true true true true true []) rfl rfl).1,
    (C8_suspend_resume_nesting 3 (by decide)
      (Executor.mk true 0 true true true true true []) rfl rfl).2.1⟩

/-! ## Cartridge snapshot -/

theorem Cartridge.saveChip_eq (c : Cartridge) (buffer : List Nat) (i : Nat) :
    c.saveChip buffer i = buffer ++ c.chipBytes i := by
  unfold Cartridge.saveChip Cartridge.chipBytes write16 write8 writeBlock
  dsimp only
  split <;> simp

theorem Cartridge.foldl_saveChip (c : Cartridge) :
    ∀ (k : Nat) (buffer : List Nat),
      (List.range k).foldl c.saveChip buffer = buffer ++ c.chipsBytes k := by
  intro k
  induction k with
  | zero => intro buffer; simp [Cartridge.chipsBytes]
  | succ k ih =>
    intro buffer
    rw [List.range_succ, List.foldl_append, ih]
    simp [Cartridge.saveChip_eq, Cartridge.chipsBytes]

theorem Cartridge.saveToBuffer_eq (c : Cartridge) (buffer : List Nat) :
    c.saveToBuffer buffer =
      buffer ++ ([if c.gameLine then 1 else 0, if c.exromLine then 1 else 0] ++
        (c.chipsBytes 64 ++ ((List.range 0x8000).map c.rom ++
          ((List.range 16).map c.blendedIn ++ [])))) := by
  unfold Cartridge.saveToBuffer writeBlock write8
  dsimp only
  rw [Cartridge.foldl_saveChip]
  simp only [List.append_assoc, List.singleton_append, List.cons_append, List.nil_append,
    List.append_nil]

theorem Cartridge.stateSize_loop (c : Cartridge) :
    ∀ k : Nat, (List.range k).foldl (fun size i => size + (4 + c.chipSize i)) 2
      = 2 + (c.chipsBytes k).length := by
  intro k
  induction k with
  | zero => rfl
  | succ k ih =>
    rw [List.range_succ, List.foldl_append, ih]
    simp only [List.foldl_cons, List.foldl_nil, Cartridge.chipsBytes, Cartridge.chipBytes,
      List.length_append, List.length_cons, List.length_nil]
    split
    · simp only [List.length_map, List.length_range]; omega
    · simp only [List.length_nil]; omega

theorem Cartridge.saveToBuffer_length (c : Cartridge) (buffer : List Nat) :
    (c.saveToBuffer buffer).length = buffer.length + c.stateSize := by
  rw [Cartridge.saveToBuffer_eq]
  unfold Cartridge.stateSize
  dsimp only
  rw [Cartridge.stateSize_loop]
  simp only [List.length_append, List.length_cons, List.length_nil, List.length_map,
    List.length_range]
  omega

theorem readBlock_append (d rest : List Nat) (n : Nat) (h : d.length = n) :
    readBlock (d ++ rest) n = (d, rest) := by
  subst h
  unfold readBlock
  rw [List.append_assoc, List.take_left, List.drop_left]

theorem map_range_getD (d : List Nat) :
    (List.range d.length).map (fun k => d.getD k 0) = d := by
  apply List.ext_getElem
  · simp
  · intro i h1 h2
    simp only [List.length_map, List.length_range] at h1
    simp [List.getD_eq_getElem?_getD, h1]

theorem getD_map_range (f : Nat → Nat) (n a : Nat) (h : a < n) :
    ((List.range n).map f).getD a 0 = f a := by
  simp [List.getD_eq_getElem?_getD, h]

theorem read16_write16 (v : Nat) (h : v < 2 ^ 16) (rest : List Nat) :
    read16 (v / 256 % 256 :: v % 256 :: rest) = (v, rest) := by
  unfold read16 read8
  simp only [List.headD_cons, List.tail_cons, Prod.mk.injEq, and_true]
  omega

theorem Cartridge.loadChip_chipBytes (c : Cartridge) (hw : c.WellTyped)
    (hm : c.ChipsMatchSizes) (i : Nat) (hi : i < 64) (c0 : Cartridge) (rest : List Nat) :
    Cartridge.loadChip (c0, c.chipBytes i ++ rest) i =
      ({ c0 with
          chipStartAddress := Function.update c0.chipStartAddress i (c.chipStartAddress i)
          chipSize := Function.update c0.chipSize i (c.chipSize i)
          chip := Function.update c0.chip i (c.chip i) }, rest) := by
  obtain ⟨h1, h2, h3⟩ := hw.1 i hi
  have hmi := hm i hi
  unfold Cartridge.loadChip Cartridge.chipBytes
  simp only [List.cons_append, List.nil_append, read16_write16 _ h1, read16_write16 _ h2,
    Function.update_same]
  by_cases hs : c.chipSize i > 0
  · simp only [hs, if_true]
    obtain ⟨d, hd⟩ := Option.isSome_iff_exists.mp (hmi.mpr hs)
    obtain ⟨hlen, _⟩ := h3 d hd
    have hb : (List.range (c.chipSize i)).map (c.chipBlock i) = d := by
      have := map_range_getD d
      rw [hlen] at this
      unfold Cartridge.chipBlock
      rw [hd]
      exact this
    rw [hb, readBlock_append d rest _ hlen, hd]
  · simp only [hs, if_false, List.nil_append]
    have hn : c.chip i = none := by
      cases hc : c.chip i with
      | none => rfl
      | some d =>
        have := hmi.mp (by rw [hc]; rfl)
        exact absurd this hs
    rw [hn]

theorem Cartridge.foldl_loadChip (c : Cartridge) (hw : c.WellTyped)
    (hm : c.ChipsMatchSizes) :
    ∀ (k : Nat), k ≤ 64 → ∀ (c0 : Cartridge) (rest : List Nat),
      (List.range k).foldl Cartridge.loadChip (c0, c.chipsBytes k ++ rest) =
        ({ c0 with
            chipStartAddress := fun i =>
              if i < k then c.chipStartAddress i else c0.chipStartAddress i
            chipSize := fun i => if i < k then c.chipSize i else c0.chipSize i
            chip := fun i => if i < k then c.chip i else c0.chip i }, rest) := by
  intro k
  induction k with
  | zero =>
    intro _ c0 rest
    simp [Cartridge.chipsBytes]
  | succ k ih =>
    intro hk c0 rest
    rw [List.range_succ, List.foldl_append, Cartridge.chipsBytes, List.append_assoc,
      ih (by omega) c0 (c.chipBytes k ++ rest)]
    simp only [List.foldl_cons, List.foldl_nil]
    rw [Cartridge.loadChip_chipBytes c hw hm k (by omega)]
    have e : ∀ (f g : Nat → Nat),
        Function.update (fun i => if i < k then f i else g i) k (f k)
          = fun i => if i < k + 1 then f i else g i := by
      intro f g
      funext i
      by_cases hik : i = k
      · subst hik; simp
      · rw [Function.update_noteq hik]
        by_cases hlt : i < k
        · simp [hlt, Nat.lt_succ_of_lt hlt]
        · have : ¬ i < k + 1 := by omega
          simp [hlt, this]
    have e2 : ∀ (f g : Nat → Option (List Nat)),
        Function.update (fun i => if i < k then f i else g i) k (f k)
          = fun i => if i < k + 1 then f i else g i := by
      intro f g
      funext i
      by_cases hik : i = k
      · subst hik; simp
      · rw [Function.update_noteq hik]
        by_cases hlt : i < k
        · simp [hlt, Nat.lt_succ_of_lt hlt]
        · have : ¬ i < k + 1 := by omega
          simp [hlt, this]
    simp only [e, e2]

theorem Cartridge.loadFromBuffer_bytes (c : Cartridge) (hw : c.WellTyped)
    (hm : c.ChipsMatchSizes) (c0 : Cartridge) (rest : List Nat) (g e : Nat)
    (romBytes flagBytes : List Nat) (hR : romBytes.length = 0x8000)
    (hB : flagBytes.length = 16) :
    Cartridge.loadFromBuffer c0
        (g :: e :: (c.chipsBytes 64 ++ (romBytes ++ (flagBytes ++ rest)))) =
      ({ c0 with
          gameLine := g != 0
          exromLine := e != 0
          chipStartAddress := fun i =>
            if i < 64 then c.chipStartAddress i else c0.chipStartAddress i
          chipSize := fun i => if i < 64 then c.chipSize i else c0.chipSize i
          chip := fun i => if i < 64 then c.chip i else c0.chip i
          rom := fun a => if a < 0x8000 then romBytes.getD a 0 else c0.rom a
          blendedIn := fun j => if j < 16 then flagBytes.getD j 0 else c0.blendedIn j },
        rest) := by
  have h1 : read8 (g :: e :: (c.chipsBytes 64 ++ (romBytes ++ (flagBytes ++ rest))))
      = (g, e :: (c.chipsBytes 64 ++ (romBytes ++ (flagBytes ++ rest)))) := rfl
  have h2 : read8 (e :: (c.chipsBytes 64 ++ (romBytes ++ (flagBytes ++ rest))))
      = (e, c.chipsBytes 64 ++ (romBytes ++ (flagBytes ++ rest))) := rfl
  unfold Cartridge.loadFromBuffer
  rw [h1]
  dsimp only
  rw [h2]
  dsimp only
  rw [Cartridge.foldl_loadChip c hw hm 64 (Nat.le_refl _)]
  dsimp only
  rw [readBlock_append _ _ 0x8000 hR]
  dsimp only
  rw [readBlock_append _ _ 16 hB]

theorem Cartridge.loadFromBuffer_saveToBuffer (c : Cartridge) (hw : c.WellTyped)
    (hm : c.ChipsMatchSizes) (c0 : Cartridge) (rest : List Nat) :
    Cartridge.loadFromBuffer c0 (c.saveToBuffer [] ++ rest) =
      ({ c0 with
          gameLine := c.gameLine
          exromLine := c.exromLine
          chipStartAddress := fun i =>
            if i < 64 then c.chipStartAddress i else c0.chipStartAddress i
          chipSize := fun i => if i < 64 then c.chipSize i else c0.chipSize i
          chip := fun i => if i < 64 then c.chip i else c0.chip i
          rom := fun a => if a < 0x8000 then c.rom a else c0.rom a
          blendedIn := fun j => if j < 16 then c.blendedIn j else c0.blendedIn j }, rest) := by
  rw [Cartridge.saveToBuffer_eq]
  have hR : ((List.range 0x8000).map c.rom).length = 0x8000 := by
    rw [List.length_map, List.length_range]
  have hB : ((List.range 16).map c.blendedIn).length = 16 := by
    rw [List.length_map, List.length_range]
  have hrom : ∀ a, a < 0x8000 → ((List.range 0x8000).map c.rom).getD a 0 = c.rom a :=
    fun a h => getD_map_range c.rom 0x8000 a h
  have hbl : ∀ j, j < 16 → ((List.range 16).map c.blendedIn).getD j 0 = c.blendedIn j :=
    fun j h => getD_map_range c.blendedIn 16 j h
  generalize (List.range 0x8000).map c.rom = romBytes at hR hrom ⊢
  generalize (List.range 16).map c.blendedIn = flagBytes at hB hbl ⊢
  have hshape : ([] : List Nat) ++ ([if c.gameLine then 1 else 0, if c.exromLine then 1 else 0]
      ++ (c.chipsBytes 64 ++ (romBytes ++ (flagBytes ++ [])))) ++ rest
      = (if c.gameLine then 1 else 0) :: (if c.exromLine then 1 else 0) ::
        (c.chipsBytes 64 ++ (romBytes ++ (flagBytes ++ rest))) := by
    simp only [List.nil_append, List.cons_append, List.append_assoc, List.append_nil]
  rw [hshape, Cartridge.loadFromBuffer_bytes c hw hm c0 rest _ _ romBytes flagBytes hR hB]
  have hg : ((if c.gameLine then 1 else 0 : Nat) != 0) = c.gameLine := by
    cases c.gameLine <;> rfl
  have he : ((if c.exromLine then 1 else 0 : Nat) != 0) = c.exromLine := by
    cases c.exromLine <;> rfl
  have hrom2 : (fun a => if a < 0x8000 then romBytes.getD a 0 else c0.rom a)
      = fun a => if a < 0x8000 then c.rom a else c0.rom a := by
    funext a
    split
    · rw [hrom]; assumption
    · rfl
  have hbl2 : (fun j => if j < 16 then flagBytes.getD j 0 else c0.blendedIn j)
      = fun j => if j < 16 then c.blendedIn j else c0.blendedIn j := by
    funext j
    split
    · rw [hbl]; assumption
    · rfl
  rw [hg, he, hrom2, hbl2]

/-- C10: for a cartridge whose values fit their C++ types and in which
`chip[i]` is allocated exactly when `chipSize[i] > 0`, `loadFromBuffer`
applied (to any cartridge object) to the bytes written by `saveToBuffer`
restores `gameLine`, `exromLine`, the 64 chip start addresses, sizes and
blocks, the `0x8000` bytes of `rom` and the 16 `blendedIn` flags, and leaves
exactly the bytes that follow the snapshot unread; the snapshot has
`stateSize()` bytes. -/
theorem C10_cartridge_snapshot_roundtrip (c : Cartridge) (hw : c.WellTyped)
    (hm : c.ChipsMatchSizes) (c0 : Cartridge) (rest : List Nat) :
    (Cartridge.loadFromBuffer c0 (c.saveToBuffer [] ++ rest)).1.gameLine = c.gameLine ∧
    (Cartridge.loadFromBuffer c0 (c.saveToBuffer [] ++ rest)).1.exromLine = c.exromLine ∧
    (∀ i, i < 64 →
      (Cartridge.loadFromBuffer c0 (c.saveToBuffer [] ++ rest)).1.chipStartAddress i
        = c.chipStartAddress i ∧
      (Cartridge.loadFromBuffer c0 (c.saveToBuffer [] ++ rest)).1.chipSize i
        = c.chipSize i ∧
      (Cartridge.loadFromBuffer c0 (c.saveToBuffer [] ++ rest)).1.chip i = c.chip i) ∧
    (∀ a, a < 0x8000 →
      (Cartridge.loadFromBuffer c0 (c.saveToBuffer [] ++ rest)).1.rom a = c.rom a) ∧
    (∀ j, j < 16 →
      (Cartridge.loadFromBuffer c0 (c.saveToBuffer [] ++ rest)).1.blendedIn j
        = c.blendedIn j) ∧
    (Cartridge.loadFromBuffer c0 (c.saveToBuffer [] ++ rest)).2 = rest ∧
    (c.saveToBuffer []).length = c.stateSize := by
  rw [Cartridge.loadFromBuffer_saveToBuffer c hw hm c0 rest]
  refine ⟨rfl, rfl, fun i hi => ?_, fun a ha => ?_, fun j hj => ?_, rfl, ?_⟩
  · dsimp only
    rw [if_pos hi, if_pos hi, if_pos hi]
    exact ⟨rfl, rfl, rfl⟩
  · dsimp only
    rw [if_pos ha]
  · dsimp only
    rw [if_pos hj]
  · rw [Cartridge.saveToBuffer_length]
    simp

theorem Cartridge.sample_wellTyped : Cartridge.sample.WellTyped := by
  refine ⟨fun i _ => ?_, fun a _ => by simp [Cartridge.sample],
    fun j _ => by simp [Cartridge.sample]⟩
  by_cases h : i = 0
  · subst h
    refine ⟨by simp [Cartridge.sample], by simp [Cartridge.sample], fun d hd => ?_⟩
    have : d = [0x09, 0x80, 0x4C, 0x00] := by
      simpa [Cartridge.sample, eq_comm] using hd
    subst this
    refine ⟨by simp [Cartridge.sample], ?_⟩
    decide
  · refine ⟨by simp [Cartridge.sample, h], by simp [Cartridge.sample, h], fun d hd => ?_⟩
    simp [Cartridge.sample, h] at hd

theorem Cartridge.sample_chipsMatchSizes : Cartridge.sample.ChipsMatchSizes := by
  intro i _
  by_cases h : i = 0
  · subst h; simp [Cartridge.sample]
  · simp [Cartridge.sample, h]

/-- C10 at a concrete input: the sample cartridge (one chip of four bytes at
`$8000`) saved and loaded into a freshly reset cartridge, with three more
bytes behind the snapshot. -/
theorem C10_cartridge_snapshot_roundtrip_witness :
    (Cartridge.sample.WellTyped ∧ Cartridge.sample.ChipsMatchSizes) ∧
    (Cartridge.loadFromBuffer Cartridge.sample.reset
      (Cartridge.sample.saveToBuffer [] ++ [7, 7, 7])).1.chip 0
        = some [0x09, 0x80, 0x4C, 0x00] ∧
    (Cartridge.loadFromBuffer Cartridge.sample.reset
      (Cartridge.sample.saveToBuffer [] ++ [7, 7, 7])).2 = [7, 7, 7] :=
  ⟨⟨Cartridge.sample_wellTyped, Cartridge.sample_chipsMatchSizes⟩,
    ((C10_cartridge_snapshot_roundtrip Cartridge.sample Cartridge.sample_wellTyped
      Cartridge.sample_chipsMatchSizes Cartridge.sample.reset [7, 7, 7]).2.2.1 0
        (by decide)).2.2,
    (C10_cartridge_snapshot_roundtrip Cartridge.sample Cartridge.sample_wellTyped
      Cartridge.sample_chipsMatchSizes Cartridge.sample.reset [7, 7, 7]).2.2.2.2.2.1⟩

/-! ## Program files -/

theorem LO_HI_bytes (x y : Nat) (hx : x < 2 ^ 8) (hy : y < 2 ^ 8) :
    LO_HI x y = x + 256 * y := by
  unfold LO_HI
  have h : (y <<< 8) ||| x = 2 ^ 8 * y + x := by
    rw [Nat.shiftLeft_eq, Nat.mul_comm]
    exact (Nat.mul_add_lt_is_or hx y).symm
  rw [h]
  omega

set_option maxRecDepth 100000 in
theorem Funplay.bank_eq : ∀ v, v < 256 →
    (((v >>> 3) &&& 0x07) ||| ((v <<< 3) &&& 0x08)) % 2 ^ 8 = v / 8 % 8 + 8 * (v % 2) := by
  decide

set_option maxRecDepth 100000 in
theorem Funplay.bank_bits : ∀ v, v < 256 →
    v / 8 % 8 + 8 * (v % 2) < 16 ∧
    (∀ i, i < 3 → (v / 8 % 8 + 8 * (v % 2)).testBit i = v.testBit (i + 3)) ∧
    (v / 8 % 8 + 8 * (v % 2)).testBit 3 = v.testBit 0 := by
  decide

set_option maxRecDepth 100000 in
theorem byte_bit7 : ∀ v, v < 256 → (v &&& 0x80 != 0) = v.testBit 7 := by
  decide

set_option maxRecDepth 100000 in
theorem byte_and3_lt : ∀ v, v < 256 → v &&& 0x03 < 4 := by
  decide

/-- C13: `getDestinationAddrOfItem` returns `data[0] + 256 * data[1]`, the
load address stored little-endian in the first two bytes of the file, for
every item number, and `isPRG` accepts a buffer exactly when its length is at
least 2. -/
theorem C13_prg_destination_address (a : PRGArchive) (h0 : a.data 0 < 256)
    (h1 : a.data 1 < 256) :
    (∀ n, a.getDestinationAddrOfItem n = a.data 0 + 256 * a.data 1) ∧
    (∀ buffer length, PRGArchive.isPRG buffer length = true ↔ length ≥ 2) := by
  refine ⟨fun n => ?_, fun buffer length => ?_⟩
  · exact LO_HI_bytes _ _ h0 h1
  · simp [PRGArchive.isPRG]

/-- C13 at a concrete input: a file that starts with `01 08` is loaded to
`$0801`. -/
theorem C13_prg_destination_address_witness :
    PRGArchive.getDestinationAddrOfItem
      { data := fun i => [0x01, 0x08, 0x0B].getD i 0, size := 3, fp := -1 } 0 = 0x0801 :=
  (C13_prg_destination_address
    { data := fun i => [0x01, 0x08, 0x0B].getD i 0, size := 3, fp := -1 }
    (by decide) (by decide)).1 0

/-! ## The program counter after a reset -/

/-- C14, the claim as stated fails: with `$FFFC` served by ROM and the bytes
`00 80` stored at `$FFFC/$FFFD`, the word seen through the memory map is
`$8000`, but `reset` sets the program counter to `$FCE2`. -/
theorem C14_reset_program_counter_counterexample :
    MemoryType.sampleBytes 0xFFFC + 256 * MemoryType.sampleBytes 0xFFFD = 0x8000 ∧
    C64.regPCAfterReset MemoryType.sampleSource MemoryType.sampleBytes = 0xFCE2 ∧
    C64.regPCAfterReset MemoryType.sampleSource MemoryType.sampleBytes ≠
      MemoryType.sampleBytes 0xFFFC + 256 * MemoryType.sampleBytes 0xFFFD := by
  decide

/-- C14, amended: after `C64::reset()` the program counter is `$FCE2` when
the peek source of `$FFFC` is ROM, and otherwise the 16 bit little-endian
word stored at `$FFFC/$FFFD` as seen through the current memory map. -/
theorem C14_reset_program_counter (getPeekSource : Nat → MemoryType) (spypeek : Nat → Nat)
    (hlo : spypeek 0xFFFC < 256) (hhi : spypeek 0xFFFD < 256) :
    (getPeekSource 0xFFFC = MemoryType.M_ROM →
      C64.regPCAfterReset getPeekSource spypeek = 0xFCE2) ∧
    (getPeekSource 0xFFFC ≠ MemoryType.M_ROM →
      C64.regPCAfterReset getPeekSource spypeek
        = spypeek 0xFFFC + 256 * spypeek 0xFFFD) := by
  refine ⟨fun h => ?_, fun h => ?_⟩
  · simp [C64.regPCAfterReset, h]
  · simp only [C64.regPCAfterReset, beq_iff_eq, h, if_false]
    exact LO_HI_bytes _ _ hlo hhi

/-- C14 at a concrete input: with `$FFFC` served by RAM that holds `00 80`
there, the program counter after a reset is `$8000`. -/
theorem C14_reset_program_counter_witness :
    C64.regPCAfterReset (fun _ => MemoryType.M_RAM) MemoryType.sampleBytes = 0x8000 :=
  (C14_reset_program_counter (fun _ => MemoryType.M_RAM) MemoryType.sampleBytes
    (by decide) (by decide)).2 (by decide)

/-! ## Cartridges with custom behaviour -/

section CustomTheorems

variable {Mem B : Type}

theorem ExpansionPort.setGameLine_fields {Cart : Type} (env : PortEnv Mem Cart)
    (s : ExpansionPort Mem Cart) (v : Bool) :
    (ExpansionPort.setGameLine env s v).gameLinePhi1 = v ∧
    (ExpansionPort.setGameLine env s v).gameLinePhi2 = v ∧
    (ExpansionPort.setGameLine env s v).exromLinePhi1 = s.exromLinePhi1 ∧
    (ExpansionPort.setGameLine env s v).exromLinePhi2 = s.exromLinePhi2 ∧
    (ExpansionPort.setGameLine env s v).cartridge = s.cartridge :=
  ⟨rfl, rfl, rfl, rfl, rfl⟩

theorem ExpansionPort.setExromLine_fields {Cart : Type} (env : PortEnv Mem Cart)
    (s : ExpansionPort Mem Cart) (v : Bool) :
    (ExpansionPort.setExromLine env s v).gameLinePhi1 = s.gameLinePhi1 ∧
    (ExpansionPort.setExromLine env s v).gameLinePhi2 = s.gameLinePhi2 ∧
    (ExpansionPort.setExromLine env s v).exromLinePhi1 = v ∧
    (ExpansionPort.setExromLine env s v).exromLinePhi2 = v ∧
    (ExpansionPort.setExromLine env s v).cartridge = s.cartridge :=
  ⟨rfl, rfl, rfl, rfl, rfl⟩

/-- C17: a write of the byte `v` to `$DE00` of a Funplay cartridge sets GAME
and EXROM to 1 and leaves the cartridge as it is when `v = $86`; otherwise it
banks in the chip with number `b = v / 8 % 8 + 8 * (v % 2)`, whose bits 2..0
are bits 5..3 of `v` and whose bit 3 is bit 0 of `v`, so that `b < 16`. A
write to any other address changes nothing. -/
theorem C17_funplay_bank_select (env : PortEnv Mem (CustomCartridge B))
    (bankIn : Nat → B → B) (s : ExpansionPort Mem (CustomCartridge B)) (v : Nat)
    (hv : v < 256) :
    ((Funplay.pokeIO1 env bankIn s 0xDE00 0x86).gameLinePhi1 = true ∧
      (Funplay.pokeIO1 env bankIn s 0xDE00 0x86).gameLinePhi2 = true ∧
      (Funplay.pokeIO1 env bankIn s 0xDE00 0x86).exromLinePhi1 = true ∧
      (Funplay.pokeIO1 env bankIn s 0xDE00 0x86).exromLinePhi2 = true ∧
      (Funplay.pokeIO1 env bankIn s 0xDE00 0x86).cartridge = s.cartridge) ∧
    (v ≠ 0x86 →
      Funplay.pokeIO1 env bankIn s 0xDE00 v
        = s.onCartridge (CustomCartridge.bankIn bankIn (v / 8 % 8 + 8 * (v % 2))) ∧
      v / 8 % 8 + 8 * (v % 2) < 16 ∧
      (∀ i, i < 3 → (v / 8 % 8 + 8 * (v % 2)).testBit i = v.testBit (i + 3)) ∧
      (v / 8 % 8 + 8 * (v % 2)).testBit 3 = v.testBit 0) ∧
    (∀ addr, addr ≠ 0xDE00 → Funplay.pokeIO1 env bankIn s addr v = s) := by
  refine ⟨⟨rfl, rfl, rfl, rfl, rfl⟩, fun h => ⟨?_, Funplay.bank_bits v hv⟩, fun addr h => ?_⟩
  · unfold Funplay.pokeIO1
    rw [if_pos rfl, if_neg h]
    dsimp only
    rw [Funplay.bank_eq v hv]
  · unfold Funplay.pokeIO1
    rw [if_neg h]

/-- C17 at a concrete input: the byte `$09` (bits 3 and 0 set) written to
`$DE00` banks in chip 9. -/
theorem C17_funplay_bank_select_witness :
    (Funplay.pokeIO1 CustomCartridge.sampleEnv CustomCartridge.sampleBankIn
      CustomCartridge.samplePort 0xDE00 0x09).cartridge.map (fun c => c.banking) = some 9 :=
  congrArg (fun r => r.cartridge.map (fun c => c.banking))
    ((C17_funplay_bank_select CustomCartridge.sampleEnv CustomCartridge.sampleBankIn
      CustomCartridge.samplePort 0x09 (by decide)).2.1 (by decide)).1

set_option maxRecDepth 100000 in
theorem Comal80.config_cases : ∀ v, v < 256 →
    (v &&& 0xE0 = 0xE0 ↔ 0xE0 ≤ v) ∧ (v &&& 0xE0 = 0x40 ↔ 0x40 ≤ v ∧ v < 0x60) := by
  decide

/-- C18: a write of the byte `v` to `$DE00` of a MagicDesk cartridge sets the
EXROM line (both phases) to bit 7 of `v`, leaves the GAME line as it is,
stores `v & $8F` in the register and banks in chip `v & $0F`. -/
theorem C18_magicdesk_register (env : PortEnv Mem (CustomCartridge B))
    (bankIn : Nat → B → B) (s : ExpansionPort Mem (CustomCartridge B)) (v : Nat)
    (hv : v < 256) :
    (MagicDesk.pokeIO1 env bankIn s 0xDE00 v).exromLinePhi1 = v.testBit 7 ∧
    (MagicDesk.pokeIO1 env bankIn s 0xDE00 v).exromLinePhi2 = v.testBit 7 ∧
    (MagicDesk.pokeIO1 env bankIn s 0xDE00 v).gameLinePhi1 = s.gameLinePhi1 ∧
    (MagicDesk.pokeIO1 env bankIn s 0xDE00 v).gameLinePhi2 = s.gameLinePhi2 ∧
    (MagicDesk.pokeIO1 env bankIn s 0xDE00 v).cartridge
      = s.cartridge.map (fun c =>
          CustomCartridge.bankIn bankIn (v &&& 0x0F) { c with regValue := v &&& 0x8F }) := by
  have h7 := byte_bit7 v hv
  refine ⟨h7, h7, rfl, rfl, ?_⟩
  show Option.map _ (Option.map _ s.cartridge) = _
  rw [Option.map_map]
  rfl

/-- C18 at a concrete input: the byte `$85` written to `$DE00` raises EXROM
and banks in chip 5. -/
theorem C18_magicdesk_register_witness :
    (MagicDesk.pokeIO1 CustomCartridge.sampleEnv CustomCartridge.sampleBankIn
      CustomCartridge.samplePort 0xDE00 0x85).exromLinePhi1 = true ∧
    (MagicDesk.pokeIO1 CustomCartridge.sampleEnv CustomCartridge.sampleBankIn
      CustomCartridge.samplePort 0xDE00 0x85).cartridge.map (fun c => c.banking) = some 5 :=
  ⟨(C18_magicdesk_register CustomCartridge.sampleEnv CustomCartridge.sampleBankIn
      CustomCartridge.samplePort 0x85 (by decide)).1,
    congrArg (fun r => r.map (fun c => c.banking))
      (C18_magicdesk_register CustomCartridge.sampleEnv CustomCartridge.sampleBankIn
        CustomCartridge.samplePort 0x85 (by decide)).2.2.2.2⟩

theorem Comal80.pokeIO1_cartridge (env : PortEnv Mem (CustomCartridge B))
    (bankIn : Nat → B → B) (s : ExpansionPort Mem (CustomCartridge B)) (addr v : Nat)
    (h1 : 0xDE00 ≤ addr) (h2 : addr ≤ 0xDEFF) :
    (Comal80.pokeIO1 env bankIn s addr v).cartridge
      = s.cartridge.map (fun c =>
          CustomCartridge.bankIn bankIn (v &&& 0x03) { c with regValue := v &&& 0xC7 }) := by
  unfold Comal80.pokeIO1
  rw [if_pos ⟨h1, h2⟩]
  dsimp only
  split
  · show Option.map _ (Option.map _ s.cartridge) = _
    rw [Option.map_map]; rfl
  · split
    · show Option.map _ (Option.map _ s.cartridge) = _
      rw [Option.map_map]; rfl
    · show Option.map _ (Option.map _ s.cartridge) = _
      rw [Option.map_map]; rfl

/-- C20: a write of the byte `v` to an address in `$DE00..$DEFF` of a Comal80
cartridge banks in chip `v & 3` (one of 0..3) and stores `v & $C7` in the
register, which `peekIO1` returns afterwards; the lines become EXROM 1 and
GAME 1 when `v & $E0 = $E0`, EXROM 0 and GAME 1 when `v & $E0 = $40`, and
EXROM 0 and GAME 0 otherwise. -/
theorem C20_comal80_register (env : PortEnv Mem (CustomCartridge B))
    (bankIn : Nat → B → B) (s : ExpansionPort Mem (CustomCartridge B)) (addr v : Nat)
    (h1 : 0xDE00 ≤ addr) (h2 : addr ≤ 0xDEFF) (hv : v < 256) :
    ((Comal80.pokeIO1 env bankIn s addr v).cartridge
      = s.cartridge.map (fun c =>
          CustomCartridge.bankIn bankIn (v &&& 0x03) { c with regValue := v &&& 0xC7 }) ∧
      v &&& 0x03 < 4) ∧
    (∀ a, (Comal80.pokeIO1 env bankIn s addr v).cartridge.map (fun c => Comal80.peekIO1 c a)
      = s.cartridge.map (fun _ => v &&& 0xC7)) ∧
    (v &&& 0xE0 = 0xE0 →
      (Comal80.pokeIO1 env bankIn s addr v).exromLinePhi1 = true ∧
      (Comal80.pokeIO1 env bankIn s addr v).exromLinePhi2 = true ∧
      (Comal80.pokeIO1 env bankIn s addr v).gameLinePhi1 = true ∧
      (Comal80.pokeIO1 env bankIn s addr v).gameLinePhi2 = true) ∧
    (v &&& 0xE0 = 0x40 →
      (Comal80.pokeIO1 env bankIn s addr v).exromLinePhi1 = false ∧
      (Comal80.pokeIO1 env bankIn s addr v).exromLinePhi2 = false ∧
      (Comal80.pokeIO1 env bankIn s addr v).gameLinePhi1 = true ∧
      (Comal80.pokeIO1 env bankIn s addr v).gameLinePhi2 = true) ∧
    (v &&& 0xE0 ≠ 0xE0 → v &&& 0xE0 ≠ 0x40 →
      (Comal80.pokeIO1 env bankIn s addr v).exromLinePhi1 = false ∧
      (Comal80.pokeIO1 env bankIn s addr v).exromLinePhi2 = false ∧
      (Comal80.pokeIO1 env bankIn s addr v).gameLinePhi1 = false ∧
      (Comal80.pokeIO1 env bankIn s addr v).gameLinePhi2 = false) := by
  have hc := Comal80.pokeIO1_cartridge env bankIn s addr v h1 h2
  refine ⟨⟨hc, byte_and3_lt v hv⟩, fun a => ?_, fun h => ?_, fun h => ?_, fun h h' => ?_⟩
  · rw [hc, Option.map_map]; rfl
  · unfold Comal80.pokeIO1
    rw [if_pos ⟨h1, h2⟩]
    dsimp only
    rw [if_pos h]
    exact ⟨rfl, rfl, rfl, rfl⟩
  · have hne : v &&& 0xE0 ≠ 0xE0 := by rw [h]; decide
    unfold Comal80.pokeIO1
    rw [if_pos ⟨h1, h2⟩]
    dsimp only
    rw [if_neg hne, if_pos h]
    exact ⟨rfl, rfl, rfl, rfl⟩
  · unfold Comal80.pokeIO1
    rw [if_pos ⟨h1, h2⟩]
    dsimp only
    rw [if_neg h, if_neg h']
    exact ⟨rfl, rfl, rfl, rfl⟩

/-- C20 at a concrete input: the byte `$42` written to `$DE10` selects the
8 KiB configuration, banks in chip 2 and is read back as `$42`. -/
theorem C20_comal80_register_witness :
    (Comal80.pokeIO1 CustomCartridge.sampleEnv CustomCartridge.sampleBankIn
      CustomCartridge.samplePort 0xDE10 0x42).cartridge.map (fun c => Comal80.peekIO1 c 0xDE10)
      = some 0x42 ∧
    (Comal80.pokeIO1 CustomCartridge.sampleEnv CustomCartridge.sampleBankIn
      CustomCartridge.samplePort 0xDE10 0x42).gameLinePhi1 = true :=
  ⟨(C20_comal80_register CustomCartridge.sampleEnv CustomCartridge.sampleBankIn
      CustomCartridge.samplePort 0xDE10 0x42 (by decide) (by decide) (by decide)).2.1 0xDE10,
    ((C20_comal80_register CustomCartridge.sampleEnv CustomCartridge.sampleBankIn
      CustomCartridge.samplePort 0xDE10 0x42 (by decide) (by decide) (by decide)).2.2.2.1
        (by decide)).2.2.1⟩

set_option maxRecDepth 100000 in
theorem KcsPower.addr_bits : ∀ k, k < 256 →
    ((0xDF00 + k) &&& 0x80 ≠ 0 ↔ 0x80 ≤ k) ∧ (0xDF00 + k) &&& 0x7F = k % 0x80 := by
  decide

/-- C19, the claim as stated fails: on a cartridge whose on-board RAM holds
`$FF` everywhere, `pokeIO2($DF80, $12)` followed by `peekIO2($DF80)` returns
`$FF`, not `$12`. -/
theorem C19_kcs_ram_counterexample :
    0xDF80 ≤ 0xDF80 ∧ 0xDF80 ≤ 0xDFFF ∧
    KcsPower.peekIO2 (KcsPower.pokeIO2 KcsPower.sample 0xDF80 0x12) 0xDF80 = 0xFF ∧
    KcsPower.peekIO2 (KcsPower.pokeIO2 KcsPower.sample 0xDF80 0x12) 0xDF80 ≠ 0x12 := by
  decide

/-- C19, amended: the 128 bytes of on-board RAM of a KCS Power cartridge are
written through `$DF00..$DF7F`: for an address `a` there `pokeIO2(a, v)`
followed by `peekIO2(a)` returns `v` and no other RAM byte changes; a
`pokeIO2` to `$DF80..$DFFF` changes nothing, and `peekIO2` there returns the
RAM byte with index `a - $DF80`. -/
theorem C19_kcs_ram (c : CustomCartridge B) (a v : Nat) (h1 : 0xDF00 ≤ a)
    (h2 : a ≤ 0xDFFF) :
    (a ≤ 0xDF7F →
      KcsPower.peekIO2 (KcsPower.pokeIO2 c a v) a = v ∧
      (KcsPower.pokeIO2 c a v).externalRam (a - 0xDF00) = v ∧
      ∀ i, i ≠ a - 0xDF00 → (KcsPower.pokeIO2 c a v).externalRam i = c.externalRam i) ∧
    (0xDF80 ≤ a →
      KcsPower.pokeIO2 c a v = c ∧
      KcsPower.peekIO2 c a = c.externalRam (a - 0xDF80)) := by
  obtain ⟨k, rfl⟩ : ∃ k, a = 0xDF00 + k := ⟨a - 0xDF00, by omega⟩
  have hk : k < 256 := by omega
  obtain ⟨hb, hm⟩ := KcsPower.addr_bits k hk
  refine ⟨fun h => ?_, fun h => ?_⟩
  · have hlt : k < 0x80 := by omega
    have hnb : ¬ ((0xDF00 + k) &&& 0x80 ≠ 0) := fun hh => by
      have := hb.1 hh
      omega
    have hidx : (0xDF00 + k) &&& 0x7F = 0xDF00 + k - 0xDF00 := by
      rw [hm]; omega
    unfold KcsPower.peekIO2 KcsPower.pokeIO2
    rw [if_pos hnb, if_neg hnb, ← hidx]
    generalize (0xDF00 + k) &&& 0x7F = j
    exact ⟨Function.update_same _ _ _, Function.update_same _ _ _,
      fun i hi => Function.update_noteq hi _ _⟩
  · have hge : 0x80 ≤ k := by omega
    have hbit : (0xDF00 + k) &&& 0x80 ≠ 0 := hb.2 hge
    have hidx : (0xDF00 + k) &&& 0x7F = 0xDF00 + k - 0xDF80 := by
      rw [hm]; omega
    unfold KcsPower.peekIO2 KcsPower.pokeIO2
    rw [if_neg (not_not.mpr hbit), if_pos hbit, ← hidx]
    exact ⟨rfl, rfl⟩

/-- C19 (amended) at a concrete input: `$12` written to `$DF05` is read back
from `$DF05`. -/
theorem C19_kcs_ram_witness :
    KcsPower.peekIO2 (KcsPower.pokeIO2 KcsPower.sample 0xDF05 0x12) 0xDF05 = 0x12 :=
  ((C19_kcs_ram KcsPower.sample 0xDF05 0x12 (by decide) (by decide)).1 (by decide)).1

end CustomTheorems

/-! ## Snapshots of the GeoRAM cartridge and of the expansion port -/

theorem Cartridge.saveToBuffer_append (c : Cartridge) (buffer : List Nat) :
    c.saveToBuffer buffer = buffer ++ c.saveToBuffer [] := by
  rw [Cartridge.saveToBuffer_eq c buffer, Cartridge.saveToBuffer_eq c [], List.nil_append]

theorem GeoRAM.geoSaveToBuffer_eq (g : GeoRAM) (buffer : List Nat) :
    g.saveToBuffer buffer = buffer ++ (g.base.saveToBuffer [] ++ [g.bank, g.page]) := by
  unfold GeoRAM.saveToBuffer write8
  dsimp only
  rw [Cartridge.saveToBuffer_append g.base buffer]
  generalize g.base.saveToBuffer [] = bytes
  simp only [List.append_assoc, List.singleton_append]

theorem CartridgeObject.objSaveToBuffer_append (c : CartridgeObject) (buffer : List Nat) :
    c.saveToBuffer buffer = buffer ++ c.saveToBuffer [] := by
  cases c with
  | plain c => exact Cartridge.saveToBuffer_append c buffer
  | geoRAM g =>
    show g.saveToBuffer buffer = buffer ++ g.saveToBuffer []
    rw [GeoRAM.geoSaveToBuffer_eq g buffer, GeoRAM.geoSaveToBuffer_eq g [], List.nil_append]

section PortSnapshotTheorems

variable {Mem : Type}

theorem ExpansionPort.portSaveToBuffer_eq (geo : Nat) (s : ExpansionPort Mem CartridgeObject) :
    ExpansionPort.saveToBuffer geo s [] =
      CartridgeObject.typeOf geo s.cartridge / 256 % 256 ::
      CartridgeObject.typeOf geo s.cartridge % 256 ::
      (if s.gameLinePhi1 then 1 else 0) :: (if s.gameLinePhi2 then 1 else 0) ::
      (if s.exromLinePhi1 then 1 else 0) :: (if s.exromLinePhi2 then 1 else 0) ::
      (match s.cartridge with
        | some c => c.saveToBuffer []
        | none => []) := by
  unfold ExpansionPort.saveToBuffer write16 write8
  dsimp only
  cases s.cartridge with
  | none => rfl
  | some c =>
    dsimp only
    rw [CartridgeObject.objSaveToBuffer_append]
    rfl

theorem bool_byte (b : Bool) : ((if b then 1 else 0 : Nat) != 0) = b := by
  cases b <;> rfl

theorem ExpansionPort.portLoadFromBuffer_bytes (geo : Nat) (p : ExpansionPort Mem CartridgeObject)
    (t : Nat) (ht : t < 2 ^ 16) (g1 g2 e1 e2 : Bool) (tail : List Nat) :
    ExpansionPort.loadFromBuffer geo p
      (t / 256 % 256 :: t % 256 :: (if g1 then 1 else 0) :: (if g2 then 1 else 0) ::
        (if e1 then 1 else 0) :: (if e2 then 1 else 0) :: tail) =
      if t ≠ CRT_NONE then
        ({ p with
            cartridge := some ((Cartridge.makeWithType geo t).loadFromBuffer tail).1
            gameLinePhi1 := g1, gameLinePhi2 := g2, exromLinePhi1 := e1, exromLinePhi2 := e2 },
          ((Cartridge.makeWithType geo t).loadFromBuffer tail).2)
      else
        ({ p with
            cartridge := none
            gameLinePhi1 := g1, gameLinePhi2 := g2, exromLinePhi1 := e1, exromLinePhi2 := e2 },
          tail) := by
  unfold ExpansionPort.loadFromBuffer
  rw [read16_write16 t ht]
  simp only [read8, List.headD_cons, List.tail_cons, bool_byte]

theorem Cartridge.loadChip_type (st : Cartridge × List Nat) (i : Nat) :
    (Cartridge.loadChip st i).1.type = st.1.type := by
  unfold Cartridge.loadChip
  dsimp only
  split <;> rfl

theorem Cartridge.foldl_loadChip_type (l : List Nat) :
    ∀ st : Cartridge × List Nat, (l.foldl Cartridge.loadChip st).1.type = st.1.type := by
  induction l with
  | nil => intro st; rfl
  | cons i l ih =>
    intro st
    rw [List.foldl_cons, ih, Cartridge.loadChip_type]

theorem Cartridge.loadFromBuffer_type (c : Cartridge) (buffer : List Nat) :
    (Cartridge.loadFromBuffer c buffer).1.type = c.type := by
  unfold Cartridge.loadFromBuffer
  dsimp only
  rw [Cartridge.foldl_loadChip_type]

theorem CartridgeObject.objLoadFromBuffer_type (geo : Nat) (c : CartridgeObject)
    (buffer : List Nat) :
    (c.loadFromBuffer buffer).1.getCartridgeType geo = c.getCartridgeType geo := by
  cases c with
  | plain c => exact Cartridge.loadFromBuffer_type c buffer
  | geoRAM g =>
    unfold CartridgeObject.loadFromBuffer
    rw [Prod.map_fst]
    unfold CartridgeObject.getCartridgeType
    rfl

theorem Cartridge.makeWithType_type (geo t : Nat) :
    (Cartridge.makeWithType geo t).getCartridgeType geo = t := by
  unfold Cartridge.makeWithType
  split
  · next h => exact h.symm
  · rfl

theorem GeoRAM.geoLoad_geoSave (g : GeoRAM) (hw : g.base.WellTyped)
    (hm : g.base.ChipsMatchSizes) (g0 : GeoRAM) (rest : List Nat) :
    (GeoRAM.loadFromBuffer g0 (g.saveToBuffer [] ++ rest)).1.bank = g.bank ∧
    (GeoRAM.loadFromBuffer g0 (g.saveToBuffer [] ++ rest)).1.page = g.page ∧
    (GeoRAM.loadFromBuffer g0 (g.saveToBuffer [] ++ rest)).2 = rest := by
  have h : g.saveToBuffer [] ++ rest = g.base.saveToBuffer [] ++ (g.bank :: g.page :: rest) := by
    rw [GeoRAM.geoSaveToBuffer_eq, List.nil_append]
    generalize g.base.saveToBuffer [] = bytes
    simp only [List.append_assoc, List.cons_append, List.nil_append]
  unfold GeoRAM.loadFromBuffer
  rw [h, Cartridge.loadFromBuffer_saveToBuffer g.base hw hm]
  exact ⟨rfl, rfl, rfl⟩

theorem ExpansionPort.portLoad_portSave (geo : Nat)
    (s p : ExpansionPort Mem CartridgeObject) (rest : List Nat)
    (ht : CartridgeObject.typeOf geo s.cartridge < 2 ^ 16) :
    ExpansionPort.loadFromBuffer geo p (ExpansionPort.saveToBuffer geo s [] ++ rest) =
      if CartridgeObject.typeOf geo s.cartridge ≠ CRT_NONE then
        ({ p with
            cartridge := some ((Cartridge.makeWithType geo
              (CartridgeObject.typeOf geo s.cartridge)).loadFromBuffer
                ((match s.cartridge with
                  | some c => c.saveToBuffer []
                  | none => []) ++ rest)).1
            gameLinePhi1 := s.gameLinePhi1, gameLinePhi2 := s.gameLinePhi2
            exromLinePhi1 := s.exromLinePhi1, exromLinePhi2 := s.exromLinePhi2 },
          ((Cartridge.makeWithType geo
              (CartridgeObject.typeOf geo s.cartridge)).loadFromBuffer
                ((match s.cartridge with
                  | some c => c.saveToBuffer []
                  | none => []) ++ rest)).2)
      else
        ({ p with
            cartridge := none
            gameLinePhi1 := s.gameLinePhi1, gameLinePhi2 := s.gameLinePhi2
            exromLinePhi1 := s.exromLinePhi1, exromLinePhi2 := s.exromLinePhi2 },
          (match s.cartridge with
            | some c => c.saveToBuffer []
            | none => []) ++ rest) := by
  rw [ExpansionPort.portSaveToBuffer_eq]
  simp only [List.cons_append]
  rw [ExpansionPort.portLoadFromBuffer_bytes geo p _ ht]

/-- C11: loading the bytes written by `ExpansionPort::saveToBuffer` for a
port `s` into any port `p` (whatever cartridge `p` holds) yields the four
line values of `s` and the cartridge type of `s`; when `s` has no cartridge
the loaded port has none, and when `s` holds a GeoRAM cartridge the loaded
port holds a GeoRAM cartridge with the same `bank` and `page` latches. In
both of these cases exactly the bytes behind the snapshot are left unread. -/
theorem C11_port_snapshot_roundtrip (geo : Nat) (s p : ExpansionPort Mem CartridgeObject)
    (rest : List Nat) (ht : CartridgeObject.typeOf geo s.cartridge < 2 ^ 16) :
    ((ExpansionPort.loadFromBuffer geo p
        (ExpansionPort.saveToBuffer geo s [] ++ rest)).1.gameLinePhi1 = s.gameLinePhi1 ∧
      (ExpansionPort.loadFromBuffer geo p
        (ExpansionPort.saveToBuffer geo s [] ++ rest)).1.gameLinePhi2 = s.gameLinePhi2 ∧
      (ExpansionPort.loadFromBuffer geo p
        (ExpansionPort.saveToBuffer geo s [] ++ rest)).1.exromLinePhi1 = s.exromLinePhi1 ∧
      (ExpansionPort.loadFromBuffer geo p
        (ExpansionPort.saveToBuffer geo s [] ++ rest)).1.exromLinePhi2 = s.exromLinePhi2) ∧
    CartridgeObject.typeOf geo (ExpansionPort.loadFromBuffer geo p
        (ExpansionPort.saveToBuffer geo s [] ++ rest)).1.cartridge
      = CartridgeObject.typeOf geo s.cartridge ∧
    (s.cartridge = none →
      (ExpansionPort.loadFromBuffer geo p
        (ExpansionPort.saveToBuffer geo s [] ++ rest)).1.cartridge = none ∧
      (ExpansionPort.loadFromBuffer geo p
        (ExpansionPort.saveToBuffer geo s [] ++ rest)).2 = rest) ∧
    (∀ g, s.cartridge = some (CartridgeObject.geoRAM g) → geo ≠ CRT_NONE →
      g.base.WellTyped → g.base.ChipsMatchSizes →
      ∃ g1, (ExpansionPort.loadFromBuffer geo p
          (ExpansionPort.saveToBuffer geo s [] ++ rest)).1.cartridge
            = some (CartridgeObject.geoRAM g1) ∧
        g1.bank = g.bank ∧ g1.page = g.page ∧
        (ExpansionPort.loadFromBuffer geo p
          (ExpansionPort.saveToBuffer geo s [] ++ rest)).2 = rest) := by
  rw [ExpansionPort.portLoad_portSave geo s p rest ht]
  refine ⟨?_, ?_, fun h => ?_, fun g h hgeo hw hm => ?_⟩
  · split <;> exact ⟨rfl, rfl, rfl, rfl⟩
  · split
    · show CartridgeObject.getCartridgeType geo _ = _
      rw [CartridgeObject.objLoadFromBuffer_type, Cartridge.makeWithType_type]
    · next hn => exact (not_not.mp hn).symm
  · rw [h]
    have hnone : ¬ CartridgeObject.typeOf geo none ≠ CRT_NONE := fun hh => hh rfl
    rw [if_neg hnone]
    exact ⟨rfl, rfl⟩
  · rw [h]
    have hsome : CartridgeObject.typeOf geo (some (CartridgeObject.geoRAM g)) = geo := rfl
    rw [hsome, if_pos hgeo]
    have hmake : Cartridge.makeWithType geo geo = CartridgeObject.geoRAM
        { base := Cartridge.new, externalRam := fun _ => 0, ramCapacity := 0,
          persistentRam := false, bank := 0, page := 0 } := by
      unfold Cartridge.makeWithType
      rw [if_pos rfl]
    rw [hmake]
    dsimp only
    show ∃ g1, some (CartridgeObject.loadFromBuffer (g.saveToBuffer [] ++ rest)
        (CartridgeObject.geoRAM _)).1 = _ ∧ _ ∧ _ ∧
      (CartridgeObject.loadFromBuffer (g.saveToBuffer [] ++ rest)
        (CartridgeObject.geoRAM _)).2 = rest
    unfold CartridgeObject.loadFromBuffer
    rw [Prod.map_fst, Prod.map_snd]
    obtain ⟨hb, hp, hr⟩ := GeoRAM.geoLoad_geoSave g hw hm
      { base := Cartridge.new, externalRam := fun _ => 0, ramCapacity := 0,
        persistentRam := false, bank := 0, page := 0 } rest
    exact ⟨_, rfl, hb, hp, hr⟩

end PortSnapshotTheorems

theorem Cartridge.new_wellTyped : Cartridge.new.WellTyped := by
  refine ⟨fun i hi => ?_, fun a ha => ?_, fun j hj => ?_⟩
  · refine ⟨?_, ?_, fun d hd => ?_⟩
    · show (if i < 64 then 0 else 0) < 2 ^ 16
      rw [if_pos hi]; decide
    · show (if i < 64 then 0 else 0) < 2 ^ 16
      rw [if_pos hi]; decide
    · have : (if i < 64 then (none : Option (List Nat)) else none) = some d := hd
      rw [if_pos hi] at this
      cases this
  · show (if a < 0x8000 then 0 else 0) < 2 ^ 8
    rw [if_pos ha]; decide
  · show (if j < 16 then 0 else 0) < 2 ^ 8
    rw [if_pos hj]; decide

theorem Cartridge.new_chipsMatchSizes : Cartridge.new.ChipsMatchSizes := by
  intro i hi
  show ((if i < 64 then (none : Option (List Nat)) else none).isSome = true ↔
    (if i < 64 then 0 else 0) > 0)
  rw [if_pos hi, if_pos hi]
  simp

/-- C11 at a concrete input: a port in the Ultimax configuration with a
GeoRAM cartridge (bank 3, page 5), saved and loaded into a port without
cartridge, with 57 taken as the type tag of class `GeoRAM` and two more
bytes behind the snapshot. -/
theorem C11_port_snapshot_roundtrip_witness :
    (ExpansionPort.loadFromBuffer 57 (CartridgeObject.samplePort none)
      (ExpansionPort.saveToBuffer 57
        (CartridgeObject.samplePort (some (CartridgeObject.geoRAM GeoRAM.sample))) []
          ++ [7, 7])).1.gameLinePhi1 = false ∧
    ∃ g1, (ExpansionPort.loadFromBuffer 57 (CartridgeObject.samplePort none)
        (ExpansionPort.saveToBuffer 57
          (CartridgeObject.samplePort (some (CartridgeObject.geoRAM GeoRAM.sample))) []
            ++ [7, 7])).1.cartridge = some (CartridgeObject.geoRAM g1) ∧
      g1.bank = 3 ∧ g1.page = 5 ∧
      (ExpansionPort.loadFromBuffer 57 (CartridgeObject.samplePort none)
        (ExpansionPort.saveToBuffer 57
          (CartridgeObject.samplePort (some (CartridgeObject.geoRAM GeoRAM.sample))) []
            ++ [7, 7])).2 = [7, 7] :=
  ⟨(C11_port_snapshot_roundtrip 57
      (CartridgeObject.samplePort (some (CartridgeObject.geoRAM GeoRAM.sample)))
      (CartridgeObject.samplePort none) [7, 7] (by decide)).1.1,
    (C11_port_snapshot_roundtrip 57
      (CartridgeObject.samplePort (some (CartridgeObject.geoRAM GeoRAM.sample)))
      (CartridgeObject.samplePort none) [7, 7] (by decide)).2.2.2 GeoRAM.sample rfl
        (by decide) Cartridge.new_wellTyped Cartridge.new_chipsMatchSizes⟩


/-! ## Bank switching -/

theorem Cartridge.markBlendedIn_loop (n : Nat) :
    ∀ (first : Nat) (b : Nat → Nat) (j : Nat),
      (List.range' first n).foldl (fun b i => Function.update b i 1) b j
        = if first ≤ j ∧ j < first + n then 1 else b j := by
  induction n with
  | zero =>
    intro first b j
    have : ¬ (first ≤ j ∧ j < first + 0) := by omega
    rw [if_neg this]
    rfl
  | succ n ih =>
    intro first b j
    rw [List.range'_succ, List.foldl_cons, ih]
    by_cases h1 : first + 1 ≤ j ∧ j < first + 1 + n
    · have h2 : first ≤ j ∧ j < first + (n + 1) := by omega
      rw [if_pos h1, if_pos h2]
    · rw [if_neg h1]
      by_cases h3 : j = first
      · subst h3
        have h2 : j ≤ j ∧ j < j + (n + 1) := by omega
        rw [if_pos h2, Function.update_same]
      · have h2 : ¬ (first ≤ j ∧ j < first + (n + 1)) := by omega
        rw [if_neg h2, Function.update_noteq h3]

theorem Cartridge.markBlendedIn_apply (b : Nat → Nat) (first last j : Nat) :
    Cartridge.markBlendedIn b first last j = if first ≤ j ∧ j < last then 1 else b j := by
  unfold Cartridge.markBlendedIn
  rw [Cartridge.markBlendedIn_loop]
  by_cases h : first ≤ j ∧ j < last
  · have h2 : first ≤ j ∧ j < first + (last - first) := by omega
    rw [if_pos h, if_pos h2]
  · have h2 : ¬ (first ≤ j ∧ j < first + (last - first)) := by omega
    rw [if_neg h, if_neg h2]

theorem and_7FFF (x : Nat) (h1 : 0x8000 ≤ x) (h2 : x < 0x10000) :
    x &&& 0x7FFF = x - 0x8000 := by
  have h : x &&& 0x7FFF = x % 2 ^ 15 := Nat.and_pow_two_sub_one_eq_mod x 15
  rw [h]
  omega

theorem Cartridge.switchBank_of_fits (c : Cartridge) (nr : Nat) (block : List Nat)
    (hc : c.chip nr = some block) (hfit : c.chipStartAddress nr + c.chipSize nr ≤ 0xFFFF) :
    c.switchBank nr =
      { c with
        rom := fun a =>
          if c.chipStartAddress nr ≤ a + 0x8000 ∧
              a + 0x8000 < c.chipStartAddress nr + c.chipSize nr then
            block.getD (a + 0x8000 - c.chipStartAddress nr) 0
          else c.rom a
        blendedIn := Cartridge.markBlendedIn c.blendedIn (c.chipStartAddress nr >>> 12)
          ((c.chipStartAddress nr + c.chipSize nr) >>> 12) } := by
  unfold Cartridge.switchBank
  rw [hc]
  have h : ¬ (0xFFFF - c.chipStartAddress nr < c.chipSize nr) := by omega
  simp only [h, if_false]

theorem Cartridge.switchBank_peek (c : Cartridge) (nr : Nat) (block : List Nat)
    (hc : c.chip nr = some block) (hA : 0x8000 ≤ c.chipStartAddress nr)
    (hfit : c.chipStartAddress nr + c.chipSize nr ≤ 0xFFFF) (k : Nat)
    (hk : k < c.chipSize nr) :
    (c.switchBank nr).peek (c.chipStartAddress nr + k) = block.getD k 0 := by
  rw [Cartridge.switchBank_of_fits c nr block hc hfit]
  unfold Cartridge.peek
  rw [and_7FFF _ (by omega) (by omega)]
  dsimp only
  have h : c.chipStartAddress nr ≤ c.chipStartAddress nr + k - 0x8000 + 0x8000 ∧
      c.chipStartAddress nr + k - 0x8000 + 0x8000 < c.chipStartAddress nr + c.chipSize nr := by
    omega
  have hidx : c.chipStartAddress nr + k - 0x8000 + 0x8000 - c.chipStartAddress nr = k := by
    omega
  rw [if_pos h, hidx]

theorem Cartridge.switchBank_rom (c : Cartridge) (nr : Nat) (block : List Nat)
    (hc : c.chip nr = some block)
    (hfit : c.chipStartAddress nr + c.chipSize nr ≤ 0xFFFF) (a : Nat)
    (ha : ¬ (c.chipStartAddress nr ≤ a + 0x8000 ∧
      a + 0x8000 < c.chipStartAddress nr + c.chipSize nr)) :
    (c.switchBank nr).rom a = c.rom a := by
  rw [Cartridge.switchBank_of_fits c nr block hc hfit]
  dsimp only
  rw [if_neg ha]

theorem Cartridge.switchBank_blendedIn (c : Cartridge) (nr : Nat) (block : List Nat)
    (hc : c.chip nr = some block)
    (hfit : c.chipStartAddress nr + c.chipSize nr ≤ 0xFFFF) (addr : Nat)
    (h1 : c.chipStartAddress nr >>> 12 ≤ addr >>> 12)
    (h2 : addr >>> 12 < (c.chipStartAddress nr + c.chipSize nr) >>> 12) :
    (c.switchBank nr).romIsBlendedIn addr = true := by
  rw [Cartridge.switchBank_of_fits c nr block hc hfit]
  unfold Cartridge.romIsBlendedIn
  dsimp only
  rw [Cartridge.markBlendedIn_apply, if_pos ⟨h1, h2⟩]
  rfl

theorem Cartridge.attachChips_chip0 (container : CRTContainer) (cart : Cartridge) :
    ∀ n : Nat,
      ((List.range (n + 1)).foldl (fun cart i => cart.attachChip i container) cart).chip 0
        = some ((List.range (container.chipSize 0)).map (container.chipData 0)) ∧
      ((List.range (n + 1)).foldl
        (fun cart i => cart.attachChip i container) cart).chipStartAddress 0
        = container.chipAddr 0 % 2 ^ 16 ∧
      ((List.range (n + 1)).foldl (fun cart i => cart.attachChip i container) cart).chipSize 0
        = container.chipSize 0 % 2 ^ 16 := by
  intro n
  induction n with
  | zero =>
    have h : List.range (0 + 1) = [0] := rfl
    rw [h]
    simp only [List.foldl_cons, List.foldl_nil, Cartridge.attachChip, Function.update_same,
      and_self]
  | succ n ih =>
    rw [List.range_succ, List.foldl_append]
    simp only [List.foldl_cons, List.foldl_nil]
    generalize (List.range (n + 1)).foldl (fun cart i => cart.attachChip i container) cart
      = prev at ih ⊢
    have hne : (0 : Nat) ≠ n + 1 := by omega
    unfold Cartridge.attachChip
    dsimp only
    rw [Function.update_noteq hne, Function.update_noteq hne, Function.update_noteq hne]
    exact ih

theorem Cartridge.makeCartridgeWithCRTContainer_peek (container : CRTContainer)
    (ht : container.cartridgeType = CRT_NORMAL) (hn : 1 ≤ container.numberOfChips)
    (hs : container.chipSize 0 = 0x2000) (ha : container.chipAddr 0 = 0x8000) :
    ∃ cart, Cartridge.makeCartridgeWithCRTContainer container = some cart ∧
      ∀ k, k < 0x2000 → cart.peek (0x8000 + k) = container.chipData 0 k := by
  obtain ⟨n, hn1⟩ : ∃ n, container.numberOfChips = n + 1 :=
    ⟨container.numberOfChips - 1, by omega⟩
  unfold Cartridge.makeCartridgeWithCRTContainer
  rw [if_pos ht, hn1]
  dsimp only
  obtain ⟨h0, h1, h2⟩ := Cartridge.attachChips_chip0 container
    { Cartridge.new with
      type := container.cartridgeType % 2 ^ 8
      gameLine := container.gameLine
      exromLine := container.exromLine } n
  generalize (List.range (n + 1)).foldl (fun cart i => cart.attachChip i container)
    { Cartridge.new with
      type := container.cartridgeType % 2 ^ 8
      gameLine := container.gameLine
      exromLine := container.exromLine } = cart1 at h0 h1 h2 ⊢
  rw [ha] at h1
  rw [hs] at h2
  have h1 : cart1.chipStartAddress 0 = 0x8000 := by rw [h1]; rfl
  have h2 : cart1.chipSize 0 = 0x2000 := by rw [h2]; rfl
  rw [h0]
  refine ⟨_, rfl, fun k hk => ?_⟩
  have hp := Cartridge.switchBank_peek cart1 0 _ h0 (by omega) (by omega) k (by omega)
  rw [h1] at hp
  rw [hp, hs]
  exact getD_map_range _ _ _ hk

/-- C15: for a chip `nr < 64` with load address `A ≥ $8000` and size `s`
with `A + s ≤ $FFFF`, after `switchBank(nr)` the method `peek(A + k)` returns
byte `k` of the chip for every `k < s`, every byte of `rom` outside
`[A, A + s)` is unchanged, and `romIsBlendedIn` is true on every 4 KiB page
from `A >> 12` up to but excluding `(A + s) >> 12`. In particular a
cartridge built from a container whose chip 0 is 8 KiB at `$8000` and starts
with `09 80 4C 00 80` reads back these bytes at `$8000..$8004`. -/
theorem C15_switchBank_blends_chip :
    (∀ (c : Cartridge) (nr : Nat) (block : List Nat), nr < 64 → c.chip nr = some block →
      block.length = c.chipSize nr → 0x8000 ≤ c.chipStartAddress nr →
      c.chipStartAddress nr + c.chipSize nr ≤ 0xFFFF →
      (∀ k, k < c.chipSize nr →
        block[k]? = some ((c.switchBank nr).peek (c.chipStartAddress nr + k))) ∧
      (∀ a, ¬ (c.chipStartAddress nr ≤ a + 0x8000 ∧
          a + 0x8000 < c.chipStartAddress nr + c.chipSize nr) →
        (c.switchBank nr).rom a = c.rom a) ∧
      (∀ addr, c.chipStartAddress nr >>> 12 ≤ addr >>> 12 →
        addr >>> 12 < (c.chipStartAddress nr + c.chipSize nr) >>> 12 →
        (c.switchBank nr).romIsBlendedIn addr = true)) ∧
    (∀ container : CRTContainer, container.cartridgeType = CRT_NORMAL →
      1 ≤ container.numberOfChips → container.numberOfChips ≤ 64 →
      container.chipSize 0 = 0x2000 → container.chipAddr 0 = 0x8000 →
      container.chipData 0 0 = 0x09 → container.chipData 0 1 = 0x80 →
      container.chipData 0 2 = 0x4C → container.chipData 0 3 = 0x00 →
      container.chipData 0 4 = 0x80 →
      ∃ cart, Cartridge.makeCartridgeWithCRTContainer container = some cart ∧
        cart.peek 0x8000 = 0x09 ∧ cart.peek 0x8001 = 0x80 ∧ cart.peek 0x8002 = 0x4C ∧
        cart.peek 0x8003 = 0x00 ∧ cart.peek 0x8004 = 0x80) := by
  refine ⟨fun c nr block _ hc hlen hA hfit => ⟨fun k hk => ?_,
    fun a ha => Cartridge.switchBank_rom c nr block hc hfit a ha,
    fun addr h1 h2 => Cartridge.switchBank_blendedIn c nr block hc hfit addr h1 h2⟩,
    fun container ht hn _ hs ha d0 d1 d2 d3 d4 => ?_⟩
  · rw [Cartridge.switchBank_peek c nr block hc hA hfit k hk, List.getD_eq_getElem?_getD]
    have hk2 : k < block.length := by omega
    rw [List.getElem?_eq_getElem hk2]
    rfl
  · obtain ⟨cart, hmk, hpeek⟩ :=
      Cartridge.makeCartridgeWithCRTContainer_peek container ht hn hs ha
    refine ⟨cart, hmk, ?_, ?_, ?_, ?_, ?_⟩
    · rw [← d0]; exact hpeek 0 (by omega)
    · rw [← d1]; exact hpeek 1 (by omega)
    · rw [← d2]; exact hpeek 2 (by omega)
    · rw [← d3]; exact hpeek 3 (by omega)
    · rw [← d4]; exact hpeek 4 (by omega)

/-- C15 at a concrete input: the cartridge built from the sample container
(one chip of 8 KiB at `$8000` starting with `09 80 4C 00 80`). -/
theorem C15_switchBank_blends_chip_witness :
    ∃ cart, Cartridge.makeCartridgeWithCRTContainer CRTContainer.sample = some cart ∧
      cart.peek 0x8000 = 0x09 ∧ cart.peek 0x8001 = 0x80 ∧ cart.peek 0x8002 = 0x4C ∧
      cart.peek 0x8003 = 0x00 ∧ cart.peek 0x8004 = 0x80 :=
  C15_switchBank_blends_chip.2 CRTContainer.sample rfl (by decide) (by decide) rfl rfl
    rfl rfl rfl rfl rfl

theorem Cartridge.switchBank_of_overflow (c : Cartridge) (nr : Nat)
    (h : 0xFFFF - c.chipStartAddress nr < c.chipSize nr) : c.switchBank nr = c := by
  unfold Cartridge.switchBank
  cases c.chip nr with
  | none => rfl
  | some block =>
    dsimp only
    rw [if_pos h]

/-- C16, the behaviour of the code: for a chip of 8 KiB with load address
`$E000` the test `0xFFFF - loadAddr < size` of `switchBank` is
`0x1FFF < 0x2000`, so `switchBank` returns without copying the chip. On the
sample cartridge `peek($E000)` still returns 0 while byte 0 of the chip is
`$4C`, and the pages `$E` and `$F` are not marked as blended in. -/
theorem C16_ultimax_chip_not_blended_in :
    (∀ (c : Cartridge) (nr : Nat), c.chipStartAddress nr = 0xE000 →
      c.chipSize nr = 0x2000 → c.switchBank nr = c) ∧
    Cartridge.ultimaxSample.chipBlock 0 0 = 0x4C ∧
    (Cartridge.ultimaxSample.switchBank 0).peek 0xE000 = 0 ∧
    (Cartridge.ultimaxSample.switchBank 0).romIsBlendedIn 0xE000 = false ∧
    (Cartridge.ultimaxSample.switchBank 0).romIsBlendedIn 0xF000 = false := by
  have hs : Cartridge.ultimaxSample.switchBank 0 = Cartridge.ultimaxSample :=
    Cartridge.switchBank_of_overflow _ _ (by decide)
  refine ⟨fun c nr hA hS => ?_, ?_, ?_, ?_, ?_⟩
  · apply Cartridge.switchBank_of_overflow
    rw [hA, hS]
    decide
  · rfl
  · rw [hs]; rfl
  · rw [hs]; rfl
  · rw [hs]; rfl

/-! ## Zaxxon and GeoRAM -/

/-- C21: for a ROML offset `a` in `0..$1FFF`, `Zaxxon::peekRomL(a)` banks in
chip 1 when `a < $1000` and chip 2 otherwise and returns the byte that
`Cartridge::peekRomL` reads at offset `a mod $1000`; `spypeekRomL(a)` reads
the byte at the same offset without a call of `bankIn`. The two bytes are
the same whenever banking in chip 1 or 2 leaves the ROML window as it is. -/
theorem C21_zaxxon_bank_by_read {B : Type} (bankIn : Nat → B → B)
    (peekRomL : B → Nat → Nat) (c : CustomCartridge B) (a : Nat) (ha : a ≤ 0x1FFF) :
    (Zaxxon.peekRomL bankIn peekRomL c a).2
      = CustomCartridge.bankIn bankIn (if a < 0x1000 then 1 else 2) c ∧
    (Zaxxon.peekRomL bankIn peekRomL c a).1
      = peekRomL (Zaxxon.peekRomL bankIn peekRomL c a).2.banking (a % 0x1000) ∧
    Zaxxon.spypeekRomL peekRomL c a = peekRomL c.banking (a % 0x1000) ∧
    ((∀ b x, peekRomL (bankIn 1 b) x = peekRomL b x ∧ peekRomL (bankIn 2 b) x = peekRomL b x) →
      (Zaxxon.peekRomL bankIn peekRomL c a).1 = Zaxxon.spypeekRomL peekRomL c a) := by
  unfold Zaxxon.peekRomL Zaxxon.spypeekRomL
  by_cases h : a < 0x1000
  · have hm : a % 0x1000 = a := Nat.mod_eq_of_lt h
    rw [if_pos h, if_pos h, if_pos h, hm]
    exact ⟨rfl, rfl, rfl, fun hb => (hb c.banking a).1⟩
  · have hm : a % 0x1000 = a - 0x1000 := by omega
    rw [if_neg h, if_neg h, if_neg h, hm]
    exact ⟨rfl, rfl, rfl, fun hb => (hb c.banking (a - 0x1000)).2⟩

/-- C21 at a concrete input: a read at ROML offset `$1234` banks in chip 2
and returns the byte at offset `$234`. -/
theorem C21_zaxxon_bank_by_read_witness :
    (Zaxxon.peekRomL CustomCartridge.sampleBankIn (fun _ x => x % 251)
      { regValue := 0, externalRam := fun _ => 0, banking := 0 } 0x1234).2.banking = 2 ∧
    (Zaxxon.peekRomL CustomCartridge.sampleBankIn (fun _ x => x % 251)
      { regValue := 0, externalRam := fun _ => 0, banking := 0 } 0x1234).1 = 0x234 % 251 :=
  ⟨congrArg (fun c => c.banking)
      (C21_zaxxon_bank_by_read CustomCartridge.sampleBankIn (fun _ x => x % 251)
        { regValue := 0, externalRam := fun _ => 0, banking := 0 } 0x1234 (by decide)).1,
    (C21_zaxxon_bank_by_read CustomCartridge.sampleBankIn (fun _ x => x % 251)
      { regValue := 0, externalRam := fun _ => 0, banking := 0 } 0x1234 (by decide)).2.1⟩

theorem GeoRAM.windowIndex_eq (k : Nat) (hk : k < 256) : GeoRAM.windowIndex (0xDE00 + k) = k := by
  unfold GeoRAM.windowIndex
  have h : (((0xDE00 + k : Nat) : Int) - 0xDE00) % 2 ^ 8 = (k : Int) := by
    push_cast
    omega
  rw [h]
  rfl

/-- C22: `GeoRAM::pokeIO2(a, v)` stores `v` in the bank latch when `a` is
odd and in the page latch when `a` is even and changes neither the other
latch nor the RAM; for `k < 256`, `peekIO1($DE00+k)` and `pokeIO1($DE00+k, v)`
access `externalRam` at index
`(bank * 16384) mod ramCapacity + (page & $3F) * 256 + k`, so that a
`pokeIO1` followed by a `peekIO1` of the same address returns the written
byte, and `pokeIO1` changes no other RAM byte and no latch. -/
theorem C22_georam_window :
    (∀ (g : GeoRAM) (a v : Nat),
      (a % 2 = 1 →
        (g.pokeIO2 a v).bank = v ∧ (g.pokeIO2 a v).page = g.page ∧
        (g.pokeIO2 a v).externalRam = g.externalRam) ∧
      (a % 2 = 0 →
        (g.pokeIO2 a v).page = v ∧ (g.pokeIO2 a v).bank = g.bank ∧
        (g.pokeIO2 a v).externalRam = g.externalRam)) ∧
    (∀ (g : GeoRAM) (k v : Nat), k < 256 → 0 < g.ramCapacity →
      g.peekIO1 (0xDE00 + k)
        = g.externalRam ((g.bank * 16384) % g.ramCapacity + (g.page &&& 0x3F) * 256 + k) ∧
      (g.pokeIO1 (0xDE00 + k) v).externalRam
          ((g.bank * 16384) % g.ramCapacity + (g.page &&& 0x3F) * 256 + k) = v ∧
      (∀ i, i ≠ (g.bank * 16384) % g.ramCapacity + (g.page &&& 0x3F) * 256 + k →
        (g.pokeIO1 (0xDE00 + k) v).externalRam i = g.externalRam i) ∧
      (g.pokeIO1 (0xDE00 + k) v).bank = g.bank ∧
      (g.pokeIO1 (0xDE00 + k) v).page = g.page ∧
      (g.pokeIO1 (0xDE00 + k) v).peekIO1 (0xDE00 + k) = v) := by
  refine ⟨fun g a v => ⟨fun h => ?_, fun h => ?_⟩, fun g k v hk _ => ?_⟩
  · have h1 : a &&& 1 ≠ 0 := by rw [Nat.and_one_is_mod]; omega
    unfold GeoRAM.pokeIO2
    rw [if_pos h1]
    exact ⟨rfl, rfl, rfl⟩
  · have h1 : ¬ (a &&& 1 ≠ 0) := by rw [Nat.and_one_is_mod]; omega
    unfold GeoRAM.pokeIO2
    rw [if_neg h1]
    exact ⟨rfl, rfl, rfl⟩
  · unfold GeoRAM.peekIO1 GeoRAM.pokeIO1 GeoRAM.offset
    rw [GeoRAM.windowIndex_eq k hk]
    dsimp only
    generalize (g.bank * 16384) % g.ramCapacity + (g.page &&& 0x3F) * 256 + k = idx
    exact ⟨rfl, Function.update_same _ _ _, fun i hi => Function.update_noteq hi _ _, rfl, rfl,
      Function.update_same _ _ _⟩

/-! ## The table of VIC functions -/

theorem C64.foldl_update_isSome (i : Nat) (l : List (Nat × Option VICFunc)) :
    ∀ (table : Nat → Option VICFunc) (cur : Option Bool),
      (∀ b, cur = some b → (table i).isSome = b) →
      ∀ b, l.foldl (fun cur a => if a.1 = i then some a.2.isSome else cur) cur = some b →
        ((l.foldl (fun table a => Function.update table a.1 a.2) table) i).isSome = b := by
  induction l with
  | nil =>
    intro table cur h b hb
    exact h b hb
  | cons a l ih =>
    intro table cur h b hb
    rw [List.foldl_cons] at hb ⊢
    refine ih _ _ (fun b1 hb1 => ?_) b hb
    by_cases ha : a.1 = i
    · rw [if_pos ha] at hb1
      rw [← ha, Function.update_same]
      exact Option.some.inj hb1
    · rw [if_neg ha] at hb1
      rw [Function.update_noteq (Ne.symm ha)]
      exact h b1 hb1

set_option maxRecDepth 100000 in
theorem C64.vicFunctions_assigned : ∀ model : VICModel, ∀ i, i < 66 →
    (C64.vicFunctionsOfAllModels ++ C64.vicFunctionsOfModel model).foldl
      (fun cur a => if a.1 = i then some a.2.isSome else cur) none
      = some (decide (1 ≤ i ∧ i ≤ model.cyclesPerRasterline)) := by
  intro model
  cases model <;> decide

/-- C24: for each of the six VIC models, after `updateVicFunctionTable` the
entries 0..65 of the table are null at 0, non-null at `1..N` and null at
`N+1..65`, where `N` is 63 for the three PAL models, 64 for `NTSC_6567_R56A`
and 65 for `NTSC_6567` and `NTSC_8562`, whatever the table held before; so
`vicfunc[rasterCycle]` is not null while `1 ≤ rasterCycle ≤ N`. -/
theorem C24_vic_function_table (model : VICModel) (vicfunc : Nat → Option VICFunc) :
    (model.cyclesPerRasterline =
      match model with
      | VICModel.PAL_6569_R1 => 63
      | VICModel.PAL_6569_R3 => 63
      | VICModel.PAL_8565 => 63
      | VICModel.NTSC_6567_R56A => 64
      | VICModel.NTSC_6567 => 65
      | VICModel.NTSC_8562 => 65) ∧
    C64.updateVicFunctionTable model vicfunc 0 = none ∧
    (∀ i, 1 ≤ i → i ≤ model.cyclesPerRasterline →
      (C64.updateVicFunctionTable model vicfunc i).isSome = true) ∧
    (∀ i, model.cyclesPerRasterline < i → i ≤ 65 →
      C64.updateVicFunctionTable model vicfunc i = none) := by
  have key : ∀ i, i < 66 → (C64.updateVicFunctionTable model vicfunc i).isSome
      = decide (1 ≤ i ∧ i ≤ model.cyclesPerRasterline) := fun i hi =>
    C64.foldl_update_isSome i _ vicfunc none (fun b hb => by cases hb) _
      (C64.vicFunctions_assigned model i hi)
  refine ⟨by cases model <;> rfl, ?_, fun i h1 h2 => ?_, fun i h1 h2 => ?_⟩
  · have h := key 0 (by omega)
    have hd : decide (1 ≤ 0 ∧ 0 ≤ model.cyclesPerRasterline) = false := by
      simp
    rw [hd] at h
    exact Option.not_isSome_iff_eq_none.mp (by rw [h]; simp)
  · have hN : model.cyclesPerRasterline ≤ 65 := by cases model <;> decide
    rw [key i (by omega)]
    exact decide_eq_true ⟨h1, h2⟩
  · have h := key i (by omega)
    have hd : decide (1 ≤ i ∧ i ≤ model.cyclesPerRasterline) = false :=
      decide_eq_false (by omega)
    rw [hd] at h
    exact Option.not_isSome_iff_eq_none.mp (by rw [h]; simp)

/-! ## Single stepping -/

section SteppingTheorems

variable {W : Type}

/-- C25: with clearing of the error states idempotent, `stepOver`
returns what `step` returns (with the same bound on both loops, and the
emulator thread untouched) when the byte at PC is not `$20`; when it is
`$20`, `stepOver` executes no cycle: the machine is the one after the error
states are cleared with the soft breakpoint set to PC + 3 (a 16 bit
address), the cycle counter and the trace of component calls are unchanged,
and the emulator thread is the one after `run()`, which is started when it
was halted and the ROMs are loaded. -/
theorem C25_stepOver_like_step (ch : Chips W) (dbg : Debugger W) (fuel : Nat) (s : C64 W)
    (e : Executor)
    (hclear : ∀ t : C64 W,
      C64.clearErrorStates dbg (C64.clearErrorStates dbg t) = C64.clearErrorStates dbg t) :
    (dbg.spypeek (C64.clearErrorStates dbg s) (dbg.getPC (C64.clearErrorStates dbg s)) ≠ 0x20 →
      C64.stepOver ch dbg fuel (s, e) = (C64.step ch dbg fuel s).map (fun t => (t, e))) ∧
    (dbg.spypeek (C64.clearErrorStates dbg s) (dbg.getPC (C64.clearErrorStates dbg s)) = 0x20 →
      ∃ t : C64 W,
        C64.stepOver ch dbg fuel (s, e) = some (t, C64.run e) ∧
        t = { C64.clearErrorStates dbg s with
              chips := dbg.setSoftBreakpoint
                ((dbg.getPC (C64.clearErrorStates dbg s) + 3) % 2 ^ 16)
                (C64.clearErrorStates dbg s) } ∧
        t.cycle = s.cycle ∧ t.trace = s.trace ∧
        (C64.isHalted e = true → C64.isRunnable e = true → C64.isRunning (C64.run e) = true)) := by
  constructor
  · intro h
    have hb : (dbg.spypeek (C64.clearErrorStates dbg s)
        (dbg.getPC (C64.clearErrorStates dbg s)) == 0x20) = false := by
      simpa using h
    unfold C64.stepOver
    dsimp only
    rw [hb]
    have hs : C64.step ch dbg fuel (C64.clearErrorStates dbg s) = C64.step ch dbg fuel s := by
      unfold C64.step
      dsimp only
      rw [hclear]
    rw [← hs]
    rfl
  · intro h
    have hb : (dbg.spypeek (C64.clearErrorStates dbg s)
        (dbg.getPC (C64.clearErrorStates dbg s)) == 0x20) = true := by
      simpa using h
    refine ⟨_, ?_, rfl, rfl, rfl, ?_⟩
    · unfold C64.stepOver
      dsimp only
      rw [hb]
      rfl
    · intro hh hr
      unfold C64.run
      rw [hh]
      simp [hr, C64.isRunning]

/-- C25 at a concrete input. A `JSR` at PC: `stepOver` returns at once with the thread started. A
`NOP` at PC: `stepOver` and `step` both return, with the same machine, after
four cycles. -/
theorem C25_stepOver_like_step_witness :
    C64.stepOver (Chips.idle 63 312) (Debugger.sample 0xEA) 5 (C64.idleAt 10 5, Executor.sample)
      = (C64.step (Chips.idle 63 312) (Debugger.sample 0xEA) 5 (C64.idleAt 10 5)).map
          (fun t => (t, Executor.sample)) ∧
    ((C64.step (Chips.idle 63 312) (Debugger.sample 0xEA) 5 (C64.idleAt 10 5)).map
        (fun t => t.cycle)) = some 4 ∧
    ((C64.stepOver (Chips.idle 63 312) (Debugger.sample 0x20) 5
        (C64.idleAt 10 5, Executor.sample)).map (fun m => (m.1.cycle, m.2.p))) = some (0, true) :=
  ⟨(C25_stepOver_like_step (Chips.idle 63 312) (Debugger.sample 0xEA) 5 (C64.idleAt 10 5)
      Executor.sample (fun _ => rfl)).1 (by decide),
    by decide, by decide⟩

end SteppingTheorems

/-! ## Single precision arithmetic -/

theorem Float32.roundHalfEven_error (t : ℚ) :
    |(Float32.roundHalfEven t : ℚ) - t| ≤ 1 / 2 := by
  unfold Float32.roundHalfEven
  have h1 : (⌊t⌋ : ℚ) ≤ t := Int.floor_le t
  have h2 : t < ⌊t⌋ + 1 := Int.lt_floor_add_one t
  dsimp only
  rw [abs_le]
  split_ifs with ha hb hc
  · constructor <;> linarith
  · push_cast; constructor <;> linarith
  · constructor <;> linarith
  · push_cast; constructor <;> linarith

theorem Float32.roundHalfEven_eq (t : ℚ) (k : ℤ) (h : |t - k| < 1 / 2) :
    Float32.roundHalfEven t = k := by
  rw [abs_lt] at h
  have he := Float32.roundHalfEven_error t
  rw [abs_le] at he
  have h1 : ((Float32.roundHalfEven t - k : ℤ) : ℚ) < 1 := by push_cast; linarith
  have h2 : (-1 : ℚ) < ((Float32.roundHalfEven t - k : ℤ) : ℚ) := by push_cast; linarith
  have h3 : Float32.roundHalfEven t - k < 1 := by exact_mod_cast h1
  have h4 : -1 < Float32.roundHalfEven t - k := by exact_mod_cast h2
  omega

theorem Float32.round_eq (x : ℚ) (e k : ℤ) (hlo : (2 : ℚ) ^ e ≤ x) (hhi : x < (2 : ℚ) ^ (e + 1))
    (hk : |x / (2 : ℚ) ^ (e - 23) - k| < 1 / 2) :
    Float32.round x = k * (2 : ℚ) ^ (e - 23) := by
  have hx : 0 < x := lt_of_lt_of_le (by positivity) hlo
  have he : Int.log 2 x = e := by
    have h1 : e ≤ Int.log 2 x := (Int.zpow_le_iff_le_log (by norm_num) hx).mp (by exact_mod_cast hlo)
    have h2 : Int.log 2 x < e + 1 :=
      (Int.lt_zpow_iff_log_lt (by norm_num) hx).mp (by exact_mod_cast hhi)
    omega
  unfold Float32.round
  rw [if_neg (not_le.mpr hx)]
  dsimp only
  rw [he, Float32.roundHalfEven_eq _ k hk]

theorem Float32.round_error (x : ℚ) (hx : 0 < x) :
    |Float32.round x - x| ≤ x / 2 ^ 24 := by
  unfold Float32.round
  rw [if_neg (not_le.mpr hx)]
  dsimp only
  have hlog : (2 : ℚ) ^ (Int.log 2 x) ≤ x := by
    have := Int.zpow_log_le_self (b := 2) (by norm_num) hx
    exact_mod_cast this
  generalize Int.log 2 x = e at hlog
  have hulp : (0 : ℚ) < (2 : ℚ) ^ (e - 23) := by positivity
  have herr := Float32.roundHalfEven_error (x / (2 : ℚ) ^ (e - 23))
  have hsplit : (2 : ℚ) ^ e = (2 : ℚ) ^ (e - 23) * 2 ^ 23 := by
    rw [zpow_sub₀ (by norm_num : (2 : ℚ) ≠ 0)]
    norm_num
  generalize (Float32.roundHalfEven (x / (2 : ℚ) ^ (e - 23)) : ℚ) = r at herr
  generalize (2 : ℚ) ^ (e - 23) = ulp at hulp herr hsplit
  rw [hsplit] at hlog
  rw [abs_le] at herr ⊢
  have hx' : x / ulp * ulp = x := by field_simp
  constructor
  · have := mul_le_mul_of_nonneg_right herr.1 hulp.le
    rw [sub_mul, hx'] at this
    norm_num at this ⊢
    linarith
  · have := mul_le_mul_of_nonneg_right herr.2 hulp.le
    rw [sub_mul, hx'] at this
    norm_num at this ⊢
    linarith

theorem Float32.roundHalfEven_intCast (k : ℤ) : Float32.roundHalfEven (k : ℚ) = k :=
  Float32.roundHalfEven_eq _ k (by simp)

theorem Float32.ofNat_exact (n : Nat) (h : n < 2 ^ 24) : Float32.ofNat n = n := by
  unfold Float32.ofNat Float32.round
  by_cases hn : n = 0
  · subst hn
    simp
  · have hpos : (0 : ℚ) < (n : ℚ) := by exact_mod_cast Nat.pos_of_ne_zero hn
    rw [if_neg (not_le.mpr hpos)]
    dsimp only
    have hlt : Int.log 2 (n : ℚ) < 24 := by
      apply (Int.lt_zpow_iff_log_lt (by norm_num) hpos).mp
      have h24 : (n : ℚ) < (2 : ℚ) ^ (24 : ℕ) := by exact_mod_cast h
      have hz : (((2 : ℕ) : ℚ)) ^ ((24 : ℤ)) = (2 : ℚ) ^ (24 : ℕ) := by norm_num
      rw [hz]
      exact h24
    generalize Int.log 2 (n : ℚ) = e at hlt
    obtain ⟨j, hj⟩ : ∃ j : ℕ, (j : ℤ) = 23 - e := ⟨(23 - e).toNat, by omega⟩
    have hulp : (2 : ℚ) ^ (e - 23) = ((2 : ℚ) ^ j)⁻¹ := by
      have : e - 23 = -(j : ℤ) := by omega
      rw [this, zpow_neg, zpow_natCast]
    rw [hulp]
    have hint : (n : ℚ) / ((2 : ℚ) ^ j)⁻¹ = (((n * 2 ^ j : ℕ) : ℤ) : ℚ) := by
      push_cast
      field_simp
    rw [hint, Float32.roundHalfEven_intCast]
    push_cast
    field_simp

/-! ## The floppy drive: disks and head moves -/

section DriveTheorems

variable {D V A : Type}

theorem VC1541.ejectDisk_messages (env : DriveEnv D V A) (s : VC1541 D V) :
    ∃ l, (VC1541.ejectDisk env s).messages = s.messages ++ l := by
  unfold VC1541.ejectDisk
  split
  · exact ⟨[], (List.append_nil _).symm⟩
  · dsimp only
    split
    · exact ⟨[Message.MSG_VC1541_NO_DISK, Message.MSG_VC1541_NO_DISK_SOUND], by
        simp [VC1541.putMessage, VC1541.setDiskPartiallyInserted, VC1541.resetDisk]⟩
    · exact ⟨[Message.MSG_VC1541_NO_DISK], by
        simp [VC1541.putMessage, VC1541.setDiskPartiallyInserted, VC1541.resetDisk]⟩

theorem VC1541.insertDiskDone_spec (s : VC1541 D V) :
    (VC1541.insertDiskDone s).1 = true ∧ (VC1541.insertDiskDone s).2.diskInserted = true ∧
    ∃ l, (VC1541.insertDiskDone s).2.messages
      = s.messages ++ Message.MSG_VC1541_DISK :: l := by
  unfold VC1541.insertDiskDone
  dsimp only
  refine ⟨rfl, ?_, ?_⟩
  · split <;> rfl
  · split
    · exact ⟨[Message.MSG_VC1541_DISK_SOUND], by simp [VC1541.putMessage]⟩
    · exact ⟨[], by simp [VC1541.putMessage]⟩

theorem VC1541.insertDisk_encoded (env : DriveEnv D V A) (s : VC1541 D V) (a : A) :
    (VC1541.insertDiskDone
        { VC1541.ejectDisk env s with
          disk := env.encodeArchive a (VC1541.ejectDisk env s).disk }).1 = true ∧
    (VC1541.insertDiskDone
        { VC1541.ejectDisk env s with
          disk := env.encodeArchive a (VC1541.ejectDisk env s).disk }).2.diskInserted = true ∧
    ∃ l, (VC1541.insertDiskDone
        { VC1541.ejectDisk env s with
          disk := env.encodeArchive a (VC1541.ejectDisk env s).disk }).2.messages
      = s.messages ++ l ∧ Message.MSG_VC1541_DISK ∈ l := by
  obtain ⟨h1, h2, l2, h3⟩ := VC1541.insertDiskDone_spec
    { VC1541.ejectDisk env s with
      disk := env.encodeArchive a (VC1541.ejectDisk env s).disk }
  obtain ⟨l1, h4⟩ := VC1541.ejectDisk_messages env s
  refine ⟨h1, h2, l1 ++ Message.MSG_VC1541_DISK :: l2, ?_, by simp⟩
  rw [h3]
  show (VC1541.ejectDisk env s).messages ++ _ = _
  rw [h4, List.append_assoc]

/-- C23: when the archive is neither a D64, G64 nor NIB container and its
conversion to a D64 archive fails, `insertDisk` returns `false` and leaves
the drive exactly as it was (no eject, same disk data, same `diskInserted`
and `diskPartiallyInserted`, no message); in every other case it returns
`true`, `diskInserted` is `true` afterwards and `MSG_VC1541_DISK` is among
the messages sent by the call. -/
theorem C23_insertDisk_no_partial_attach (env : DriveEnv D V A) (s : VC1541 D V) (a : A) :
    (env.type a = ContainerType.OTHER → env.makeD64ArchiveWithAnyArchive a = none →
      VC1541.insertDisk env s a = (false, s)) ∧
    (¬ (env.type a = ContainerType.OTHER ∧ env.makeD64ArchiveWithAnyArchive a = none) →
      (VC1541.insertDisk env s a).1 = true ∧
      (VC1541.insertDisk env s a).2.diskInserted = true ∧
      ∃ l, (VC1541.insertDisk env s a).2.messages = s.messages ++ l ∧
        Message.MSG_VC1541_DISK ∈ l) := by
  refine ⟨fun ht hc => ?_, fun h => ?_⟩
  · unfold VC1541.insertDisk
    rw [ht]
    dsimp only
    rw [hc]
  · unfold VC1541.insertDisk
    cases ht : env.type a with
    | D64_CONTAINER => exact VC1541.insertDisk_encoded env s a
    | G64_CONTAINER => exact VC1541.insertDisk_encoded env s a
    | NIB_CONTAINER => exact VC1541.insertDisk_encoded env s a
    | OTHER =>
      dsimp only
      cases hc : env.makeD64ArchiveWithAnyArchive a with
      | none => exact absurd ⟨ht, hc⟩ h
      | some converted => exact VC1541.insertDisk_encoded env s converted

theorem VC1541.moveHeadUp_head (env : DriveEnv D V A) (s : VC1541 D V) :
    (VC1541.moveHeadUp env s).halftrack
      = (if s.halftrack < 84 then s.halftrack + 1 else s.halftrack) ∧
    (VC1541.moveHeadUp env s).offset
      = (if s.halftrack < 84 then
          VC1541.headOffset
            (VC1541.headPosition s.offset (env.lengthOfHalftrack s.disk s.halftrack))
            (env.lengthOfHalftrack s.disk (s.halftrack + 1))
        else s.offset) := by
  unfold VC1541.moveHeadUp
  dsimp only
  split <;> split <;> exact ⟨rfl, rfl⟩

theorem VC1541.moveHeadDown_head (env : DriveEnv D V A) (s : VC1541 D V) :
    (VC1541.moveHeadDown env s).halftrack
      = (if s.halftrack > 1 then s.halftrack - 1 else s.halftrack) ∧
    (VC1541.moveHeadDown env s).offset
      = (if s.halftrack > 1 then
          VC1541.headOffset
            (VC1541.headPosition s.offset (env.lengthOfHalftrack s.disk s.halftrack))
            (env.lengthOfHalftrack s.disk (s.halftrack - 1))
        else s.offset) := by
  unfold VC1541.moveHeadDown
  dsimp only
  split <;> split <;> exact ⟨rfl, rfl⟩

/-- C26: after `VC1541::reset()` the halftrack is 41; from a halftrack in
`1..84`, `moveHeadUp` and `moveHeadDown` lead to a halftrack in `1..84`;
`moveHeadUp` at halftrack 84 and `moveHeadDown` at halftrack 1 change neither
the halftrack nor the offset, and otherwise the halftrack changes by exactly
`+1` and `-1`. -/
theorem C26_head_position_range (env : DriveEnv D V A) (s : VC1541 D V) :
    (VC1541.reset env s).halftrack = 41 ∧
    (1 ≤ s.halftrack → s.halftrack ≤ 84 →
      (1 ≤ (VC1541.moveHeadUp env s).halftrack ∧ (VC1541.moveHeadUp env s).halftrack ≤ 84) ∧
      (1 ≤ (VC1541.moveHeadDown env s).halftrack ∧
        (VC1541.moveHeadDown env s).halftrack ≤ 84)) ∧
    (s.halftrack = 84 →
      (VC1541.moveHeadUp env s).halftrack = 84 ∧
      (VC1541.moveHeadUp env s).offset = s.offset) ∧
    (s.halftrack = 1 →
      (VC1541.moveHeadDown env s).halftrack = 1 ∧
      (VC1541.moveHeadDown env s).offset = s.offset) ∧
    (s.halftrack < 84 → (VC1541.moveHeadUp env s).halftrack = s.halftrack + 1) ∧
    (1 < s.halftrack → (VC1541.moveHeadDown env s).halftrack + 1 = s.halftrack) := by
  obtain ⟨hu, huo⟩ := VC1541.moveHeadUp_head env s
  obtain ⟨hd, hdo⟩ := VC1541.moveHeadDown_head env s
  rw [hu, huo, hd, hdo]
  refine ⟨rfl, fun h1 h2 => ?_, fun h => ?_, fun h => ?_, fun h => ?_, fun h => ?_⟩
  · split <;> split <;> omega
  · rw [if_neg (by omega), if_neg (by omega)]
    exact ⟨h, rfl⟩
  · rw [if_neg (by omega), if_neg (by omega)]
    exact ⟨h, rfl⟩
  · rw [if_pos h]
  · rw [if_pos h]
    omega

end DriveTheorems

/-! ## The floppy drive: the bit offset after a head move -/

theorem VC1541.headOffset_zero (n m : Nat) (hn : n < 2 ^ 24) (hm : m < 2 ^ 24) :
    VC1541.headOffset (VC1541.headPosition 0 n) m = 0 := by
  unfold VC1541.headOffset VC1541.headPosition Float32.div Float32.mul Float32.toNat
  rw [Float32.ofNat_exact 0 (by norm_num), Float32.ofNat_exact n hn, Float32.ofNat_exact m hm]
  have h0 : Float32.round (((0 : ℕ) : ℚ) / (n : ℚ)) = 0 := by
    unfold Float32.round
    simp
  rw [h0]
  have h1 : Float32.round ((0 : ℚ) * (m : ℚ)) = 0 := by
    unfold Float32.round
    simp
  rw [h1]
  simp

theorem VC1541.headOffset_bounds (o n m : Nat) (hn : 0 < n) (hn2 : n < 2 ^ 16) (hm : 0 < m)
    (hm2 : m < 2 ^ 16) (ho : o < n) :
    VC1541.headOffset (VC1541.headPosition o n) m < m ∧
    (o : ℚ) * m / n - 1 - 1 / 64 < (VC1541.headOffset (VC1541.headPosition o n) m : ℚ) ∧
    (VC1541.headOffset (VC1541.headPosition o n) m : ℚ) ≤ (o : ℚ) * m / n + 1 / 64 := by
  by_cases ho0 : o = 0
  · subst ho0
    rw [VC1541.headOffset_zero n m (by omega) (by omega)]
    refine ⟨hm, ?_, ?_⟩ <;> norm_num
  have hoQ : (0 : ℚ) < (o : ℚ) := by exact_mod_cast Nat.pos_of_ne_zero ho0
  have hnQ : (0 : ℚ) < (n : ℚ) := by exact_mod_cast hn
  have hmQ : (0 : ℚ) < (m : ℚ) := by exact_mod_cast hm
  have hmQ2 : (m : ℚ) < 65536 := by exact_mod_cast hm2
  have hnQ2 : (n : ℚ) ≤ 65535 := by
    have : n ≤ 65535 := by omega
    exact_mod_cast this
  have hoQ2 : (o : ℚ) + 1 ≤ (n : ℚ) := by exact_mod_cast ho
  unfold VC1541.headOffset VC1541.headPosition Float32.div Float32.mul Float32.toNat
  rw [Float32.ofNat_exact o (by omega), Float32.ofNat_exact n (by omega),
    Float32.ofNat_exact m (by omega)]
  have hq : (0 : ℚ) < (o : ℚ) / n := div_pos hoQ hnQ
  have hq1 : (o : ℚ) / n ≤ 65534 / 65535 := by
    rw [div_le_iff₀ hnQ]
    linarith
  rw [show (o : ℚ) * m / n = (o : ℚ) / n * m by ring]
  have he1 := Float32.round_error ((o : ℚ) / n) hq
  rw [abs_le] at he1
  generalize (o : ℚ) / n = q at hq hq1 he1 ⊢
  have hq' : 0 < Float32.round q := by
    have : q / 2 ^ 24 < q := by
      rw [div_lt_iff₀ (by norm_num)]
      linarith
    linarith [he1.1]
  generalize Float32.round q = q' at he1 hq'
  have hp : 0 < q' * m := mul_pos hq' hmQ
  have he2 := Float32.round_error (q' * m) hp
  rw [abs_le] at he2
  have hy1 : q' * m ≤ (q + q / 2 ^ 24) * m :=
    mul_le_mul_of_nonneg_right (by linarith [he1.2]) hmQ.le
  have hy2 : (q - q / 2 ^ 24) * m ≤ q' * m :=
    mul_le_mul_of_nonneg_right (by linarith [he1.1]) hmQ.le
  have hx1 : q * m ≤ 65534 / 65535 * m := mul_le_mul_of_nonneg_right hq1 hmQ.le
  have hx0 : 0 < q * m := mul_pos hq hmQ
  rw [show (q + q / 2 ^ 24) * (m : ℚ) = q * m + q * m / 2 ^ 24 by ring] at hy1
  rw [show (q - q / 2 ^ 24) * (m : ℚ) = q * m - q * m / 2 ^ 24 by ring] at hy2
  generalize q' * m = y at hp he2 hy1 hy2
  generalize q * (m : ℚ) = x at hy1 hy2 hx1 hx0 ⊢
  have hp' : 0 < Float32.round y := by
    have : y / 2 ^ 24 < y := by
      rw [div_lt_iff₀ (by norm_num)]
      linarith
    linarith [he2.1]
  generalize Float32.round y = p' at he2 hp'
  have hfl1 : ((⌊p'⌋ : ℤ) : ℚ) ≤ p' := Int.floor_le p'
  have hfl2 : p' < ((⌊p'⌋ : ℤ) : ℚ) + 1 := Int.lt_floor_add_one p'
  have hfl0 : 0 ≤ ⌊p'⌋ := Int.floor_nonneg.mpr hp'.le
  have hcast : ((⌊p'⌋.toNat : ℕ) : ℚ) = ((⌊p'⌋ : ℤ) : ℚ) := by
    have : ((⌊p'⌋.toNat : ℕ) : ℤ) = ⌊p'⌋ := Int.toNat_of_nonneg hfl0
    exact_mod_cast this
  rw [hcast]
  refine ⟨?_, ?_, ?_⟩
  · have : ((⌊p'⌋.toNat : ℕ) : ℚ) < (m : ℚ) := by
      rw [hcast]
      linarith [he2.2]
    exact_mod_cast this
  · linarith [he2.1]
  · linarith [he2.2]

theorem VC1541.headOffset_equal_tracks :
    VC1541.headOffset (VC1541.headPosition 1 61536) 61536 = 0 := by
  unfold VC1541.headOffset VC1541.headPosition Float32.div Float32.mul Float32.toNat
  rw [Float32.ofNat_exact 1 (by norm_num), Float32.ofNat_exact 61536 (by norm_num)]
  have h1 : Float32.round (((1 : ℕ) : ℚ) / ((61536 : ℕ) : ℚ))
      = ((8933889 : ℤ) : ℚ) * (2 : ℚ) ^ ((-16 : ℤ) - 23) :=
    Float32.round_eq _ (-16) 8933889 (by norm_num) (by norm_num) (by
      rw [abs_lt]; constructor <;> norm_num)
  rw [h1]
  have h2 : Float32.round (((8933889 : ℤ) : ℚ) * (2 : ℚ) ^ ((-16 : ℤ) - 23) * ((61536 : ℕ) : ℚ))
      = ((16777215 : ℤ) : ℚ) * (2 : ℚ) ^ ((-1 : ℤ) - 23) :=
    Float32.round_eq _ (-1) 16777215 (by norm_num) (by norm_num) (by
      rw [abs_lt]; constructor <;> norm_num)
  rw [h2]
  have h3 : ⌊((16777215 : ℤ) : ℚ) * (2 : ℚ) ^ ((-1 : ℤ) - 23)⌋ = 0 := by
    rw [Int.floor_eq_iff]
    constructor <;> norm_num
  rw [h3]
  rfl

theorem VC1541.headOffset_unequal_tracks :
    VC1541.headOffset (VC1541.headPosition 30250 57128) 58297 = 30868 := by
  unfold VC1541.headOffset VC1541.headPosition Float32.div Float32.mul Float32.toNat
  rw [Float32.ofNat_exact 30250 (by norm_num), Float32.ofNat_exact 57128 (by norm_num),
    Float32.ofNat_exact 58297 (by norm_num)]
  have h1 : Float32.round (((30250 : ℕ) : ℚ) / ((57128 : ℕ) : ℚ))
      = ((8883748 : ℤ) : ℚ) * (2 : ℚ) ^ ((-1 : ℤ) - 23) :=
    Float32.round_eq _ (-1) 8883748 (by norm_num) (by norm_num) (by
      rw [abs_lt]; constructor <;> norm_num)
  rw [h1]
  have h2 : Float32.round (((8883748 : ℤ) : ℚ) * (2 : ℚ) ^ ((-1 : ℤ) - 23) * ((58297 : ℕ) : ℚ))
      = ((15804927 : ℤ) : ℚ) * (2 : ℚ) ^ ((14 : ℤ) - 23) :=
    Float32.round_eq _ 14 15804927 (by norm_num) (by norm_num) (by
      rw [abs_lt]; constructor <;> norm_num)
  rw [h2]
  have h3 : ⌊((15804927 : ℤ) : ℚ) * (2 : ℚ) ^ ((14 : ℤ) - 23)⌋ = 30868 := by
    rw [Int.floor_eq_iff]
    constructor <;> norm_num
  rw [h3]
  rfl

theorem VC1541.headOffset_angle (o n m : Nat) (hn : 0 < n) (hn2 : n < 2 ^ 16) (hm : 0 < m)
    (hm2 : m < 2 ^ 16) (ho : o < n) :
    VC1541.headOffset (VC1541.headPosition o n) m < m ∧
    |(VC1541.headOffset (VC1541.headPosition o n) m : ℚ) / m - (o : ℚ) / n|
      < (1 + 1 / 64) / m := by
  obtain ⟨h1, h2, h3⟩ := VC1541.headOffset_bounds o n m hn hn2 hm hm2 ho
  refine ⟨h1, ?_⟩
  have hmQ : (0 : ℚ) < (m : ℚ) := by exact_mod_cast hm
  have hnQ : (0 : ℚ) < (n : ℚ) := by exact_mod_cast hn
  generalize (VC1541.headOffset (VC1541.headPosition o n) m : ℚ) = r at h2 h3 ⊢
  have he : r / m - (o : ℚ) / n = (r - (o : ℚ) * m / n) / m := by
    field_simp
    ring
  rw [he, abs_div, abs_of_pos hmQ, div_lt_div_iff_of_pos_right hmQ, abs_lt]
  constructor <;> linarith

section HeadTheorems

variable {D V A : Type}

/-- C27, the claim as stated fails. On a disk whose halftracks 41 and 42
both have 61536 bits, `moveHeadUp` at bit offset 1 leaves the head at bit
offset 0, while the offset scaled by `len(M)/len(N)` and truncated is 1. On a
disk whose halftrack 41 has 57128 bits and whose halftrack 42 has 58297 bits,
`moveHeadUp` at bit offset 30250 leaves the head at bit offset 30868, and the
angular position changes by more than one bit of the new track. -/
theorem C27_head_step_offset_counterexample :
    (VC1541.moveHeadUp (DriveEnv.sample (fun _ => 61536) false)
      (VC1541.sample 0 0 0 0 false 1)).offset = 0 ∧
    1 * 61536 / 61536 = 1 ∧
    (VC1541.moveHeadUp (DriveEnv.sample (fun ht => if ht = 41 then 57128 else 58297) false)
      (VC1541.sample 0 0 0 0 false 30250)).offset = 30868 ∧
    (1 : ℚ) / 58297 < |(30868 : ℚ) / 58297 - (30250 : ℚ) / 57128| := by
  refine ⟨?_, by decide, ?_, ?_⟩
  · rw [(VC1541.moveHeadUp_head _ _).2, if_pos (by decide)]
    exact VC1541.headOffset_equal_tracks
  · rw [(VC1541.moveHeadUp_head _ _).2, if_pos (by decide)]
    exact VC1541.headOffset_unequal_tracks
  · rw [lt_abs]
    right
    norm_num

/-- C27, amended: for a head move from halftrack `N` to an adjacent
halftrack `M`, with both track lengths positive and below `2 ^ 16` bits and
`offset < len(N)`, the new offset is the single precision product of the
single precision quotient `offset / len(N)` and `len(M)`, without its
fraction; it satisfies `offset' < len(M)`, so the head position stays valid,
and `|offset'/len(M) - offset/len(N)|` is below `(1 + 1/64) / len(M)`. -/
theorem C27_head_step_offset (env : DriveEnv D V A) (s : VC1541 D V)
    (hpos : 0 < env.lengthOfHalftrack s.disk s.halftrack)
    (hlen : env.lengthOfHalftrack s.disk s.halftrack < 2 ^ 16)
    (hoff : s.offset < env.lengthOfHalftrack s.disk s.halftrack) :
    (s.halftrack < 84 → 0 < env.lengthOfHalftrack s.disk (s.halftrack + 1) →
      env.lengthOfHalftrack s.disk (s.halftrack + 1) < 2 ^ 16 →
      (VC1541.moveHeadUp env s).offset
        = VC1541.headOffset
            (VC1541.headPosition s.offset (env.lengthOfHalftrack s.disk s.halftrack))
            (env.lengthOfHalftrack s.disk (s.halftrack + 1)) ∧
      (VC1541.moveHeadUp env s).offset < env.lengthOfHalftrack s.disk (s.halftrack + 1) ∧
      |((VC1541.moveHeadUp env s).offset : ℚ) / env.lengthOfHalftrack s.disk (s.halftrack + 1)
          - (s.offset : ℚ) / env.lengthOfHalftrack s.disk s.halftrack|
        < (1 + 1 / 64) / env.lengthOfHalftrack s.disk (s.halftrack + 1)) ∧
    (1 < s.halftrack → 0 < env.lengthOfHalftrack s.disk (s.halftrack - 1) →
      env.lengthOfHalftrack s.disk (s.halftrack - 1) < 2 ^ 16 →
      (VC1541.moveHeadDown env s).offset
        = VC1541.headOffset
            (VC1541.headPosition s.offset (env.lengthOfHalftrack s.disk s.halftrack))
            (env.lengthOfHalftrack s.disk (s.halftrack - 1)) ∧
      (VC1541.moveHeadDown env s).offset < env.lengthOfHalftrack s.disk (s.halftrack - 1) ∧
      |((VC1541.moveHeadDown env s).offset : ℚ)
            / env.lengthOfHalftrack s.disk (s.halftrack - 1)
          - (s.offset : ℚ) / env.lengthOfHalftrack s.disk s.halftrack|
        < (1 + 1 / 64) / env.lengthOfHalftrack s.disk (s.halftrack - 1)) := by
  refine ⟨fun h hm hm2 => ?_, fun h hm hm2 => ?_⟩
  · rw [(VC1541.moveHeadUp_head env s).2, if_pos h]
    obtain ⟨h1, h2⟩ := VC1541.headOffset_angle s.offset _ _ hpos hlen hm hm2 hoff
    exact ⟨rfl, h1, h2⟩
  · rw [(VC1541.moveHeadDown_head env s).2, if_pos h]
    obtain ⟨h1, h2⟩ := VC1541.headOffset_angle s.offset _ _ hpos hlen hm hm2 hoff
    exact ⟨rfl, h1, h2⟩

/-- C27 (amended) at a concrete input: a step up from halftrack 41 with
57128 bits to halftrack 42 with 58297 bits at bit offset 30250. -/
theorem C27_head_step_offset_witness :
    (VC1541.moveHeadUp (DriveEnv.sample (fun ht => if ht = 41 then 57128 else 58297) false)
      (VC1541.sample 0 0 0 0 false 30250)).offset < 58297 :=
  ((C27_head_step_offset (DriveEnv.sample (fun ht => if ht = 41 then 57128 else 58297) false)
    (VC1541.sample 0 0 0 0 false 30250) (by decide) (by decide) (by decide)).1
      (by decide) (by decide) (by decide)).2.1

end HeadTheorems

/-! ## The floppy drive: the logic clocked by counter UF4 -/

section UF4Theorems

variable {D V A : Type}

theorem VC1541.executeUF4Counter_registers (env : DriveEnv D V A) (s : VC1541 D V) :
    (VC1541.executeUF4Counter env s).readShiftreg = s.readShiftreg ∧
    (VC1541.executeUF4Counter env s).writeShiftreg = s.writeShiftreg ∧
    (VC1541.executeUF4Counter env s).via2 = s.via2 ∧
    (VC1541.executeUF4Counter env s).byteReady = s.byteReady ∧
    (VC1541.executeUF4Counter env s).cpuV = s.cpuV ∧
    (VC1541.executeUF4Counter env s).byteReadyCounter = s.byteReadyCounter ∧
    (VC1541.executeUF4Counter env s).writeMode = s.writeMode := by
  unfold VC1541.executeUF4Counter
  dsimp only
  split <;> (try split) <;> exact ⟨rfl, rfl, rfl, rfl, rfl, rfl, rfl⟩

theorem VC1541.executeUF4Counter_counter (env : DriveEnv D V A) (s : VC1541 D V) :
    (VC1541.executeUF4Counter env s).counterUF4 = (s.counterUF4 + 1) % 2 ^ 8 ∨
    (VC1541.executeUF4Counter env s).counterUF4 = 0 := by
  unfold VC1541.executeUF4Counter
  dsimp only
  split
  · split
    · exact Or.inr rfl
    · exact Or.inl rfl
  · exact Or.inl rfl

theorem VC1541.executeUF4Sync_fields (s : VC1541 D V) :
    (VC1541.executeUF4Sync s).sync = ((s.readShiftreg &&& 0x3FF != 0x3FF) || s.writeMode) ∧
    (VC1541.executeUF4Sync s).byteReadyCounter
      = (if (VC1541.executeUF4Sync s).sync then s.byteReadyCounter else 0) ∧
    (VC1541.executeUF4Sync s).counterUF4 = s.counterUF4 ∧
    (VC1541.executeUF4Sync s).readShiftreg = s.readShiftreg ∧
    (VC1541.executeUF4Sync s).writeShiftreg = s.writeShiftreg ∧
    (VC1541.executeUF4Sync s).via2 = s.via2 ∧
    (VC1541.executeUF4Sync s).byteReady = s.byteReady ∧
    (VC1541.executeUF4Sync s).cpuV = s.cpuV := by
  unfold VC1541.executeUF4Sync
  dsimp only
  cases h : ((s.readShiftreg &&& 0x3FF != 0x3FF) || s.writeMode)
  · exact ⟨rfl, rfl, rfl, rfl, rfl, rfl, rfl, rfl⟩
  · exact ⟨rfl, rfl, rfl, rfl, rfl, rfl, rfl, rfl⟩

theorem VC1541.raiseByteReadyLine_fields (env : DriveEnv D V A) (s : VC1541 D V) :
    (VC1541.raiseByteReadyLine env s).byteReady = true ∧
    (VC1541.raiseByteReadyLine env s).sync = s.sync ∧
    (VC1541.raiseByteReadyLine env s).byteReadyCounter = s.byteReadyCounter ∧
    (VC1541.raiseByteReadyLine env s).counterUF4 = s.counterUF4 ∧
    (VC1541.raiseByteReadyLine env s).readShiftreg = s.readShiftreg ∧
    (VC1541.raiseByteReadyLine env s).writeShiftreg = s.writeShiftreg := by
  unfold VC1541.raiseByteReadyLine
  cases h : s.byteReady
  · exact ⟨rfl, rfl, rfl, rfl, rfl, rfl⟩
  · exact ⟨h, rfl, rfl, rfl, rfl, rfl⟩

theorem VC1541.clearByteReadyLine_fields (env : DriveEnv D V A) (s : VC1541 D V) :
    (VC1541.clearByteReadyLine env s).byteReady = false ∧
    (VC1541.clearByteReadyLine env s).sync = s.sync ∧
    (VC1541.clearByteReadyLine env s).byteReadyCounter = s.byteReadyCounter ∧
    (s.byteReady = true →
      (VC1541.clearByteReadyLine env s).via2.ira = s.readShiftreg % 2 ^ 8 ∧
      (VC1541.clearByteReadyLine env s).cpuV = true) ∧
    (s.byteReady = false → VC1541.clearByteReadyLine env s = s) := by
  unfold VC1541.clearByteReadyLine
  cases h : s.byteReady
  · exact ⟨h, rfl, rfl, fun h0 => Bool.noConfusion h0, fun _ => rfl⟩
  · exact ⟨rfl, rfl, rfl, fun _ => ⟨rfl, rfl⟩, fun h0 => Bool.noConfusion h0⟩

theorem VC1541.executeUF4Phase01_fields (env : DriveEnv D V A) (s : VC1541 D V) :
    (VC1541.executeUF4Phase01 env s).sync = s.sync ∧
    (VC1541.executeUF4Phase01 env s).byteReadyCounter = s.byteReadyCounter := by
  unfold VC1541.executeUF4Phase01
  split
  · exact ⟨(VC1541.clearByteReadyLine_fields env s).2.1,
      (VC1541.clearByteReadyLine_fields env s).2.2.1⟩
  · exact ⟨rfl, rfl⟩

theorem VC1541.executeUF4Write_fields (env : DriveEnv D V A) (s : VC1541 D V) :
    (VC1541.executeUF4Write env s).byteReady = s.byteReady ∧
    (VC1541.executeUF4Write env s).sync = s.sync ∧
    (VC1541.executeUF4Write env s).byteReadyCounter = s.byteReadyCounter ∧
    (VC1541.executeUF4Write env s).counterUF4 = s.counterUF4 ∧
    (VC1541.executeUF4Write env s).readShiftreg = s.readShiftreg ∧
    (VC1541.executeUF4Write env s).writeShiftreg = s.writeShiftreg := by
  unfold VC1541.executeUF4Write VC1541.writeBitToHead
  split <;> exact ⟨rfl, rfl, rfl, rfl, rfl, rfl⟩

theorem VC1541.executeUF4Phase2_fields (env : DriveEnv D V A) (s : VC1541 D V) :
    (VC1541.executeUF4Phase2 env s).byteReady = true ∧
    (VC1541.executeUF4Phase2 env s).sync = s.sync ∧
    (VC1541.executeUF4Phase2 env s).byteReadyCounter
      = (if s.sync then (s.byteReadyCounter + 1) % 8 else 0) ∧
    (VC1541.executeUF4Phase2 env s).writeShiftreg = (s.writeShiftreg <<< 1) % 2 ^ 8 ∧
    (VC1541.executeUF4Phase2 env s).readShiftreg
      = (s.readShiftreg <<< 1) % 2 ^ 16 ||| (if s.counterUF4 &&& 0x0C = 0 then 1 else 0) := by
  obtain ⟨h1, h2, h3, h4, h5, h6⟩ := VC1541.raiseByteReadyLine_fields env s
  unfold VC1541.executeUF4Phase2
  dsimp only
  obtain ⟨w1, w2, w3, w4, w5, w6⟩ := VC1541.executeUF4Write_fields env
    { VC1541.raiseByteReadyLine env s with
      byteReadyCounter :=
        if (VC1541.raiseByteReadyLine env s).sync then
          ((VC1541.raiseByteReadyLine env s).byteReadyCounter + 1) % 8
        else 0 }
  rw [w1, w2, w3, w4, w5, w6]
  dsimp only
  rw [h1, h2, h3, h4, h5, h6]
  exact ⟨rfl, rfl, rfl, rfl, rfl⟩

theorem VC1541.executeUF4Phase3_fields (s : VC1541 D V) :
    (VC1541.executeUF4Phase3 s).sync = s.sync ∧
    (VC1541.executeUF4Phase3 s).byteReadyCounter = s.byteReadyCounter ∧
    (VC1541.executeUF4Phase3 s).byteReady = s.byteReady ∧
    (VC1541.executeUF4Phase3 s).via2 = s.via2 ∧
    (VC1541.executeUF4Phase3 s).cpuV = s.cpuV := by
  unfold VC1541.executeUF4Phase3
  split <;> exact ⟨rfl, rfl, rfl, rfl, rfl⟩

theorem VC1541.executeUF4Logic_phase01 (env : DriveEnv D V A) (s : VC1541 D V)
    (h : s.counterUF4 &&& 0x03 = 0 ∨ s.counterUF4 &&& 0x03 = 1) :
    VC1541.executeUF4Logic env s = VC1541.executeUF4Phase01 env s := by
  unfold VC1541.executeUF4Logic
  rcases h with h | h <;> rw [h]

theorem VC1541.executeUF4Logic_phase2 (env : DriveEnv D V A) (s : VC1541 D V)
    (h : s.counterUF4 &&& 0x03 = 2) :
    VC1541.executeUF4Logic env s = VC1541.executeUF4Phase2 env s := by
  unfold VC1541.executeUF4Logic
  rw [h]

theorem VC1541.executeUF4Logic_sync (env : DriveEnv D V A) (s : VC1541 D V) :
    (VC1541.executeUF4Logic env s).sync = s.sync := by
  unfold VC1541.executeUF4Logic
  split
  · exact (VC1541.executeUF4Phase01_fields env s).1
  · exact (VC1541.executeUF4Phase01_fields env s).1
  · exact (VC1541.executeUF4Phase2_fields env s).2.1
  · exact (VC1541.executeUF4Phase3_fields s).1

theorem VC1541.executeUF4Logic_byteReadyCounter (env : DriveEnv D V A) (s : VC1541 D V)
    (h : s.byteReadyCounter ≤ 7) : (VC1541.executeUF4Logic env s).byteReadyCounter ≤ 7 := by
  unfold VC1541.executeUF4Logic
  split
  · rw [(VC1541.executeUF4Phase01_fields env s).2]; exact h
  · rw [(VC1541.executeUF4Phase01_fields env s).2]; exact h
  · rw [(VC1541.executeUF4Phase2_fields env s).2.2.1]
    split
    · exact Nat.lt_succ_iff.mp (Nat.mod_lt _ (by decide))
    · exact Nat.zero_le _
  · rw [(VC1541.executeUF4Phase3_fields s).2.1]; exact h

theorem VC1541.executeUF4_byteReadyCounter (env : DriveEnv D V A) (s : VC1541 D V)
    (h : s.byteReadyCounter ≤ 7) : (VC1541.executeUF4 env s).byteReadyCounter ≤ 7 := by
  unfold VC1541.executeUF4
  apply VC1541.executeUF4Logic_byteReadyCounter
  rw [(VC1541.executeUF4Sync_fields _).2.1]
  split
  · rw [(VC1541.executeUF4Counter_registers env s).2.2.2.2.2.1]; exact h
  · exact Nat.zero_le _

theorem VC1541.executeUF4Phase01_clear (env : DriveEnv D V A) (s : VC1541 D V)
    (h7 : s.byteReadyCounter = 7) (hca : s.via2.ca2_out = true) (hb : s.byteReady = true) :
    (VC1541.executeUF4Phase01 env s).byteReady = false ∧
    (VC1541.executeUF4Phase01 env s).via2.ira = s.readShiftreg % 2 ^ 8 ∧
    (VC1541.executeUF4Phase01 env s).cpuV = true := by
  unfold VC1541.executeUF4Phase01
  rw [h7, hca, if_pos (by decide)]
  exact ⟨(VC1541.clearByteReadyLine_fields env s).1,
    ((VC1541.clearByteReadyLine_fields env s).2.2.2.1 hb).1,
    ((VC1541.clearByteReadyLine_fields env s).2.2.2.1 hb).2⟩

theorem VC1541.executeUF4Phase01_keep (env : DriveEnv D V A) (s : VC1541 D V)
    (h : s.byteReadyCounter ≠ 7 ∨ s.via2.ca2_out = false ∨ s.byteReady = false) :
    VC1541.executeUF4Phase01 env s = s := by
  unfold VC1541.executeUF4Phase01
  split
  · rename_i hc
    rcases h with h | h | h
    · have h7 : s.byteReadyCounter = 7 := by
        have hc1 := (Bool.and_eq_true _ _ ▸ hc).1
        exact beq_iff_eq.mp hc1
      exact absurd h7 h
    · rw [h] at hc
      exact absurd hc (by simp)
    · exact (VC1541.clearByteReadyLine_fields env s).2.2.2.2 h
  · rfl

theorem VC1541.reset_byteReadyCounter (env : DriveEnv D V A) (s : VC1541 D V) :
    (VC1541.reset env s).byteReadyCounter = 0 := rfl

theorem VC1541.moveHeadUp_byteReadyCounter (env : DriveEnv D V A) (s : VC1541 D V) :
    (VC1541.moveHeadUp env s).byteReadyCounter = s.byteReadyCounter := by
  unfold VC1541.moveHeadUp VC1541.putMessage
  dsimp only
  split <;> split <;> rfl

theorem VC1541.moveHeadDown_byteReadyCounter (env : DriveEnv D V A) (s : VC1541 D V) :
    (VC1541.moveHeadDown env s).byteReadyCounter = s.byteReadyCounter := by
  unfold VC1541.moveHeadDown VC1541.putMessage
  dsimp only
  split <;> split <;> rfl

theorem VC1541.ejectDisk_byteReadyCounter (env : DriveEnv D V A) (s : VC1541 D V) :
    (VC1541.ejectDisk env s).byteReadyCounter = s.byteReadyCounter := by
  unfold VC1541.ejectDisk VC1541.putMessage VC1541.resetDisk VC1541.setDiskPartiallyInserted
  dsimp only
  split
  · rfl
  · split <;> rfl

theorem VC1541.insertDiskDone_byteReadyCounter (s : VC1541 D V) :
    (VC1541.insertDiskDone s).2.byteReadyCounter = s.byteReadyCounter := by
  unfold VC1541.insertDiskDone VC1541.putMessage
  dsimp only
  split <;> rfl

theorem VC1541.insertDisk_byteReadyCounter (env : DriveEnv D V A) (s : VC1541 D V) (a : A) :
    (VC1541.insertDisk env s a).2.byteReadyCounter = s.byteReadyCounter := by
  unfold VC1541.insertDisk
  split
  · rw [VC1541.insertDiskDone_byteReadyCounter]
    exact VC1541.ejectDisk_byteReadyCounter env s
  · rw [VC1541.insertDiskDone_byteReadyCounter]
    exact VC1541.ejectDisk_byteReadyCounter env s
  · rw [VC1541.insertDiskDone_byteReadyCounter]
    exact VC1541.ejectDisk_byteReadyCounter env s
  · split
    · rfl
    · rw [VC1541.insertDiskDone_byteReadyCounter]
      exact VC1541.ejectDisk_byteReadyCounter env s

theorem VC1541.reachable_byteReadyCounter (env : DriveEnv D V A) (s : VC1541 D V)
    (h : VC1541.Reachable env s) : s.byteReadyCounter ≤ 7 := by
  induction h with
  | reset s => rw [VC1541.reset_byteReadyCounter]; exact Nat.zero_le _
  | executeUF4 s _ ih => exact VC1541.executeUF4_byteReadyCounter env s ih
  | moveHeadUp s _ ih => rw [VC1541.moveHeadUp_byteReadyCounter]; exact ih
  | moveHeadDown s _ ih => rw [VC1541.moveHeadDown_byteReadyCounter]; exact ih
  | insertDisk s a _ ih => rw [VC1541.insertDisk_byteReadyCounter]; exact ih
  | ejectDisk s _ ih => rw [VC1541.ejectDisk_byteReadyCounter]; exact ih
  | other s t _ ht ih => rw [ht]; exact ih

theorem VC1541.shifted_bit (a : Nat) (c : Prop) [Decidable c] :
    ((a <<< 1) % 2 ^ 16 ||| (if c then 1 else 0)) % 2 = 1 ↔ c := by
  have h : (a <<< 1) % 2 ^ 16 % 2 = 0 := by
    rw [Nat.shiftLeft_eq]
    omega
  rw [Nat.or_mod_two_eq_one]
  constructor
  · rintro (h1 | h1)
    · omega
    · by_contra hc
      rw [if_neg hc] at h1
      omega
  · intro hc
    right
    rw [if_pos hc]

/-- C28, the claim as stated fails: in read mode with the last 10 bits of the
read shift register all ones, `executeUF4` leaves `sync` false, where the
claim has it true. -/
theorem C28_sync_signal_counterexample :
    (VC1541.sample 0 1 0 0x3FF false 0).readShiftreg &&& 0x3FF = 0x3FF ∧
    (VC1541.sample 0 1 0 0x3FF false 0).writeMode = false ∧
    (VC1541.executeUF4 (DriveEnv.sample (fun _ => 61536) false)
      (VC1541.sample 0 1 0 0x3FF false 0)).sync = false := by
  decide

/-- C28, amended: `executeUF4` does not change `readShiftreg` or the
mode before it updates `sync`, and after every `executeUF4` step `sync` is
false exactly when the last 10 bits of the read shift register are all ones
and the drive is not in write mode. -/
theorem C28_sync_signal (env : DriveEnv D V A) (s : VC1541 D V) :
    (VC1541.executeUF4Counter env s).readShiftreg = s.readShiftreg ∧
    (VC1541.executeUF4Counter env s).writeMode = s.writeMode ∧
    ((VC1541.executeUF4 env s).sync = false ↔
      (s.readShiftreg &&& 0x3FF = 0x3FF ∧ s.writeMode = false)) := by
  obtain ⟨h1, _, _, _, _, _, h7⟩ := VC1541.executeUF4Counter_registers env s
  refine ⟨h1, h7, ?_⟩
  unfold VC1541.executeUF4
  rw [VC1541.executeUF4Logic_sync, (VC1541.executeUF4Sync_fields _).1, h1, h7]
  cases s.writeMode <;> simp

/-- C28 (amended) at a concrete input: a drive in read mode that has read
ten 1 bits has `sync` false after
`executeUF4`; with a 0 among the last ten bits `sync` is true. -/
theorem C28_sync_signal_witness :
    (VC1541.executeUF4 (DriveEnv.sample (fun _ => 61536) false)
      (VC1541.sample 0 1 0 0x7FF false 0)).sync = false ∧
    (VC1541.executeUF4 (DriveEnv.sample (fun _ => 61536) false)
      (VC1541.sample 0 1 0 0x155 false 0)).sync = true :=
  ⟨(C28_sync_signal (DriveEnv.sample (fun _ => 61536) false)
      (VC1541.sample 0 1 0 0x7FF false 0)).2.2.mpr (by decide),
    by decide⟩

/-- C29, the claim as stated fails: `reset()` clears `counterUF4` and keeps
`carryCounter`. After a reset with `carryCounter = 3` and one `executeUF4`
step, `counterUF4` is 1 and the incremented counter has low two bits 10, but
the next step takes a 1 bit from the disk in read mode, which clears the
counter: `executeUF4` neither raises byte-ready nor shifts the registers. -/
theorem C29_uf4_phase2_counterexample :
    VC1541.Reachable (DriveEnv.sample (fun _ => 61536) true)
      (VC1541.executeUF4 (DriveEnv.sample (fun _ => 61536) true)
        (VC1541.reset (DriveEnv.sample (fun _ => 61536) true)
          (VC1541.sample 0 3 0 0 false 0))) ∧
    ((VC1541.executeUF4 (DriveEnv.sample (fun _ => 61536) true)
        (VC1541.reset (DriveEnv.sample (fun _ => 61536) true)
          (VC1541.sample 0 3 0 0 false 0))).counterUF4 + 1) &&& 0x03 = 2 ∧
    (VC1541.executeUF4 (DriveEnv.sample (fun _ => 61536) true)
      (VC1541.executeUF4 (DriveEnv.sample (fun _ => 61536) true)
        (VC1541.reset (DriveEnv.sample (fun _ => 61536) true)
          (VC1541.sample 0 3 0 0 false 0)))).byteReady = false ∧
    (VC1541.executeUF4 (DriveEnv.sample (fun _ => 61536) true)
      (VC1541.executeUF4 (DriveEnv.sample (fun _ => 61536) true)
        (VC1541.reset (DriveEnv.sample (fun _ => 61536) true)
          (VC1541.sample 0 3 0 0 false 0)))).readShiftreg = 0 ∧
    (VC1541.executeUF4 (DriveEnv.sample (fun _ => 61536) true)
      (VC1541.executeUF4 (DriveEnv.sample (fun _ => 61536) true)
        (VC1541.reset (DriveEnv.sample (fun _ => 61536) true)
          (VC1541.sample 0 3 0 0 false 0)))).counterUF4 = 0 :=
  ⟨VC1541.Reachable.executeUF4 _ (VC1541.Reachable.reset _), by decide, by decide, by decide,
    by decide⟩

/-- C29, amended: the counter that selects the phase is `counterUF4`
after the increment and after the reset by a 1 bit that comes in; it is the
incremented value or 0. Whenever its low two bits are 10, `executeUF4` ends
with byte-ready raised, `byteReadyCounter` equal to (old + 1) mod 8 if `sync`
is true and 0 if it is false, `writeShiftreg` shifted left by one bit in 8
bits and `readShiftreg` shifted left by one bit in 16 bits, the new bit 0
being 1 exactly when `(counterUF4 & $0C) = 0`. In every state reachable from
`reset`, `byteReadyCounter` is at most 7. -/
theorem C29_uf4_phase2 (env : DriveEnv D V A) :
    (∀ s : VC1541 D V,
      ((VC1541.executeUF4Counter env s).counterUF4 = (s.counterUF4 + 1) % 2 ^ 8 ∨
        (VC1541.executeUF4Counter env s).counterUF4 = 0) ∧
      ((VC1541.executeUF4Counter env s).counterUF4 &&& 0x03 = 2 →
        (VC1541.executeUF4 env s).byteReady = true ∧
        (VC1541.executeUF4 env s).byteReadyCounter
          = (if (VC1541.executeUF4 env s).sync then (s.byteReadyCounter + 1) % 8 else 0) ∧
        (VC1541.executeUF4 env s).writeShiftreg = (s.writeShiftreg <<< 1) % 2 ^ 8 ∧
        (VC1541.executeUF4 env s).readShiftreg
          = (s.readShiftreg <<< 1) % 2 ^ 16 |||
            (if (VC1541.executeUF4Counter env s).counterUF4 &&& 0x0C = 0 then 1 else 0) ∧
        ((VC1541.executeUF4 env s).readShiftreg % 2 = 1 ↔
          (VC1541.executeUF4Counter env s).counterUF4 &&& 0x0C = 0))) ∧
    (∀ s : VC1541 D V, VC1541.Reachable env s → s.byteReadyCounter ≤ 7) := by
  refine ⟨fun s => ⟨VC1541.executeUF4Counter_counter env s, fun h => ?_⟩,
    VC1541.reachable_byteReadyCounter env⟩
  obtain ⟨c1, c2, _, _, _, c6, _⟩ := VC1541.executeUF4Counter_registers env s
  obtain ⟨y1, y2, y3, y4, y5, _, _, _⟩ :=
    VC1541.executeUF4Sync_fields (VC1541.executeUF4Counter env s)
  have hsync : (VC1541.executeUF4 env s).sync
      = (VC1541.executeUF4Sync (VC1541.executeUF4Counter env s)).sync := by
    unfold VC1541.executeUF4
    exact VC1541.executeUF4Logic_sync env _
  have hlogic : VC1541.executeUF4 env s
      = VC1541.executeUF4Phase2 env
          (VC1541.executeUF4Sync (VC1541.executeUF4Counter env s)) := by
    unfold VC1541.executeUF4
    exact VC1541.executeUF4Logic_phase2 env _ (by rw [y3]; exact h)
  obtain ⟨p1, _, p3, p4, p5⟩ :=
    VC1541.executeUF4Phase2_fields env (VC1541.executeUF4Sync (VC1541.executeUF4Counter env s))
  have hread : (VC1541.executeUF4 env s).readShiftreg
      = (s.readShiftreg <<< 1) % 2 ^ 16 |||
        (if (VC1541.executeUF4Counter env s).counterUF4 &&& 0x0C = 0 then 1 else 0) := by
    rw [hlogic, p5, y4, y3, c1]
  refine ⟨by rw [hlogic]; exact p1, ?_, by rw [hlogic, p4, y5, c2], hread, ?_⟩
  · rw [hsync, hlogic, p3, y2, c6]
    cases (VC1541.executeUF4Sync (VC1541.executeUF4Counter env s)).sync <;> rfl
  · rw [hread]
    exact VC1541.shifted_bit _ _

/-- C29 (amended) at a concrete input. A drive with `counterUF4 = 1` and no
bit coming in: the
phase is 2, and `executeUF4` raises byte-ready, counts to 1 and shifts a 0
into `readShiftreg`; the state after `reset` and `executeUF4` has its
`byteReadyCounter` in range. -/
theorem C29_uf4_phase2_witness :
    (VC1541.executeUF4 (DriveEnv.sample (fun _ => 61536) true)
      (VC1541.sample 1 1 0 0x155 false 0)).byteReady = true ∧
    (VC1541.executeUF4 (DriveEnv.sample (fun _ => 61536) true)
      (VC1541.sample 1 1 0 0x155 false 0)).byteReadyCounter = 1 ∧
    (VC1541.executeUF4 (DriveEnv.sample (fun _ => 61536) true)
      (VC1541.sample 1 1 0 0x155 false 0)).readShiftreg = 0x2AB ∧
    (VC1541.executeUF4 (DriveEnv.sample (fun _ => 61536) true)
      (VC1541.reset (DriveEnv.sample (fun _ => 61536) true)
        (VC1541.sample 1 1 5 0x155 false 0))).byteReadyCounter ≤ 7 :=
  ⟨(((C29_uf4_phase2 (DriveEnv.sample (fun _ => 61536) true)).1
      (VC1541.sample 1 1 0 0x155 false 0)).2 (by decide)).1,
    by decide, by decide,
    (C29_uf4_phase2 (DriveEnv.sample (fun _ => 61536) true)).2 _
      (VC1541.Reachable.executeUF4 _ (VC1541.Reachable.reset _))⟩

/-- C30, the claim as stated fails: in phase 1 with `byteReadyCounter = 7` and
`ca2_out` set, a drive whose byte-ready line is already clear keeps
`VIA2.ira` (0, not `readShiftreg`) and the overflow flag clear; when the line
is set, `VIA2.ira` gets `$55`, the low byte of `readShiftreg = $155`. -/
theorem C30_uf4_phase01_counterexample :
    (VC1541.executeUF4Sync (VC1541.executeUF4Counter (DriveEnv.sample (fun _ => 61536) false)
      (VC1541.sample 0 1 7 0x155 false 0))).counterUF4 &&& 0x03 = 1 ∧
    (VC1541.executeUF4Sync (VC1541.executeUF4Counter (DriveEnv.sample (fun _ => 61536) false)
      (VC1541.sample 0 1 7 0x155 false 0))).byteReadyCounter = 7 ∧
    (VC1541.sample 0 1 7 0x155 false 0).via2.ca2_out = true ∧
    (VC1541.executeUF4 (DriveEnv.sample (fun _ => 61536) false)
      (VC1541.sample 0 1 7 0x155 false 0)).cpuV = false ∧
    (VC1541.executeUF4 (DriveEnv.sample (fun _ => 61536) false)
      (VC1541.sample 0 1 7 0x155 false 0)).via2.ira = 0 ∧
    (VC1541.executeUF4 (DriveEnv.sample (fun _ => 61536) false)
      (VC1541.sample 0 1 7 0x155 false 0)).readShiftreg = 0x155 ∧
    (VC1541.executeUF4 (DriveEnv.sample (fun _ => 61536) false)
      (VC1541.sample 0 1 7 0x155 true 0)).via2.ira = 0x55 ∧
    (VC1541.executeUF4 (DriveEnv.sample (fun _ => 61536) false)
      (VC1541.sample 0 1 7 0x155 true 0)).readShiftreg = 0x155 := by
  decide

/-- C30, amended: let `t` be the drive after the counter increment and
the sync update of `executeUF4`, which leave byte-ready, VIA 2, the overflow
flag and `readShiftreg` as they were. When the low two bits of `t.counterUF4`
are 00 or 01: if `t.byteReadyCounter = 7`, `ca2_out` is set and byte-ready is
set, `executeUF4` ends with byte-ready cleared, `VIA2.ira` equal to the low
byte of `readShiftreg` and the overflow flag set; if `t.byteReadyCounter` is
not 7, or `ca2_out` is clear, or byte-ready is clear, then byte-ready,
`VIA2.ira` and the overflow flag are unchanged. -/
theorem C30_uf4_phase01 (env : DriveEnv D V A) (s : VC1541 D V)
    (h : (VC1541.executeUF4Sync (VC1541.executeUF4Counter env s)).counterUF4 &&& 0x03 = 0 ∨
      (VC1541.executeUF4Sync (VC1541.executeUF4Counter env s)).counterUF4 &&& 0x03 = 1) :
    ((VC1541.executeUF4Sync (VC1541.executeUF4Counter env s)).byteReadyCounter = 7 →
      s.via2.ca2_out = true → s.byteReady = true →
        (VC1541.executeUF4 env s).byteReady = false ∧
        (VC1541.executeUF4 env s).via2.ira = s.readShiftreg % 2 ^ 8 ∧
        (VC1541.executeUF4 env s).cpuV = true) ∧
    ((VC1541.executeUF4Sync (VC1541.executeUF4Counter env s)).byteReadyCounter ≠ 7 ∨
      s.via2.ca2_out = false ∨ s.byteReady = false →
        (VC1541.executeUF4 env s).byteReady = s.byteReady ∧
        (VC1541.executeUF4 env s).via2.ira = s.via2.ira ∧
        (VC1541.executeUF4 env s).cpuV = s.cpuV) := by
  obtain ⟨c1, _, c3, c4, c5, _, _⟩ := VC1541.executeUF4Counter_registers env s
  obtain ⟨_, _, _, y4, _, y6, y7, y8⟩ :=
    VC1541.executeUF4Sync_fields (VC1541.executeUF4Counter env s)
  have hlogic : VC1541.executeUF4 env s
      = VC1541.executeUF4Phase01 env
          (VC1541.executeUF4Sync (VC1541.executeUF4Counter env s)) := by
    unfold VC1541.executeUF4
    exact VC1541.executeUF4Logic_phase01 env _ h
  constructor
  · intro h7 hca hb
    obtain ⟨q1, q2, q3⟩ := VC1541.executeUF4Phase01_clear env
      (VC1541.executeUF4Sync (VC1541.executeUF4Counter env s)) h7
      (by rw [y6, c3]; exact hca) (by rw [y7, c4]; exact hb)
    rw [hlogic]
    exact ⟨q1, by rw [q2, y4, c1], q3⟩
  · intro hk
    have hkeep := VC1541.executeUF4Phase01_keep env
      (VC1541.executeUF4Sync (VC1541.executeUF4Counter env s))
      (by rw [y6, c3, y7, c4]; exact hk)
    rw [hlogic, hkeep]
    exact ⟨by rw [y7, c4], by rw [y6, c3], by rw [y8, c5]⟩

/-- C30 (amended) at a concrete input: a drive in phase 1 with
`byteReadyCounter = 7`, `ca2_out` set and
byte-ready set: `executeUF4` clears byte-ready, latches the low byte `$55`
of `readShiftreg = $155` and sets the overflow flag. -/
theorem C30_uf4_phase01_witness :
    (VC1541.executeUF4 (DriveEnv.sample (fun _ => 61536) false)
      (VC1541.sample 0 1 7 0x155 true 0)).byteReady = false ∧
    (VC1541.executeUF4 (DriveEnv.sample (fun _ => 61536) false)
      (VC1541.sample 0 1 7 0x155 true 0)).via2.ira = 0x155 % 2 ^ 8 ∧
    (VC1541.executeUF4 (DriveEnv.sample (fun _ => 61536) false)
      (VC1541.sample 0 1 7 0x155 true 0)).cpuV = true :=
  (C30_uf4_phase01 (DriveEnv.sample (fun _ => 61536) false)
    (VC1541.sample 0 1 7 0x155 true 0) (Or.inr (by decide))).1 (by decide) rfl rfl

end UF4Theorems

/-! ## The peripheral control register of the VIA -/

/-- C34, the claim as stated fails: with PCR = `$80` bits 7..5 are 100,
neither 001 nor 011, but `shouldClearCB2onRead` returns false; with
PCR = `$C0` (bits 110) both CB2 functions return false, and with PCR = `$0C`
(bits 3..1 are 110) both CA2 functions return false. -/
theorem C34_clear_c2_flags_counterexample :
    VIA6522.CB2selectedAsIndependent 0x80 = false ∧
    VIA6522.shouldClearCB2onRead 0x80 = false ∧
    VIA6522.CB2selectedAsIndependent 0xC0 = false ∧
    VIA6522.shouldClearCB2onRead 0xC0 = false ∧
    VIA6522.shouldClearCB2onWrite 0xC0 = false ∧
    VIA6522.CA2selectedAsIndependent 0x0C = false ∧
    VIA6522.shouldClearCA2onRead 0x0C = false ∧
    VIA6522.shouldClearCA2onWrite 0x0C = false := by
  decide

set_option maxRecDepth 100000 in
/-- C34, amended: for every PCR value, `shouldClearCB2onRead` returns true
exactly when PCR bits 7..5 are 000 or 010 (bits 7 and 5 clear) and
`shouldClearCB2onWrite` exactly when they are 000, 010, 100 or 101;
`shouldClearCA2onRead` and `shouldClearCA2onWrite` return true exactly when
PCR bits 3..1 are 000, 010, 100 or 101. None of them returns true when the
line is selected as independent (001 or 011). -/
theorem C34_clear_c2_flags : ∀ pcr : Nat, pcr < 256 →
    (VIA6522.shouldClearCB2onRead pcr = true ↔
      (pcr.testBit 7 = false ∧ pcr.testBit 5 = false)) ∧
    (VIA6522.shouldClearCB2onWrite pcr = true ↔
      ((pcr.testBit 7 = false ∧ pcr.testBit 5 = false) ∨
        (pcr.testBit 7 = true ∧ pcr.testBit 6 = false))) ∧
    (VIA6522.shouldClearCA2onRead pcr = true ↔
      ((pcr.testBit 3 = false ∧ pcr.testBit 1 = false) ∨
        (pcr.testBit 3 = true ∧ pcr.testBit 2 = false))) ∧
    (VIA6522.shouldClearCA2onWrite pcr = true ↔
      ((pcr.testBit 3 = false ∧ pcr.testBit 1 = false) ∨
        (pcr.testBit 3 = true ∧ pcr.testBit 2 = false))) ∧
    (VIA6522.CB2selectedAsIndependent pcr = true →
      VIA6522.shouldClearCB2onRead pcr = false ∧
      VIA6522.shouldClearCB2onWrite pcr = false) ∧
    (VIA6522.CA2selectedAsIndependent pcr = true →
      VIA6522.shouldClearCA2onRead pcr = false ∧
      VIA6522.shouldClearCA2onWrite pcr = false) := by
  decide

/-- C34 (amended) at a concrete input: with PCR = `$A0` (bits 7..5 are 101,
pulse output) a write to ORB clears the CB2 flag and a read does not. -/
theorem C34_clear_c2_flags_witness :
    VIA6522.shouldClearCB2onWrite 0xA0 = true ∧ VIA6522.shouldClearCB2onRead 0xA0 = false :=
  ⟨(C34_clear_c2_flags 0xA0 (by decide)).2.1.mpr (Or.inr ⟨by decide, by decide⟩),
    by decide⟩

/-! ## Reading a program file byte by byte -/

theorem PRGArchive.getByte_eof (a : PRGArchive) (h : a.fp = -1) :
    a.getByte = some (-1, a) := by
  unfold PRGArchive.getByte
  rw [if_pos (by omega)]

theorem PRGArchive.getBytes_eof : ∀ (k : Nat) (a : PRGArchive), a.fp = -1 →
    PRGArchive.getBytes k a = some (List.replicate k (-1), a) := by
  intro k
  induction k with
  | zero => intro a _; rfl
  | succ k ih =>
    intro a h
    unfold PRGArchive.getBytes
    rw [PRGArchive.getByte_eof a h]
    dsimp only
    rw [ih a h]
    rfl

theorem PRGArchive.getByte_inside (a : PRGArchive) (i : Nat) (h : a.fp = (i : Int))
    (hi : i < a.size) :
    a.getByte = some ((a.data i : Int),
      { a with fp := if i + 1 = a.size then -1 else (i : Int) + 1 }) := by
  unfold PRGArchive.getByte
  rw [if_neg (by omega), if_pos (by omega), h]
  dsimp only
  by_cases hl : i + 1 = a.size
  · rw [if_pos (by omega), if_pos hl]
    rfl
  · rw [if_neg (by omega), if_neg hl]
    rfl

theorem PRGArchive.expected_succ (a : PRGArchive) (i k : Nat) :
    PRGArchive.expected a i (k + 1)
      = (if i < a.size then (a.data i : Int) else -1) :: PRGArchive.expected a (i + 1) k := by
  unfold PRGArchive.expected
  rw [List.range_succ_eq_map, List.map_cons, List.map_map]
  congr 1
  apply List.map_congr_left
  intro j _
  simp only [Function.comp, Nat.add_zero]
  rw [show i + (j + 1) = i + 1 + j by omega]

theorem PRGArchive.expected_eof (a : PRGArchive) (i k : Nat) (h : a.size ≤ i) :
    PRGArchive.expected a i k = List.replicate k (-1) := by
  induction k generalizing i with
  | zero => rfl
  | succ k ih =>
    rw [PRGArchive.expected_succ, if_neg (by omega), ih (i + 1) (by omega)]
    rfl

theorem PRGArchive.getBytes_inside : ∀ (k : Nat) (a : PRGArchive) (i : Nat),
    a.fp = (i : Int) → i < a.size →
    ∃ a1 : PRGArchive, PRGArchive.getBytes k a = some (PRGArchive.expected a i k, a1) ∧
      a1.data = a.data ∧ a1.size = a.size := by
  intro k
  induction k with
  | zero => intro a i _ _; exact ⟨a, rfl, rfl, rfl⟩
  | succ k ih =>
    intro a i h hi
    unfold PRGArchive.getBytes
    rw [PRGArchive.getByte_inside a i h hi, PRGArchive.expected_succ, if_pos hi]
    dsimp only
    by_cases hl : i + 1 = a.size
    · rw [if_pos hl, PRGArchive.getBytes_eof k _ rfl]
      rw [PRGArchive.expected_eof a (i + 1) k (by omega)]
      exact ⟨_, rfl, rfl, rfl⟩
    · rw [if_neg hl]
      obtain ⟨a1, h1, h2, h3⟩ := ih { a with fp := (i : Int) + 1 } (i + 1) (by simp) (by
        show i + 1 < a.size
        omega)
      rw [h1]
      exact ⟨a1, rfl, h2, h3⟩

/-- C32: for a PRG archive of size `n >= 2`, `selectItem` followed by `k`
calls of `getByte` returns `data[2], data[3], ..., data[n-1]` in order and
then `-1` on every further call, for every `k`; no call reads outside
`data[0 .. n-1]` (the model of `getByte` has a result), and when `n = 2` the
first call returns `-1`. -/
theorem C32_prg_getByte_sequence (a : PRGArchive) (hn : 2 ≤ a.size) (k : Nat) :
    (∃ a1 : PRGArchive,
      PRGArchive.getBytes k (a.selectItem 0)
        = some ((List.range k).map
            (fun (j : Nat) => if 2 + j < a.size then (a.data (2 + j) : Int) else -1), a1)) ∧
    (a.size = 2 → (a.selectItem 0).getByte = some (-1, a.selectItem 0)) := by
  have hsel : a.selectItem 0 = { a with fp := if a.size = 2 then -1 else 2 } := by
    unfold PRGArchive.selectItem
    dsimp only
    by_cases h2 : a.size = 2
    · rw [if_pos (by omega), if_pos h2]
    · rw [if_neg (by omega), if_neg h2]
  constructor
  · by_cases h2 : a.size = 2
    · rw [hsel, if_pos h2, PRGArchive.getBytes_eof k _ rfl]
      refine ⟨{ a with fp := -1 }, ?_⟩
      have he := PRGArchive.expected_eof a 2 k (by omega)
      unfold PRGArchive.expected at he
      rw [he]
    · rw [hsel, if_neg h2]
      obtain ⟨a1, h1, _, _⟩ := PRGArchive.getBytes_inside k { a with fp := 2 } 2 rfl (by
        show 2 < a.size
        omega)
      exact ⟨a1, h1⟩
  · intro h2
    rw [hsel, if_pos h2]
    exact PRGArchive.getByte_eof _ rfl

/-- C32 at a concrete input: the file `01 08 A9 00 60` yields `$A9 $00 $60`
and then `-1` twice. -/
theorem C32_prg_getByte_sequence_witness :
    ∃ a1 : PRGArchive,
      PRGArchive.getBytes 5 (PRGArchive.sample.selectItem 0)
        = some ([0xA9, 0x00, 0x60, -1, -1], a1) :=
  (C32_prg_getByte_sequence PRGArchive.sample (by decide) 5).1

/-! ## The GeoRAM window stays inside the RAM -/

theorem GeoRAM.offset_lt (g : GeoRAM) (m k : Nat) (hcap : g.ramCapacity = m * 16384)
    (hm : 0 < m) (hk : k < 256) : g.offset k < g.ramCapacity := by
  unfold GeoRAM.offset
  dsimp only
  rw [hcap, Nat.mul_mod_mul_right]
  have h1 : g.bank % m < m := Nat.mod_lt _ hm
  have h2 : g.page &&& 0x3F ≤ 0x3F := Nat.and_le_right
  have h3 : g.bank % m * 16384 ≤ (m - 1) * 16384 := Nat.mul_le_mul_right _ (by omega)
  have h4 : (m - 1) * 16384 + 16384 = m * 16384 := by
    rw [← Nat.succ_mul]
    congr 1
    omega
  have h5 : (g.page &&& 0x3F) * 256 ≤ 0x3F * 256 := Nat.mul_le_mul_right _ h2
  omega

theorem ExpansionPort.makeGeoRamCartridge_capacity (geo capacity : Nat)
    (h : capacity * 1024 < 2 ^ 32) :
    ∃ g : GeoRAM, ExpansionPort.makeGeoRamCartridge geo capacity = CartridgeObject.geoRAM g ∧
      g.ramCapacity = capacity * 1024 := by
  unfold ExpansionPort.makeGeoRamCartridge Cartridge.makeWithType
  rw [if_pos rfl, Nat.mod_eq_of_lt h]
  exact ⟨_, rfl, rfl⟩

/-- C33: for a capacity of 64, 128, 256, 512, 1024, 2048 or 4096 KiB,
`attachGeoRamCartridge` attaches a GeoRAM cartridge whose `ramCapacity` is
`capacity * 1024`, and for every GeoRAM cartridge with that capacity, every
value of the bank and page latches and every window address `$DE00 + k` with
`k < 256`, the index `offset(addr - $DE00)` is below `ramCapacity`; for every
other capacity `attachGeoRamCartridge` returns `false` and leaves the port as
it is. -/
theorem C33_georam_offset_in_range {Mem : Type} (env : PortEnv Mem CartridgeObject)
    (geo : Nat) (s : ExpansionPort Mem CartridgeObject) (capacity : Nat) :
    ((capacity = 64 ∨ capacity = 128 ∨ capacity = 256 ∨ capacity = 512 ∨ capacity = 1024 ∨
        capacity = 2048 ∨ capacity = 4096) →
      (∃ g : GeoRAM,
        ExpansionPort.attachGeoRamCartridge env geo s capacity
          = ExpansionPort.attachCartridge env s (CartridgeObject.geoRAM g) ∧
        g.ramCapacity = capacity * 1024) ∧
      (∀ g : GeoRAM, g.ramCapacity = capacity * 1024 → ∀ k, k < 256 →
        GeoRAM.windowIndex (0xDE00 + k) = k ∧
        g.offset (GeoRAM.windowIndex (0xDE00 + k)) < g.ramCapacity)) ∧
    (¬ (capacity = 64 ∨ capacity = 128 ∨ capacity = 256 ∨ capacity = 512 ∨ capacity = 1024 ∨
        capacity = 2048 ∨ capacity = 4096) →
      ExpansionPort.attachGeoRamCartridge env geo s capacity = (false, s)) := by
  constructor
  · intro hacc
    have hm : ∃ m, 0 < m ∧ capacity * 1024 = m * 16384 ∧ capacity * 1024 < 2 ^ 32 := by
      rcases hacc with h | h | h | h | h | h | h <;> subst h
      · exact ⟨4, by decide, by decide, by decide⟩
      · exact ⟨8, by decide, by decide, by decide⟩
      · exact ⟨16, by decide, by decide, by decide⟩
      · exact ⟨32, by decide, by decide, by decide⟩
      · exact ⟨64, by decide, by decide, by decide⟩
      · exact ⟨128, by decide, by decide, by decide⟩
      · exact ⟨256, by decide, by decide, by decide⟩
    obtain ⟨m, hm0, hm1, hm2⟩ := hm
    constructor
    · obtain ⟨g, hg1, hg2⟩ := ExpansionPort.makeGeoRamCartridge_capacity geo capacity hm2
      refine ⟨g, ?_, hg2⟩
      unfold ExpansionPort.attachGeoRamCartridge
      rw [if_pos hacc, hg1]
    · intro g hg k hk
      rw [GeoRAM.windowIndex_eq k hk]
      exact ⟨rfl, GeoRAM.offset_lt g m k (by rw [hg, hm1]) hm0 hk⟩
  · intro hrej
    unfold ExpansionPort.attachGeoRamCartridge
    rw [if_neg hrej]

/-- C33 at a concrete input: 512 KiB are accepted, and with bank 255 and
page 255 the last byte of the window is at index `$7FFFF`; 100 KiB are
refused. -/
theorem C33_georam_offset_in_range_witness :
    ({ GeoRAM.sample with bank := 255, page := 255 } : GeoRAM).offset
      (GeoRAM.windowIndex (0xDE00 + 255)) < 0x80000 ∧
    ExpansionPort.attachGeoRamCartridge CartridgeObject.sampleEnv 57
      (CartridgeObject.samplePort none) 100 = (false, CartridgeObject.samplePort none) :=
  ⟨((C33_georam_offset_in_range CartridgeObject.sampleEnv 57 (CartridgeObject.samplePort none)
      512).1 (by decide)).2 { GeoRAM.sample with bank := 255, page := 255 } rfl 255
        (by decide) |>.2,
    (C33_georam_offset_in_range CartridgeObject.sampleEnv 57 (CartridgeObject.samplePort none)
      100).2 (by decide)⟩

/-! ## What `switchBank` and `poke` write -/

theorem Cartridge.switchBankCopy_of_fits (c : Cartridge) (nr : Nat) (block : List Nat)
    (hc : c.chip nr = some block) (h : ¬ 0xFFFF - c.chipStartAddress nr < c.chipSize nr) :
    c.switchBankCopy nr
      = (List.range (c.chipSize nr)).map
          (fun (k : Nat) => (c.chipStartAddress nr : Int) - 0x8000 + (k : Int)) := by
  unfold Cartridge.switchBankCopy
  rw [hc]
  dsimp only
  rw [if_neg h]

theorem Cartridge.switchBankCopy_bounds (c : Cartridge) (nr : Nat) (o : Int)
    (ho : o ∈ c.switchBankCopy nr) :
    o < 0x8000 ∧ (0x8000 ≤ c.chipStartAddress nr → 0 ≤ o) := by
  unfold Cartridge.switchBankCopy at ho
  cases hc : c.chip nr with
  | none => rw [hc] at ho; cases ho
  | some block =>
    rw [hc] at ho
    dsimp only at ho
    by_cases h : 0xFFFF - c.chipStartAddress nr < c.chipSize nr
    · rw [if_pos h] at ho; cases ho
    · rw [if_neg h, List.mem_map] at ho
      obtain ⟨k, hk, hko⟩ := ho
      rw [List.mem_range] at hk
      rw [← hko]
      constructor
      · omega
      · intro h8; omega

theorem Cartridge.switchBankMarks_bounds (c : Cartridge) (nr : Nat) (i : Nat)
    (hi : i ∈ c.switchBankMarks nr) : i < 16 := by
  unfold Cartridge.switchBankMarks at hi
  cases hc : c.chip nr with
  | none => rw [hc] at hi; cases hi
  | some block =>
    rw [hc] at hi
    dsimp only at hi
    by_cases h : 0xFFFF - c.chipStartAddress nr < c.chipSize nr
    · rw [if_pos h] at hi; cases hi
    · rw [if_neg h, List.mem_range'_1] at hi
      have h1 : c.chipStartAddress nr + c.chipSize nr ≤ 0xFFFF := by omega
      have h2 : (c.chipStartAddress nr + c.chipSize nr) >>> 12 ≤ 0xFFFF >>> 12 := by
        rw [Nat.shiftRight_eq_div_pow, Nat.shiftRight_eq_div_pow]
        exact Nat.div_le_div_right h1
      have h3 : 0xFFFF >>> 12 = 15 := by decide
      omega

theorem Cartridge.switchBank_of_rejected (c : Cartridge) (nr : Nat)
    (h : c.chip nr = none ∨ 0xFFFF - c.chipStartAddress nr < c.chipSize nr) :
    c.switchBank nr = c ∧ c.switchBankCopy nr = [] ∧ c.switchBankMarks nr = [] := by
  unfold Cartridge.switchBank Cartridge.switchBankCopy Cartridge.switchBankMarks
  cases hc : c.chip nr with
  | none => exact ⟨rfl, rfl, rfl⟩
  | some block =>
    rcases h with h | h
    · rw [hc] at h; cases h
    · dsimp only
      rw [if_pos h, if_pos h, if_pos h]
      exact ⟨rfl, rfl, rfl⟩

/-- C35, the behaviour of the code: `switchBank` tests the end of the chip
(`0xFFFF - loadAddr < size`) and not its start. For the cartridge with a chip
of 8 KiB at load address `$4000` the test passes and `memcpy` writes the
bytes at the offsets `-$4000 ..` relative to `rom[0]`, below the array. What
holds for all cartridges: no byte is written at or above `rom[$8000]`, every
byte is inside the array when the load address is at least `$8000`, only
`blendedIn[0..15]` is written, and nothing is written when the chip is
missing or fails the test. -/
theorem C35_switchBank_writes_below_rom :
    (¬ (0xFFFF - Cartridge.lowChipSample.chipStartAddress 0
        < Cartridge.lowChipSample.chipSize 0)) ∧
    (-0x4000 : Int) ∈ Cartridge.lowChipSample.switchBankCopy 0 ∧
    (∀ (c : Cartridge) (nr : Nat) (o : Int), o ∈ c.switchBankCopy nr →
      o < 0x8000 ∧ (0x8000 ≤ c.chipStartAddress nr → 0 ≤ o)) ∧
    (∀ (c : Cartridge) (nr i : Nat), i ∈ c.switchBankMarks nr → i < 16) ∧
    (∀ (c : Cartridge) (nr : Nat),
      c.chip nr = none ∨ 0xFFFF - c.chipStartAddress nr < c.chipSize nr →
      c.switchBank nr = c ∧ c.switchBankCopy nr = [] ∧ c.switchBankMarks nr = []) := by
  refine ⟨by decide, ?_, Cartridge.switchBankCopy_bounds, Cartridge.switchBankMarks_bounds,
    Cartridge.switchBank_of_rejected⟩
  rw [Cartridge.switchBankCopy_of_fits Cartridge.lowChipSample 0 _ rfl (by decide),
    List.mem_map]
  refine ⟨0, List.mem_range.mpr (by decide), ?_⟩
  show ((0x4000 : Nat) : Int) - 0x8000 + ((0 : Nat) : Int) = -0x4000
  norm_num

set_option maxRecDepth 100000 in
theorem Cartridge.bankNumberOfAddr_lt : ∀ k, k < 64 →
    Cartridge.bankNumberOfAddr (0xDE00 + k) = k := by
  decide

set_option maxRecDepth 100000 in
theorem Cartridge.ocean_bank_lt : ∀ v, v < 256 → (v &&& 0x3F) % 2 ^ 8 < 64 := by
  decide

/-- C36, the behaviour of the code: for the types `CRT_SIMONS_BASIC` and
`CRT_C64_GAME_SYSTEM_SYSTEM_3` the bank number is the low byte of
`addr - $DE00`, which is not limited to 63. A write to `$DE40` of a
cartridge of type `CRT_C64_GAME_SYSTEM_SYSTEM_3` calls `switchBank(64)`, and
a write to `$DEFF` calls `switchBank(255)`. What holds: for type
`CRT_NORMAL` no bank is switched and only `rom[addr & $7FFF]` changes, and
for type `CRT_OCEAN_TYPE_1` the bank number `value & $3F` is below 64. -/
theorem C36_poke_bank_number_out_of_range :
    (Cartridge.gameSystemSample.poke 0xDE40 0).2 = [64] ∧
    (Cartridge.gameSystemSample.poke 0xDEFF 0).2 = [255] ∧
    (∀ (c : Cartridge) (addr value : Nat), c.type = CRT_NORMAL →
      c.poke addr value
        = ({ c with rom := Function.update c.rom (addr &&& 0x7FFF) value }, [])) ∧
    (∀ (c : Cartridge) (addr value : Nat), c.type = CRT_OCEAN_TYPE_1 → value < 256 →
      ∀ nr ∈ (c.poke addr value).2, nr < 64) := by
  refine ⟨by decide, by decide, fun c addr value h => ?_, fun c addr value h hv nr hnr => ?_⟩
  · unfold Cartridge.poke
    dsimp only
    rw [if_pos h]
  · unfold Cartridge.poke at hnr
    dsimp only at hnr
    rw [h, if_neg (by decide), if_neg (by decide), if_neg (by decide), if_pos rfl] at hnr
    unfold Cartridge.callSwitchBank at hnr
    simp only [List.nil_append, List.mem_singleton] at hnr
    rw [hnr]
    exact Cartridge.ocean_bank_lt value hv

/-! ## Sequences of writes to a MagicDesk cartridge -/

section MagicDeskTheorems

variable {Mem B : Type}

theorem MagicDesk.pokeIO1_at_DE00 (env : PortEnv Mem (CustomCartridge B))
    (bankIn : Nat → B → B) (s : ExpansionPort Mem (CustomCartridge B)) (v : Nat) :
    (MagicDesk.pokeIO1 env bankIn s 0xDE00 v).exromLinePhi1 = (v &&& 0x80 != 0) ∧
    (MagicDesk.pokeIO1 env bankIn s 0xDE00 v).exromLinePhi2 = (v &&& 0x80 != 0) ∧
    (MagicDesk.pokeIO1 env bankIn s 0xDE00 v).cartridge
      = s.cartridge.map (fun c =>
          CustomCartridge.bankIn bankIn (v &&& 0x0F) { c with regValue := v &&& 0x8F }) := by
  refine ⟨rfl, rfl, ?_⟩
  show Option.map _ (Option.map _ s.cartridge) = _
  rw [Option.map_map]
  rfl

theorem MagicDesk.pokeIO1_isSome (env : PortEnv Mem (CustomCartridge B))
    (bankIn : Nat → B → B) (s : ExpansionPort Mem (CustomCartridge B)) (addr v : Nat) :
    (MagicDesk.pokeIO1 env bankIn s addr v).cartridge.isSome = s.cartridge.isSome := by
  unfold MagicDesk.pokeIO1
  dsimp only
  split
  · show (Option.map _ (Option.map _ s.cartridge)).isSome = _
    cases s.cartridge <;> rfl
  · show (Option.map _ s.cartridge).isSome = _
    cases s.cartridge <;> rfl

theorem MagicDesk.pokes_isSome (env : PortEnv Mem (CustomCartridge B))
    (bankIn : Nat → B → B) (writes : List (Nat × Nat)) :
    ∀ s : ExpansionPort Mem (CustomCartridge B),
      (MagicDesk.pokes env bankIn s writes).cartridge.isSome = s.cartridge.isSome := by
  induction writes with
  | nil => intro s; rfl
  | cons w ws ih =>
    intro s
    unfold MagicDesk.pokes
    rw [List.foldl_cons]
    exact (ih _).trans (MagicDesk.pokeIO1_isSome env bankIn s w.1 w.2)

theorem MagicDesk.pokes_append (env : PortEnv Mem (CustomCartridge B))
    (bankIn : Nat → B → B) (s : ExpansionPort Mem (CustomCartridge B))
    (writes : List (Nat × Nat)) (a v : Nat) :
    MagicDesk.pokes env bankIn s (writes ++ [(a, v)])
      = MagicDesk.pokeIO1 env bankIn (MagicDesk.pokes env bankIn s writes) a v := by
  unfold MagicDesk.pokes
  rw [List.foldl_append]
  rfl

set_option maxRecDepth 100000 in
theorem MagicDesk.register_bits : ∀ v, v < 256 →
    (v &&& 0x8F).testBit 7 = (v &&& 0x80 != 0) ∧ (v &&& 0x8F) &&& 0x0F = v &&& 0x0F := by
  decide

/-- C38, the claim as stated fails: `pokeIO1` stores `value & $8F` in the
register for every address, but sets the EXROM line and banks in a chip only
for `$DE00`. After the writes `$00` to `$DE00` and `$85` to `$DE01`,
`peekIO1` returns `$85` (bit 7 set, low nibble 5) while the EXROM line last
set by the cartridge is 0 and the bank last banked in is 0. -/
theorem C38_magicdesk_readback_counterexample :
    (MagicDesk.pokes CustomCartridge.sampleEnv CustomCartridge.sampleBankIn
      CustomCartridge.samplePort [(0xDE00, 0x00), (0xDE01, 0x85)]).cartridge.map
        (fun c => (MagicDesk.peekIO1 c 0xDE00, c.banking)) = some (0x85, 0) ∧
    (MagicDesk.pokes CustomCartridge.sampleEnv CustomCartridge.sampleBankIn
      CustomCartridge.samplePort [(0xDE00, 0x00), (0xDE01, 0x85)]).exromLinePhi2 = false ∧
    (0x85 : Nat).testBit 7 = true ∧ (0x85 : Nat) &&& 0x0F = 5 := by
  decide

/-- C38, amended: after a sequence of `pokeIO1` writes of bytes that ends
with a write to `$DE00`, the value returned by `peekIO1` of the attached
cartridge has bit 7 equal to the EXROM line (in both clock phases), which
that write has set, and low nibble equal to the number of the bank that the
write has banked in; the cartridge stays attached. -/
theorem C38_magicdesk_readback (env : PortEnv Mem (CustomCartridge B))
    (bankIn : Nat → B → B) (s : ExpansionPort Mem (CustomCartridge B))
    (writes : List (Nat × Nat)) (v : Nat) (hv : v < 256) :
    (MagicDesk.pokes env bankIn s (writes ++ [(0xDE00, v)])).cartridge.isSome
      = s.cartridge.isSome ∧
    ∀ c, (MagicDesk.pokes env bankIn s (writes ++ [(0xDE00, v)])).cartridge = some c →
      ∀ a, (MagicDesk.peekIO1 c a).testBit 7
          = (MagicDesk.pokes env bankIn s (writes ++ [(0xDE00, v)])).exromLinePhi1 ∧
        (MagicDesk.peekIO1 c a).testBit 7
          = (MagicDesk.pokes env bankIn s (writes ++ [(0xDE00, v)])).exromLinePhi2 ∧
        (MagicDesk.peekIO1 c a) &&& 0x0F = v &&& 0x0F ∧
        ∃ c0 : CustomCartridge B,
          (MagicDesk.pokes env bankIn s writes).cartridge = some c0 ∧
          c.banking = bankIn ((MagicDesk.peekIO1 c a) &&& 0x0F) c0.banking := by
  constructor
  · exact MagicDesk.pokes_isSome env bankIn _ s
  · intro c hc a
    rw [MagicDesk.pokes_append] at hc ⊢
    obtain ⟨h1, h2, h3⟩ :=
      MagicDesk.pokeIO1_at_DE00 env bankIn (MagicDesk.pokes env bankIn s writes) v
    obtain ⟨b1, b2⟩ := MagicDesk.register_bits v hv
    rw [h3] at hc
    rw [h1, h2]
    cases h0 : (MagicDesk.pokes env bankIn s writes).cartridge with
    | none => rw [h0] at hc; cases hc
    | some c0 =>
      rw [h0] at hc
      have hc1 : CustomCartridge.bankIn bankIn (v &&& 0x0F) { c0 with regValue := v &&& 0x8F }
          = c := Option.some.inj hc
      rw [← hc1]
      refine ⟨b1, b1, b2, c0, rfl, ?_⟩
      show bankIn (v &&& 0x0F) c0.banking = bankIn ((v &&& 0x8F) &&& 0x0F) c0.banking
      rw [b2]

/-- C38 (amended) at a concrete input: after the writes `$85` to `$DE01` and
`$03` to `$DE00` the register reads `$03`, the EXROM line is 0 and chip 3 is
banked in. -/
theorem C38_magicdesk_readback_witness :
    ∃ c, (MagicDesk.pokes CustomCartridge.sampleEnv CustomCartridge.sampleBankIn
        CustomCartridge.samplePort ([(0xDE01, 0x85)] ++ [(0xDE00, 0x03)])).cartridge = some c ∧
      (MagicDesk.peekIO1 c 0xDE00) &&& 0x0F = 3 ∧
      (MagicDesk.peekIO1 c 0xDE00).testBit 7
        = (MagicDesk.pokes CustomCartridge.sampleEnv CustomCartridge.sampleBankIn
            CustomCartridge.samplePort ([(0xDE01, 0x85)] ++ [(0xDE00, 0x03)])).exromLinePhi2 := by
  have h := C38_magicdesk_readback CustomCartridge.sampleEnv CustomCartridge.sampleBankIn
    CustomCartridge.samplePort [(0xDE01, 0x85)] 0x03 (by decide)
  cases hc : (MagicDesk.pokes CustomCartridge.sampleEnv CustomCartridge.sampleBankIn
      CustomCartridge.samplePort ([(0xDE01, 0x85)] ++ [(0xDE00, 0x03)])).cartridge with
  | none =>
    have h1 := h.1
    rw [hc] at h1
    exact absurd h1 (by decide)
  | some c => exact ⟨c, rfl, ((h.2 c hc) 0xDE00).2.2.1, ((h.2 c hc) 0xDE00).2.1⟩

end MagicDeskTheorems

/-! ## Line-wise and cycle-wise execution -/

section LineTheorems

variable {W : Type}

theorem C64._executeOneCycle_rasterCycle (ch : Chips W) (s : C64 W) :
    (C64._executeOneCycle ch s).2.rasterCycle = s.rasterCycle + 1 :=
  (C64.fields_of_gauge _ _ (C64._executeOneCycle_gauge ch s)).2.2.2.1

theorem C64.executeOneCycle_inner (ch : Chips W) (s : C64 W) (h : 2 ≤ s.rasterCycle) :
    C64.executeOneCycle ch s
      = ((C64._executeOneCycle ch s).1,
          if ch.isLastCycleInRasterline s.rasterCycle then
            C64.endRasterLine ch (C64._executeOneCycle ch s).2
          else (C64._executeOneCycle ch s).2) := by
  unfold C64.executeOneCycle
  dsimp only
  have h1 : (s.rasterCycle == 1) = false := by
    rw [beq_eq_false_iff_ne]
    omega
  rw [h1]
  rfl

theorem C64.executeOneLineLoop_cycles (ch : Chips W)
    (hlast : ∀ c, ch.isLastCycleInRasterline c = true ↔ c = ch.getCyclesPerRasterline) :
    ∀ (k : Nat) (t : C64 W), 2 ≤ t.rasterCycle →
      t.rasterCycle + k = ch.getCyclesPerRasterline →
      (C64.executeCycles ch (k + 1) t).1 = true →
      C64.executeOneLineLoop ch ch.getCyclesPerRasterline (k + 1) t.rasterCycle t
        = C64.executeCycles ch (k + 1) t := by
  intro k
  induction k with
  | zero =>
    intro t h2 hN hok
    have hl : ch.isLastCycleInRasterline t.rasterCycle = true := (hlast _).mpr (by omega)
    unfold C64.executeCycles at hok ⊢
    unfold C64.executeOneLineLoop
    rw [C64.executeOneCycle_inner ch t h2, hl] at hok ⊢
    dsimp only at hok ⊢
    have h1 : (C64._executeOneCycle ch t).1 = true := by
      cases hr : (C64._executeOneCycle ch t).1
      · rw [hr] at hok; exact absurd hok (by simp [C64.executeCycles])
      · rfl
    rw [h1]
    rfl
  | succ k ih =>
    intro t h2 hN hok
    have hl : ch.isLastCycleInRasterline t.rasterCycle = false := by
      cases hc : ch.isLastCycleInRasterline t.rasterCycle
      · rfl
      · have := (hlast _).mp hc
        omega
    unfold C64.executeCycles at hok ⊢
    unfold C64.executeOneLineLoop
    rw [C64.executeOneCycle_inner ch t h2, hl] at hok ⊢
    dsimp only at hok ⊢
    have h1 : (C64._executeOneCycle ch t).1 = true := by
      cases hr : (C64._executeOneCycle ch t).1
      · rw [hr] at hok; exact absurd hok (by simp)
      · rfl
    rw [h1] at hok ⊢
    have hrc := C64._executeOneCycle_rasterCycle ch t
    have ih1 := ih (C64._executeOneCycle ch t).2 (by omega) (by omega) (by simpa using hok)
    rw [hrc] at ih1
    simp only [Bool.not_true, Bool.false_eq_true, if_false, Bool.true_and]
    rw [ih1]

theorem C64.executeOneCycle_first (ch : Chips W) (s : C64 W) :
    C64.executeOneCycle ch s
      = ((C64._executeOneCycle ch
            (if s.rasterCycle == 1 then C64.beginRasterLine ch s else s)).1,
          if ch.isLastCycleInRasterline s.rasterCycle then
            C64.endRasterLine ch (C64._executeOneCycle ch
              (if s.rasterCycle == 1 then C64.beginRasterLine ch s else s)).2
          else (C64._executeOneCycle ch
            (if s.rasterCycle == 1 then C64.beginRasterLine ch s else s)).2) := rfl

theorem C64.beginIfFirst_rasterCycle (ch : Chips W) (s : C64 W) :
    (if s.rasterCycle == 1 then C64.beginRasterLine ch s else s).rasterCycle
      = s.rasterCycle := by
  split
  · exact (C64.fields_of_gauge _ _ (C64.beginRasterLine_gauge ch s)).2.2.2.1
  · rfl

/-- C37: from a state with `rasterCycle = c`, `1 <= c <= N`, where
`isLastCycleInRasterline(x)` holds exactly for `x = N` and the `N - c + 1`
consecutive calls of `executeOneCycle()` all return true, one call of
`executeOneLine()` returns true and leaves the same state, with the same
trace of component calls, as those calls of `executeOneCycle()`. -/
theorem C37_line_equals_cycles (ch : Chips W) (s : C64 W)
    (hlast : ∀ c, ch.isLastCycleInRasterline c = true ↔ c = ch.getCyclesPerRasterline)
    (h1 : 1 ≤ s.rasterCycle) (h2 : s.rasterCycle ≤ ch.getCyclesPerRasterline)
    (hok : (C64.executeCycles ch (ch.getCyclesPerRasterline - s.rasterCycle + 1) s).1 = true) :
    C64.executeOneLine ch s
      = C64.executeCycles ch (ch.getCyclesPerRasterline - s.rasterCycle + 1) s ∧
    (C64.executeOneLine ch s).1 = true := by
  have key : C64.executeOneLine ch s
      = C64.executeCycles ch (ch.getCyclesPerRasterline - s.rasterCycle + 1) s := by
    have hb := C64.beginIfFirst_rasterCycle ch s
    have hn : ch.getCyclesPerRasterline + 1 - s.rasterCycle
        = ch.getCyclesPerRasterline - s.rasterCycle + 1 := by omega
    unfold C64.executeOneLine
    dsimp only
    rw [hb, hn]
    generalize hk : ch.getCyclesPerRasterline - s.rasterCycle = k at hok ⊢
    have hrc := C64._executeOneCycle_rasterCycle ch
      (if s.rasterCycle == 1 then C64.beginRasterLine ch s else s)
    rw [hb] at hrc
    cases k with
    | zero =>
      have hl : ch.isLastCycleInRasterline s.rasterCycle = true := (hlast _).mpr (by omega)
      unfold C64.executeCycles at hok ⊢
      unfold C64.executeOneLineLoop
      rw [C64.executeOneCycle_first ch s, hl] at hok ⊢
      dsimp only at hok ⊢
      have hr : (C64._executeOneCycle ch
          (if s.rasterCycle == 1 then C64.beginRasterLine ch s else s)).1 = true := by
        cases hr : (C64._executeOneCycle ch
          (if s.rasterCycle == 1 then C64.beginRasterLine ch s else s)).1
        · rw [hr] at hok; exact absurd hok (by simp)
        · rfl
      rw [hr]
      rfl
    | succ k =>
      have hl : ch.isLastCycleInRasterline s.rasterCycle = false := by
        cases hc : ch.isLastCycleInRasterline s.rasterCycle
        · rfl
        · have := (hlast _).mp hc
          omega
      unfold C64.executeCycles at hok ⊢
      unfold C64.executeOneLineLoop
      rw [C64.executeOneCycle_first ch s, hl] at hok ⊢
      dsimp only at hok ⊢
      have hr : (C64._executeOneCycle ch
          (if s.rasterCycle == 1 then C64.beginRasterLine ch s else s)).1 = true := by
        cases hr : (C64._executeOneCycle ch
          (if s.rasterCycle == 1 then C64.beginRasterLine ch s else s)).1
        · rw [hr] at hok; exact absurd hok (by simp)
        · rfl
      rw [hr] at hok ⊢
      have hloop := C64.executeOneLineLoop_cycles ch hlast k
        (C64._executeOneCycle ch
          (if s.rasterCycle == 1 then C64.beginRasterLine ch s else s)).2
        (by omega) (by omega) (by simpa using hok)
      rw [hrc] at hloop
      simp only [Bool.not_true, Bool.false_eq_true, if_false, Bool.true_and]
      rw [hloop]
  exact ⟨key, by rw [key]; exact hok⟩

/-- C37 at a concrete input: a PAL line (63 cycles) entered at cycle 60 of
line 100 with components that always succeed; the line and the four cycles
end at cycle 1 of line 101 after four CPU cycles. -/
theorem C37_line_equals_cycles_witness :
    C64.executeOneLine (Chips.idle 63 312) (C64.idleAt 100 60)
      = C64.executeCycles (Chips.idle 63 312) 4 (C64.idleAt 100 60) ∧
    (C64.executeCycles (Chips.idle 63 312) 4 (C64.idleAt 100 60)).2.gauge
      = (4, 0, 101, 1, 4, 0, 1) :=
  ⟨(C37_line_equals_cycles (Chips.idle 63 312) (C64.idleAt 100 60)
      (fun c => by simp [Chips.idle]) (by decide) (by decide) (by decide)).1,
    by decide⟩

end LineTheorems

/-! ## One cycle of the drive -/

section DriveCycleTheorems

variable {D V A : Type}

theorem VC1541.executeUF4Counter_clock (env : DriveEnv D V A) (s : VC1541 D V) :
    (VC1541.executeUF4Counter env s).clock = s.clock ∧
    (VC1541.executeUF4Counter env s).disk = s.disk ∧
    (VC1541.executeUF4Counter env s).carryCounter = s.carryCounter + 1 := by
  unfold VC1541.executeUF4Counter
  dsimp only
  split <;> (try split) <;> exact ⟨rfl, rfl, rfl⟩

theorem VC1541.executeUF4Sync_clock (s : VC1541 D V) :
    (VC1541.executeUF4Sync s).clock = s.clock ∧
    (VC1541.executeUF4Sync s).disk = s.disk ∧
    (VC1541.executeUF4Sync s).carryCounter = s.carryCounter := by
  unfold VC1541.executeUF4Sync
  dsimp only
  split <;> exact ⟨rfl, rfl, rfl⟩

theorem VC1541.clearByteReadyLine_clock (env : DriveEnv D V A) (s : VC1541 D V) :
    (VC1541.clearByteReadyLine env s).clock = s.clock ∧
    (VC1541.clearByteReadyLine env s).disk = s.disk ∧
    (VC1541.clearByteReadyLine env s).carryCounter = s.carryCounter ∧
    (VC1541.clearByteReadyLine env s).writeShiftreg = s.writeShiftreg := by
  unfold VC1541.clearByteReadyLine
  split <;> exact ⟨rfl, rfl, rfl, rfl⟩

theorem VC1541.raiseByteReadyLine_clock (env : DriveEnv D V A) (s : VC1541 D V) :
    (VC1541.raiseByteReadyLine env s).clock = s.clock ∧
    (VC1541.raiseByteReadyLine env s).disk = s.disk ∧
    (VC1541.raiseByteReadyLine env s).carryCounter = s.carryCounter ∧
    (VC1541.raiseByteReadyLine env s).halftrack = s.halftrack ∧
    (VC1541.raiseByteReadyLine env s).offset = s.offset := by
  unfold VC1541.raiseByteReadyLine
  split <;> exact ⟨rfl, rfl, rfl, rfl, rfl⟩

theorem VC1541.executeUF4Write_clock (env : DriveEnv D V A) (s : VC1541 D V) :
    (VC1541.executeUF4Write env s).clock = s.clock ∧
    (VC1541.executeUF4Write env s).carryCounter = s.carryCounter ∧
    (VC1541.executeUF4Write env s).disk
      = (if s.writeMode && !env.getLightBarrier s then
          env.setModified true
            (env.writeBitToHalftrack s.disk s.halftrack s.offset (s.writeShiftreg &&& 0x80 != 0))
        else s.disk) := by
  unfold VC1541.executeUF4Write VC1541.writeBitToHead
  split <;> exact ⟨rfl, rfl, rfl⟩

theorem VC1541.executeUF4Phase01_clock (env : DriveEnv D V A) (s : VC1541 D V) :
    (VC1541.executeUF4Phase01 env s).clock = s.clock ∧
    (VC1541.executeUF4Phase01 env s).disk = s.disk ∧
    (VC1541.executeUF4Phase01 env s).carryCounter = s.carryCounter ∧
    (VC1541.executeUF4Phase01 env s).writeShiftreg = s.writeShiftreg := by
  unfold VC1541.executeUF4Phase01
  split
  · exact VC1541.clearByteReadyLine_clock env s
  · exact ⟨rfl, rfl, rfl, rfl⟩

theorem VC1541.executeUF4Phase3_clock (s : VC1541 D V) :
    (VC1541.executeUF4Phase3 s).clock = s.clock ∧
    (VC1541.executeUF4Phase3 s).disk = s.disk ∧
    (VC1541.executeUF4Phase3 s).carryCounter = s.carryCounter := by
  unfold VC1541.executeUF4Phase3
  split <;> exact ⟨rfl, rfl, rfl⟩

theorem VC1541.executeUF4Phase2_clock (env : DriveEnv D V A) (s : VC1541 D V) :
    (VC1541.executeUF4Phase2 env s).clock = s.clock ∧
    (VC1541.executeUF4Phase2 env s).carryCounter = s.carryCounter ∧
    (VC1541.executeUF4Phase2 env s).disk
      = (VC1541.executeUF4Write env
          { VC1541.raiseByteReadyLine env s with
            byteReadyCounter :=
              if (VC1541.raiseByteReadyLine env s).sync then
                ((VC1541.raiseByteReadyLine env s).byteReadyCounter + 1) % 8
              else 0 }).disk := by
  obtain ⟨r1, _, r3, _, _⟩ := VC1541.raiseByteReadyLine_clock env s
  obtain ⟨w1, w2, _⟩ := VC1541.executeUF4Write_clock env
    { VC1541.raiseByteReadyLine env s with
      byteReadyCounter :=
        if (VC1541.raiseByteReadyLine env s).sync then
          ((VC1541.raiseByteReadyLine env s).byteReadyCounter + 1) % 8
        else 0 }
  unfold VC1541.executeUF4Phase2
  dsimp only
  refine ⟨?_, ?_, rfl⟩
  · exact w1.trans r1
  · exact w2.trans r3

theorem VC1541.executeUF4Logic_clock (env : DriveEnv D V A) (s : VC1541 D V) :
    (VC1541.executeUF4Logic env s).clock = s.clock ∧
    (VC1541.executeUF4Logic env s).carryCounter = s.carryCounter := by
  unfold VC1541.executeUF4Logic
  split
  · exact ⟨(VC1541.executeUF4Phase01_clock env s).1, (VC1541.executeUF4Phase01_clock env s).2.2.1⟩
  · exact ⟨(VC1541.executeUF4Phase01_clock env s).1, (VC1541.executeUF4Phase01_clock env s).2.2.1⟩
  · exact ⟨(VC1541.executeUF4Phase2_clock env s).1, (VC1541.executeUF4Phase2_clock env s).2.1⟩
  · exact ⟨(VC1541.executeUF4Phase3_clock s).1, (VC1541.executeUF4Phase3_clock s).2.2⟩

theorem VC1541.executeUF4_clock (env : DriveEnv D V A) (s : VC1541 D V) :
    (VC1541.executeUF4 env s).clock = s.clock ∧
    (VC1541.executeUF4 env s).carryCounter = s.carryCounter + 1 := by
  unfold VC1541.executeUF4
  obtain ⟨l1, l2⟩ := VC1541.executeUF4Logic_clock env
    (VC1541.executeUF4Sync (VC1541.executeUF4Counter env s))
  obtain ⟨y1, _, y3⟩ := VC1541.executeUF4Sync_clock (VC1541.executeUF4Counter env s)
  obtain ⟨c1, _, c3⟩ := VC1541.executeUF4Counter_clock env s
  exact ⟨l1.trans (y1.trans c1), l2.trans (y3.trans c3)⟩

theorem VC1541.clock_fields (s t : VC1541 D V) (h : t.clock = s.clock) :
    t.nextCarry = s.nextCarry ∧ t.zone = s.zone ∧
    t.durationOfOneCpuCycle = s.durationOfOneCpuCycle ∧ t.spinning = s.spinning := by
  unfold VC1541.clock at h
  simp only [Prod.mk.injEq] at h
  exact h

theorem VC1541.carryLoop_spec (env : DriveEnv D V A) (delay : Nat → Nat) :
    ∀ (fuel : Nat) (s : VC1541 D V), 0 < delay s.zone →
      -s.nextCarry ≤ (fuel : Int) * (delay s.zone : Int) →
      ∃ (k : Nat) (t : VC1541 D V),
        VC1541.carryLoop env delay fuel s = some (k, t) ∧
        t.nextCarry = s.nextCarry + (k : Int) * (delay s.zone : Int) ∧
        0 ≤ t.nextCarry ∧
        (s.nextCarry < 0 → 1 ≤ k ∧ t.nextCarry < (delay s.zone : Int)) ∧
        (0 ≤ s.nextCarry → k = 0 ∧ t = s) ∧
        k ≤ fuel ∧
        t.carryCounter = s.carryCounter + k ∧
        t.zone = s.zone ∧ t.durationOfOneCpuCycle = s.durationOfOneCpuCycle ∧
        t.spinning = s.spinning := by
  intro fuel
  induction fuel with
  | zero =>
    intro s hD hf
    have h0 : ¬ s.nextCarry < 0 := by
      simp only [Nat.cast_zero, zero_mul] at hf
      omega
    refine ⟨0, s, ?_, by simp, by omega, fun h => absurd h h0, fun _ => ⟨rfl, rfl⟩, le_refl _,
      rfl, rfl, rfl, rfl⟩
    unfold VC1541.carryLoop
    rw [if_neg h0]
  | succ fuel ih =>
    intro s hD hf
    by_cases h0 : s.nextCarry < 0
    · obtain ⟨e1, e2⟩ := VC1541.executeUF4_clock env
        { s with nextCarry := s.nextCarry + (delay s.zone : Int) }
      obtain ⟨f1, f2, f3, f4⟩ := VC1541.clock_fields _ _ e1
      have hstep : VC1541.carryLoop env delay (fuel + 1) s
          = match VC1541.carryLoop env delay fuel (VC1541.executeUF4 env
              { s with nextCarry := s.nextCarry + (delay s.zone : Int) }) with
            | none => none
            | some r => some (r.1 + 1, r.2) := by
        rw [VC1541.carryLoop, if_pos h0]
      generalize VC1541.executeUF4 env
        { s with nextCarry := s.nextCarry + (delay s.zone : Int) } = u at e2 f1 f2 f3 f4 hstep
      have f1' : u.nextCarry = s.nextCarry + (delay s.zone : Int) := f1
      have f2' : u.zone = s.zone := f2
      have f3' : u.durationOfOneCpuCycle = s.durationOfOneCpuCycle := f3
      have f4' : u.spinning = s.spinning := f4
      have e2' : u.carryCounter = s.carryCounter + 1 := e2
      have hD' : (0 : Int) < (delay s.zone : Int) := by exact_mod_cast hD
      obtain ⟨k, t, h1, h2, h3, h4, h5, h6, h7, h8, h9, h10⟩ :=
        ih u (by rw [f2']; exact hD) (by
          rw [f1', f2']
          push_cast at hf
          linarith)
      rw [f1', f2'] at h2
      rw [f1', f2'] at h4
      rw [f1'] at h5
      refine ⟨k + 1, t, ?_, ?_, h3, fun _ => ⟨by omega, ?_⟩, fun h => absurd h0 (by omega),
        by omega, by rw [h7, e2']; omega, h8.trans f2', h9.trans f3', h10.trans f4'⟩
      · rw [hstep, h1]
      · rw [h2]
        push_cast
        ring
      · by_cases hn : s.nextCarry + (delay s.zone : Int) < 0
        · exact (h4 hn).2
        · obtain ⟨hk, ht⟩ := h5 (by omega)
          rw [ht, f1']
          omega
    · refine ⟨0, s, ?_, by simp, by omega, fun h => absurd h h0, fun _ => ⟨rfl, rfl⟩,
        Nat.zero_le _, rfl, rfl, rfl, rfl⟩
      unfold VC1541.carryLoop
      rw [if_neg h0]

theorem VC1541.executeOneCycle_stopped (env : DriveEnv D V A)
    (sub : VC1541 D V → Bool × VC1541 D V) (delay : Nat → Nat) (fuel : Nat) (s : VC1541 D V)
    (h : (sub s).2.spinning = false) :
    VC1541.executeOneCycle env sub delay fuel s = some ((sub s).1, 0, (sub s).2) := by
  unfold VC1541.executeOneCycle
  dsimp only
  rw [h]
  rfl

theorem VC1541.executeOneCycle_spinning (env : DriveEnv D V A)
    (sub : VC1541 D V → Bool × VC1541 D V) (delay : Nat → Nat) (fuel : Nat) (s : VC1541 D V)
    (h : (sub s).2.spinning = true) :
    VC1541.executeOneCycle env sub delay fuel s
      = match VC1541.carryLoop env delay fuel
          { (sub s).2 with
            nextCarry := (sub s).2.nextCarry - ((sub s).2.durationOfOneCpuCycle : Int) } with
        | none => none
        | some q => some ((sub s).1, q.1, q.2) := by
  unfold VC1541.executeOneCycle
  dsimp only
  rw [h]
  rfl

/-- C31: for a drive that spins after its sub components have run, with
cycle duration `d` and `delayBetweenTwoCarryPulses[zone] = D > 0` (for every
`nextCarry`, so also for `nextCarry >= 0`), and for every bound `fuel` with
`d - nextCarry <= fuel * D`, `executeOneCycle` returns; the loop calls `executeUF4` exactly `k` times, where
`k = ceil((d - nextCarry) / D)` when `d > nextCarry` and `k = 0` otherwise
(`carryCounter`, which every `executeUF4` step increments, grows by `k`),
and it leaves `nextCarry = nextCarry_old - d + k * D`, which is `>= 0` and,
if `k >= 1`, below `D`. -/
theorem C31_carry_pulse_loop (env : DriveEnv D V A)
    (sub : VC1541 D V → Bool × VC1541 D V) (delay : Nat → Nat) (fuel : Nat) (s : VC1541 D V)
    (hspin : (sub s).2.spinning = true)
    (hD : 0 < delay (sub s).2.zone)
    (hfuel : ((sub s).2.durationOfOneCpuCycle : Int) - (sub s).2.nextCarry
      ≤ (fuel : Int) * (delay (sub s).2.zone : Int)) :
    ∃ (k : Nat) (t : VC1541 D V),
      VC1541.executeOneCycle env sub delay fuel s = some ((sub s).1, k, t) ∧
      ((sub s).2.nextCarry < ((sub s).2.durationOfOneCpuCycle : Int) →
        (k : Int) = ⌈(((sub s).2.durationOfOneCpuCycle : ℚ) - ((sub s).2.nextCarry : ℚ))
          / (delay (sub s).2.zone : ℚ)⌉) ∧
      (((sub s).2.durationOfOneCpuCycle : Int) ≤ (sub s).2.nextCarry → k = 0) ∧
      t.nextCarry = (sub s).2.nextCarry - ((sub s).2.durationOfOneCpuCycle : Int)
        + (k : Int) * (delay (sub s).2.zone : Int) ∧
      0 ≤ t.nextCarry ∧
      (1 ≤ k → t.nextCarry < (delay (sub s).2.zone : Int)) ∧
      t.carryCounter = (sub s).2.carryCounter + k := by
  rw [VC1541.executeOneCycle_spinning env sub delay fuel s hspin]
  generalize hu : (sub s).2 = u at hspin hD hfuel ⊢
  obtain ⟨k, t, h1, h2, h3, h4, h5, _, h7, _, _, _⟩ :=
    VC1541.carryLoop_spec env delay fuel
      { u with nextCarry := u.nextCarry - (u.durationOfOneCpuCycle : Int) } hD (by
        show -(u.nextCarry - (u.durationOfOneCpuCycle : Int)) ≤ _
        linarith)
  have h2' : t.nextCarry = u.nextCarry - (u.durationOfOneCpuCycle : Int)
      + (k : Int) * (delay u.zone : Int) := h2
  have h4' : u.nextCarry - (u.durationOfOneCpuCycle : Int) < 0 →
      1 ≤ k ∧ t.nextCarry < (delay u.zone : Int) := h4
  have h5' : 0 ≤ u.nextCarry - (u.durationOfOneCpuCycle : Int) → k = 0 ∧ _ := h5
  refine ⟨k, t, by rw [h1], fun hlt => ?_, fun hle => (h5' (by omega)).1, h2', h3,
    fun hk => ?_, h7⟩
  · obtain ⟨_, hb⟩ := h4' (by omega)
    have hDq : (0 : ℚ) < (delay u.zone : ℚ) := by exact_mod_cast hD
    symm
    rw [Int.ceil_eq_iff]
    have e1 : ((t.nextCarry : Int) : ℚ) = (u.nextCarry : ℚ) - (u.durationOfOneCpuCycle : ℚ)
        + (k : ℚ) * (delay u.zone : ℚ) := by
      rw [h2']
      push_cast
      ring
    have e3 : (0 : ℚ) ≤ ((t.nextCarry : Int) : ℚ) := by exact_mod_cast h3
    have e4 : ((t.nextCarry : Int) : ℚ) < (delay u.zone : ℚ) := by exact_mod_cast hb
    constructor
    · rw [lt_div_iff₀ hDq]
      push_cast
      linarith
    · rw [div_le_iff₀ hDq]
      push_cast
      linarith
  · by_cases hneg : u.nextCarry - (u.durationOfOneCpuCycle : Int) < 0
    · exact (h4' hneg).2
    · have := (h5' (by omega)).1
      omega

/-- C31 at a concrete input: a spinning drive with `nextCarry = 0`, a cycle
of 1000000 ps and a delay of 400000 ps between two carry pulses: three UF4
steps, and `nextCarry` is 200000 afterwards. -/
theorem C31_carry_pulse_loop_witness :
    ∃ t : VC1541 Unit Unit,
      VC1541.executeOneCycle (DriveEnv.sample (fun _ => 61536) false)
        VC1541.sampleSubComponents (fun _ => 400000) 3 (VC1541.sample 0 0 0 0 false 0)
        = some (true, 3, t) ∧ t.nextCarry = 200000 := by
  obtain ⟨k, t, h1, _, _, h4, h5, h6, _⟩ :=
    C31_carry_pulse_loop (DriveEnv.sample (fun _ => 61536) false)
      VC1541.sampleSubComponents (fun _ => 400000) 3 (VC1541.sample 0 0 0 0 false 0)
      rfl (by decide) (by decide)
  have h4' : t.nextCarry = 0 - 1000000 + (k : Int) * 400000 := h4
  have hk : k = 3 := by
    have h6' : 1 ≤ k → t.nextCarry < 400000 := h6
    omega
  subst hk
  exact ⟨t, h1, by rw [h4']; rfl⟩

theorem VC1541.executeUF4Logic_cases (env : DriveEnv D V A) (s : VC1541 D V) :
    (s.counterUF4 &&& 0x03 = 2 ∧ VC1541.executeUF4Logic env s = VC1541.executeUF4Phase2 env s) ∨
    (s.counterUF4 &&& 0x03 ≠ 2 ∧
      (VC1541.executeUF4Logic env s = VC1541.executeUF4Phase01 env s ∨
        VC1541.executeUF4Logic env s = VC1541.executeUF4Phase3 s)) := by
  unfold VC1541.executeUF4Logic
  split
  · rename_i h
    exact Or.inr ⟨by rw [h]; decide, Or.inl rfl⟩
  · rename_i h
    exact Or.inr ⟨by rw [h]; decide, Or.inl rfl⟩
  · rename_i h
    exact Or.inl ⟨h, rfl⟩
  · rename_i h0 h1 h2
    exact Or.inr ⟨h2, Or.inr rfl⟩

theorem VC1541.executeUF4Phase3_keep (s : VC1541 D V) (h : s.byteReadyCounter ≠ 7) :
    VC1541.executeUF4Phase3 s = s := by
  unfold VC1541.executeUF4Phase3
  have hb : (s.byteReadyCounter == 7) = false := beq_eq_false_iff_ne.mpr h
  rw [hb]
  rfl

theorem VC1541.raiseByteReadyLine_writeMode (env : DriveEnv D V A)
    (hCA1 : ∀ (b : Bool) (v : VIA2 V), (env.setCA1 b v).pcr = v.pcr) (s : VC1541 D V) :
    (VC1541.raiseByteReadyLine env s).writeMode = s.writeMode ∧
    (VC1541.raiseByteReadyLine env s).writeShiftreg = s.writeShiftreg := by
  unfold VC1541.raiseByteReadyLine VC1541.writeMode VC1541.readMode
  split
  · dsimp only
    rw [hCA1]
    exact ⟨rfl, rfl⟩
  · exact ⟨rfl, rfl⟩

theorem VC1541.executeUF4Sync_head (s : VC1541 D V) :
    (VC1541.executeUF4Sync s).halftrack = s.halftrack ∧
    (VC1541.executeUF4Sync s).offset = s.offset := by
  unfold VC1541.executeUF4Sync
  dsimp only
  split <;> exact ⟨rfl, rfl⟩

theorem VC1541.writeMode_of_readMode (s : VC1541 D V) (h : s.readMode = true) :
    s.writeMode = false := by
  unfold VC1541.writeMode
  rw [h]
  rfl

theorem VC1541.executeUF4Counter_inserted (env : DriveEnv D V A) (s : VC1541 D V) :
    (VC1541.executeUF4Counter env s).diskInserted = s.diskInserted ∧
    (VC1541.executeUF4Counter env s).diskPartiallyInserted = s.diskPartiallyInserted ∧
    (VC1541.executeUF4Counter env s).spinning = s.spinning := by
  unfold VC1541.executeUF4Counter
  dsimp only
  split <;> (try split) <;> exact ⟨rfl, rfl, rfl⟩

theorem VC1541.executeUF4Sync_inserted (s : VC1541 D V) :
    (VC1541.executeUF4Sync s).diskInserted = s.diskInserted ∧
    (VC1541.executeUF4Sync s).diskPartiallyInserted = s.diskPartiallyInserted ∧
    (VC1541.executeUF4Sync s).spinning = s.spinning := by
  unfold VC1541.executeUF4Sync
  dsimp only
  split <;> exact ⟨rfl, rfl, rfl⟩

theorem VC1541.raiseByteReadyLine_inserted (env : DriveEnv D V A) (s : VC1541 D V) :
    (VC1541.raiseByteReadyLine env s).diskInserted = s.diskInserted ∧
    (VC1541.raiseByteReadyLine env s).diskPartiallyInserted = s.diskPartiallyInserted ∧
    (VC1541.raiseByteReadyLine env s).spinning = s.spinning := by
  unfold VC1541.raiseByteReadyLine
  split <;> exact ⟨rfl, rfl, rfl⟩

theorem VC1541.executeUF4Sync_writeMode (s : VC1541 D V) :
    (VC1541.executeUF4Sync s).writeMode = s.writeMode := by
  obtain ⟨_, _, _, _, _, y6, _, _⟩ := VC1541.executeUF4Sync_fields s
  unfold VC1541.writeMode VC1541.readMode
  rw [y6]

/-- The drive at the write statement of phase 2 is the drive of the call:
the disk, the insertion flags, the motor, the write mode and the write shift
register are those of the start, the head is where the first statements of
`executeUF4` have left it. -/
theorem VC1541.executeUF4BeforeWrite_fields (env : DriveEnv D V A)
    (hCA1 : ∀ (b : Bool) (v : VIA2 V), (env.setCA1 b v).pcr = v.pcr) (s : VC1541 D V) :
    (VC1541.executeUF4BeforeWrite env s).disk = s.disk ∧
    (VC1541.executeUF4BeforeWrite env s).diskInserted = s.diskInserted ∧
    (VC1541.executeUF4BeforeWrite env s).diskPartiallyInserted = s.diskPartiallyInserted ∧
    (VC1541.executeUF4BeforeWrite env s).spinning = s.spinning ∧
    (VC1541.executeUF4BeforeWrite env s).writeMode = s.writeMode ∧
    (VC1541.executeUF4BeforeWrite env s).writeShiftreg = s.writeShiftreg ∧
    (VC1541.executeUF4BeforeWrite env s).halftrack
      = (VC1541.executeUF4Counter env s).halftrack ∧
    (VC1541.executeUF4BeforeWrite env s).offset
      = (VC1541.executeUF4Counter env s).offset := by
  obtain ⟨_, c2, _, _, _, _, c7⟩ := VC1541.executeUF4Counter_registers env s
  obtain ⟨_, cd, _⟩ := VC1541.executeUF4Counter_clock env s
  obtain ⟨ci, cp, cs⟩ := VC1541.executeUF4Counter_inserted env s
  obtain ⟨_, _, _, _, y5, _, _, _⟩ :=
    VC1541.executeUF4Sync_fields (VC1541.executeUF4Counter env s)
  obtain ⟨_, yd, _⟩ := VC1541.executeUF4Sync_clock (VC1541.executeUF4Counter env s)
  obtain ⟨yi, yp, ys⟩ := VC1541.executeUF4Sync_inserted (VC1541.executeUF4Counter env s)
  obtain ⟨yh, yo⟩ := VC1541.executeUF4Sync_head (VC1541.executeUF4Counter env s)
  have ym := VC1541.executeUF4Sync_writeMode (VC1541.executeUF4Counter env s)
  obtain ⟨_, r2, _, r4, r5⟩ := VC1541.raiseByteReadyLine_clock env
    (VC1541.executeUF4Sync (VC1541.executeUF4Counter env s))
  obtain ⟨ri, rp, rs⟩ := VC1541.raiseByteReadyLine_inserted env
    (VC1541.executeUF4Sync (VC1541.executeUF4Counter env s))
  obtain ⟨m1, m2⟩ := VC1541.raiseByteReadyLine_writeMode env hCA1
    (VC1541.executeUF4Sync (VC1541.executeUF4Counter env s))
  unfold VC1541.executeUF4BeforeWrite
  dsimp only
  refine ⟨r2.trans (yd.trans cd), ri.trans (yi.trans ci), rp.trans (yp.trans cp),
    rs.trans (ys.trans cs), ?_, m2.trans (y5.trans c2), r4.trans yh, r5.trans yo⟩
  exact m1.trans (ym.trans c7)

/-- The disk after `executeUF4`: in phase 2 it is the disk that the write
statement leaves when it runs on the drive `executeUF4BeforeWrite`, in the
other phases it is the disk of the start. -/
theorem VC1541.executeUF4_written (env : DriveEnv D V A) (s : VC1541 D V) :
    (VC1541.executeUF4 env s).disk
      = if (VC1541.executeUF4Counter env s).counterUF4 &&& 0x03 = 2 then
          (VC1541.executeUF4Write env (VC1541.executeUF4BeforeWrite env s)).disk
        else s.disk := by
  obtain ⟨_, cd, _⟩ := VC1541.executeUF4Counter_clock env s
  obtain ⟨_, _, y3, _⟩ := VC1541.executeUF4Sync_fields (VC1541.executeUF4Counter env s)
  obtain ⟨_, yd, _⟩ := VC1541.executeUF4Sync_clock (VC1541.executeUF4Counter env s)
  have hdisk : (VC1541.executeUF4Sync (VC1541.executeUF4Counter env s)).disk = s.disk :=
    yd.trans cd
  unfold VC1541.executeUF4
  rcases VC1541.executeUF4Logic_cases env
      (VC1541.executeUF4Sync (VC1541.executeUF4Counter env s)) with ⟨hp, hl⟩ | ⟨hp, hl | hl⟩
  · rw [hl]
    rw [y3] at hp
    rw [if_pos hp, (VC1541.executeUF4Phase2_clock env _).2.2]
    rfl
  · rw [hl]
    rw [y3] at hp
    rw [if_neg hp]
    exact ((VC1541.executeUF4Phase01_clock env
      (VC1541.executeUF4Sync (VC1541.executeUF4Counter env s))).2.1).trans hdisk
  · rw [hl]
    rw [y3] at hp
    rw [if_neg hp]
    exact ((VC1541.executeUF4Phase3_clock
      (VC1541.executeUF4Sync (VC1541.executeUF4Counter env s))).2.1).trans hdisk

/-- The disk after the write statement of phase 2, by the write mode of the
call and the light barrier of the drive at that statement. -/
theorem VC1541.executeUF4Write_written (env : DriveEnv D V A)
    (hCA1 : ∀ (b : Bool) (v : VIA2 V), (env.setCA1 b v).pcr = v.pcr) (s : VC1541 D V) :
    (VC1541.executeUF4Write env (VC1541.executeUF4BeforeWrite env s)).disk
      = if s.writeMode = true ∧
            env.getLightBarrier (VC1541.executeUF4BeforeWrite env s) = false then
          env.setModified true
            (env.writeBitToHalftrack s.disk
              (VC1541.executeUF4Counter env s).halftrack
              (VC1541.executeUF4Counter env s).offset
              (s.writeShiftreg &&& 0x80 != 0))
        else s.disk := by
  obtain ⟨f1, _, _, _, f5, f6, f7, f8⟩ := VC1541.executeUF4BeforeWrite_fields env hCA1 s
  obtain ⟨_, _, w3⟩ := VC1541.executeUF4Write_clock env (VC1541.executeUF4BeforeWrite env s)
  rw [w3, f1, f5, f6, f7, f8]
  cases s.writeMode <;> cases env.getLightBarrier (VC1541.executeUF4BeforeWrite env s) <;>
    simp

/-- C39: with a VIA whose `setCA1` leaves the peripheral control register
alone, `executeUF4` leaves the disk as it is for every state in read mode.
For every state the disk after `executeUF4` is known exactly: a bit is
written and the disk marked as modified exactly when the step is in phase 2,
the drive is in write mode and `getLightBarrier()` is false for the drive
itself at the statement `if (writeMode() && !getLightBarrier())` of line 234
(`executeUF4BeforeWrite`, which has the disk, the insertion flags, the motor
flag and the write mode of the start and the head position of this step);
the disk is then the one with the top bit of the write shift register written
at the head and marked as modified, and in every other case it is the disk
of the start. In phase 2 the disk is the result of the write statement of the
source, run on that drive. When the motor does not spin after the sub
components have run, `executeOneCycle` returns their result, makes no UF4
step and leaves the drive, with `nextCarry`, `counterUF4`, the shift
registers, `byteReadyCounter`, `sync`, `byteReady` and the disk, as the sub
components left it. -/
theorem C39_no_write_while_reading_or_stopped (env : DriveEnv D V A)
    (hCA1 : ∀ (b : Bool) (v : VIA2 V), (env.setCA1 b v).pcr = v.pcr) :
    (∀ s : VC1541 D V, s.readMode = true → (VC1541.executeUF4 env s).disk = s.disk) ∧
    (∀ s : VC1541 D V,
      (VC1541.executeUF4 env s).disk
        = if (VC1541.executeUF4Counter env s).counterUF4 &&& 0x03 = 2 ∧
              s.writeMode = true ∧
              env.getLightBarrier (VC1541.executeUF4BeforeWrite env s) = false then
            env.setModified true
              (env.writeBitToHalftrack s.disk
                (VC1541.executeUF4Counter env s).halftrack
                (VC1541.executeUF4Counter env s).offset
                (s.writeShiftreg &&& 0x80 != 0))
          else s.disk) ∧
    (∀ s : VC1541 D V, (VC1541.executeUF4Counter env s).counterUF4 &&& 0x03 = 2 →
      (VC1541.executeUF4 env s).disk
        = (VC1541.executeUF4Write env (VC1541.executeUF4BeforeWrite env s)).disk) ∧
    (∀ s : VC1541 D V,
      (VC1541.executeUF4BeforeWrite env s).disk = s.disk ∧
      (VC1541.executeUF4BeforeWrite env s).diskInserted = s.diskInserted ∧
      (VC1541.executeUF4BeforeWrite env s).diskPartiallyInserted = s.diskPartiallyInserted ∧
      (VC1541.executeUF4BeforeWrite env s).spinning = s.spinning ∧
      (VC1541.executeUF4BeforeWrite env s).writeMode = s.writeMode ∧
      (VC1541.executeUF4BeforeWrite env s).writeShiftreg = s.writeShiftreg ∧
      (VC1541.executeUF4BeforeWrite env s).halftrack
        = (VC1541.executeUF4Counter env s).halftrack ∧
      (VC1541.executeUF4BeforeWrite env s).offset
        = (VC1541.executeUF4Counter env s).offset) ∧
    (∀ (sub : VC1541 D V → Bool × VC1541 D V) (delay : Nat → Nat) (fuel : Nat)
        (s : VC1541 D V), (sub s).2.spinning = false →
      VC1541.executeOneCycle env sub delay fuel s = some ((sub s).1, 0, (sub s).2)) := by
  have key : ∀ s : VC1541 D V,
      (VC1541.executeUF4 env s).disk
        = if (VC1541.executeUF4Counter env s).counterUF4 &&& 0x03 = 2 ∧
              s.writeMode = true ∧
              env.getLightBarrier (VC1541.executeUF4BeforeWrite env s) = false then
            env.setModified true
              (env.writeBitToHalftrack s.disk
                (VC1541.executeUF4Counter env s).halftrack
                (VC1541.executeUF4Counter env s).offset
                (s.writeShiftreg &&& 0x80 != 0))
          else s.disk := by
    intro s
    rw [VC1541.executeUF4_written env s]
    by_cases hp : (VC1541.executeUF4Counter env s).counterUF4 &&& 0x03 = 2
    · rw [if_pos hp, VC1541.executeUF4Write_written env hCA1 s]
      by_cases hw : s.writeMode = true ∧
          env.getLightBarrier (VC1541.executeUF4BeforeWrite env s) = false
      · rw [if_pos hw, if_pos ⟨hp, hw⟩]
      · rw [if_neg hw, if_neg (fun h => hw h.2)]
    · rw [if_neg hp, if_neg (fun h => hp h.1)]
  refine ⟨fun s h => ?_, key, fun s hp => ?_,
    fun s => VC1541.executeUF4BeforeWrite_fields env hCA1 s,
    fun sub delay fuel s h => VC1541.executeOneCycle_stopped env sub delay fuel s h⟩
  · rw [key s, if_neg]
    rw [VC1541.writeMode_of_readMode s h]
    exact fun h => Bool.false_ne_true h.2.1
  · rw [VC1541.executeUF4_written env s, if_pos hp]

/-- C39 at concrete inputs: in phase 2 a drive in read mode (`pcr = $20`)
leaves the record of written bits empty, the same drive in write mode
(`pcr = 0`) writes the top bit of `$80`, and in write mode with a partially
inserted disk, which blocks the light barrier, nothing is written; a drive
whose motor is off makes no UF4 step. -/
theorem C39_no_write_while_reading_or_stopped_witness :
    (VC1541.executeUF4 DriveEnv.recording (VC1541.recordingSample 0x20)).disk = [] ∧
    (VC1541.executeUF4 DriveEnv.recording (VC1541.recordingSample 0)).disk = [true] ∧
    (VC1541.executeUF4 DriveEnv.recording
      { VC1541.recordingSample 0 with diskPartiallyInserted := true }).disk = [] ∧
    VC1541.executeOneCycle DriveEnv.recording
      (fun s => (true, { s with spinning := false })) (fun _ => 400000) 0
      (VC1541.recordingSample 0)
      = some (true, 0, { VC1541.recordingSample 0 with spinning := false }) :=
  ⟨(C39_no_write_while_reading_or_stopped DriveEnv.recording (fun _ _ => rfl)).1
      (VC1541.recordingSample 0x20) (by decide),
    ((C39_no_write_while_reading_or_stopped DriveEnv.recording
      (fun _ _ => rfl)).2.1 (VC1541.recordingSample 0)).trans (by decide),
    ((C39_no_write_while_reading_or_stopped DriveEnv.recording
      (fun _ _ => rfl)).2.1
        { VC1541.recordingSample 0 with diskPartiallyInserted := true }).trans (by decide),
    (C39_no_write_while_reading_or_stopped DriveEnv.recording
      (fun _ _ => rfl)).2.2.2.2 _ _ _ _ rfl⟩

/-- C40: for a state in read mode whose read shift register has its low 10
bits all ones (`executeUF4` does not change the register before it updates
`sync`), `sync` is false and `byteReadyCounter` is 0 after the step in each
of the four phases; in the phases 0, 1 and 3 the `switch` changes nothing, so
byte-ready, VIA 2, the overflow flag and the write shift register are as
before the step. -/
theorem C40_sync_restarts_framing (env : DriveEnv D V A) (s : VC1541 D V)
    (hread : s.readMode = true) (hones : s.readShiftreg &&& 0x3FF = 0x3FF) :
    (VC1541.executeUF4 env s).byteReadyCounter = 0 ∧
    (VC1541.executeUF4 env s).sync = false ∧
    ((VC1541.executeUF4Counter env s).counterUF4 &&& 0x03 ≠ 2 →
      VC1541.executeUF4 env s = VC1541.executeUF4Sync (VC1541.executeUF4Counter env s) ∧
      (VC1541.executeUF4 env s).byteReady = s.byteReady ∧
      (VC1541.executeUF4 env s).via2 = s.via2 ∧
      (VC1541.executeUF4 env s).cpuV = s.cpuV ∧
      (VC1541.executeUF4 env s).writeShiftreg = s.writeShiftreg) := by
  obtain ⟨c1, c2, c3, c4, c5, _, c7⟩ := VC1541.executeUF4Counter_registers env s
  obtain ⟨y1, y2, y3, _, y5, y6, y7, y8⟩ :=
    VC1541.executeUF4Sync_fields (VC1541.executeUF4Counter env s)
  have hsync : (VC1541.executeUF4Sync (VC1541.executeUF4Counter env s)).sync = false := by
    rw [y1, c1, c7, VC1541.writeMode_of_readMode s hread, hones]
    rfl
  have hbrc :
      (VC1541.executeUF4Sync (VC1541.executeUF4Counter env s)).byteReadyCounter = 0 := by
    rw [y2, hsync]
    rfl
  have hne :
      (VC1541.executeUF4Sync (VC1541.executeUF4Counter env s)).byteReadyCounter ≠ 7 := by
    rw [hbrc]
    decide
  have h01 := VC1541.executeUF4Phase01_keep env
    (VC1541.executeUF4Sync (VC1541.executeUF4Counter env s)) (Or.inl hne)
  have h3 := VC1541.executeUF4Phase3_keep
    (VC1541.executeUF4Sync (VC1541.executeUF4Counter env s)) hne
  obtain ⟨_, p2, p3, _, _⟩ := VC1541.executeUF4Phase2_fields env
    (VC1541.executeUF4Sync (VC1541.executeUF4Counter env s))
  unfold VC1541.executeUF4
  rcases VC1541.executeUF4Logic_cases env
      (VC1541.executeUF4Sync (VC1541.executeUF4Counter env s)) with ⟨hp, hl⟩ | ⟨hp, hl | hl⟩
  · rw [hl, p2, p3, hsync]
    rw [y3] at hp
    exact ⟨rfl, rfl, fun h => absurd hp h⟩
  · rw [hl, h01]
    exact ⟨hbrc, hsync, fun _ => ⟨rfl, y7.trans c4, y6.trans c3, y8.trans c5, y5.trans c2⟩⟩
  · rw [hl, h3]
    exact ⟨hbrc, hsync, fun _ => ⟨rfl, y7.trans c4, y6.trans c3, y8.trans c5, y5.trans c2⟩⟩

/-- C40 at a concrete input: a drive in read mode that has read ten 1 bits
and has counted 7 bits, in phase 1: the counter is 0 after the step, and
byte-ready stays set. -/
theorem C40_sync_restarts_framing_witness :
    (VC1541.executeUF4 (DriveEnv.sample (fun _ => 61536) false)
      (VC1541.sample 0 1 7 0x3FF true 0)).byteReadyCounter = 0 ∧
    (VC1541.executeUF4 (DriveEnv.sample (fun _ => 61536) false)
      (VC1541.sample 0 1 7 0x3FF true 0)).byteReady = true :=
  ⟨(C40_sync_restarts_framing (DriveEnv.sample (fun _ => 61536) false)
      (VC1541.sample 0 1 7 0x3FF true 0) (by decide) (by decide)).1,
    by decide⟩

end DriveCycleTheorems

end VirtualC64
